import Mathlib

/-!
# vgw-manager: a verification development

A shallow embedding of the bucket reconciliation (merge) code, the provisioning
workflow and the interactive session (`ui.Model.Update`) of vgw-manager, with
theorems about them.

Conventions of the embedding

* A Go `string` is a Lean `String`; Go compares strings bytewise, which on
  valid UTF-8 is the lexicographic order of the code points (`goLess`).
* A Go `error` result is an `Option String` (`none` is `nil`), a `(value, error)`
  result is an `Except String value`; the string is the text of `err.Error()`.
* Go `int` is `Int` (no program value here comes near the 64-bit bounds).
* The outside world (the user registry, the `zfs` tool, the admin API, the
  clipboard, the random source) is a state `W` and a record `Env W` of
  operations on it.  Read operations are functions of the world state and do
  not change it; mutating operations return the new state.  Every call of a
  service operation is recorded in a log of `Call`s.
-/

namespace VgwManager

/-! ## Go standard library helpers -/

/-- Go's bytewise `a < b` on strings, on the code points of the two strings. -/
def charsLess : List Char → List Char → Bool
  | _, [] => false
  | [], _ :: _ => true
  | a :: as, b :: bs =>
    if a.toNat < b.toNat then true
    else if b.toNat < a.toNat then false
    else charsLess as bs

/-- Go's `a < b` on strings. -/
def goLess (a b : String) : Bool := charsLess a.data b.data

/-- Go's `strings.HasPrefix` on character lists. -/
def charsHasPrefix : List Char → List Char → Bool
  | _, [] => true
  | [], _ :: _ => false
  | a :: as, b :: bs => a == b && charsHasPrefix as bs

/-- Go's `strings.HasPrefix(s, p)`. -/
def HasPrefix (s p : String) : Bool := charsHasPrefix s.data p.data

/-- Go's `strings.TrimPrefix(s, p)`. -/
def TrimPrefix (s p : String) : String :=
  if HasPrefix s p then String.mk (s.data.drop p.data.length) else s

/-- Go's `strings.Contains` on character lists: `sub` occurs in `s`. -/
def charsContains : List Char → List Char → Bool
  | [], sub => sub.isEmpty
  | a :: as, sub => charsHasPrefix (a :: as) sub || charsContains as sub

/-- Go's `strings.Contains(s, sub)`. -/
def Contains (s sub : String) : Bool := charsContains s.data sub.data

/-- Go's `unicode.IsSpace`. -/
def isSpace (c : Char) : Bool :=
  let n := c.toNat
  (9 ≤ n && n ≤ 13) || n == 32 || n == 133 || n == 160 || n == 5760 ||
  (8192 ≤ n && n ≤ 8202) || n == 8232 || n == 8233 || n == 8239 || n == 8287 ||
  n == 12288

/-- Go's `strings.TrimSpace`. -/
def TrimSpace (s : String) : String :=
  String.mk ((s.data.dropWhile isSpace).reverse.dropWhile isSpace).reverse

/-- Splitting a character list at every occurrence of the character `sep`; `cur` is the
piece being read, reversed. -/
def splitCharsAux (sep : Char) : List Char → List Char → List String
  | [], cur => [String.mk cur.reverse]
  | c :: cs, cur =>
    if c == sep then String.mk cur.reverse :: splitCharsAux sep cs []
    else splitCharsAux sep cs (c :: cur)

/-- Go's `strings.Split(s, "\n")`. -/
def SplitLines (s : String) : List String := splitCharsAux '\n' s.data []

/-- The fields of a character list; `cur` is the field being read, reversed. -/
def fieldsAux : List Char → List Char → List String
  | [], cur => if cur.isEmpty then [] else [String.mk cur.reverse]
  | c :: cs, cur =>
    if isSpace c then
      (if cur.isEmpty then fieldsAux cs [] else String.mk cur.reverse :: fieldsAux cs [])
    else fieldsAux cs (c :: cur)

/-- Go's `strings.Fields`: the maximal runs of non-space characters. -/
def Fields (s : String) : List String := fieldsAux s.data []

/-! ## Data model (`models/models.go`, `services/versitygw.go`) -/

/-- The Go type `models.User`. -/
structure User where
  Access : String
  Secret : String
  Role : String
  UserID : Int
  GroupID : Int
  ProjectID : Int
  deriving DecidableEq, Repr

/-- The Go type `models.Bucket`. -/
structure Bucket where
  Name : String
  Mountpoint : String
  Quota : String
  Used : String
  Available : String
  Owner : String
  deriving DecidableEq, Repr

/-- The Go type `models.BucketCreateRequest`. -/
structure BucketCreateRequest where
  Name : String
  Quota : String
  Owner : String
  Mountpoint : String
  deriving DecidableEq, Repr

/-- The Go type `models.UserCreateRequest`. -/
structure UserCreateRequest where
  Access : String
  Secret : String
  Role : String
  UserID : Int
  GroupID : Int
  ProjectID : Int
  deriving DecidableEq, Repr

/-- The Go type `models.UserUpdateRequest`. -/
structure UserUpdateRequest where
  Access : String
  Secret : String
  Role : String
  UserID : Int
  GroupID : Int
  ProjectID : Int
  deriving DecidableEq, Repr

/-- The Go type `services.BucketInfo`: a bucket of the API list response. -/
structure BucketInfo where
  Name : String
  CreationDate : String
  Owner : String
  deriving DecidableEq, Repr

/-- A `textinput.Model` of the bubbles library, as far as the program uses it: the
settings the forms give it, its value and its focus flag. -/
structure TextInput where
  Placeholder : String
  CharLimit : Nat
  Width : Nat
  value : String
  focus : Bool
  deriving DecidableEq, Repr

/-- The Go type `ui.View`: the screens of the session. -/
inductive View where
  | MainMenuView
  | UsersListView
  | BucketsListView
  | OperationsView
  | CreateUserView
  | CreateBucketView
  | ChangeOwnerView
  | UserDetailView
  | BucketDetailView
  | ProvisionView
  | UpdateUserView
  | MakeBucketPublicView
  | ConfirmView
  deriving DecidableEq, Repr

/-- The Go type `ui.Model`: the state of the session, without the three service handles
(they are the `Env`). -/
structure Model where
  currentView : View
  cursor : Int
  width : Int
  height : Int
  users : List User
  buckets : List Bucket
  selectedUserIndex : Int
  selectedBucketIndex : Int
  returnView : View
  userFormInputs : List TextInput
  bucketFormInputs : List TextInput
  changeOwnerFormInputs : List TextInput
  provisionFormInputs : List TextInput
  focusIndex : Int
  provisionScroll : Int
  page : Int
  pageSize : Int
  errorMessage : String
  successMessage : String
  pendingAction : String
  pendingTarget : String
  deriving DecidableEq, Repr

/-! ## The outside world -/

/-- A call of a service operation (or of the clipboard or the random source), as the
log records it. -/
inductive Call where
  | UserListUsers
  | BucketListBuckets
  | BucketCreateBucket (req : BucketCreateRequest)
  | BucketDeleteBucket (name : String)
  | CreateUser (req : UserCreateRequest)
  | UpdateUser (req : UserUpdateRequest)
  | DeleteUser (access : String)
  | ChangeBucketOwner (bucket owner : String)
  | SetBucketPolicy (bucket policy : String)
  | DeleteBucketPolicy (bucket : String)
  | GetBucketPolicy (bucket : String)
  | ListBuckets
  | GetBucketOwner (bucket : String)
  | ClipboardWriteAll (text : String)
  | RandRead (n : Nat)
  deriving DecidableEq, Repr

/-- The destructive remote operations: deleting a user, destroying a dataset, setting and
deleting a bucket policy. -/
def Call.destructive : Call → Bool
  | .DeleteUser _ => true
  | .BucketDeleteBucket _ => true
  | .SetBucketPolicy _ _ => true
  | .DeleteBucketPolicy _ => true
  | _ => false

/-- The collaborators of the program over a world state `W`: the configuration values, the
user registry, the `zfs` tool, the admin API operations of `VersityGWService`, the clipboard,
the random source, and the two parts of the terminal libraries the session relies on. -/
structure Env (W : Type) where
  /-- The value `config.ZFSPoolBase`. -/
  ZFSPoolBase : String
  /-- The value `config.MountBase`. -/
  MountBase : String
  /-- The operation `UserService.ListUsers`. -/
  ListUsers : W → Except String (List User)
  /-- Running `exec.Command("zfs", args...).CombinedOutput()`: the output and the error. -/
  zfs : W → List String → String × Option String
  /-- What a mutating `zfs` command does to the world. -/
  zfsEffect : W → List String → W
  CreateUser : W → UserCreateRequest → Option String × W
  UpdateUser : W → UserUpdateRequest → Option String × W
  DeleteUser : W → String → Option String × W
  ChangeBucketOwner : W → String → String → Option String × W
  SetBucketPolicy : W → String → String → Option String × W
  DeleteBucketPolicy : W → String → Option String × W
  GetBucketPolicy : W → String → Except String String
  ListBuckets : W → Except String (List BucketInfo)
  GetBucketOwner : W → String → Except String String
  /-- The call `clipboard.WriteAll`. -/
  clipboardWriteAll : W → String → Option String × W
  /-- The call `rand.Read` on a buffer of the given size: the bytes read. -/
  randRead : W → Nat → List Nat × W
  /-- The method `textinput.Model.Update` for a key, on a focused input. -/
  inputUpdate : TextInput → String → TextInput
  /-- The sanitizer that `textinput.Model.SetValue` applies to a new value. -/
  inputSanitize : String → String
  /-- The number of lines that `provisionLines` renders for a state of at most nine
  provision inputs: `len(m.provisionLines())`. -/
  provisionLineCount : Model → Int

/-- The result of running a computation: its value, the new world and the calls made. -/
structure Res (W α : Type) where
  val : α
  world : W
  calls : List Call

/-- A computation over the world that logs its calls. -/
def Eff (W α : Type) : Type := W → Res W α

/-- The computation that returns `a` and calls nothing. -/
def Eff.pure {W α : Type} (a : α) : Eff W α := fun w => ⟨a, w, []⟩

/-- Sequencing: the calls of the first computation, then those of the second. -/
def Eff.bind {W α β : Type} (x : Eff W α) (f : α → Eff W β) : Eff W β := fun w =>
  ⟨(f (x w).val (x w).world).val, (f (x w).val (x w).world).world,
    (x w).calls ++ (f (x w).val (x w).world).calls⟩

instance {W : Type} : Monad (Eff W) where
  pure := Eff.pure
  bind := Eff.bind

/-- A read operation: logged, answered from the world, which stays as it is. -/
def Eff.read {W α : Type} (c : Call) (f : W → α) : Eff W α := fun w => ⟨f w, w, [c]⟩

/-- A mutating operation: logged, answered from the world, which changes. -/
def Eff.act {W α : Type} (c : Call) (f : W → α × W) : Eff W α :=
  fun w => ⟨(f w).1, (f w).2, [c]⟩

/-! ## Services (`services/buckets.go`, `services/users.go`, `services/versitygw.go`) -/

/-- The comparison of `sort.Slice(buckets, ...)`: `a` may stand before `b`. -/
def nameLE (a b : Bucket) : Prop := goLess b.Name a.Name = false

instance : DecidableRel nameLE := fun a b => inferInstanceAs (Decidable (goLess b.Name a.Name = false))

/-- The call `sort.Slice(buckets, func(i, j) bool { return buckets[i].Name < buckets[j].Name })`.
Go leaves the order of records with equal names open; this sort keeps their input order. -/
def sortBuckets (l : List Bucket) : List Bucket := l.insertionSort nameLE

/-- One line of the output of `zfs list`, as the loop of `BucketService.ListBuckets` reads it. -/
def BucketService.parseLine (base line : String) : Option Bucket :=
  if line = "" then none
  else match Fields line with
    | f0 :: f1 :: f2 :: f3 :: f4 :: _ =>
      if f0 = base then none
      else if !HasPrefix f0 (base ++ "/") then none
      else some
        { Name := TrimPrefix f0 (base ++ "/"), Mountpoint := f1, Quota := f2, Used := f3,
          Available := f4, Owner := "-" }
    | _ => none

/-- The arguments of the `zfs list` command of `BucketService.ListBuckets`. -/
def BucketService.listArgs (base : String) : List String :=
  ["list", "-H", "-o", "name,mountpoint,quota,used,avail", "-t", "filesystem", "-r", base]

/-- The result of `BucketService.ListBuckets` for a given result of the command. -/
def BucketService.listResult (base : String) : String × Option String → Except String (List Bucket)
  | (output, some err) =>
    .error ("failed to list ZFS filesystems: " ++ err ++ " (output: " ++ output ++ ")")
  | (output, none) =>
    .ok (sortBuckets ((SplitLines (TrimSpace output)).filterMap (BucketService.parseLine base)))

/-- The method `BucketService.ListBuckets`. -/
def BucketService.ListBuckets {W : Type} (env : Env W) : Eff W (Except String (List Bucket)) :=
  Eff.read Call.BucketListBuckets fun w =>
    BucketService.listResult env.ZFSPoolBase (env.zfs w (BucketService.listArgs env.ZFSPoolBase))

/-- The arguments of the `zfs create` command of `BucketService.CreateBucket`. -/
def BucketService.createArgs {W : Type} (env : Env W) (req : BucketCreateRequest) : List String :=
  let mountpoint := if req.Mountpoint = "" then env.MountBase ++ "/" ++ req.Name else req.Mountpoint
  ["create", "-o", "mountpoint=" ++ mountpoint] ++
    (if req.Quota ≠ "" then ["-o", "quota=" ++ req.Quota] else []) ++
    [env.ZFSPoolBase ++ "/" ++ req.Name]

/-- The method `BucketService.CreateBucket`. -/
def BucketService.CreateBucket {W : Type} (env : Env W) (req : BucketCreateRequest) :
    Eff W (Option String) :=
  Eff.act (Call.BucketCreateBucket req) fun w =>
    let args := BucketService.createArgs env req
    (match env.zfs w args with
      | (output, some err) =>
        some ("failed to create ZFS bucket: " ++ err ++ " (output: " ++ output ++ ")")
      | (_, none) => none,
     env.zfsEffect w args)

/-- The method `BucketService.DeleteBucket`. -/
def BucketService.DeleteBucket {W : Type} (env : Env W) (name : String) : Eff W (Option String) :=
  Eff.act (Call.BucketDeleteBucket name) fun w =>
    let args := ["destroy", "-r", env.ZFSPoolBase ++ "/" ++ name]
    (match env.zfs w args with
      | (output, some err) =>
        some ("failed to delete ZFS bucket: " ++ err ++ " (output: " ++ output ++ ")")
      | (_, none) => none,
     env.zfsEffect w args)

/-- The method `UserService.ListUsers`. -/
def UserService.ListUsers {W : Type} (env : Env W) : Eff W (Except String (List User)) :=
  Eff.read Call.UserListUsers env.ListUsers

/-- The method `VersityGWService.CreateUser`. -/
def VersityGWService.CreateUser {W : Type} (env : Env W) (req : UserCreateRequest) :
    Eff W (Option String) :=
  Eff.act (Call.CreateUser req) fun w => env.CreateUser w req

/-- The method `VersityGWService.UpdateUser`. -/
def VersityGWService.UpdateUser {W : Type} (env : Env W) (req : UserUpdateRequest) :
    Eff W (Option String) :=
  Eff.act (Call.UpdateUser req) fun w => env.UpdateUser w req

/-- The method `VersityGWService.DeleteUser`. -/
def VersityGWService.DeleteUser {W : Type} (env : Env W) (access : String) :
    Eff W (Option String) :=
  Eff.act (Call.DeleteUser access) fun w => env.DeleteUser w access

/-- The method `VersityGWService.ChangeBucketOwner`. -/
def VersityGWService.ChangeBucketOwner {W : Type} (env : Env W) (bucket owner : String) :
    Eff W (Option String) :=
  Eff.act (Call.ChangeBucketOwner bucket owner) fun w => env.ChangeBucketOwner w bucket owner

/-- The method `VersityGWService.SetBucketPolicy`. -/
def VersityGWService.SetBucketPolicy {W : Type} (env : Env W) (bucket policy : String) :
    Eff W (Option String) :=
  Eff.act (Call.SetBucketPolicy bucket policy) fun w => env.SetBucketPolicy w bucket policy

/-- The method `VersityGWService.DeleteBucketPolicy`. -/
def VersityGWService.DeleteBucketPolicy {W : Type} (env : Env W) (bucket : String) :
    Eff W (Option String) :=
  Eff.act (Call.DeleteBucketPolicy bucket) fun w => env.DeleteBucketPolicy w bucket

/-- The method `VersityGWService.GetBucketPolicy`. -/
def VersityGWService.GetBucketPolicy {W : Type} (env : Env W) (bucket : String) :
    Eff W (Except String String) :=
  Eff.read (Call.GetBucketPolicy bucket) fun w => env.GetBucketPolicy w bucket

/-- The method `VersityGWService.ListBuckets`. -/
def VersityGWService.ListBuckets {W : Type} (env : Env W) :
    Eff W (Except String (List BucketInfo)) :=
  Eff.read Call.ListBuckets env.ListBuckets

/-- The method `VersityGWService.GetBucketOwner`. -/
def VersityGWService.GetBucketOwner {W : Type} (env : Env W) (bucket : String) :
    Eff W (Except String String) :=
  Eff.read (Call.GetBucketOwner bucket) fun w => env.GetBucketOwner w bucket

/-! ## The bucket merge (`main.go`, flag `--list-buckets`; `ui/model.go`, `handleEnter`)

The two places hold the same code; `mergeApi` is the body of their `if apiErr == nil` branch. -/

/-- A Go map filled by `for _, x := range l { m[key(x)] = x }`: a later entry replaces an
earlier one with the same key. -/
def goMap {α : Type} (key : α → String) (l : List α) : String → Option α :=
  l.foldl (fun m x k => if k = key x then some x else m k) (fun _ => none)

/-- The statement `if info, ok := apiMap[b.Name]; ok { if info.Owner != "" { b.Owner = info.Owner } }`. -/
def adoptApiOwner (apiMap : String → Option BucketInfo) (b : Bucket) : Bucket :=
  match apiMap b.Name with
  | some info => if info.Owner ≠ "" then { b with Owner := info.Owner } else b
  | none => b

/-- The statement `if err == nil && trueOwner != "" { b.Owner = trueOwner }`. -/
def adoptTrueOwner (r : Except String String) (b : Bucket) : Bucket :=
  match r with
  | .ok trueOwner => if trueOwner ≠ "" then { b with Owner := trueOwner } else b
  | .error _ => b

/-- The loop "Update existing ZFS buckets with owner info". -/
def applyOwners {W : Type} (env : Env W) (apiMap : String → Option BucketInfo) :
    List Bucket → Eff W (List Bucket)
  | [] => pure []
  | b :: rest => do
    let r ← VersityGWService.GetBucketOwner env b.Name
    let rest1 ← applyOwners env apiMap rest
    pure (adoptTrueOwner r (adoptApiOwner apiMap b) :: rest1)

/-- The placeholder record for an API bucket without a dataset. -/
def placeholder (apiBucket : BucketInfo) : Bucket :=
  { Name := apiBucket.Name, Mountpoint := "-", Quota := "-", Used := "-", Available := "-",
    Owner := apiBucket.Owner }

/-- The loop "Add buckets that exist in API but NOT in ZFS": the records it appends. -/
def addPlaceholders {W : Type} (env : Env W) (zfsMap : String → Option Bucket) :
    List BucketInfo → Eff W (List Bucket)
  | [] => pure []
  | apiBucket :: rest =>
    if (zfsMap apiBucket.Name).isSome then addPlaceholders env zfsMap rest
    else do
      let r ← VersityGWService.GetBucketOwner env apiBucket.Name
      let rest1 ← addPlaceholders env zfsMap rest
      pure (adoptTrueOwner r (placeholder apiBucket) :: rest1)

/-- The branch `if apiErr == nil { ... }` of the merge: the list before it is sorted. -/
def mergeApi {W : Type} (env : Env W) (buckets : List Bucket) (apiBuckets : List BucketInfo) :
    Eff W (List Bucket) := do
  let updated ← applyOwners env (goMap BucketInfo.Name apiBuckets) buckets
  let added ← addPlaceholders env (goMap Bucket.Name buckets) apiBuckets
  pure (updated ++ added)

/-- What the one-shot command `--list-buckets` does: the text written to standard error, and
the list that is printed, or `none` when the process exits with status 1. -/
structure ListBucketsRun where
  stderr : String
  buckets : Option (List Bucket)
  deriving DecidableEq, Repr

/-- The branch `if *listBuckets { ... }` of `main`. -/
def listBucketsMain {W : Type} (env : Env W) : Eff W ListBucketsRun := do
  let r ← BucketService.ListBuckets env
  let a ← VersityGWService.ListBuckets env
  match r, a with
  | .ok buckets, .ok apiBuckets => do
    let merged ← mergeApi env buckets apiBuckets
    pure { stderr := "", buckets := some (sortBuckets merged) }
  | .error err, .ok apiBuckets => do
    let merged ← mergeApi env [] apiBuckets
    pure { stderr := "Warning: Error listing ZFS buckets: " ++ err ++ "\n",
           buckets := some (sortBuckets merged) }
  | .ok buckets, .error _ => pure { stderr := "", buckets := some (sortBuckets buckets) }
  | .error err, .error apiErr =>
    pure { stderr := "Warning: Error listing ZFS buckets: " ++ err ++ "\n" ++
             "Error listing buckets: ZFS(" ++ err ++ ") API(" ++ apiErr ++ ")\n",
           buckets := none }

/-! ## Secrets (`generateSecretKey` in `main.go` and in `ui/forms.go`) -/

/-- The alphabet of `base64.StdEncoding`. -/
def base64Alphabet : List Char :=
  "ABCDEFGHIJKLMNOPQRSTUVWXYZabcdefghijklmnopqrstuvwxyz0123456789+/".data

/-- The character of a 6-bit value. -/
def base64Char (n : Nat) : Char := base64Alphabet.getD n 'A'

/-- The function `base64.StdEncoding.EncodeToString` on a list of bytes. -/
def base64Encode : List Nat → List Char
  | [] => []
  | [a] => [base64Char (a / 4), base64Char (a % 4 * 16), '=', '=']
  | [a, b] =>
    [base64Char (a / 4), base64Char (a % 4 * 16 + b / 16), base64Char (b % 16 * 4), '=']
  | a :: b :: c :: rest =>
    base64Char (a / 4) :: base64Char (a % 4 * 16 + b / 16) ::
      base64Char (b % 16 * 4 + c / 64) :: base64Char (c % 64) :: base64Encode rest

/-- The buffer `b := make([]byte, n)` after `rand.Read(b)` delivered `bytes`. -/
def fillBuffer (n : Nat) (bytes : List Nat) : List Nat :=
  (List.range n).map fun i => bytes.getD i 0 % 256

/-- The function `generateSecretKey`. -/
def generateSecretKey {W : Type} (env : Env W) : Eff W String :=
  Eff.act (Call.RandRead 48) fun w =>
    (String.mk (base64Encode (fillBuffer 48 (env.randRead w 48).1)), (env.randRead w 48).2)

/-! ## Text inputs -/

/-- The value `textinput.New()`. -/
def TextInput.New : TextInput :=
  { Placeholder := "", CharLimit := 0, Width := 0, value := "", focus := false }

/-- The method `Focus`. -/
def TextInput.Focus (t : TextInput) : TextInput := { t with focus := true }

/-- The method `Blur`. -/
def TextInput.Blur (t : TextInput) : TextInput := { t with focus := false }

/-- The method `Value`. -/
def TextInput.Value (t : TextInput) : String := t.value

/-- The method `SetValue`: the sanitized value, cut at the character limit when there is one. -/
def TextInput.SetValue {W : Type} (env : Env W) (t : TextInput) (s : String) : TextInput :=
  let runes := (env.inputSanitize s).data
  if 0 < t.CharLimit ∧ t.CharLimit < runes.length then
    { t with value := String.mk (runes.take t.CharLimit) }
  else { t with value := String.mk runes }

/-- The method `Update` for a key: an input without the focus ignores it. -/
def TextInput.Update {W : Type} (env : Env W) (t : TextInput) (key : String) : TextInput :=
  if t.focus then env.inputUpdate t key else t

/-- Go's `l[i]` on a slice: `none` stands for the index-out-of-range panic. -/
def index? {α : Type} (l : List α) (i : Int) : Option α :=
  if 0 ≤ i then l[i.toNat]? else none

/-- The loops of `updateUserFormFocus` and its siblings, from position `i` on: the input at
`focusIndex` gets the focus and every other input loses it. -/
def focusFrom (focusIndex : Int) : Nat → List TextInput → List TextInput
  | _, [] => []
  | i, t :: ts =>
    (if (i : Int) = focusIndex then t.Focus else t.Blur) :: focusFrom focusIndex (i + 1) ts

/-- The method `updateUserFormFocus`. -/
def Model.updateUserFormFocus (m : Model) : Model :=
  { m with userFormInputs := focusFrom m.focusIndex 0 m.userFormInputs }

/-- The method `updateBucketFormFocus`. -/
def Model.updateBucketFormFocus (m : Model) : Model :=
  { m with bucketFormInputs := focusFrom m.focusIndex 0 m.bucketFormInputs }

/-- The method `updateChangeOwnerFormFocus`. -/
def Model.updateChangeOwnerFormFocus (m : Model) : Model :=
  { m with changeOwnerFormInputs := focusFrom m.focusIndex 0 m.changeOwnerFormInputs }

/-- The method `updateProvisionFormFocus`. -/
def Model.updateProvisionFormFocus (m : Model) : Model :=
  { m with provisionFormInputs := focusFrom m.focusIndex 0 m.provisionFormInputs }

/-! ## Forms (`ui/forms.go`) -/

/-- The method `initUserForm`. -/
def Model.initUserForm {W : Type} (env : Env W) (m : Model) : Eff W Model := do
  let secret ← generateSecretKey env
  let i0 := { TextInput.New with Placeholder := "Access Key (username)" }.Focus
  let i0 := { i0 with CharLimit := 64, Width := 40 }
  let i1 := { TextInput.New with
    Placeholder := "Secret Key (auto-generated)", CharLimit := 128, Width := 60 }
  let i1 := i1.SetValue env secret
  let i2 := { TextInput.New with
    Placeholder := "Role (admin/user/userplus)", CharLimit := 20, Width := 30 }
  let i2 := i2.SetValue env "user"
  pure { m with userFormInputs := [i0, i1, i2], focusIndex := 0 }

/-- The method `initUpdateUserForm`. -/
def Model.initUpdateUserForm {W : Type} (env : Env W) (m : Model) (user : User) : Model :=
  let i0 := { TextInput.New with Placeholder := "Access Key (username)" }
  let i0 := (i0.SetValue env user.Access).Blur
  let i0 := { i0 with CharLimit := 64, Width := 40 }
  let i1 := { TextInput.New with Placeholder := "Secret Key" }
  let i1 := (i1.SetValue env user.Secret).Focus
  let i1 := { i1 with CharLimit := 128, Width := 60 }
  let i2 := { TextInput.New with Placeholder := "Role (admin/user/userplus)" }
  let i2 := i2.SetValue env user.Role
  let i2 := { i2 with CharLimit := 20, Width := 30 }
  { m with userFormInputs := [i0, i1, i2], focusIndex := 1 }

/-- The method `initBucketForm`. -/
def Model.initBucketForm {W : Type} (env : Env W) (m : Model) : Model :=
  let i0 := { TextInput.New with Placeholder := "Bucket Name" }.Focus
  let i0 := { i0 with CharLimit := 63, Width := 40 }
  let i1 := { TextInput.New with
    Placeholder := "Quota (e.g., 2T, 500G, 100M)", CharLimit := 20, Width := 30 }
  let i1 := i1.SetValue env "1T"
  let i2 := { TextInput.New with Placeholder := "Owner Access Key", CharLimit := 64, Width := 40 }
  { m with bucketFormInputs := [i0, i1, i2], focusIndex := 0 }

/-- The method `initChangeOwnerForm`. -/
def Model.initChangeOwnerForm (m : Model) : Model :=
  let i0 := { TextInput.New with Placeholder := "Bucket Name" }.Focus
  let i0 := { i0 with CharLimit := 63, Width := 40 }
  let i1 := { TextInput.New with
    Placeholder := "New Owner Access Key", CharLimit := 64, Width := 40 }
  { m with changeOwnerFormInputs := [i0, i1], focusIndex := 0 }

/-- The method `initProvisionForm`. -/
def Model.initProvisionForm {W : Type} (env : Env W) (m : Model) : Eff W Model := do
  let secret ← generateSecretKey env
  let i0 := { TextInput.New with Placeholder := "Access Key (username)" }.Focus
  let i0 := { i0 with CharLimit := 64, Width := 40 }
  let i1 := { TextInput.New with
    Placeholder := "Secret Key (auto-generated if empty)", CharLimit := 128, Width := 60 }
  let i1 := i1.SetValue env secret
  let i2 := { TextInput.New with
    Placeholder := "Role (admin/user/userplus)", CharLimit := 20, Width := 30 }
  let i2 := i2.SetValue env "user"
  let i3 := { TextInput.New with Placeholder := "User ID (default 0)", CharLimit := 10, Width := 15 }
  let i3 := i3.SetValue env "0"
  let i4 := { TextInput.New with Placeholder := "Group ID (default 0)", CharLimit := 10, Width := 15 }
  let i4 := i4.SetValue env "0"
  let i5 := { TextInput.New with
    Placeholder := "Project ID (optional)", CharLimit := 10, Width := 15 }
  let i5 := i5.SetValue env "0"
  let i6 := { TextInput.New with Placeholder := "Bucket Name", CharLimit := 63, Width := 40 }
  let i7 := { TextInput.New with
    Placeholder := "Quota (e.g., 2T, 500G)", CharLimit := 20, Width := 30 }
  let i7 := i7.SetValue env "1T"
  let i8 := { TextInput.New with
    Placeholder := "Owner Access Key (default = access)", CharLimit := 64, Width := 40 }
  pure { m with
    provisionFormInputs := [i0, i1, i2, i3, i4, i5, i6, i7, i8], focusIndex := 0,
    provisionScroll := 0 }

/-- The method `initMakePublicForm`. -/
def Model.initMakePublicForm (m : Model) : Model :=
  let i0 := { TextInput.New with CharLimit := 64, Placeholder := "Bucket Name" }.Focus
  let i1 := { TextInput.New with CharLimit := 64, Placeholder := "Owner Access Key" }
  { m with bucketFormInputs := [i0, i1], focusIndex := 0 }

/-! ## The session (`ui/model.go`, `ui/form_handlers.go`, `ui/forms.go`, `ui/helpers.go`) -/

/-- A message of the terminal runtime: a key (by its `String()` name), a window size, or
anything else. -/
inductive Msg where
  | KeyMsg (key : String)
  | WindowSizeMsg (Width Height : Int)
  | other
  deriving DecidableEq, Repr

/-- The command that `Update` returns: `nil`, `tea.Quit`, or what a text input returned. -/
inductive Cmd where
  | nil
  | Quit
  | input
  deriving DecidableEq, Repr

/-- What handling one message gives: the next state and a command, or a run-time panic
(index out of range, division by zero). -/
inductive Outcome where
  | next (m : Model) (cmd : Cmd)
  | panic
  deriving DecidableEq, Repr

/-- The function `NewModel`. -/
def NewModel : Model :=
  { currentView := .MainMenuView, cursor := 0, width := 0, height := 0, users := [],
    buckets := [], selectedUserIndex := 0, selectedBucketIndex := 0,
    returnView := .MainMenuView, userFormInputs := [], bucketFormInputs := [],
    changeOwnerFormInputs := [], provisionFormInputs := [], focusIndex := 0,
    provisionScroll := 0, page := 0, pageSize := 20, errorMessage := "",
    successMessage := "", pendingAction := "", pendingTarget := "" }

/-- The method `getMaxCursorForView`. -/
def Model.getMaxCursorForView (m : Model) : Int :=
  match m.currentView with
  | .MainMenuView => 3
  | .OperationsView => 4
  | .UsersListView => (m.users.length : Int) - 1
  | .BucketsListView => (m.buckets.length : Int) - 1
  | _ => 0

/-- The text that `copyUserCredentials` and `copyUserCredentialsFromDetail` copy. -/
def credentialsText (user : User) : String :=
  "Access Key: " ++ user.Access ++ "\nSecret Key: " ++ user.Secret

/-- The method `copyUserCredentials`. -/
def Model.copyUserCredentials {W : Type} (env : Env W) (m : Model) : Eff W (Option String) :=
  if m.cursor < 0 ∨ m.cursor ≥ m.users.length then pure (some "invalid selection")
  else match index? m.users m.cursor with
    | none => pure (some "invalid selection")
    | some user => do
      let err ← Eff.act (Call.ClipboardWriteAll (credentialsText user))
        fun w => env.clipboardWriteAll w (credentialsText user)
      match err with
      | some e => pure (some ("failed to copy to clipboard: " ++ e))
      | none => pure none

/-- The method `copyUserCredentialsFromDetail`. -/
def Model.copyUserCredentialsFromDetail {W : Type} (env : Env W) (m : Model) :
    Eff W (Option String) :=
  if m.selectedUserIndex < 0 ∨ m.selectedUserIndex ≥ m.users.length then
    pure (some "invalid selection")
  else match index? m.users m.selectedUserIndex with
    | none => pure (some "invalid selection")
    | some user => do
      let err ← Eff.act (Call.ClipboardWriteAll (credentialsText user))
        fun w => env.clipboardWriteAll w (credentialsText user)
      match err with
      | some e => pure (some ("failed to copy to clipboard: " ++ e))
      | none => pure none

/-- The method `viewportHeight`. -/
def Model.viewportHeight (m : Model) : Int := if m.height > 0 then m.height else 24

/-- The length of `m.provisionLines()`; `none` is the panic of `labels[i]` when the form
holds more inputs than the nine labels. -/
def Model.provisionLines {W : Type} (env : Env W) (m : Model) : Option Int :=
  if m.provisionFormInputs.length ≤ 9 then some (env.provisionLineCount m) else none

/-- The method `provisionTargetLine`. -/
def Model.provisionTargetLine (m : Model) : Int :=
  let fields : Int := m.provisionFormInputs.length
  if m.focusIndex < fields then 2 + m.focusIndex
  else if m.focusIndex = fields ∨ m.focusIndex = fields + 1 then 2 + fields
  else 0

/-- The method `ensureProvisionVisible`, given `len(lines)`. -/
def Model.ensureProvisionVisible (m : Model) (lines : Int) : Model :=
  let visible := if m.viewportHeight < 5 then 5 else m.viewportHeight
  let maxOffset := if lines - visible < 0 then 0 else lines - visible
  let target := m.provisionTargetLine
  let scroll := m.provisionScroll
  let scroll :=
    if target < scroll then target
    else if target ≥ scroll + visible then target - visible + 1
    else scroll
  let scroll := if scroll < 0 then 0 else scroll
  let scroll := if scroll > maxOffset then maxOffset else scroll
  { m with provisionScroll := scroll }

/-- The method `clampProvisionScroll`, given `len(lines)`. -/
def Model.clampProvisionScroll (m : Model) (lines : Int) : Model :=
  let visible := if m.viewportHeight < 5 then 5 else m.viewportHeight
  let maxOffset := if lines - visible < 0 then 0 else lines - visible
  let scroll := if m.provisionScroll < 0 then 0 else m.provisionScroll
  let scroll := if scroll > maxOffset then maxOffset else scroll
  { m with provisionScroll := scroll }

/-- The statement `m = m.ensureProvisionVisible(m.provisionLines())`. -/
def Model.showProvision {W : Type} (env : Env W) (m : Model) (cmd : Cmd) : Outcome :=
  match m.provisionLines env with
  | some lines => .next (m.ensureProvisionVisible lines) cmd
  | none => .panic

/-- The statement `m = m.clampProvisionScroll(m.provisionLines())`. -/
def Model.clampProvision {W : Type} (env : Env W) (m : Model) : Outcome :=
  match m.provisionLines env with
  | some lines => .next (m.clampProvisionScroll lines) .nil
  | none => .panic

/-- The statements `m.focusIndex++; if m.focusIndex > len(inputs)+1 { m.focusIndex = 0 }`. -/
def focusNext (focusIndex : Int) (n : Nat) : Int :=
  if focusIndex + 1 > (n : Int) + 1 then 0 else focusIndex + 1

/-- The statements `m.focusIndex--; if m.focusIndex < 0 { m.focusIndex = len(inputs) + 1 }`. -/
def focusPrev (focusIndex : Int) (n : Nat) : Int :=
  if focusIndex - 1 < 0 then (n : Int) + 1 else focusIndex - 1

/-- The end of every form handler, `if m.focusIndex < len(inputs) { inputs[m.focusIndex], cmd =
inputs[m.focusIndex].Update(msg) }`: the new inputs and the command; `none` is the panic of a
negative index. -/
def updateFocusedInput {W : Type} (env : Env W) (inputs : List TextInput) (focusIndex : Int)
    (key : String) : Option (List TextInput × Cmd) :=
  if focusIndex < inputs.length then
    match index? inputs focusIndex with
    | some t => some (inputs.set focusIndex.toNat (t.Update env key), .input)
    | none => none
  else some (inputs, .nil)

/-- The method `handleCreateUser`. -/
def Model.handleCreateUser {W : Type} (env : Env W) (m : Model) : Eff W Outcome :=
  match m.userFormInputs with
  | i0 :: i1 :: i2 :: _ =>
    let req : UserCreateRequest :=
      { Access := i0.Value, Secret := i1.Value, Role := i2.Value, UserID := 0, GroupID := 0,
        ProjectID := 0 }
    if req.Access = "" then
      pure (.next { m with errorMessage := "Access key is required" } .nil)
    else if req.Secret = "" then
      pure (.next { m with errorMessage := "Secret key is required" } .nil)
    else if req.Role ≠ "admin" ∧ req.Role ≠ "user" ∧ req.Role ≠ "userplus" then
      pure (.next { m with errorMessage := "Role must be admin, user, or userplus" } .nil)
    else do
      let err ←
        (if m.currentView = .UpdateUserView then
          VersityGWService.UpdateUser env
            { Access := req.Access, Secret := req.Secret, Role := req.Role,
              UserID := req.UserID, GroupID := req.GroupID, ProjectID := req.ProjectID }
        else VersityGWService.CreateUser env req)
      match err with
      | some e =>
        pure (.next { m with
          errorMessage :=
            (if m.currentView = .UpdateUserView then "Failed to update user: "
             else "Failed to create user: ") ++ e } .nil)
      | none => do
        let m1 := { m with
          successMessage :=
            "User '" ++ req.Access ++
              (if m.currentView = .UpdateUserView then "' updated successfully!"
               else "' created successfully!"),
          currentView := m.returnView, cursor := 0 }
        let users ← UserService.ListUsers env
        match users with
        | .ok us => pure (.next { m1 with users := us } .nil)
        | .error _ => pure (.next m1 .nil)
  | _ => pure .panic

/-- The method `handleCreateBucket`. -/
def Model.handleCreateBucket {W : Type} (env : Env W) (m : Model) : Eff W Outcome :=
  match m.bucketFormInputs with
  | i0 :: i1 :: i2 :: _ =>
    let req : BucketCreateRequest :=
      { Name := i0.Value, Quota := i1.Value, Owner := i2.Value, Mountpoint := "" }
    if req.Name = "" then
      pure (.next { m with errorMessage := "Bucket name is required" } .nil)
    else if req.Quota = "" then
      pure (.next { m with errorMessage := "Quota is required" } .nil)
    else do
      let err ← BucketService.CreateBucket env req
      match err with
      | some e => pure (.next { m with errorMessage := "Failed to create bucket: " ++ e } .nil)
      | none =>
        if req.Owner ≠ "" then do
          let err2 ← VersityGWService.ChangeBucketOwner env req.Name req.Owner
          match err2 with
          | some e =>
            pure (.next { m with
              errorMessage := "Bucket created but failed to set owner: " ++ e } .nil)
          | none =>
            pure (.next { m with
              successMessage := "Bucket '" ++ req.Name ++ "' created successfully!",
              currentView := m.returnView, cursor := 0 } .nil)
        else
          pure (.next { m with
            successMessage := "Bucket '" ++ req.Name ++ "' created successfully!",
            currentView := m.returnView, cursor := 0 } .nil)
  | _ => pure .panic

/-- The loop of `handleChangeOwner` that sets the owner of the first bucket named `bucket`. -/
def setOwnerOfFirst (bucket owner : String) : List Bucket → List Bucket
  | [] => []
  | b :: rest =>
    if b.Name = bucket then { b with Owner := owner } :: rest
    else b :: setOwnerOfFirst bucket owner rest

/-- The method `handleChangeOwner`. -/
def Model.handleChangeOwner {W : Type} (env : Env W) (m : Model) : Eff W Outcome :=
  match m.changeOwnerFormInputs with
  | i0 :: i1 :: _ =>
    let bucket := i0.Value
    let owner := i1.Value
    if bucket = "" then
      pure (.next { m with errorMessage := "Bucket name is required" } .nil)
    else if owner = "" then
      pure (.next { m with errorMessage := "New owner is required" } .nil)
    else do
      let err ← VersityGWService.ChangeBucketOwner env bucket owner
      match err with
      | some e => pure (.next { m with errorMessage := "Failed to change owner: " ++ e } .nil)
      | none =>
        pure (.next { m with
          buckets := setOwnerOfFirst bucket owner m.buckets,
          successMessage := "Owner for '" ++ bucket ++ "' changed to '" ++ owner ++ "'",
          currentView := m.returnView, cursor := 0 } .nil)
  | _ => pure .panic

/-- The value of a run of decimal digits, read after the digits whose value is `acc`;
`none` when a character is not a digit. -/
def digitsValue : List Char → Nat → Option Nat
  | [], acc => some acc
  | c :: cs, acc =>
    if 48 ≤ c.toNat ∧ c.toNat ≤ 57 then digitsValue cs (acc * 10 + (c.toNat - 48)) else none

/-- The magnitude and sign read by `strconv.Atoi`: at least one digit, nothing but digits. -/
def atoiDigits (neg : Bool) (ds : List Char) : Option Int :=
  if ds.isEmpty then none
  else match digitsValue ds 0 with
    | none => none
    | some n =>
      let v : Int := if neg then -(n : Int) else (n : Int)
      if -(2 : Int) ^ 63 ≤ v ∧ v < (2 : Int) ^ 63 then some v else none

/-- Go's `strconv.Atoi`: an optional sign and decimal digits, within the 64-bit range;
`none` is the error. -/
def Atoi (s : String) : Option Int :=
  match s.data with
  | '+' :: ds => atoiDigits false ds
  | '-' :: ds => atoiDigits true ds
  | ds => atoiDigits false ds

/-- The closure `parseInt` of `handleProvision`. -/
def parseInt (val : String) : Option Int := if val = "" then some 0 else Atoi val

/-- The method `handleProvision`. -/
def Model.handleProvision {W : Type} (env : Env W) (m : Model) : Eff W Outcome :=
  match m.provisionFormInputs with
  | i0 :: i1 :: i2 :: i3 :: i4 :: i5 :: i6 :: i7 :: i8 :: _ =>
    let access := TrimSpace i0.Value
    let secret := TrimSpace i1.Value
    let role := TrimSpace i2.Value
    let uidStr := TrimSpace i3.Value
    let gidStr := TrimSpace i4.Value
    let pidStr := TrimSpace i5.Value
    let bucket := TrimSpace i6.Value
    let quota := TrimSpace i7.Value
    let owner := TrimSpace i8.Value
    if access = "" then
      pure (.next { m with errorMessage := "Access key is required" } .nil)
    else if role ≠ "admin" ∧ role ≠ "user" ∧ role ≠ "userplus" then
      pure (.next { m with errorMessage := "Role must be admin, user, or userplus" } .nil)
    else if bucket = "" then
      pure (.next { m with errorMessage := "Bucket name is required" } .nil)
    else if quota = "" then
      pure (.next { m with errorMessage := "Quota is required" } .nil)
    else do
      let owner := if owner = "" then access else owner
      let secret ← (if secret = "" then generateSecretKey env else pure secret)
      match parseInt uidStr with
      | none => pure (.next { m with errorMessage := "User ID must be a number" } .nil)
      | some uid =>
      match parseInt gidStr with
      | none => pure (.next { m with errorMessage := "Group ID must be a number" } .nil)
      | some gid =>
      match parseInt pidStr with
      | none => pure (.next { m with errorMessage := "Project ID must be a number" } .nil)
      | some pid => do
        let err ← VersityGWService.CreateUser env
          { Access := access, Secret := secret, Role := role, UserID := uid, GroupID := gid,
            ProjectID := pid }
        match err with
        | some e => pure (.next { m with errorMessage := "Failed to create user: " ++ e } .nil)
        | none => do
          let err2 ← BucketService.CreateBucket env
            { Name := bucket, Quota := quota, Owner := owner, Mountpoint := "" }
          match err2 with
          | some e =>
            pure (.next { m with errorMessage := "Failed to create bucket: " ++ e } .nil)
          | none => do
            let err3 ← VersityGWService.ChangeBucketOwner env bucket owner
            match err3 with
            | some e =>
              pure (.next { m with
                errorMessage := "Bucket created but failed to set owner: " ++ e } .nil)
            | none =>
              pure (.next { m with
                successMessage :=
                  "Provisioned user '" ++ access ++ "' and bucket '" ++ bucket ++
                    "' (owner '" ++ owner ++ "')",
                currentView := m.returnView, cursor := 0 } .nil)
  | _ => pure .panic

/-- The function `services.GeneratePublicPolicy`. -/
def GeneratePublicPolicy (bucket owner : String) : String :=
  "\x7b\n" ++
    "    \"Version\": \"2012-10-17\",\n" ++
    "    \"Statement\": [\n" ++
    "        \x7b\n" ++
    "            \"Sid\": \"PublicRead\",\n" ++
    "            \"Effect\": \"Allow\",\n" ++
    "            \"Principal\": \"*\",\n" ++
    "            \"Action\": \"s3:GetObject\",\n" ++
    "            \"Resource\": \"arn:aws:s3:::" ++
    bucket ++
    "/*\"\n" ++
    "        \x7d,\n" ++
    "        \x7b\n" ++
    "            \"Sid\": \"UserWriteDelete\",\n" ++
    "            \"Effect\": \"Allow\",\n" ++
    "            \"Principal\": \x7b\n" ++
    "                \"AWS\": \"" ++
    owner ++
    "\"\n" ++
    "            \x7d,\n" ++
    "            \"Action\": [\n" ++
    "                \"s3:ListMultipartUploadParts\",\n" ++
    "                \"s3:PutObject\",\n" ++
    "                \"s3:AbortMultipartUpload\",\n" ++
    "                \"s3:DeleteObject\",\n" ++
    "                \"s3:GetBucketLocation\",\n" ++
    "                \"s3:GetObject\",\n" ++
    "                \"s3:ListBucket\",\n" ++
    "                \"s3:ListBucketMultipartUploads\"\n" ++
    "            ],\n" ++
    "            \"Resource\": [\n" ++
    "                \"arn:aws:s3:::" ++
    bucket ++
    "\",\n" ++
    "                \"arn:aws:s3:::" ++
    bucket ++
    "/*\"\n" ++
    "            ]\n" ++
    "        \x7d\n" ++
    "    ]\n" ++
    "\x7d"

/-- The method `handleMakePublic`. -/
def Model.handleMakePublic {W : Type} (env : Env W) (m : Model) : Eff W Outcome :=
  match m.bucketFormInputs with
  | i0 :: i1 :: _ =>
    let bucketName := i0.Value
    let owner := i1.Value
    if bucketName = "" then
      pure (.next { m with errorMessage := "Bucket name is required" } .nil)
    else if owner = "" then
      pure (.next { m with errorMessage := "Owner access key is required" } .nil)
    else do
      let err ← VersityGWService.SetBucketPolicy env bucketName
        (GeneratePublicPolicy bucketName owner)
      match err with
      | some e => pure (.next { m with errorMessage := "Failed to make public: " ++ e } .nil)
      | none =>
        pure (.next { m with
          successMessage := "Bucket '" ++ bucketName ++ "' is now PUBLIC!",
          currentView := m.returnView, cursor := 0 } .nil)
  | _ => pure .panic

/-- The method `updateUserForm` (the views CreateUser and UpdateUser). -/
def Model.updateUserForm {W : Type} (env : Env W) (m : Model) (key : String) : Eff W Outcome :=
  if key = "ctrl+c" then pure (.next m .Quit)
  else if key = "esc" ∨ key = "q" then
    pure (.next { m with currentView := m.returnView, cursor := 0 } .nil)
  else if key = "tab" then
    pure (.next
      { m with focusIndex := focusNext m.focusIndex m.userFormInputs.length }.updateUserFormFocus
      .nil)
  else if key = "shift+tab" ∨ key = "up" then
    pure (.next
      { m with focusIndex := focusPrev m.focusIndex m.userFormInputs.length }.updateUserFormFocus
      .nil)
  else if key = "down" then
    pure (.next
      { m with focusIndex := focusNext m.focusIndex m.userFormInputs.length }.updateUserFormFocus
      .nil)
  else if key = "enter" ∧ m.focusIndex = m.userFormInputs.length then m.handleCreateUser env
  else if key = "enter" ∧ m.focusIndex = (m.userFormInputs.length : Int) + 1 then
    pure (.next { m with currentView := m.returnView, cursor := 0 } .nil)
  else
    match updateFocusedInput env m.userFormInputs m.focusIndex key with
    | some (inputs, cmd) => pure (.next { m with userFormInputs := inputs } cmd)
    | none => pure .panic

/-- The method `updateBucketForm`. -/
def Model.updateBucketForm {W : Type} (env : Env W) (m : Model) (key : String) :
    Eff W Outcome :=
  if key = "ctrl+c" then pure (.next m .Quit)
  else if key = "esc" ∨ key = "q" then
    pure (.next { m with currentView := m.returnView, cursor := 0 } .nil)
  else if key = "tab" then
    pure (.next
      { m with
        focusIndex := focusNext m.focusIndex m.bucketFormInputs.length }.updateBucketFormFocus
      .nil)
  else if key = "shift+tab" ∨ key = "up" then
    pure (.next
      { m with
        focusIndex := focusPrev m.focusIndex m.bucketFormInputs.length }.updateBucketFormFocus
      .nil)
  else if key = "down" then
    pure (.next
      { m with
        focusIndex := focusNext m.focusIndex m.bucketFormInputs.length }.updateBucketFormFocus
      .nil)
  else if key = "enter" ∧ m.focusIndex = m.bucketFormInputs.length then m.handleCreateBucket env
  else if key = "enter" ∧ m.focusIndex = (m.bucketFormInputs.length : Int) + 1 then
    pure (.next { m with currentView := m.returnView, cursor := 0 } .nil)
  else
    match updateFocusedInput env m.bucketFormInputs m.focusIndex key with
    | some (inputs, cmd) => pure (.next { m with bucketFormInputs := inputs } cmd)
    | none => pure .panic

/-- The method `updateChangeOwnerForm`. -/
def Model.updateChangeOwnerForm {W : Type} (env : Env W) (m : Model) (key : String) :
    Eff W Outcome :=
  if key = "ctrl+c" then pure (.next m .Quit)
  else if key = "esc" ∨ key = "q" then
    pure (.next { m with currentView := m.returnView, cursor := 0 } .nil)
  else if key = "tab" then
    pure (.next
      { m with
        focusIndex :=
          focusNext m.focusIndex m.changeOwnerFormInputs.length }.updateChangeOwnerFormFocus
      .nil)
  else if key = "shift+tab" ∨ key = "up" then
    pure (.next
      { m with
        focusIndex :=
          focusPrev m.focusIndex m.changeOwnerFormInputs.length }.updateChangeOwnerFormFocus
      .nil)
  else if key = "down" then
    pure (.next
      { m with
        focusIndex :=
          focusNext m.focusIndex m.changeOwnerFormInputs.length }.updateChangeOwnerFormFocus
      .nil)
  else if key = "enter" ∧ m.focusIndex = m.changeOwnerFormInputs.length then
    m.handleChangeOwner env
  else if key = "enter" ∧ m.focusIndex = (m.changeOwnerFormInputs.length : Int) + 1 then
    pure (.next { m with currentView := m.returnView } .nil)
  else
    match updateFocusedInput env m.changeOwnerFormInputs m.focusIndex key with
    | some (inputs, cmd) => pure (.next { m with changeOwnerFormInputs := inputs } cmd)
    | none => pure .panic

/-- Go's `max` on two `int`s, as `ui/forms.go` defines it. -/
def goMax (a b : Int) : Int := if a > b then a else b

/-- The method `updateProvisionForm`. -/
def Model.updateProvisionForm {W : Type} (env : Env W) (m : Model) (key : String) :
    Eff W Outcome :=
  if key = "ctrl+c" then pure (.next m .Quit)
  else if key = "esc" ∨ key = "q" then
    pure (.next { m with currentView := m.returnView, cursor := 0 } .nil)
  else if key = "tab" then
    pure (Model.showProvision env
      { m with
        focusIndex :=
          focusNext m.focusIndex m.provisionFormInputs.length }.updateProvisionFormFocus .nil)
  else if key = "shift+tab" ∨ key = "up" then
    pure (Model.showProvision env
      { m with
        focusIndex :=
          focusPrev m.focusIndex m.provisionFormInputs.length }.updateProvisionFormFocus .nil)
  else if key = "down" then
    pure (Model.showProvision env
      { m with
        focusIndex :=
          focusNext m.focusIndex m.provisionFormInputs.length }.updateProvisionFormFocus .nil)
  else if key = "pgup" then
    pure (Model.clampProvision env
      { m with provisionScroll := m.provisionScroll - goMax 1 (Int.tdiv m.viewportHeight 2) })
  else if key = "pgdown" then
    pure (Model.clampProvision env
      { m with provisionScroll := m.provisionScroll + goMax 1 (Int.tdiv m.viewportHeight 2) })
  else if key = "home" then pure (.next { m with provisionScroll := 0 } .nil)
  else if key = "end" then
    match m.provisionLines env with
    | some lines => pure (Model.clampProvision env { m with provisionScroll := lines })
    | none => pure .panic
  else if key = "enter" ∧ m.focusIndex = m.provisionFormInputs.length then
    m.handleProvision env
  else if key = "enter" ∧ m.focusIndex = (m.provisionFormInputs.length : Int) + 1 then
    pure (.next { m with currentView := m.returnView, cursor := 0 } .nil)
  else
    match updateFocusedInput env m.provisionFormInputs m.focusIndex key with
    | some (inputs, cmd) =>
      pure (Model.showProvision env { m with provisionFormInputs := inputs } cmd)
    | none => pure .panic

/-- The method `updateMakePublicForm`. -/
def Model.updateMakePublicForm {W : Type} (env : Env W) (m : Model) (key : String) :
    Eff W Outcome :=
  if key = "ctrl+c" then pure (.next m .Quit)
  else if key = "esc" ∨ key = "q" then
    pure (.next { m with currentView := m.returnView, cursor := 0 } .nil)
  else if key = "tab" ∨ key = "down" then
    pure (.next
      { m with
        focusIndex := focusNext m.focusIndex m.bucketFormInputs.length }.updateBucketFormFocus
      .nil)
  else if key = "shift+tab" ∨ key = "up" then
    pure (.next
      { m with
        focusIndex := focusPrev m.focusIndex m.bucketFormInputs.length }.updateBucketFormFocus
      .nil)
  else if key = "enter" ∧ m.focusIndex = m.bucketFormInputs.length then m.handleMakePublic env
  else if key = "enter" ∧ m.focusIndex = (m.bucketFormInputs.length : Int) + 1 then
    pure (.next { m with currentView := m.returnView } .nil)
  else
    match updateFocusedInput env m.bucketFormInputs m.focusIndex key with
    | some (inputs, cmd) => pure (.next { m with bucketFormInputs := inputs } cmd)
    | none => pure .panic

/-- The case "List Buckets" of `handleEnter`: the merge, then the buckets list view. -/
def Model.listBuckets {W : Type} (env : Env W) (m : Model) : Eff W Outcome := do
  let r ← BucketService.ListBuckets env
  let a ← VersityGWService.ListBuckets env
  match r, a with
  | .ok buckets, .ok apiBuckets => do
    let merged ← mergeApi env buckets apiBuckets
    pure (.next { m with
      buckets := sortBuckets merged, currentView := .BucketsListView, cursor := 0, page := 0 }
      .nil)
  | .error err, .ok apiBuckets => do
    let merged ← mergeApi env [] apiBuckets
    pure (.next { m with
      errorMessage := "Error loading buckets from ZFS: " ++ err,
      buckets := sortBuckets merged, currentView := .BucketsListView, cursor := 0, page := 0 }
      .nil)
  | .ok buckets, .error _ =>
    pure (.next { m with
      buckets := sortBuckets buckets, currentView := .BucketsListView, cursor := 0, page := 0 }
      .nil)
  | .error err, .error apiErr =>
    pure (.next { m with
      errorMessage := "Error loading buckets: ZFS(" ++ err ++ ") API(" ++ apiErr ++ ")",
      buckets := sortBuckets [], currentView := .BucketsListView, cursor := 0, page := 0 }
      .nil)

/-- The method `handleEnter`. -/
def Model.handleEnter {W : Type} (env : Env W) (m : Model) : Eff W Outcome :=
  match m.currentView with
  | .MainMenuView =>
    if m.cursor = 0 then do
      let users ← UserService.ListUsers env
      match users with
      | .error err => pure (.next { m with errorMessage := "Error loading users: " ++ err } .nil)
      | .ok us =>
        pure (.next { m with users := us, currentView := .UsersListView, cursor := 0, page := 0 }
          .nil)
    else if m.cursor = 1 then m.listBuckets env
    else if m.cursor = 2 then pure (.next { m with currentView := .OperationsView, cursor := 0 } .nil)
    else if m.cursor = 3 then pure (.next m .Quit)
    else pure (.next m .nil)
  | .OperationsView =>
    if m.cursor = 0 then do
      let m1 ← m.initUserForm env
      pure (.next { m1 with returnView := .OperationsView, currentView := .CreateUserView,
                            cursor := 0 } .nil)
    else if m.cursor = 1 then
      pure (.next { m.initBucketForm env with
        returnView := .OperationsView, currentView := .CreateBucketView, cursor := 0 } .nil)
    else if m.cursor = 2 then
      pure (.next { m.initChangeOwnerForm with
        returnView := .OperationsView, currentView := .ChangeOwnerView, cursor := 0 } .nil)
    else if m.cursor = 3 then
      pure (.next { m.initMakePublicForm with
        returnView := .OperationsView, currentView := .MakeBucketPublicView, cursor := 0 } .nil)
    else if m.cursor = 4 then do
      let m1 ← m.initProvisionForm env
      pure (.next { m1 with returnView := .OperationsView, currentView := .ProvisionView,
                            cursor := 0 } .nil)
    else pure (.next m .nil)
  | .UsersListView =>
    let idx := m.page * m.pageSize + m.cursor
    if m.users.length > 0 ∧ idx ≥ 0 ∧ idx < m.users.length then
      pure (.next { m with selectedUserIndex := idx, currentView := .UserDetailView } .nil)
    else pure (.next m .nil)
  | .BucketsListView =>
    let idx := m.page * m.pageSize + m.cursor
    if m.buckets.length > 0 ∧ idx ≥ 0 ∧ idx < m.buckets.length then
      pure (.next { m with selectedBucketIndex := idx, currentView := .BucketDetailView } .nil)
    else pure (.next m .nil)
  | .CreateUserView => m.handleCreateUser env
  | .UpdateUserView => m.handleCreateUser env
  | .CreateBucketView => m.handleCreateBucket env
  | .MakeBucketPublicView => m.handleMakePublic env
  | _ => pure (.next m .nil)

/-- Go's `s[:n]` on a string whose first `n` bytes end at a character boundary (as in every
ASCII text); where byte `n` falls inside a character, the characters that fit. -/
def bytePrefix : List Char → Nat → List Char
  | [], _ => []
  | c :: cs, n => if c.utf8Size ≤ n then c :: bytePrefix cs (n - c.utf8Size) else []

/-- The pagination repair of `executeConfirmedAction` after the users were reloaded; `none`
is the panic of the division by a zero page size. -/
def Model.setReloadedUsers (m : Model) (users : List User) : Option Model :=
  let m := { m with users := users }
  if m.users.length = 0 then some { m with page := 0, cursor := 0 }
  else if m.pageSize = 0 then none
  else
    let newMaxPage := Int.tdiv ((m.users.length : Int) - 1) m.pageSize
    let m := if m.page > newMaxPage then { m with page := newMaxPage, cursor := 0 } else m
    let itemsOnPage :=
      if m.page = newMaxPage then (m.users.length : Int) - m.page * m.pageSize else m.pageSize
    let m :=
      if itemsOnPage ≤ 0 then
        (if m.page > 0 then { m with page := m.page - 1, cursor := 0 } else { m with cursor := 0 })
      else if m.cursor ≥ itemsOnPage then { m with cursor := itemsOnPage - 1 }
      else m
    some (if m.cursor < 0 then { m with cursor := 0 } else m)

/-- The end of `executeConfirmedAction`, after its `switch`. -/
def Model.endConfirm (m : Model) : Outcome :=
  .next { m with pendingAction := "", pendingTarget := "", currentView := m.returnView } .nil

/-- The method `executeConfirmedAction`. -/
def Model.executeConfirmedAction {W : Type} (env : Env W) (m : Model) : Eff W Outcome :=
  if m.pendingAction = "delete_user" then do
    let err ← VersityGWService.DeleteUser env m.pendingTarget
    match err with
    | some e => pure { m with errorMessage := "Failed to delete user: " ++ e }.endConfirm
    | none => do
      let m1 := { m with successMessage := "User '" ++ m.pendingTarget ++ "' deleted" }
      let users ← UserService.ListUsers env
      match users with
      | .error _ => pure m1.endConfirm
      | .ok us =>
        match m1.setReloadedUsers us with
        | some m2 => pure m2.endConfirm
        | none => pure .panic
  else if m.pendingAction = "delete_bucket" then do
    let err ← BucketService.DeleteBucket env m.pendingTarget
    match err with
    | some e =>
      if Contains e "dataset is busy" ∨ Contains e "not empty" then
        pure { m with
          errorMessage :=
            "Cannot delete bucket '" ++ m.pendingTarget ++
              "': Bucket is not empty or busy." }.endConfirm
      else pure { m with errorMessage := "Failed to delete bucket: " ++ e }.endConfirm
    | none => do
      let m1 := { m with
        successMessage := "Bucket '" ++ m.pendingTarget ++ "' deleted.",
        currentView := .MainMenuView, cursor := 1 }
      let out ← m1.handleEnter env
      match out with
      | .next model cmd =>
        pure (.next { model with
          successMessage := "Bucket '" ++ model.pendingTarget ++ "' deleted.",
          pendingAction := "", pendingTarget := "" } cmd)
      | .panic => pure .panic
  else if m.pendingAction = "make_public" then
    match m.buckets.find? (fun b => b.Name = m.pendingTarget) with
    | none =>
      pure { m with errorMessage := "Bucket '" ++ m.pendingTarget ++ "' not found." }.endConfirm
    | some bucket => do
      let r ← VersityGWService.GetBucketPolicy env bucket.Name
      match r with
      | .ok _ =>
        pure { m with
          errorMessage :=
            "Bucket '" ++ bucket.Name ++
              "' is already PUBLIC (or has policy). Use 'P' to make private." }.endConfirm
      | .error e =>
        if !Contains e "404" ∧ !Contains e "NoSuchBucketPolicy" then
          pure { m with errorMessage := "Failed to check policy status: " ++ e }.endConfirm
        else do
          let owner :=
            if bucket.Owner = "" ∨ bucket.Owner = "unknown" ∨ bucket.Owner = "root" then
              bucket.Name
            else bucket.Owner
          let err ← VersityGWService.SetBucketPolicy env bucket.Name
            (GeneratePublicPolicy bucket.Name owner)
          match err with
          | some e2 =>
            match m.initMakePublicForm.bucketFormInputs with
            | i0 :: i1 :: rest =>
              let errMsg :=
                if e2.utf8ByteSize > 50 then String.mk (bytePrefix e2.data 47) ++ "..." else e2
              pure (.next { m.initMakePublicForm with
                bucketFormInputs :=
                  i0.SetValue env bucket.Name :: (i1.SetValue env owner).Focus :: rest,
                focusIndex := 1, currentView := .MakeBucketPublicView,
                returnView := .BucketsListView,
                errorMessage := "Auto-public failed: " ++ errMsg,
                pendingAction := "", pendingTarget := "" } .nil)
            | _ => pure .panic
          | none =>
            pure { m with
              successMessage := "Bucket '" ++ bucket.Name ++ "' is now PUBLIC!" }.endConfirm
  else if m.pendingAction = "make_private" then do
    let r ← VersityGWService.GetBucketPolicy env m.pendingTarget
    match r with
    | .error e =>
      if Contains e "404" ∨ Contains e "NoSuchBucketPolicy" then
        pure { m with
          successMessage :=
            "Bucket '" ++ m.pendingTarget ++ "' is already PRIVATE (no policy)." }.endConfirm
      else pure { m with errorMessage := "Failed to check policy: " ++ e }.endConfirm
    | .ok _ => do
      let err ← VersityGWService.DeleteBucketPolicy env m.pendingTarget
      match err with
      | some e => pure { m with errorMessage := "Failed to make private: " ++ e }.endConfirm
      | none =>
        pure { m with
          successMessage :=
            "Bucket '" ++ m.pendingTarget ++ "' is now PRIVATE (policy removed)." }.endConfirm
  else pure m.endConfirm

/-- The cases "d", "p" and "P" of `Update` on a list view: the confirmation of `action` for
the item under the cursor, whose name is `target`. -/
def Model.askConfirm (m : Model) (action target : String) (returnView : View) : Model :=
  { m with
    pendingAction := action, pendingTarget := target, returnView := returnView,
    currentView := .ConfirmView }

/-- The keys of `Update` in the views that are not forms, after the two messages were
cleared. -/
def Model.updateKey {W : Type} (env : Env W) (m : Model) (key : String) : Eff W Outcome :=
  let idx := m.page * m.pageSize + m.cursor
  if key = "ctrl+c" ∨ key = "q" then
    if m.currentView = .MainMenuView then pure (.next m .Quit)
    else pure (.next { m with currentView := .MainMenuView, cursor := 0 } .nil)
  else if key = "esc" then
    if m.currentView = .UserDetailView then
      pure (.next { m with currentView := .UsersListView } .nil)
    else if m.currentView = .BucketDetailView then
      pure (.next { m with currentView := .BucketsListView } .nil)
    else if m.currentView = .ProvisionView then
      pure (.next { m with currentView := .OperationsView, cursor := 0 } .nil)
    else if m.currentView ≠ .MainMenuView then
      pure (.next { m with currentView := .MainMenuView, cursor := 0 } .nil)
    else pure (.next m .nil)
  else if key = "up" ∨ key = "k" then
    if m.cursor > 0 then pure (.next { m with cursor := m.cursor - 1 } .nil)
    else pure (.next m .nil)
  else if key = "down" ∨ key = "j" then
    let maxItems := m.getMaxCursorForView + 1
    let remaining := maxItems - m.page * m.pageSize
    let limit := if remaining < m.pageSize then remaining else m.pageSize
    if m.cursor < limit - 1 then pure (.next { m with cursor := m.cursor + 1 } .nil)
    else pure (.next m .nil)
  else if key = "left" ∨ key = "h" then
    if m.page > 0 then pure (.next { m with page := m.page - 1, cursor := 0 } .nil)
    else pure (.next m .nil)
  else if key = "right" ∨ key = "l" then
    if m.pageSize = 0 then pure .panic
    else
      let maxItems := m.getMaxCursorForView + 1
      let totalPages := Int.tdiv (maxItems + m.pageSize - 1) m.pageSize
      if m.page < totalPages - 1 then pure (.next { m with page := m.page + 1, cursor := 0 } .nil)
      else pure (.next m .nil)
  else if key = "enter" then m.handleEnter env
  else if key = "c" then
    if m.currentView = .UsersListView ∧ m.users.length > 0 then
      if idx < m.users.length then do
        let m1 := { m with selectedUserIndex := idx }
        let err ← m1.copyUserCredentials env
        match err with
        | some e => pure (.next { m1 with errorMessage := "Copy failed: " ++ e } .nil)
        | none =>
          pure (.next { m1 with successMessage := "✓ Credentials copied to clipboard!" } .nil)
      else pure (.next m .nil)
    else if m.currentView = .UserDetailView then do
      let err ← m.copyUserCredentialsFromDetail env
      match err with
      | some e => pure (.next { m with errorMessage := "Copy failed: " ++ e } .nil)
      | none => pure (.next { m with successMessage := "✓ Credentials copied to clipboard!" } .nil)
    else pure (.next m .nil)
  else if key = "d" then
    if m.currentView = .UsersListView ∧ m.users.length > 0 then
      if idx < m.users.length then
        match index? m.users idx with
        | some user => pure (.next (m.askConfirm "delete_user" user.Access .UsersListView) .nil)
        | none => pure .panic
      else pure (.next m .nil)
    else if m.currentView = .BucketsListView ∧ m.buckets.length > 0 then
      if idx < m.buckets.length then
        match index? m.buckets idx with
        | some bucket =>
          pure (.next (m.askConfirm "delete_bucket" bucket.Name .BucketsListView) .nil)
        | none => pure .panic
      else pure (.next m .nil)
    else pure (.next m .nil)
  else if key = "e" then
    if m.currentView = .UsersListView ∧ m.users.length > 0 then
      if idx < m.users.length then
        match index? m.users idx with
        | some user =>
          pure (.next { m.initUpdateUserForm env user with
            currentView := .UpdateUserView, returnView := .UsersListView } .nil)
        | none => pure .panic
      else pure (.next m .nil)
    else pure (.next m .nil)
  else if key = "p" then
    if m.currentView = .BucketsListView ∧ m.buckets.length > 0 then
      if idx < m.buckets.length then
        match index? m.buckets idx with
        | some bucket =>
          pure (.next (m.askConfirm "make_public" bucket.Name .BucketsListView) .nil)
        | none => pure .panic
      else pure (.next m .nil)
    else pure (.next m .nil)
  else if key = "P" then
    if m.currentView = .BucketsListView ∧ m.buckets.length > 0 then
      if idx < m.buckets.length then
        match index? m.buckets idx with
        | some bucket =>
          pure (.next (m.askConfirm "make_private" bucket.Name .BucketsListView) .nil)
        | none => pure .panic
      else pure (.next m .nil)
    else pure (.next m .nil)
  else if key = "y" ∨ key = "Y" then
    if m.currentView = .ConfirmView then m.executeConfirmedAction env
    else pure (.next m .nil)
  else if key = "n" ∨ key = "N" then
    if m.currentView = .ConfirmView then
      pure (.next { m with
        pendingAction := "", pendingTarget := "", currentView := m.returnView,
        successMessage := "Operation cancelled." } .nil)
    else pure (.next m .nil)
  else pure (.next m .nil)

/-- The method `Update`. -/
def Model.Update {W : Type} (env : Env W) (m : Model) (msg : Msg) : Eff W Outcome :=
  match msg with
  | .WindowSizeMsg width height =>
    let m := { m with width := width, height := height }
    if m.currentView = .ProvisionView then pure (Model.showProvision env m .nil)
    else pure (.next m .nil)
  | .KeyMsg key =>
    if m.currentView = .CreateUserView then m.updateUserForm env key
    else if m.currentView = .CreateBucketView then m.updateBucketForm env key
    else if m.currentView = .ChangeOwnerView then m.updateChangeOwnerForm env key
    else if m.currentView = .ProvisionView then m.updateProvisionForm env key
    else if m.currentView = .UpdateUserView then m.updateUserForm env key
    else if m.currentView = .MakeBucketPublicView then m.updateMakePublicForm env key
    else Model.updateKey env { m with errorMessage := "", successMessage := "" } key
  | .other => pure (.next m .nil)

/-- One handled message of a session: the state before it, the message, and the calls made
while handling it. -/
structure Step where
  before : Model
  msg : Msg
  calls : List Call

/-- The session loop: the messages are handled one after the other from state `m` in world
`w`, until `tea.Quit` is returned, a panic ends the process, or the messages are used up.
The result is the record of the handled messages, the last state and the last world. -/
def runSession {W : Type} (env : Env W) : Model → W → List Msg → List Step × Model × W
  | m, w, [] => ([], m, w)
  | m, w, msg :: rest =>
    let r := m.Update env msg w
    let step : Step := ⟨m, msg, r.calls⟩
    match r.val with
    | .next m1 .Quit => ([step], m1, r.world)
    | .next m1 _ =>
      let out := runSession env m1 r.world rest
      (step :: out.1, out.2)
    | .panic => ([step], m, r.world)

/-! ## Provisioning (`main.go`, `runProvision`) -/

/-- The Go type `provisionConfig`. -/
structure provisionConfig where
  Access : String
  Secret : String
  Role : String
  UserID : Int
  GroupID : Int
  ProjectID : Int
  Bucket : String
  Quota : String
  Owner : String
  deriving DecidableEq, Repr

/-- The Go type `provisionSummary`. -/
structure provisionSummary where
  Access : String
  Secret : String
  Role : String
  UserID : Int
  GroupID : Int
  ProjectID : Int
  Bucket : String
  Quota : String
  Owner : String
  SecretGenerated : Bool
  deriving DecidableEq, Repr

/-- The function `runProvision`: the summary, or the error (the summary returned with an
error is always the empty `provisionSummary{}`). -/
def runProvision {W : Type} (env : Env W) (cfg : provisionConfig) :
    Eff W (Except String provisionSummary) :=
  if cfg.Access = "" then pure (.error "access key is required (use --access)")
  else if cfg.Role ≠ "admin" ∧ cfg.Role ≠ "user" ∧ cfg.Role ≠ "userplus" then
    pure (.error "role must be admin, user, or userplus")
  else if cfg.Bucket = "" then pure (.error "bucket name is required (use --bucket)")
  else if cfg.Quota = "" then pure (.error "quota is required (use --quota, e.g. 2T)")
  else do
    let owner := if cfg.Owner = "" then cfg.Access else cfg.Owner
    let secret ← (if cfg.Secret = "" then generateSecretKey env else pure cfg.Secret)
    let secretGenerated := decide (cfg.Secret = "")
    let err ← VersityGWService.CreateUser env
      { Access := cfg.Access, Secret := secret, Role := cfg.Role, UserID := cfg.UserID,
        GroupID := cfg.GroupID, ProjectID := cfg.ProjectID }
    match err with
    | some e => pure (.error ("failed to create user: " ++ e))
    | none => do
      let err2 ← BucketService.CreateBucket env
        { Name := cfg.Bucket, Quota := cfg.Quota, Owner := owner, Mountpoint := "" }
      match err2 with
      | some e => pure (.error ("failed to create bucket: " ++ e))
      | none => do
        let err3 ← VersityGWService.ChangeBucketOwner env cfg.Bucket owner
        match err3 with
        | some e => pure (.error ("failed to set bucket owner: " ++ e))
        | none =>
          pure (.ok
            { Access := cfg.Access, Secret := secret, Role := cfg.Role, UserID := cfg.UserID,
              GroupID := cfg.GroupID, ProjectID := cfg.ProjectID, Bucket := cfg.Bucket,
              Quota := cfg.Quota, Owner := owner, SecretGenerated := secretGenerated })

/-! ## The admin API over HTTP (`services/versitygw.go`)

The operations of `VersityGWService` as functions of what happened to their request. -/

/-- What becomes of a request that `signAndSend` (or the copy of it inside
`ChangeBucketOwner`) handles: signing fails, sending fails, reading the body of the response
fails, or a response with a status code and a body is received in full. -/
inductive Exchange where
  | signFailed (err : String)
  | sendFailed (err : String)
  | readFailed (StatusCode : Int) (err : String)
  | response (StatusCode : Int) (body : String)
  deriving DecidableEq, Repr

/-- Go's verb `%d` for an `int`: the decimal digits, after a minus sign for a negative
number. -/
def formatInt (n : Int) : String :=
  if n < 0 then "-" ++ Nat.repr n.natAbs else Nat.repr n.toNat

/-- The method `signAndSend`, as a function of the exchange: the body and the error it
returns (a `nil` body is the empty string). -/
def VersityGWService.signAndSend : Exchange → String × Option String
  | .signFailed err => ("", some ("failed to sign request: " ++ err))
  | .sendFailed err => ("", some ("failed to send request: " ++ err))
  | .readFailed _ err => ("", some err)
  | .response StatusCode body =>
    if StatusCode ≥ 400 then
      (body, some ("API error (status " ++ formatInt StatusCode ++ "): " ++ body))
    else (body, none)

/-- The error of an operation whose `http.NewRequest` failed with `err`. -/
def requestError (err : String) : String := "failed to create request: " ++ err

/-- The error that `VersityGWService.CreateUser` returns: `marshalErr` is the error of
`xml.Marshal`, `newRequestErr` the error of `http.NewRequest`, `x` the exchange. -/
def VersityGWService.createUserError (marshalErr newRequestErr : Option String) (x : Exchange) :
    Option String :=
  match marshalErr with
  | some err => some ("failed to marshal user data: " ++ err)
  | none =>
    match newRequestErr with
    | some err => some (requestError err)
    | none => (VersityGWService.signAndSend x).2

/-- The error that `VersityGWService.UpdateUser` returns. -/
def VersityGWService.updateUserError (marshalErr newRequestErr : Option String) (x : Exchange) :
    Option String :=
  match marshalErr with
  | some err => some ("failed to marshal user data: " ++ err)
  | none =>
    match newRequestErr with
    | some err => some (requestError err)
    | none => (VersityGWService.signAndSend x).2

/-- The error that `VersityGWService.DeleteUser` returns. -/
def VersityGWService.deleteUserError (newRequestErr : Option String) (x : Exchange) :
    Option String :=
  match newRequestErr with
  | some err => some (requestError err)
  | none => (VersityGWService.signAndSend x).2

/-- The error that `VersityGWService.ChangeBucketOwner` returns; the method signs and sends
the request itself. -/
def VersityGWService.changeBucketOwnerError (newRequestErr : Option String) :
    Exchange → Option String :=
  match newRequestErr with
  | some err => fun _ => some (requestError err)
  | none => fun
    | .signFailed err => some ("failed to sign request: " ++ err)
    | .sendFailed err => some ("failed to send request: " ++ err)
    | .readFailed _ err => some err
    | .response StatusCode body =>
      if StatusCode ≥ 400 then
        some ("API error (status " ++ formatInt StatusCode ++ "): " ++ body)
      else none

/-- The error that `VersityGWService.SetBucketPolicy` returns. -/
def VersityGWService.setBucketPolicyError (newRequestErr : Option String) (x : Exchange) :
    Option String :=
  match newRequestErr with
  | some err => some (requestError err)
  | none =>
    match (VersityGWService.signAndSend x).2 with
    | some err => some ("failed to set bucket policy: " ++ err)
    | none => none

/-- The error that `VersityGWService.DeleteBucketPolicy` returns. -/
def VersityGWService.deleteBucketPolicyError (newRequestErr : Option String) (x : Exchange) :
    Option String :=
  match newRequestErr with
  | some err => some (requestError err)
  | none =>
    match (VersityGWService.signAndSend x).2 with
    | some err => some ("failed to delete bucket policy: " ++ err)
    | none => none

/-- The error that `VersityGWService.DeleteBucket` returns. -/
def VersityGWService.deleteBucketError (newRequestErr : Option String) (x : Exchange) :
    Option String :=
  match newRequestErr with
  | some err => some (requestError err)
  | none =>
    match (VersityGWService.signAndSend x).2 with
    | some err => some ("failed to delete bucket: " ++ err)
    | none => none

/-- The result of `VersityGWService.GetBucketPolicy`. -/
def VersityGWService.getBucketPolicyResult (newRequestErr : Option String) (x : Exchange) :
    Except String String :=
  match newRequestErr with
  | some err => .error (requestError err)
  | none =>
    match VersityGWService.signAndSend x with
    | (_, some err) => .error err
    | (body, none) => .ok body

/-- The result of `VersityGWService.ListBuckets`; `unmarshal` is `xml.Unmarshal` into the
list of the `Bucket` elements. -/
def VersityGWService.listBucketsResult (unmarshal : String → Except String (List BucketInfo))
    (newRequestErr : Option String) (x : Exchange) : Except String (List BucketInfo) :=
  match newRequestErr with
  | some err => .error (requestError err)
  | none =>
    match VersityGWService.signAndSend x with
    | (_, some err) => .error err
    | (body, none) =>
      match unmarshal body with
      | .error err => .error ("failed to parse list buckets response: " ++ err)
      | .ok buckets => .ok buckets

/-- The result of `VersityGWService.GetBucketOwner`; `unmarshal` is `xml.Unmarshal` into the
`ID` of the `Owner` element. -/
def VersityGWService.getBucketOwnerResult (unmarshal : String → Except String String)
    (newRequestErr : Option String) (x : Exchange) : Except String String :=
  match newRequestErr with
  | some err => .error (requestError err)
  | none =>
    match VersityGWService.signAndSend x with
    | (_, some err) => .error err
    | (body, none) =>
      match unmarshal body with
      | .error err => .error ("failed to parse ACL: " ++ err)
      | .ok id => .ok id

/-! ## The requests of the admin API (`services/versitygw.go`)

The request that each operation of `VersityGWService` builds, and what `signAndSend` (or the
copy of it inside `ChangeBucketOwner`) adds to it before it is sent. -/

/-- The round constants of SHA-256 (FIPS 180-4, 4.2.2). -/
def sha256K : List Nat :=
  [0x428a2f98, 0x71374491, 0xb5c0fbcf, 0xe9b5dba5, 0x3956c25b, 0x59f111f1,
   0x923f82a4, 0xab1c5ed5, 0xd807aa98, 0x12835b01, 0x243185be, 0x550c7dc3,
   0x72be5d74, 0x80deb1fe, 0x9bdc06a7, 0xc19bf174, 0xe49b69c1, 0xefbe4786,
   0x0fc19dc6, 0x240ca1cc, 0x2de92c6f, 0x4a7484aa, 0x5cb0a9dc, 0x76f988da,
   0x983e5152, 0xa831c66d, 0xb00327c8, 0xbf597fc7, 0xc6e00bf3, 0xd5a79147,
   0x06ca6351, 0x14292967, 0x27b70a85, 0x2e1b2138, 0x4d2c6dfc, 0x53380d13,
   0x650a7354, 0x766a0abb, 0x81c2c92e, 0x92722c85, 0xa2bfe8a1, 0xa81a664b,
   0xc24b8b70, 0xc76c51a3, 0xd192e819, 0xd6990624, 0xf40e3585, 0x106aa070,
   0x19a4c116, 0x1e376c08, 0x2748774c, 0x34b0bcb5, 0x391c0cb3, 0x4ed8aa4a,
   0x5b9cca4f, 0x682e6ff3, 0x748f82ee, 0x78a5636f, 0x84c87814, 0x8cc70208,
   0x90befffa, 0xa4506ceb, 0xbef9a3f7, 0xc67178f2]

/-- The initial hash value of SHA-256 (FIPS 180-4, 5.3.3). -/
def sha256Init : List Nat :=
  [0x6a09e667, 0xbb67ae85, 0x3c6ef372, 0xa54ff53a, 0x510e527f, 0x9b05688c,
   0x1f83d9ab, 0x5be0cd19]

/-- Rotation of a 32-bit word to the right. -/
def rotr32 (x n : Nat) : Nat := (x >>> n ||| x <<< (32 - n)) % 4294967296

/-- Addition of 32-bit words. -/
def add32 (x y : Nat) : Nat := (x + y) % 4294967296

/-- The padding of SHA-256: the byte 0x80, zero bytes up to 56 modulo 64, and the length of
the message in bits as eight bytes, the most significant first. -/
def sha256Pad (msg : List Nat) : List Nat :=
  msg ++ [128] ++ List.replicate ((119 - msg.length % 64) % 64) 0 ++
    (List.range 8).map fun i => (8 * msg.length) >>> (8 * (7 - i)) % 256

/-- The 32-bit words of a list of bytes, the most significant byte first. -/
def wordsOf : List Nat → List Nat
  | a :: b :: c :: d :: rest => (((a * 256 + b) * 256 + c) * 256 + d) :: wordsOf rest
  | _ => []

/-- The message schedule: `n` more words after the words `w` (the last word first). -/
def sha256Schedule : Nat → List Nat → List Nat
  | 0, w => w
  | n + 1, w =>
    let w2 := w.getD 1 0
    let w7 := w.getD 6 0
    let w15 := w.getD 14 0
    let w16 := w.getD 15 0
    let s0 := rotr32 w15 7 ^^^ rotr32 w15 18 ^^^ (w15 >>> 3)
    let s1 := rotr32 w2 17 ^^^ rotr32 w2 19 ^^^ (w2 >>> 10)
    sha256Schedule n (add32 (add32 (add32 w16 s0) w7) s1 :: w)

/-- One round of the compression function on the working variables `a` to `h`. -/
def sha256Round (v : List Nat) (kw : Nat × Nat) : List Nat :=
  match v with
  | [a, b, c, d, e, f, g, h] =>
    let S1 := rotr32 e 6 ^^^ rotr32 e 11 ^^^ rotr32 e 25
    let ch := (e &&& f) ^^^ ((4294967295 - e) &&& g)
    let t1 := add32 (add32 (add32 (add32 h S1) ch) kw.1) kw.2
    let S0 := rotr32 a 2 ^^^ rotr32 a 13 ^^^ rotr32 a 22
    let maj := (a &&& b) ^^^ (a &&& c) ^^^ (b &&& c)
    let t2 := add32 S0 maj
    [add32 t1 t2, a, b, c, add32 d t1, e, f, g]
  | _ => v

/-- The hash value after one more block of sixteen words. -/
def sha256Block (hash : List Nat) (block : List Nat) : List Nat :=
  let w := (sha256Schedule 48 block.reverse).reverse
  List.zipWith add32 hash ((sha256K.zip w).foldl sha256Round hash)

/-- The blocks of sixteen words of a padded message, hashed one after the other; `n` is the
number of blocks. -/
def sha256Blocks : Nat → List Nat → List Nat → List Nat
  | 0, hash, _ => hash
  | n + 1, hash, words => sha256Blocks n (sha256Block hash (words.take 16)) (words.drop 16)

/-- The function `sha256.Sum256`: the 32 bytes of the SHA-256 hash of a list of bytes. -/
def sha256Sum256 (msg : List Nat) : List Nat :=
  let words := wordsOf (sha256Pad msg)
  (sha256Blocks (words.length / 16) sha256Init words).flatMap fun x =>
    [x >>> 24 % 256, x >>> 16 % 256, x >>> 8 % 256, x % 256]

/-- The function `hex.EncodeToString`: two lowercase hexadecimal digits for every byte. -/
def hexEncodeToString (bytes : List Nat) : String :=
  String.mk (bytes.flatMap fun b => ["0123456789abcdef".data.getD (b / 16) '0',
    "0123456789abcdef".data.getD (b % 16) '0'])

/-- The bytes of a Go string: the UTF-8 encoding of its characters. -/
def bytesOf (s : String) : List Nat :=
  s.data.flatMap fun c => (String.utf8EncodeChar c).map UInt8.toNat

/-- The values of package `config` that the admin API uses. -/
structure Config where
  EndpointURL : String
  AdminAccess : String
  AdminSecret : String
  Region : String
  deriving DecidableEq, Repr

/-- The Go type `services.Account`. -/
structure Account where
  Access : String
  Secret : String
  Role : String
  UserID : Int
  GroupID : Int
  ProjectID : Int
  deriving DecidableEq, Repr

/-- The arguments of `http.NewRequest`: the method, the URL and the body (`none` is the `nil`
body). -/
structure Request where
  Method : String
  URL : String
  Body : Option String
  deriving DecidableEq, Repr

/-- A request as it is signed and sent: the request, the value of its header
`X-Amz-Content-Sha256`, and the arguments of `signer.SignHTTP` (the credentials, the payload
hash, the service name and the region). -/
structure SignedRequest where
  request : Request
  XAmzContentSha256 : String
  AccessKeyID : String
  SecretAccessKey : String
  payloadHash : String
  service : String
  region : String
  deriving DecidableEq, Repr

/-- The method `signAndSend`, up to the call of `signer.SignHTTP`: the header it sets and the
arguments it signs with. -/
def VersityGWService.signedRequest (cfg : Config) (httpReq : Request) (payload : String) :
    SignedRequest :=
  let hexPayload := hexEncodeToString (sha256Sum256 (bytesOf payload))
  { request := httpReq, XAmzContentSha256 := hexPayload, AccessKeyID := cfg.AdminAccess,
    SecretAccessKey := cfg.AdminSecret, payloadHash := hexPayload, service := "s3",
    region := cfg.Region }

/-- The request of `VersityGWService.CreateUser`; `xmlMarshal` is `xml.Marshal`. -/
def VersityGWService.createUserRequest (cfg : Config) (xmlMarshal : Account → String)
    (req : UserCreateRequest) : SignedRequest :=
  let acc : Account :=
    { Access := req.Access, Secret := req.Secret, Role := req.Role, UserID := req.UserID,
      GroupID := req.GroupID, ProjectID := req.ProjectID }
  let accxml := xmlMarshal acc
  let url := cfg.EndpointURL ++ "/create-user"
  VersityGWService.signedRequest cfg { Method := "PATCH", URL := url, Body := some accxml }
    accxml

/-- The request of `VersityGWService.UpdateUser`. -/
def VersityGWService.updateUserRequest (cfg : Config) (xmlMarshal : Account → String)
    (req : UserUpdateRequest) : SignedRequest :=
  let acc : Account :=
    { Access := req.Access, Secret := req.Secret, Role := req.Role, UserID := req.UserID,
      GroupID := req.GroupID, ProjectID := req.ProjectID }
  let accxml := xmlMarshal acc
  let url := cfg.EndpointURL ++ "/update-user?access=" ++ req.Access
  VersityGWService.signedRequest cfg { Method := "PATCH", URL := url, Body := some accxml }
    accxml

/-- The request of `VersityGWService.DeleteUser`. -/
def VersityGWService.deleteUserRequest (cfg : Config) (access : String) : SignedRequest :=
  let url := cfg.EndpointURL ++ "/delete-user?access=" ++ access
  VersityGWService.signedRequest cfg { Method := "PATCH", URL := url, Body := none } ""

/-- The request of `VersityGWService.ChangeBucketOwner`, which signs it itself. -/
def VersityGWService.changeBucketOwnerRequest (cfg : Config) (bucket owner : String) :
    SignedRequest :=
  let url := cfg.EndpointURL ++ "/change-bucket-owner/?bucket=" ++ bucket ++ "&owner=" ++ owner
  let hexPayload := hexEncodeToString (sha256Sum256 [])
  { request := { Method := "PATCH", URL := url, Body := none },
    XAmzContentSha256 := hexPayload, AccessKeyID := cfg.AdminAccess,
    SecretAccessKey := cfg.AdminSecret, payloadHash := hexPayload, service := "s3",
    region := cfg.Region }

/-- The request of `VersityGWService.SetBucketPolicy`. -/
def VersityGWService.setBucketPolicyRequest (cfg : Config) (bucket policy : String) :
    SignedRequest :=
  let url := cfg.EndpointURL ++ "/" ++ bucket ++ "?policy"
  VersityGWService.signedRequest cfg { Method := "PUT", URL := url, Body := some policy }
    policy

/-- The request of `VersityGWService.DeleteBucketPolicy`. -/
def VersityGWService.deleteBucketPolicyRequest (cfg : Config) (bucket : String) :
    SignedRequest :=
  let url := cfg.EndpointURL ++ "/" ++ bucket ++ "?policy"
  VersityGWService.signedRequest cfg { Method := "DELETE", URL := url, Body := none } ""

/-- The request of `VersityGWService.DeleteBucket`. -/
def VersityGWService.deleteBucketRequest (cfg : Config) (bucket : String) : SignedRequest :=
  let url := cfg.EndpointURL ++ "/" ++ bucket
  VersityGWService.signedRequest cfg { Method := "DELETE", URL := url, Body := none } ""

/-- The request of `VersityGWService.GetBucketPolicy`. -/
def VersityGWService.getBucketPolicyRequest (cfg : Config) (bucket : String) : SignedRequest :=
  let url := cfg.EndpointURL ++ "/" ++ bucket ++ "?policy"
  VersityGWService.signedRequest cfg { Method := "GET", URL := url, Body := none } ""

/-- The request of `VersityGWService.ListBuckets`. -/
def VersityGWService.listBucketsRequest (cfg : Config) : SignedRequest :=
  let url := cfg.EndpointURL ++ "/"
  VersityGWService.signedRequest cfg { Method := "GET", URL := url, Body := none } ""

/-- The request of `VersityGWService.GetBucketOwner`. -/
def VersityGWService.getBucketOwnerRequest (cfg : Config) (bucket : String) : SignedRequest :=
  let url := cfg.EndpointURL ++ "/" ++ bucket ++ "?acl"
  VersityGWService.signedRequest cfg { Method := "GET", URL := url, Body := none } ""

/-! ## Definitions for the proofs and example worlds -/

/-- Every call that the computation makes, in any world, satisfies `P`. -/
def CallsSat {W α : Type} (P : Call → Prop) (x : Eff W α) : Prop := ∀ w, ∀ c ∈ (x w).calls, P c

/-- The three provisioning steps, as `runProvision` and `handleProvision` both run them: the
results `k1`, `k2`, `k3` for a failure of the first, second or third step, `k4` for success. -/
def threeSteps {W α : Type} (env : Env W) (req : UserCreateRequest) (breq : BucketCreateRequest)
    (bucket owner : String) (k1 k2 k3 : String → α) (k4 : α) : Eff W α := do
  let err ← VersityGWService.CreateUser env req
  match err with
  | some e => pure (k1 e)
  | none => do
    let err2 ← BucketService.CreateBucket env breq
    match err2 with
    | some e => pure (k2 e)
    | none => do
      let err3 ← VersityGWService.ChangeBucketOwner env bucket owner
      match err3 with
      | some e => pure (k3 e)
      | none => pure k4

/-- Fixed answers of the outside world, for examples. -/
structure Answers where
  users : Except String (List User)
  zfsList : String × Option String
  zfsCreate : String × Option String
  zfsDestroy : String × Option String
  apiList : Except String (List BucketInfo)
  acl : String → Except String String
  policy : String → Except String String
  createUser : Option String
  updateUser : Option String
  deleteUser : Option String
  changeOwner : Option String
  setPolicy : Option String
  deletePolicy : Option String
  clipboard : Option String
  random : List Nat

def Answers.env (a : Answers) : Env Unit :=
  { ZFSPoolBase := "tank/s3/buckets"
    MountBase := "/tank/s3/buckets"
    ListUsers := fun _ => a.users
    zfs := fun _ args =>
      if args.head? = some "list" then a.zfsList
      else if args.head? = some "create" then a.zfsCreate
      else a.zfsDestroy
    zfsEffect := fun _ _ => ()
    CreateUser := fun _ _ => (a.createUser, ())
    UpdateUser := fun _ _ => (a.updateUser, ())
    DeleteUser := fun _ _ => (a.deleteUser, ())
    ChangeBucketOwner := fun _ _ _ => (a.changeOwner, ())
    SetBucketPolicy := fun _ _ _ => (a.setPolicy, ())
    DeleteBucketPolicy := fun _ _ => (a.deletePolicy, ())
    GetBucketPolicy := fun _ b => a.policy b
    ListBuckets := fun _ => a.apiList
    GetBucketOwner := fun _ b => a.acl b
    clipboardWriteAll := fun _ _ => (a.clipboard, ())
    randRead := fun _ _ => (a.random, ())
    inputUpdate := fun t key => if key.length = 1 then { t with value := t.value ++ key } else t
    inputSanitize := fun s => s
    provisionLineCount := fun _ => 40 }

def quiet : Answers :=
  { users := .ok [], zfsList := ("", none), zfsCreate := ("", none), zfsDestroy := ("", none),
    apiList := .ok [], acl := fun _ => .error "no acl", policy := fun _ => .error "404",
    createUser := none, updateUser := none, deleteUser := none, changeOwner := none,
    setPolicy := none, deletePolicy := none, clipboard := none, random := [] }

def scen : Answers := { quiet with
  zfsList := ("tank/s3/buckets\t/tank/s3/buckets\tnone\t1G\t9G\ntank/s3/buckets/alpha\t/tank/s3/buckets/alpha\t1T\t10G\t90G\n", none),
  apiList := .ok [⟨"beta", "", "carol"⟩, ⟨"alpha", "", "bob"⟩] }

/-- A world whose dataset list holds `alpha`, whose API list is fetched and is empty, and whose
ACL lookup names `bob` as the owner of `alpha`. -/
def aclOnly : Answers := { quiet with
  zfsList := ("tank/s3/buckets/alpha\t/tank/s3/buckets/alpha\t1T\t10G\t90G\n", none),
  apiList := .ok [],
  acl := fun b => if b = "alpha" then .ok "bob" else .error "no acl" }

/-- A world whose API list names the bucket `a` twice and whose dataset list is empty. -/
def twice : Answers := { quiet with apiList := .ok [⟨"a", "", "x"⟩, ⟨"a", "", "y"⟩] }

/-- A world in which the dataset listing and the API listing both fail. -/
def bothFail : Answers := { quiet with
  zfsList := ("cannot open pool", some "exit status 1"),
  apiList := .error "failed to send request: connection refused" }

/-- A session on the main menu with the cursor on "List Buckets" and a bucket list loaded
earlier. -/
def menuOnBuckets : Model := { NewModel with
  cursor := 1, buckets := [⟨"old", "/tank/s3/buckets/old", "1T", "1G", "9G", "bob"⟩] }

/-- A world whose dataset list holds `alpha` and whose API listing fails. -/
def apiDown : Answers := { scen with apiList := .error "connection refused" }

/-- The keys that open the Make Bucket Public form from the main menu, type the bucket `b`
and the owner `o`, and press its submit button. -/
def makePublicKeys : List Msg :=
  ["down", "down", "enter", "down", "down", "down", "enter", "b", "tab", "o", "tab",
    "enter"].map Msg.KeyMsg

/-- The keys that open the provision form from the main menu, type the access key `u`, add `x`
to the user ID `0`, type the bucket name `b`, move to the submit button and press it. -/
def provisionKeys : List Msg :=
  ["down", "down", "enter", "down", "down", "down", "down", "enter", "u", "tab", "tab", "tab",
    "x", "tab", "tab", "tab", "b", "tab", "tab", "tab", "enter"].map Msg.KeyMsg

/-- A world in which creating a dataset fails. -/
def bucketFails : Answers := { quiet with
  zfsCreate := ("cannot create dataset: dataset already exists", some "exit status 1") }

/-- The provisioning input of the scenario: access `u1`, role `user`, bucket `b1`, quota `2T`,
no owner and no secret. -/
def provisionDemo : provisionConfig :=
  { Access := "u1", Secret := "", Role := "user", UserID := 0, GroupID := 0, ProjectID := 0,
    Bucket := "b1", Quota := "2T", Owner := "" }

/-- The keys that list the buckets from the main menu, ask to delete the first one and
confirm with `y`. -/
def deleteKeys : List Msg := ["down", "enter", "d", "y"].map Msg.KeyMsg

/-- The keys that open the provision form from the main menu, type the access key `u` and the
bucket name `b`, move to the submit button and press it. -/
def provisionSubmitKeys : List Msg :=
  ["down", "down", "enter", "down", "down", "down", "down", "enter", "u", "tab", "tab", "tab",
    "tab", "tab", "tab", "b", "tab", "tab", "tab", "enter"].map Msg.KeyMsg

/-- The value that the computation returns, in any world, satisfies `P`. -/
def ValSat {W α : Type} (P : α → Prop) (x : Eff W α) : Prop := ∀ w, P (x w).val

/-- The outcome is a panic, or a next state that satisfies `Q`. -/
def Outcome.Sat (Q : Model → Prop) : Outcome → Prop
  | .next m _ => Q m
  | .panic => True

/-- The views a session returns to: the main menu, the Operations menu and the two lists. -/
def plainView (v : View) : Prop :=
  v = .MainMenuView ∨ v = .OperationsView ∨ v = .UsersListView ∨ v = .BucketsListView

/-- The well-formedness of a session state, on the fields it is about: the current view, the
return view, the pending action, the numbers of inputs of the four input lists and the focus
index. -/
def WFc (cv rv : View) (pa : String) (nu nb no np : Nat) (fi : Int) : Prop :=
  plainView rv ∧
  (cv = .ConfirmView →
    (pa = "delete_user" ∧ rv = .UsersListView) ∨
    ((pa = "delete_bucket" ∨ pa = "make_public" ∨ pa = "make_private") ∧
      rv = .BucketsListView)) ∧
  (cv = .CreateUserView ∨ cv = .UpdateUserView → nu = 3 ∧ 0 ≤ fi ∧ fi ≤ 4) ∧
  (cv = .CreateBucketView → nb = 3 ∧ 0 ≤ fi ∧ fi ≤ 4) ∧
  (cv = .MakeBucketPublicView → nb = 2 ∧ 0 ≤ fi ∧ fi ≤ 3) ∧
  (cv = .ChangeOwnerView → no = 2 ∧ 0 ≤ fi ∧ fi ≤ 3) ∧
  (cv = .ProvisionView → np = 9 ∧ 0 ≤ fi ∧ fi ≤ 10) ∧
  (cv = .CreateUserView ∨ cv = .CreateBucketView ∨ cv = .ChangeOwnerView ∨ cv = .ProvisionView →
    rv = .OperationsView) ∧
  (cv = .UpdateUserView → rv = .UsersListView) ∧
  (cv = .MakeBucketPublicView → rv = .OperationsView ∨ rv = .BucketsListView)

/-- A well-formed session state: the return view is the main menu, the Operations menu or a
list; in the Confirm view the pending action is one of the four actions and the return view is
the list the action belongs to; in a form view the form has its inputs, the focus index is on
an input or on one of the two buttons, and the return view is the view the form is opened
from. -/
def WF (m : Model) : Prop :=
  WFc m.currentView m.returnView m.pendingAction m.userFormInputs.length
    m.bucketFormInputs.length m.changeOwnerFormInputs.length m.provisionFormInputs.length
    m.focusIndex

/-- The first repair of `setReloadedUsers`: a page beyond the last page becomes the last page. -/
def reloadPage (m : Model) (newMaxPage : Int) : Model :=
  if m.page > newMaxPage then { m with page := newMaxPage, cursor := 0 } else m

/-- The second repair of `setReloadedUsers`: the cursor is put on an item of the page. -/
def reloadCursor (m : Model) (itemsOnPage : Int) : Model :=
  if itemsOnPage ≤ 0 then
    (if m.page > 0 then { m with page := m.page - 1, cursor := 0 } else { m with cursor := 0 })
  else if m.cursor ≥ itemsOnPage then { m with cursor := itemsOnPage - 1 }
  else m

/-- The pending action and target after a step, against those before it: both are empty, or
the view is the Confirm view, or both are as before. -/
def PendOK (m m1 : Model) : Prop :=
  (m1.pendingAction = "" ∧ m1.pendingTarget = "") ∨ m1.currentView = .ConfirmView ∨
    (m1.pendingAction = m.pendingAction ∧ m1.pendingTarget = m.pendingTarget)

/-- The messages that leave the Confirm view without an answer: the keys esc, q and ctrl+c. -/
def leavesConfirm (msg : Msg) : Prop :=
  msg = .KeyMsg "esc" ∨ msg = .KeyMsg "q" ∨ msg = .KeyMsg "ctrl+c"

/-- The six form views, which `Update` hands to the form handlers. -/
def View.isForm : View → Bool
  | .CreateUserView | .CreateBucketView | .ChangeOwnerView | .ProvisionView | .UpdateUserView
  | .MakeBucketPublicView => true
  | _ => false

/-- The state with both messages emptied, as `Update` makes it before it looks at the key. -/
def Model.clearMessages (m : Model) : Model := { m with errorMessage := "", successMessage := "" }

/-- The keys that list the buckets from the main menu, ask to delete the first one and leave
the confirmation with `esc`. -/
def escapeKeys : List Msg := ["down", "enter", "d", "esc"].map Msg.KeyMsg

/-- The keys that list the buckets from the main menu and ask to delete the first one. -/
def askKeys : List Msg := ["down", "enter", "d"].map Msg.KeyMsg

/-- A user of the example registry. -/
def demoUser : User :=
  { Access := "u", Secret := "s", Role := "user", UserID := 0, GroupID := 0, ProjectID := 0 }

/-- A world whose state tells whether the user registry has shrunk: the registry lists 21 users
at first and one user after a user was updated or deleted (the other users were removed in the
meantime); every operation succeeds. -/
def registryShrinks : Env Bool :=
  { ZFSPoolBase := "tank/s3/buckets"
    MountBase := "/tank/s3/buckets"
    ListUsers := fun w => .ok (if w then [demoUser] else List.replicate 21 demoUser)
    zfs := fun _ _ => ("", none)
    zfsEffect := fun w _ => w
    CreateUser := fun w _ => (none, w)
    UpdateUser := fun _ _ => (none, true)
    DeleteUser := fun _ _ => (none, true)
    ChangeBucketOwner := fun w _ _ => (none, w)
    SetBucketPolicy := fun w _ _ => (none, w)
    DeleteBucketPolicy := fun w _ => (none, w)
    GetBucketPolicy := fun _ _ => .error "404"
    ListBuckets := fun _ => .ok []
    GetBucketOwner := fun _ _ => .error "no acl"
    clipboardWriteAll := fun w _ => (none, w)
    randRead := fun w _ => ([], w)
    inputUpdate := fun t key => if key.length = 1 then { t with value := t.value ++ key } else t
    inputSanitize := fun s => s
    provisionLineCount := fun _ => 40 }

/-- The keys that list the users, go to the second page, open the update form for the user
under the cursor and submit it unchanged. -/
def updateOnPageTwoKeys : List Msg :=
  ["enter", "right", "e", "tab", "tab", "enter"].map Msg.KeyMsg

/-- The keys that list the users, go to the second page, ask to delete the user under the
cursor and confirm. -/
def deleteOnPageTwoKeys : List Msg := ["enter", "right", "d", "y"].map Msg.KeyMsg

/-- The inputs of the form that a form view shows. -/
def Model.formInputs (m : Model) : List TextInput :=
  match m.currentView with
  | .CreateUserView | .UpdateUserView => m.userFormInputs
  | .CreateBucketView | .MakeBucketPublicView => m.bucketFormInputs
  | .ChangeOwnerView => m.changeOwnerFormInputs
  | .ProvisionView => m.provisionFormInputs
  | _ => []

/-- The keys that open the create-bucket form from the main menu, move to its submit button
and press it with the bucket name empty. -/
def emptySubmitKeys : List Msg :=
  ["down", "down", "enter", "down", "enter", "tab", "tab", "tab", "enter"].map Msg.KeyMsg

/-- The messages of a state are those of another. -/
def sameMessages (m m1 : Model) : Prop :=
  m1.errorMessage = m.errorMessage ∧ m1.successMessage = m.successMessage

/-- The owner that the confirmed make-public action puts into the policy: the owner of the
bucket, or the bucket name when the owner is empty, "unknown" or "root". -/
def resolvedOwner (bucket : Bucket) : String :=
  if bucket.Owner = "" ∨ bucket.Owner = "unknown" ∨ bucket.Owner = "root" then bucket.Name
  else bucket.Owner

/-- The text of the error that the make-public form shows after "Auto-public failed: ": the
error itself when it has at most 50 bytes, its first 47 bytes and "..." otherwise. -/
def shortError (e : String) : String :=
  if e.utf8ByteSize > 50 then String.mk (bytePrefix e.data 47) ++ "..." else e

/-- The state in which the confirmed make-public action leaves the session when
SetBucketPolicy fails with `e`: the make-public form with the bucket name and the owner put
into its two inputs. -/
def Model.makePublicRetry {W : Type} (env : Env W) (m : Model) (bucket : Bucket) (e : String) :
    Model :=
  { m with
    bucketFormInputs :=
      [TextInput.SetValue env
          { TextInput.New with CharLimit := 64, Placeholder := "Bucket Name" }.Focus bucket.Name,
        (TextInput.SetValue env
          { TextInput.New with CharLimit := 64, Placeholder := "Owner Access Key" }
          (resolvedOwner bucket)).Focus],
    focusIndex := 1, currentView := .MakeBucketPublicView, returnView := .BucketsListView,
    errorMessage := "Auto-public failed: " ++ shortError e,
    pendingAction := "", pendingTarget := "" }

/-- A world whose only dataset has a name of 65 characters and no policy, and in which
SetBucketPolicy fails. -/
def longName : Answers := { quiet with
  zfsList := ("tank/s3/buckets/a123456789b123456789c123456789d123456789e123456789f123456789g1234\t/tank/s3/buckets/a123456789b123456789c123456789d123456789e123456789f123456789g1234\t1T\t10G\t90G\n", none),
  setPolicy := some "failed to set bucket policy: API error (status 500): internal error" }

/-- The keys that list the buckets from the main menu and ask to make the first one public. -/
def askPublicKeys : List Msg := ["down", "enter", "p"].map Msg.KeyMsg

/-- The keys that list the buckets from the main menu, ask to make the first one public and
confirm with `y`. -/
def confirmPublicKeys : List Msg := ["down", "enter", "p", "y"].map Msg.KeyMsg

/-- The record that the specification gives for one line of the tool output: none unless the
line has at least five whitespace-separated fields and its first field starts with the pool
base followed by "/"; then the name is the first field without that start, the next four
fields are the mountpoint, the quota, the used and the available space, and the owner is
"-". -/
def datasetRecord (poolBase line : String) : Option Bucket :=
  let fields := Fields line
  if 5 ≤ fields.length ∧ HasPrefix (fields.getD 0 "") (poolBase ++ "/") = true then
    some
      { Name := String.mk ((fields.getD 0 "").data.drop (poolBase ++ "/").data.length),
        Mountpoint := fields.getD 1 "", Quota := fields.getD 2 "", Used := fields.getD 3 "",
        Available := fields.getD 4 "", Owner := "-" }
  else none

/-- The output of `zfs list` in a pool that holds the base dataset, the buckets `beta` and
`alpha` (in this order), a dataset outside the base and a line with three fields. -/
def datasetOutput : String :=
  "tank/s3/buckets\t/tank/s3/buckets\tnone\t1G\t9G\n" ++
  "tank/s3/buckets/beta\t/tank/s3/buckets/beta\t2T\t20G\t80G\n" ++
  "tank/s3/buckets/alpha\t/tank/s3/buckets/alpha\t1T\t10G\t90G\n" ++
  "tank/other/gamma\t/tank/other/gamma\t1T\t10G\t90G\n" ++
  "tank/s3/buckets/short\t/x\t1T\n"

/-- The requests of the ten operations of the admin API, for given arguments. -/
def adminRequests (cfg : Config) (xmlMarshal : Account → String) (create : UserCreateRequest)
    (update : UserUpdateRequest) (access bucket owner policy : String) : List SignedRequest :=
  [VersityGWService.createUserRequest cfg xmlMarshal create,
    VersityGWService.updateUserRequest cfg xmlMarshal update,
    VersityGWService.deleteUserRequest cfg access,
    VersityGWService.changeBucketOwnerRequest cfg bucket owner,
    VersityGWService.setBucketPolicyRequest cfg bucket policy,
    VersityGWService.deleteBucketPolicyRequest cfg bucket,
    VersityGWService.deleteBucketRequest cfg bucket,
    VersityGWService.getBucketPolicyRequest cfg bucket,
    VersityGWService.listBucketsRequest cfg,
    VersityGWService.getBucketOwnerRequest cfg bucket]

/-- The bytes that a request sends as its body: none for the `nil` body. -/
def Request.bodyBytes (r : Request) : List Nat :=
  match r.Body with
  | some body => bytesOf body
  | none => []

/-- The default configuration of `config/config.go`. -/
def defaultConfig : Config :=
  { EndpointURL := "http://localhost:7070", AdminAccess := "changeme-access",
    AdminSecret := "changeme-secret", Region := "local" }

/-- The 6-bit value of a character of the standard base64 alphabet. -/
def base64Value (c : Char) : Option Nat :=
  if base64Alphabet.indexOf c < 64 then some (base64Alphabet.indexOf c) else none

/-- Standard base64 decoding of a text without padding: every four characters of the
alphabet give three bytes. -/
def base64Decode : List Char → Option (List Nat)
  | [] => some []
  | c0 :: c1 :: c2 :: c3 :: rest =>
    match base64Value c0, base64Value c1, base64Value c2, base64Value c3, base64Decode rest with
    | some v0, some v1, some v2, some v3, some bytes =>
      some ((v0 * 4 + v1 / 16) :: (v1 % 16 * 16 + v2 / 4) :: (v2 % 4 * 64 + v3) :: bytes)
    | _, _, _, _, _ => none
  | _ => none

/-- A world whose random source delivers the 48 bytes 0, 5, 10, ..., 235. -/
def dice : Answers := { quiet with random := (List.range 48).map fun i => i * 5 }

/-- The bucket list of an outcome of the session, if there is one. -/
def Outcome.buckets : Outcome → Option (List Bucket)
  | .next m _ => some m.buckets
  | .panic => none

/-- The last user of the example registry. -/
def lastUser : User :=
  { Access := "zoe", Secret := "zs", Role := "admin", UserID := 0, GroupID := 0, ProjectID := 0 }

/-- A world whose user registry holds 21 users, twenty times `demoUser` and then `lastUser`,
and in which every operation succeeds. -/
def crowd : Answers := { quiet with users := .ok (List.replicate 20 demoUser ++ [lastUser]) }

/-- The keys that list the users and open the update form for the first one. -/
def editKeys : List Msg := ["enter", "e"].map Msg.KeyMsg

/-- The keys that list the users, open the update form for the first one, move the focus back
to the access-key field, type `x` there, move to the submit button and press it. -/
def editAccessKeys : List Msg :=
  ["enter", "e", "shift+tab", "x", "tab", "tab", "tab", "enter"].map Msg.KeyMsg

/-- The keys that list the users, go to the second page and copy the credentials of the user
under the cursor. -/
def copyOnPageTwoKeys : List Msg := ["enter", "right", "c"].map Msg.KeyMsg

/-- The keys that list the users, go to the second page and ask to delete the user under the
cursor. -/
def askDeleteOnPageTwoKeys : List Msg := ["enter", "right", "d"].map Msg.KeyMsg

/-- The keys that list the users, go to the second page and open the user under the cursor. -/
def openOnPageTwoKeys : List Msg := ["enter", "right", "enter"].map Msg.KeyMsg

/-- The keys that list the users, go to the second page and open the update form for the user
under the cursor. -/
def editOnPageTwoKeys : List Msg := ["enter", "right", "e"].map Msg.KeyMsg

/-- The keys that list the users, go to the second page, return to the main menu and press
`down`. -/
def menuAfterPageTwoKeys : List Msg := ["enter", "right", "esc", "down"].map Msg.KeyMsg

/-- The keys that list the users, return to the main menu and press `down`. -/
def menuAfterPageOneKeys : List Msg := ["enter", "esc", "down"].map Msg.KeyMsg

/-- The state in which the form that the current view shows has the inputs `inputs`. -/
def Model.setFormInputs (m : Model) (inputs : List TextInput) : Model :=
  match m.currentView with
  | .CreateUserView | .UpdateUserView => { m with userFormInputs := inputs }
  | .CreateBucketView | .MakeBucketPublicView => { m with bucketFormInputs := inputs }
  | .ChangeOwnerView => { m with changeOwnerFormInputs := inputs }
  | .ProvisionView => { m with provisionFormInputs := inputs }
  | _ => m

/-- The keys that a form handler has a case for: in every form `ctrl+c`, `esc`, `q`, `tab`,
`shift+tab`, `up`, `down` and `enter`, and in the provision form also `pgup`, `pgdown`,
`home` and `end`. -/
def formKeys : List String :=
  ["ctrl+c", "esc", "q", "tab", "shift+tab", "up", "down", "enter", "pgup", "pgdown", "home",
    "end"]

/-- The keys that open the provision form from the main menu. -/
def openProvisionFormKeys : List Msg :=
  ["down", "down", "enter", "down", "down", "down", "down", "enter"].map Msg.KeyMsg

/-- The keys that open the create-bucket form from the main menu. -/
def openBucketFormKeys : List Msg := ["down", "down", "enter", "down", "enter"].map Msg.KeyMsg

/-- The keys of `emptySubmitKeys`, which submit the create-bucket form with the bucket name
empty, followed by the keys that move the focus to the bucket name, type `b`, move to the
submit button and press it again. -/
def retryBucketKeys : List Msg :=
  emptySubmitKeys ++ ["tab", "tab", "b", "tab", "tab", "tab", "enter"].map Msg.KeyMsg

/-! ## Lemmas -/

@[simp] theorem run_pure {W α : Type} (a : α) (w : W) : (pure a : Eff W α) w = ⟨a, w, []⟩ := rfl

@[simp] theorem run_bind {W α β : Type} (x : Eff W α) (f : α → Eff W β) (w : W) :
    (x >>= f) w = ⟨(f (x w).val (x w).world).val, (f (x w).val (x w).world).world,
      (x w).calls ++ (f (x w).val (x w).world).calls⟩ := rfl

@[simp] theorem run_read {W α : Type} (c : Call) (f : W → α) (w : W) :
    Eff.read c f w = ⟨f w, w, [c]⟩ := rfl

@[simp] theorem run_act {W α : Type} (c : Call) (f : W → α × W) (w : W) :
    Eff.act c f w = ⟨(f w).1, (f w).2, [c]⟩ := rfl

theorem charsLess_irrefl (a : List Char) : charsLess a a = false := by
  induction a with
  | nil => rfl
  | cons c cs ih => simp [charsLess, ih]

theorem charsLess_total : ∀ a b : List Char, charsLess a b = false ∨ charsLess b a = false := by
  intro a
  induction a with
  | nil => intro b; right; cases b <;> rfl
  | cons c cs ih =>
    intro b
    cases b with
    | nil => left; rfl
    | cons d ds =>
      simp only [charsLess]
      rcases Nat.lt_trichotomy c.toNat d.toNat with h | h | h
      · right; simp [h, Nat.lt_asymm h]
      · simp [h]; exact ih ds
      · left; simp [h, Nat.lt_asymm h]

theorem charsLess_trans : ∀ a b c : List Char,
    charsLess b a = false → charsLess c b = false → charsLess c a = false := by
  intro a
  induction a with
  | nil => intro b c _ _; cases c <;> rfl
  | cons x xs ih =>
    intro b c hba hcb
    cases b with
    | nil => simp [charsLess] at hba
    | cons d ds =>
      cases c with
      | nil => simp [charsLess] at hcb
      | cons e es =>
        simp only [charsLess] at *
        split_ifs at hba hcb ⊢
        all_goals first | rfl | omega | exact absurd hba (by decide) | exact absurd hcb (by decide) | exact ih ds es hba hcb

instance : IsTotal Bucket nameLE :=
  ⟨fun a b => (charsLess_total b.Name.data a.Name.data)⟩

instance : IsTrans Bucket nameLE :=
  ⟨fun a b c hab hbc => charsLess_trans a.Name.data b.Name.data c.Name.data hab hbc⟩

/-- Sorting gives a list sorted by name. -/
theorem sortBuckets_sorted (l : List Bucket) : (sortBuckets l).Sorted nameLE :=
  List.sorted_insertionSort nameLE l

/-- Sorting rearranges the list. -/
theorem sortBuckets_perm (l : List Bucket) : (sortBuckets l).Perm l :=
  List.perm_insertionSort nameLE l

theorem mem_sortBuckets {l : List Bucket} {b : Bucket} : b ∈ sortBuckets l ↔ b ∈ l :=
  (sortBuckets_perm l).mem_iff

theorem char_lt_iff (c d : Char) : c < d ↔ c.toNat < d.toNat := by
  rw [Char.lt_def]
  exact Iff.rfl

theorem charsLess_iff_lt : ∀ a b : List Char, charsLess a b = true ↔ List.lt a b := by
  intro a
  induction a with
  | nil =>
    intro b
    cases b with
    | nil => simp [charsLess]; intro h; cases h
    | cons d ds => simp [charsLess]; exact List.lt.nil d ds
  | cons c cs ih =>
    intro b
    cases b with
    | nil => simp [charsLess]; intro h; cases h
    | cons d ds =>
      simp only [charsLess]
      constructor
      · intro h
        by_cases h1 : c.toNat < d.toNat
        · exact List.lt.head _ _ ((char_lt_iff c d).mpr h1)
        · by_cases h2 : d.toNat < c.toNat
          · simp [h1, h2] at h
          · simp only [h1, h2, if_false] at h
            exact List.lt.tail (fun hh => h1 ((char_lt_iff c d).mp hh))
              (fun hh => h2 ((char_lt_iff d c).mp hh)) ((ih ds).mp h)
      · intro h
        cases h with
        | head _ _ hlt => simp [(char_lt_iff c d).mp hlt]
        | tail h1 h2 h3 =>
          have h1' : ¬ c.toNat < d.toNat := fun hh => h1 ((char_lt_iff c d).mpr hh)
          have h2' : ¬ d.toNat < c.toNat := fun hh => h2 ((char_lt_iff d c).mpr hh)
          simp [h1', h2', (ih ds).mpr h3]

/-- The comparison `goLess` is the order of strings. -/
theorem goLess_iff_lt (a b : String) : goLess a b = true ↔ a < b := by
  rw [String.lt_iff_toList_lt]
  exact (charsLess_iff_lt a.data b.data).trans (List.lt_iff_lex_lt _ _)

theorem nameLE_iff (a b : Bucket) : nameLE a b ↔ a.Name ≤ b.Name := by
  unfold nameLE
  rw [← not_lt, ← goLess_iff_lt]
  simp

/-- A list sorted by `sort.Slice` has its names in ascending order. -/
theorem sorted_names_of_sorted {l : List Bucket} (h : l.Sorted nameLE) :
    l.Pairwise fun a b => a.Name ≤ b.Name :=
  List.Pairwise.imp (fun {a b} hab => (nameLE_iff a b).mp hab) h

theorem goMap_append_singleton {α : Type} (key : α → String) (l : List α) (x : α) (k : String) :
    goMap key (l ++ [x]) k = if k = key x then some x else goMap key l k := by
  simp [goMap, List.foldl_append]

theorem goMap_isSome {α : Type} (key : α → String) (l : List α) (k : String) :
    (goMap key l k).isSome = true ↔ k ∈ l.map key := by
  induction l using List.reverseRecOn with
  | nil => simp [goMap]
  | append_singleton l x ih =>
    rw [goMap_append_singleton]
    by_cases h : k = key x
    · simp [h]
    · simp [h, ih]

theorem goMap_some {α : Type} (key : α → String) (l : List α) (k : String) (x : α)
    (h : goMap key l k = some x) : x ∈ l ∧ key x = k := by
  induction l using List.reverseRecOn with
  | nil => simp [goMap] at h
  | append_singleton l y ih =>
    rw [goMap_append_singleton] at h
    by_cases hk : k = key y
    · simp [hk] at h; subst h; simp [hk]
    · simp [hk] at h
      have := ih h
      exact ⟨List.mem_append_left _ this.1, this.2⟩

theorem goMap_eq_find {α : Type} (key : α → String) (l : List α) (k : String) :
    goMap key l k = l.reverse.find? (fun x => key x = k) := by
  induction l using List.reverseRecOn with
  | nil => simp [goMap]
  | append_singleton l y ih =>
    rw [goMap_append_singleton, List.reverse_append]
    by_cases hk : k = key y
    · simp [hk]
    · have : ¬ key y = k := fun h => hk h.symm
      simp [hk, this, ih]

theorem applyOwners_run {W : Type} (env : Env W) (apiMap : String → Option BucketInfo) (w : W)
    (l : List Bucket) :
    applyOwners env apiMap l w =
      ⟨l.map fun b => adoptTrueOwner (env.GetBucketOwner w b.Name) (adoptApiOwner apiMap b), w,
        l.map fun b => Call.GetBucketOwner b.Name⟩ := by
  induction l with
  | nil => rfl
  | cons b rest ih =>
    simp [applyOwners, VersityGWService.GetBucketOwner, ih]

theorem addPlaceholders_run {W : Type} (env : Env W) (zfsMap : String → Option Bucket) (w : W)
    (l : List BucketInfo) :
    addPlaceholders env zfsMap l w =
      ⟨(l.filter fun a => !(zfsMap a.Name).isSome).map fun a =>
          adoptTrueOwner (env.GetBucketOwner w a.Name) (placeholder a), w,
        (l.filter fun a => !(zfsMap a.Name).isSome).map fun a => Call.GetBucketOwner a.Name⟩ := by
  induction l with
  | nil => rfl
  | cons a rest ih =>
    cases h : zfsMap a.Name with
    | some z => simp [addPlaceholders, h, ih]
    | none => simp [addPlaceholders, h, VersityGWService.GetBucketOwner, ih]

theorem mergeApi_run {W : Type} (env : Env W) (w : W) (buckets : List Bucket) (apiBuckets : List BucketInfo) :
    mergeApi env buckets apiBuckets w =
      ⟨(buckets.map fun b => adoptTrueOwner (env.GetBucketOwner w b.Name)
            (adoptApiOwner (goMap BucketInfo.Name apiBuckets) b)) ++
          (apiBuckets.filter fun a => !(goMap Bucket.Name buckets a.Name).isSome).map fun a =>
            adoptTrueOwner (env.GetBucketOwner w a.Name) (placeholder a), w,
        (buckets.map fun b => Call.GetBucketOwner b.Name) ++
          (apiBuckets.filter fun a => !(goMap Bucket.Name buckets a.Name).isSome).map fun a =>
            Call.GetBucketOwner a.Name⟩ := by
  simp [mergeApi, applyOwners_run, addPlaceholders_run]

/-- The dataset list that both merge paths start from: the records of
`BucketService.ListBuckets`, or the empty list when it fails. -/
theorem bucketService_run {W : Type} (env : Env W) (w : W) :
    BucketService.ListBuckets env w =
      ⟨BucketService.listResult env.ZFSPoolBase
        (env.zfs w (BucketService.listArgs env.ZFSPoolBase)), w, [Call.BucketListBuckets]⟩ := rfl

theorem listBucketsMain_run {W : Type} (env : Env W) (w : W) :
    listBucketsMain env w =
      match (BucketService.ListBuckets env w).val, env.ListBuckets w with
      | .ok buckets, .ok apiBuckets =>
        ⟨{ stderr := "", buckets := some (sortBuckets (mergeApi env buckets apiBuckets w).val) },
          w, [Call.BucketListBuckets, Call.ListBuckets] ++ (mergeApi env buckets apiBuckets w).calls⟩
      | .error err, .ok apiBuckets =>
        ⟨{ stderr := "Warning: Error listing ZFS buckets: " ++ err ++ "\n",
           buckets := some (sortBuckets (mergeApi env [] apiBuckets w).val) },
          w, [Call.BucketListBuckets, Call.ListBuckets] ++ (mergeApi env [] apiBuckets w).calls⟩
      | .ok buckets, .error _ =>
        ⟨{ stderr := "", buckets := some (sortBuckets buckets) }, w,
          [Call.BucketListBuckets, Call.ListBuckets]⟩
      | .error err, .error apiErr =>
        ⟨{ stderr := "Warning: Error listing ZFS buckets: " ++ err ++ "\n" ++
             "Error listing buckets: ZFS(" ++ err ++ ") API(" ++ apiErr ++ ")\n",
           buckets := none }, w, [Call.BucketListBuckets, Call.ListBuckets]⟩ := by
  simp only [listBucketsMain, run_bind, bucketService_run, VersityGWService.ListBuckets, run_read]
  cases BucketService.listResult env.ZFSPoolBase
      (env.zfs w (BucketService.listArgs env.ZFSPoolBase)) <;>
    cases env.ListBuckets w <;> simp [mergeApi_run]

theorem listBuckets_run {W : Type} (env : Env W) (m : Model) (w : W) :
    m.listBuckets env w =
      match (BucketService.ListBuckets env w).val, env.ListBuckets w with
      | .ok buckets, .ok apiBuckets =>
        ⟨.next { m with
            buckets := sortBuckets (mergeApi env buckets apiBuckets w).val,
            currentView := .BucketsListView, cursor := 0, page := 0 } .nil,
          w, [Call.BucketListBuckets, Call.ListBuckets] ++ (mergeApi env buckets apiBuckets w).calls⟩
      | .error err, .ok apiBuckets =>
        ⟨.next { m with
            errorMessage := "Error loading buckets from ZFS: " ++ err,
            buckets := sortBuckets (mergeApi env [] apiBuckets w).val,
            currentView := .BucketsListView, cursor := 0, page := 0 } .nil,
          w, [Call.BucketListBuckets, Call.ListBuckets] ++ (mergeApi env [] apiBuckets w).calls⟩
      | .ok buckets, .error _ =>
        ⟨.next { m with
            buckets := sortBuckets buckets, currentView := .BucketsListView, cursor := 0,
            page := 0 } .nil, w, [Call.BucketListBuckets, Call.ListBuckets]⟩
      | .error err, .error apiErr =>
        ⟨.next { m with
            errorMessage := "Error loading buckets: ZFS(" ++ err ++ ") API(" ++ apiErr ++ ")",
            buckets := [], currentView := .BucketsListView, cursor := 0, page := 0 } .nil,
          w, [Call.BucketListBuckets, Call.ListBuckets]⟩ := by
  simp only [Model.listBuckets, run_bind, bucketService_run, VersityGWService.ListBuckets,
    run_read]
  cases BucketService.listResult env.ZFSPoolBase
      (env.zfs w (BucketService.listArgs env.ZFSPoolBase)) <;>
    cases env.ListBuckets w <;> simp [mergeApi_run, sortBuckets]

/-- Every record of `BucketService.ListBuckets` has the owner "-". -/
theorem parseLine_owner (base line : String) (b : Bucket)
    (h : BucketService.parseLine base line = some b) : b.Owner = "-" := by
  unfold BucketService.parseLine at h
  split at h
  · simp at h
  · split at h
    · split at h
      · simp at h
      · split at h
        · simp at h
        · simp at h; subst h; rfl
    · simp at h

theorem listResult_owner (base : String) (r : String × Option String) (buckets : List Bucket)
    (h : BucketService.listResult base r = .ok buckets) : ∀ b ∈ buckets, b.Owner = "-" := by
  obtain ⟨output, err⟩ := r
  cases err with
  | some e => simp [BucketService.listResult] at h
  | none =>
    simp only [BucketService.listResult, Except.ok.injEq] at h
    subst h
    intro b hb
    rw [mem_sortBuckets, List.mem_filterMap] at hb
    obtain ⟨line, _, hline⟩ := hb
    exact parseLine_owner base line b hline

theorem listResult_sorted (base : String) (r : String × Option String) (buckets : List Bucket)
    (h : BucketService.listResult base r = .ok buckets) : buckets.Sorted nameLE := by
  obtain ⟨output, err⟩ := r
  cases err with
  | some e => simp [BucketService.listResult] at h
  | none =>
    simp only [BucketService.listResult, Except.ok.injEq] at h
    subst h
    exact sortBuckets_sorted _

theorem adoptTrueOwner_frame (r : Except String String) (b : Bucket) :
    (adoptTrueOwner r b).Name = b.Name ∧ (adoptTrueOwner r b).Mountpoint = b.Mountpoint ∧
      (adoptTrueOwner r b).Quota = b.Quota ∧ (adoptTrueOwner r b).Used = b.Used ∧
      (adoptTrueOwner r b).Available = b.Available := by
  unfold adoptTrueOwner
  split
  · split <;> simp
  · simp

theorem adoptApiOwner_frame (apiMap : String → Option BucketInfo) (b : Bucket) :
    (adoptApiOwner apiMap b).Name = b.Name ∧ (adoptApiOwner apiMap b).Mountpoint = b.Mountpoint ∧
      (adoptApiOwner apiMap b).Quota = b.Quota ∧ (adoptApiOwner apiMap b).Used = b.Used ∧
      (adoptApiOwner apiMap b).Available = b.Available := by
  unfold adoptApiOwner
  split
  · split <;> simp
  · simp

theorem adoptTrueOwner_owner (r : Except String String) (b : Bucket) :
    (∀ t, r = .ok t → t ≠ "" → (adoptTrueOwner r b).Owner = t) ∧
      ((∀ t, r = .ok t → t = "") → (adoptTrueOwner r b).Owner = b.Owner) := by
  unfold adoptTrueOwner
  constructor
  · intro t ht hne
    subst ht
    simp [hne]
  · intro h
    split
    · rename_i t
      simp [h t rfl]
    · rfl

theorem adoptApiOwner_owner (apiMap : String → Option BucketInfo) (b : Bucket) :
    (∀ info, apiMap b.Name = some info → info.Owner ≠ "" →
        (adoptApiOwner apiMap b).Owner = info.Owner) ∧
      ((∀ info, apiMap b.Name = some info → info.Owner = "") →
        (adoptApiOwner apiMap b).Owner = b.Owner) := by
  unfold adoptApiOwner
  constructor
  · intro info hinfo hne
    simp [hinfo, hne]
  · intro h
    split
    · rename_i info hinfo
      simp [h info hinfo]
    · rfl

theorem goMap_of_nodup {α : Type} (key : α → String) (l : List α) (x : α) (hx : x ∈ l)
    (hnd : (l.map key).Nodup) : goMap key l (key x) = some x := by
  induction l using List.reverseRecOn with
  | nil => simp at hx
  | append_singleton l y ih =>
    rw [goMap_append_singleton]
    rw [List.map_append, List.nodup_append] at hnd
    obtain ⟨hl, _, hdis⟩ := hnd
    rcases List.mem_append.mp hx with h | h
    · have hne : key x ≠ key y := by
        intro heq
        exact hdis (List.mem_map_of_mem key h) (by simp [heq])
      simp [hne, ih h hl]
    · simp at h
      subst h
      simp

/-- The record that the first merge loop makes of a dataset record. -/
theorem mem_mergeApi_of_mem {W : Type} (env : Env W) (w : W) (buckets : List Bucket)
    (apiBuckets : List BucketInfo) (b : Bucket) (hb : b ∈ buckets) :
    adoptTrueOwner (env.GetBucketOwner w b.Name)
      (adoptApiOwner (goMap BucketInfo.Name apiBuckets) b) ∈
      sortBuckets (mergeApi env buckets apiBuckets w).val := by
  rw [mem_sortBuckets, mergeApi_run]
  exact List.mem_append_left _ (List.mem_map_of_mem _ hb)

theorem mem_mergeApi_of_api {W : Type} (env : Env W) (w : W) (buckets : List Bucket)
    (apiBuckets : List BucketInfo) (info : BucketInfo) (hi : info ∈ apiBuckets)
    (hnot : info.Name ∉ buckets.map Bucket.Name) :
    adoptTrueOwner (env.GetBucketOwner w info.Name) (placeholder info) ∈
      sortBuckets (mergeApi env buckets apiBuckets w).val := by
  rw [mem_sortBuckets, mergeApi_run]
  refine List.mem_append_right _ (List.mem_map_of_mem _ (List.mem_filter.mpr ⟨hi, ?_⟩))
  have : ¬ (goMap Bucket.Name buckets info.Name).isSome = true :=
    fun h => hnot ((goMap_isSome _ _ _).mp h)
  simpa using this

theorem map_name_adopt {W : Type} (env : Env W) (w : W) (apiMap : String → Option BucketInfo)
    (l : List Bucket) :
    (l.map fun b => adoptTrueOwner (env.GetBucketOwner w b.Name) (adoptApiOwner apiMap b)).map
      Bucket.Name = l.map Bucket.Name := by
  rw [List.map_map]
  refine List.map_congr_left fun b _ => ?_
  exact (adoptTrueOwner_frame _ _).1.trans (adoptApiOwner_frame _ _).1

theorem map_name_placeholder {W : Type} (env : Env W) (w : W) (l : List BucketInfo) :
    (l.map fun a => adoptTrueOwner (env.GetBucketOwner w a.Name) (placeholder a)).map
      Bucket.Name = l.map BucketInfo.Name := by
  rw [List.map_map]
  refine List.map_congr_left fun a _ => ?_
  exact (adoptTrueOwner_frame _ _).1

/-- The names of the merged list: the dataset names, then the API names that are not
dataset names. -/
theorem mergeApi_names {W : Type} (env : Env W) (w : W) (buckets : List Bucket)
    (apiBuckets : List BucketInfo) :
    (mergeApi env buckets apiBuckets w).val.map Bucket.Name =
      buckets.map Bucket.Name ++
        (apiBuckets.filter fun a => !(goMap Bucket.Name buckets a.Name).isSome).map
          BucketInfo.Name := by
  rw [mergeApi_run]
  simp only [List.map_append, map_name_adopt, map_name_placeholder]

theorem mergeApi_nodup {W : Type} (env : Env W) (w : W) (buckets : List Bucket)
    (apiBuckets : List BucketInfo) (hb : (buckets.map Bucket.Name).Nodup)
    (ha : (apiBuckets.map BucketInfo.Name).Nodup) :
    ((sortBuckets (mergeApi env buckets apiBuckets w).val).map Bucket.Name).Nodup := by
  rw [((sortBuckets_perm _).map Bucket.Name).nodup_iff, mergeApi_names, List.nodup_append]
  refine ⟨hb, ?_, ?_⟩
  · exact List.Nodup.sublist (List.Sublist.map _ (List.filter_sublist _)) ha
  · intro n hn hn2
    obtain ⟨a, ha2, rfl⟩ := List.mem_map.mp hn2
    have := (List.mem_filter.mp ha2).2
    have hsome := (goMap_isSome Bucket.Name buckets a.Name).mpr hn
    simp [hsome] at this

theorem sortBuckets_nodup (l : List Bucket) (h : (l.map Bucket.Name).Nodup) :
    ((sortBuckets l).map Bucket.Name).Nodup :=
  (((sortBuckets_perm l).map Bucket.Name).nodup_iff).mpr h

theorem charsHasPrefix_append (s q : List Char) : charsHasPrefix (s ++ q) s = true := by
  induction s with
  | nil => cases q <;> rfl
  | cons c cs ih => simp [charsHasPrefix, ih]

theorem charsContains_append (p s q : List Char) : charsContains (p ++ (s ++ q)) s = true := by
  induction p with
  | nil =>
    cases h : s ++ q with
    | nil =>
      have : s = [] := (List.append_eq_nil.mp h).1
      subst this
      rfl
    | cons a as =>
      simp only [List.nil_append, h, charsContains]
      rw [← h, charsHasPrefix_append]
      rfl
  | cons a as ih =>
    show (charsHasPrefix (a :: (as ++ (s ++ q))) s || charsContains (as ++ (s ++ q)) s) = true
    rw [ih, Bool.or_true]

/-- A text contains each of its parts. -/
theorem contains_mid (p s q : String) : Contains (p ++ s ++ q) s = true := by
  simp only [Contains, String.data_append, List.append_assoc]
  exact charsContains_append p.data s.data q.data

theorem callsSat_pure {W α : Type} (P : Call → Prop) (a : α) : CallsSat P (pure a : Eff W α) := by
  intro w c hc
  simp at hc

theorem callsSat_bind {W α β : Type} (P : Call → Prop) (x : Eff W α) (f : α → Eff W β)
    (hx : CallsSat P x) (hf : ∀ a, CallsSat P (f a)) : CallsSat P (x >>= f) := by
  intro w c hc
  simp only [run_bind, List.mem_append] at hc
  rcases hc with h | h
  · exact hx w c h
  · exact hf _ _ c h

theorem callsSat_read {W α : Type} (P : Call → Prop) (c : Call) (f : W → α) (h : P c) :
    CallsSat P (Eff.read c f) := by
  intro w c' hc
  simp at hc
  exact hc ▸ h

theorem callsSat_act {W α : Type} (P : Call → Prop) (c : Call) (f : W → α × W) (h : P c) :
    CallsSat P (Eff.act c f) := by
  intro w c' hc
  simp at hc
  exact hc ▸ h

theorem callsSat_ite {W α : Type} (P : Call → Prop) (c : Prop) [Decidable c] (x y : Eff W α)
    (hx : c → CallsSat P x) (hy : ¬ c → CallsSat P y) : CallsSat P (if c then x else y) := by
  by_cases h : c
  · rw [if_pos h]; exact hx h
  · rw [if_neg h]; exact hy h

theorem CallsSat.mono {W α : Type} {P Q : Call → Prop} {x : Eff W α} (h : CallsSat P x)
    (hPQ : ∀ c, P c → Q c) : CallsSat Q x :=
  fun w c hc => hPQ c (h w c hc)

theorem handleCreateUser_calls {W : Type} (env : Env W) (m : Model) :
    CallsSat (fun c => c.destructive = false) (m.handleCreateUser env) := by
  unfold Model.handleCreateUser
  repeat' first
    | exact callsSat_pure _ _
    | exact callsSat_read _ _ _ rfl
    | exact callsSat_act _ _ _ rfl
    | refine callsSat_bind _ _ _ ?_ (fun _ => ?_)
    | refine callsSat_ite _ _ _ _ (fun _ => ?_) (fun _ => ?_)
    | split

theorem handleCreateBucket_calls {W : Type} (env : Env W) (m : Model) :
    CallsSat (fun c => c.destructive = false) (m.handleCreateBucket env) := by
  unfold Model.handleCreateBucket
  repeat' first
    | exact callsSat_pure _ _
    | exact callsSat_read _ _ _ rfl
    | exact callsSat_act _ _ _ rfl
    | refine callsSat_bind _ _ _ ?_ (fun _ => ?_)
    | refine callsSat_ite _ _ _ _ (fun _ => ?_) (fun _ => ?_)
    | split

theorem handleChangeOwner_calls {W : Type} (env : Env W) (m : Model) :
    CallsSat (fun c => c.destructive = false) (m.handleChangeOwner env) := by
  unfold Model.handleChangeOwner
  repeat' first
    | exact callsSat_pure _ _
    | exact callsSat_read _ _ _ rfl
    | exact callsSat_act _ _ _ rfl
    | refine callsSat_bind _ _ _ ?_ (fun _ => ?_)
    | refine callsSat_ite _ _ _ _ (fun _ => ?_) (fun _ => ?_)
    | split

theorem handleProvision_calls {W : Type} (env : Env W) (m : Model) :
    CallsSat (fun c => c.destructive = false) (m.handleProvision env) := by
  unfold Model.handleProvision
  repeat' first
    | exact callsSat_pure _ _
    | exact callsSat_read _ _ _ rfl
    | exact callsSat_act _ _ _ rfl
    | refine callsSat_bind _ _ _ ?_ (fun _ => ?_)
    | refine callsSat_ite _ _ _ _ (fun _ => ?_) (fun _ => ?_)
    | split

theorem handleMakePublic_calls {W : Type} (env : Env W) (m : Model) :
    CallsSat (fun c => ∃ b p, c = Call.SetBucketPolicy b p) (m.handleMakePublic env) := by
  unfold Model.handleMakePublic
  repeat' first
    | exact callsSat_pure _ _
    | exact callsSat_act _ _ _ ⟨_, _, rfl⟩
    | refine callsSat_bind _ _ _ ?_ (fun _ => ?_)
    | refine callsSat_ite _ _ _ _ (fun _ => ?_) (fun _ => ?_)
    | split

theorem mergeApi_calls {W : Type} (env : Env W) (buckets : List Bucket) (apiBuckets : List BucketInfo) :
    CallsSat (fun c => c.destructive = false) (mergeApi env buckets apiBuckets) := by
  intro w c hc
  rw [mergeApi_run] at hc
  simp only [List.mem_append, List.mem_map] at hc
  rcases hc with ⟨b, _, rfl⟩ | ⟨a, _, rfl⟩ <;> rfl

theorem generateSecretKey_calls {W : Type} (env : Env W) :
    CallsSat (fun c => c.destructive = false) (generateSecretKey env) :=
  callsSat_act _ _ _ rfl

theorem listBuckets_calls {W : Type} (env : Env W) (m : Model) :
    CallsSat (fun c => c.destructive = false) (m.listBuckets env) := by
  unfold Model.listBuckets
  repeat' first
    | exact callsSat_pure _ _
    | exact mergeApi_calls _ _ _
    | exact callsSat_read _ _ _ rfl
    | refine callsSat_bind _ _ _ ?_ (fun _ => ?_)
    | refine callsSat_ite _ _ _ _ (fun _ => ?_) (fun _ => ?_)
    | split

theorem handleEnter_calls {W : Type} (env : Env W) (m : Model)
    (hv : m.currentView ≠ .MakeBucketPublicView) :
    CallsSat (fun c => c.destructive = false) (m.handleEnter env) := by
  unfold Model.handleEnter
  split
  all_goals repeat' first
    | exact callsSat_pure _ _
    | (exfalso; apply hv; assumption)
    | exact handleCreateUser_calls _ _
    | exact handleCreateBucket_calls _ _
    | exact listBuckets_calls _ _
    | exact generateSecretKey_calls _
    | exact callsSat_read _ _ _ rfl
    | refine callsSat_bind _ _ _ ?_ (fun _ => ?_)
    | refine callsSat_ite _ _ _ _ (fun _ => ?_) (fun _ => ?_)
    | split

theorem copyUserCredentials_calls {W : Type} (env : Env W) (m : Model) :
    CallsSat (fun c => c.destructive = false) (m.copyUserCredentials env) := by
  unfold Model.copyUserCredentials
  repeat' first
    | exact callsSat_pure _ _
    | exact callsSat_act _ _ _ rfl
    | refine callsSat_bind _ _ _ ?_ (fun _ => ?_)
    | refine callsSat_ite _ _ _ _ (fun _ => ?_) (fun _ => ?_)
    | split

theorem copyUserCredentialsFromDetail_calls {W : Type} (env : Env W) (m : Model) :
    CallsSat (fun c => c.destructive = false) (m.copyUserCredentialsFromDetail env) := by
  unfold Model.copyUserCredentialsFromDetail
  repeat' first
    | exact callsSat_pure _ _
    | exact callsSat_act _ _ _ rfl
    | refine callsSat_bind _ _ _ ?_ (fun _ => ?_)
    | refine callsSat_ite _ _ _ _ (fun _ => ?_) (fun _ => ?_)
    | split

theorem updateKey_calls {W : Type} (env : Env W) (m : Model) (key : String)
    (hv : m.currentView ≠ .MakeBucketPublicView) :
    CallsSat
      (fun c => c.destructive = true → m.currentView = .ConfirmView ∧ (key = "y" ∨ key = "Y"))
      (m.updateKey env key) := by
  have hsafe : ∀ {α : Type} {x : Eff W α}, CallsSat (fun c => c.destructive = false) x →
      CallsSat
        (fun c => c.destructive = true → m.currentView = .ConfirmView ∧ (key = "y" ∨ key = "Y"))
        x :=
    fun h => h.mono (fun c hc hd => by rw [hc] at hd; cases hd)
  unfold Model.updateKey
  dsimp only
  repeat' first
    | exact callsSat_pure _ _
    | exact hsafe (handleEnter_calls env m hv)
    | exact hsafe (copyUserCredentials_calls env _)
    | exact hsafe (copyUserCredentialsFromDetail_calls env _)
    | (intro w c _ _; constructor <;> assumption)
    | refine callsSat_bind _ _ _ ?_ (fun _ => ?_)
    | refine callsSat_ite _ _ _ _ (fun _ => ?_) (fun _ => ?_)
    | split

theorem updateUserForm_calls {W : Type} (env : Env W) (m : Model) (key : String) :
    CallsSat (fun c => c.destructive = false) (m.updateUserForm env key) := by
  unfold Model.updateUserForm
  repeat' first
    | exact callsSat_pure _ _
    | exact handleCreateUser_calls _ _
    | refine callsSat_ite _ _ _ _ (fun _ => ?_) (fun _ => ?_)
    | split

theorem updateBucketForm_calls {W : Type} (env : Env W) (m : Model) (key : String) :
    CallsSat (fun c => c.destructive = false) (m.updateBucketForm env key) := by
  unfold Model.updateBucketForm
  repeat' first
    | exact callsSat_pure _ _
    | exact handleCreateBucket_calls _ _
    | refine callsSat_ite _ _ _ _ (fun _ => ?_) (fun _ => ?_)
    | split

theorem updateChangeOwnerForm_calls {W : Type} (env : Env W) (m : Model) (key : String) :
    CallsSat (fun c => c.destructive = false) (m.updateChangeOwnerForm env key) := by
  unfold Model.updateChangeOwnerForm
  repeat' first
    | exact callsSat_pure _ _
    | exact handleChangeOwner_calls _ _
    | refine callsSat_ite _ _ _ _ (fun _ => ?_) (fun _ => ?_)
    | split

theorem updateProvisionForm_calls {W : Type} (env : Env W) (m : Model) (key : String) :
    CallsSat (fun c => c.destructive = false) (m.updateProvisionForm env key) := by
  unfold Model.updateProvisionForm
  repeat' first
    | exact callsSat_pure _ _
    | exact handleProvision_calls _ _
    | refine callsSat_ite _ _ _ _ (fun _ => ?_) (fun _ => ?_)
    | split

theorem updateMakePublicForm_calls {W : Type} (env : Env W) (m : Model) (key : String) :
    CallsSat
      (fun c => (∃ b p, c = Call.SetBucketPolicy b p) ∧ key = "enter" ∧
        m.focusIndex = m.bucketFormInputs.length)
      (m.updateMakePublicForm env key) := by
  unfold Model.updateMakePublicForm
  repeat' first
    | exact callsSat_pure _ _
    | exact (handleMakePublic_calls env m).mono (fun c hc => ⟨hc, by assumption⟩)
    | refine callsSat_ite _ _ _ _ (fun _ => ?_) (fun _ => ?_)
    | split

/-- The calls that handling one message may make: a destructive call is made either while
handling `y` or `Y` in the Confirm view, or it is the `SetBucketPolicy` of the Make Bucket
Public form, made while handling `enter` with the focus on the submit button. -/
theorem update_calls {W : Type} (env : Env W) (m : Model) (msg : Msg) :
    CallsSat
      (fun c => c.destructive = true →
        (m.currentView = .ConfirmView ∧ (msg = .KeyMsg "y" ∨ msg = .KeyMsg "Y")) ∨
        ((∃ b p, c = Call.SetBucketPolicy b p) ∧ m.currentView = .MakeBucketPublicView ∧
          msg = .KeyMsg "enter" ∧ m.focusIndex = m.bucketFormInputs.length))
      (m.Update env msg) := by
  have hsafe : ∀ {x : Eff W Outcome}, CallsSat (fun c => c.destructive = false) x →
      CallsSat
        (fun c => c.destructive = true →
          (m.currentView = .ConfirmView ∧ (msg = .KeyMsg "y" ∨ msg = .KeyMsg "Y")) ∨
          ((∃ b p, c = Call.SetBucketPolicy b p) ∧ m.currentView = .MakeBucketPublicView ∧
            msg = .KeyMsg "enter" ∧ m.focusIndex = m.bucketFormInputs.length))
        x :=
    fun h => h.mono (fun c hc hd => by rw [hc] at hd; cases hd)
  cases msg with
  | WindowSizeMsg width height =>
    unfold Model.Update
    dsimp only
    split <;> exact callsSat_pure _ _
  | other => exact callsSat_pure _ _
  | KeyMsg key =>
    unfold Model.Update
    dsimp only
    refine callsSat_ite _ _ _ _ (fun _ => hsafe (updateUserForm_calls env m key)) (fun _ => ?_)
    refine callsSat_ite _ _ _ _ (fun _ => hsafe (updateBucketForm_calls env m key)) (fun _ => ?_)
    refine callsSat_ite _ _ _ _ (fun _ => hsafe (updateChangeOwnerForm_calls env m key))
      (fun _ => ?_)
    refine callsSat_ite _ _ _ _ (fun _ => hsafe (updateProvisionForm_calls env m key))
      (fun _ => ?_)
    refine callsSat_ite _ _ _ _ (fun _ => hsafe (updateUserForm_calls env m key)) (fun _ => ?_)
    refine callsSat_ite _ _ _ _ (fun hv => ?_) (fun hv => ?_)
    · exact (updateMakePublicForm_calls env m key).mono
        (fun c hc _ => Or.inr ⟨hc.1, hv, by rw [hc.2.1], hc.2.2⟩)
    · refine (updateKey_calls env { m with errorMessage := "", successMessage := "" } key
        hv).mono (fun c hc hd => Or.inl ?_)
      obtain ⟨h1, h2⟩ := hc hd
      refine ⟨h1, ?_⟩
      rcases h2 with h | h
      · exact Or.inl (by rw [h])
      · exact Or.inr (by rw [h])

theorem threeSteps_run {W α : Type} (env : Env W) (w1 : W) (req : UserCreateRequest)
    (breq : BucketCreateRequest) (bucket owner : String) (k1 k2 k3 : String → α) (k4 : α) :
    let x : Eff W α := threeSteps env req breq bucket owner k1 k2 k3 k4
    let w2 := (env.CreateUser w1 req).2
    let w3 := (BucketService.CreateBucket env breq w2).world
    (∀ e, (env.CreateUser w1 req).1 = some e →
      x w1 = ⟨k1 e, w2, [Call.CreateUser req]⟩) ∧
    ((env.CreateUser w1 req).1 = none →
      (∀ e, (BucketService.CreateBucket env breq w2).val = some e →
        x w1 = ⟨k2 e, w3, [Call.CreateUser req, Call.BucketCreateBucket breq]⟩) ∧
      ((BucketService.CreateBucket env breq w2).val = none →
        (∀ e, (env.ChangeBucketOwner w3 bucket owner).1 = some e →
          x w1 = ⟨k3 e, (env.ChangeBucketOwner w3 bucket owner).2,
            [Call.CreateUser req, Call.BucketCreateBucket breq,
              Call.ChangeBucketOwner bucket owner]⟩) ∧
        ((env.ChangeBucketOwner w3 bucket owner).1 = none →
          x w1 = ⟨k4, (env.ChangeBucketOwner w3 bucket owner).2,
            [Call.CreateUser req, Call.BucketCreateBucket breq,
              Call.ChangeBucketOwner bucket owner]⟩))) := by
  intro x w2 w3
  refine ⟨fun e h1 => ?_, fun h1 => ⟨fun e h2 => ?_, fun h2 => ⟨fun e h3 => ?_, fun h3 => ?_⟩⟩⟩
  · simp only [x, threeSteps, run_bind, VersityGWService.CreateUser, run_act, h1, run_pure]
    simp [w2]
  · have h2' : (BucketService.CreateBucket env breq (env.CreateUser w1 req).2).val = some e := h2
    simp only [x, threeSteps, run_bind, VersityGWService.CreateUser, run_act, h1, h2', run_pure]
    simp [w3, w2, BucketService.CreateBucket]
  · have h2' : (BucketService.CreateBucket env breq (env.CreateUser w1 req).2).val = none := h2
    have h3' : (env.ChangeBucketOwner
        (BucketService.CreateBucket env breq (env.CreateUser w1 req).2).world bucket owner).1 =
          some e := h3
    simp only [x, threeSteps, run_bind, VersityGWService.CreateUser,
      VersityGWService.ChangeBucketOwner, run_act, h1, h2', h3', run_pure]
    simp [w3, w2, BucketService.CreateBucket]
  · have h2' : (BucketService.CreateBucket env breq (env.CreateUser w1 req).2).val = none := h2
    have h3' : (env.ChangeBucketOwner
        (BucketService.CreateBucket env breq (env.CreateUser w1 req).2).world bucket owner).1 =
          none := h3
    simp only [x, threeSteps, run_bind, VersityGWService.CreateUser,
      VersityGWService.ChangeBucketOwner, run_act, h1, h2', h3', run_pure]
    simp [w3, w2, BucketService.CreateBucket]

theorem role_valid {role : String} (hR : role = "admin" ∨ role = "user" ∨ role = "userplus") :
    ¬ (role ≠ "admin" ∧ role ≠ "user" ∧ role ≠ "userplus") := by
  rintro ⟨a, b, c⟩
  rcases hR with h | h | h
  · exact a h
  · exact b h
  · exact c h

theorem role_invalid {role : String}
    (hR : ¬ (role = "admin" ∨ role = "user" ∨ role = "userplus")) :
    role ≠ "admin" ∧ role ≠ "user" ∧ role ≠ "userplus" :=
  ⟨fun h => hR (Or.inl h), fun h => hR (Or.inr (Or.inl h)), fun h => hR (Or.inr (Or.inr h))⟩

/-- The function `runProvision` on a valid configuration: the secret is generated when none
is given, then the three steps run. -/
theorem runProvision_valid {W : Type} (env : Env W) (w : W) (cfg : provisionConfig)
    (hA : cfg.Access ≠ "")
    (hR : cfg.Role = "admin" ∨ cfg.Role = "user" ∨ cfg.Role = "userplus")
    (hB : cfg.Bucket ≠ "") (hQ : cfg.Quota ≠ "") :
    let owner := if cfg.Owner = "" then cfg.Access else cfg.Owner
    let secret := if cfg.Secret = "" then (generateSecretKey env w).val else cfg.Secret
    let w1 := if cfg.Secret = "" then (generateSecretKey env w).world else w
    let pre := if cfg.Secret = "" then [Call.RandRead 48] else []
    let steps : Eff W (Except String provisionSummary) :=
      threeSteps env
        { Access := cfg.Access, Secret := secret, Role := cfg.Role, UserID := cfg.UserID,
          GroupID := cfg.GroupID, ProjectID := cfg.ProjectID }
        { Name := cfg.Bucket, Quota := cfg.Quota, Owner := owner, Mountpoint := "" }
        cfg.Bucket owner
        (fun e => .error ("failed to create user: " ++ e))
        (fun e => .error ("failed to create bucket: " ++ e))
        (fun e => .error ("failed to set bucket owner: " ++ e))
        (.ok
          { Access := cfg.Access, Secret := secret, Role := cfg.Role, UserID := cfg.UserID,
            GroupID := cfg.GroupID, ProjectID := cfg.ProjectID, Bucket := cfg.Bucket,
            Quota := cfg.Quota, Owner := owner, SecretGenerated := decide (cfg.Secret = "") })
    runProvision env cfg w = ⟨(steps w1).val, (steps w1).world, pre ++ (steps w1).calls⟩ := by
  intro owner secret w1 pre steps
  unfold runProvision
  rw [if_neg hA, if_neg (role_valid hR), if_neg hB, if_neg hQ]
  by_cases hS : cfg.Secret = ""
  · simp only [steps, pre, w1, secret, owner, if_pos hS, run_bind, generateSecretKey, run_act]
    rfl
  · simp only [steps, pre, w1, secret, owner, if_neg hS, run_bind, run_pure, List.nil_append]
    rfl

/-- The method `handleProvision` on a valid form. -/
theorem handleProvision_valid {W : Type} (env : Env W) (w : W) (m : Model)
    (i0 i1 i2 i3 i4 i5 i6 i7 i8 : TextInput) (rest : List TextInput) (uid gid pid : Int)
    (hm : m.provisionFormInputs = i0 :: i1 :: i2 :: i3 :: i4 :: i5 :: i6 :: i7 :: i8 :: rest)
    (hA : TrimSpace i0.value ≠ "")
    (hR : TrimSpace i2.value = "admin" ∨ TrimSpace i2.value = "user" ∨
      TrimSpace i2.value = "userplus")
    (hB : TrimSpace i6.value ≠ "") (hQ : TrimSpace i7.value ≠ "")
    (hu : parseInt (TrimSpace i3.value) = some uid)
    (hg : parseInt (TrimSpace i4.value) = some gid)
    (hp : parseInt (TrimSpace i5.value) = some pid) :
    let access := TrimSpace i0.value
    let bucket := TrimSpace i6.value
    let owner := if TrimSpace i8.value = "" then access else TrimSpace i8.value
    let secret :=
      if TrimSpace i1.value = "" then (generateSecretKey env w).val else TrimSpace i1.value
    let w1 := if TrimSpace i1.value = "" then (generateSecretKey env w).world else w
    let pre := if TrimSpace i1.value = "" then [Call.RandRead 48] else []
    let steps : Eff W Outcome :=
      threeSteps env
        { Access := access, Secret := secret, Role := TrimSpace i2.value, UserID := uid,
          GroupID := gid, ProjectID := pid }
        { Name := bucket, Quota := TrimSpace i7.value, Owner := owner, Mountpoint := "" }
        bucket owner
        (fun e => .next { m with errorMessage := "Failed to create user: " ++ e } .nil)
        (fun e => .next { m with errorMessage := "Failed to create bucket: " ++ e } .nil)
        (fun e => .next { m with
          errorMessage := "Bucket created but failed to set owner: " ++ e } .nil)
        (.next { m with
          successMessage :=
            "Provisioned user '" ++ access ++ "' and bucket '" ++ bucket ++
              "' (owner '" ++ owner ++ "')",
          currentView := m.returnView, cursor := 0 } .nil)
    m.handleProvision env w = ⟨(steps w1).val, (steps w1).world, pre ++ (steps w1).calls⟩ := by
  intro access bucket owner secret w1 pre steps
  cases m
  simp only at hm
  subst hm
  unfold Model.handleProvision
  simp only [TextInput.Value]
  rw [if_neg hA, if_neg (role_valid hR), if_neg hB, if_neg hQ]
  by_cases hS : TrimSpace i1.value = ""
  · simp only [steps, pre, w1, secret, owner, access, bucket, if_pos hS, run_bind,
      generateSecretKey, run_act, hu, hg, hp]
    rfl
  · simp only [steps, pre, w1, secret, owner, access, bucket, if_neg hS, run_bind, run_pure,
      List.nil_append, hu, hg, hp]
    rfl

theorem threeSteps_calls {W α : Type} (env : Env W) (w1 : W) (req : UserCreateRequest)
    (breq : BucketCreateRequest) (bucket owner : String) (k1 k2 k3 : String → α) (k4 : α) :
    ∃ tail, (threeSteps env req breq bucket owner k1 k2 k3 k4 w1).calls =
      Call.CreateUser req :: tail := by
  simp [threeSteps, VersityGWService.CreateUser]

theorem label_ne_user_bucket (e1 e2 : String) :
    "failed to create user: " ++ e1 ≠ "failed to create bucket: " ++ e2 := by
  intro h
  have h2 := congrArg String.data h
  simp [String.data_append] at h2

theorem label_ne_user_owner (e1 e2 : String) :
    "failed to create user: " ++ e1 ≠ "failed to set bucket owner: " ++ e2 := by
  intro h
  have h2 := congrArg String.data h
  simp [String.data_append] at h2

theorem label_ne_bucket_owner (e1 e2 : String) :
    "failed to create bucket: " ++ e1 ≠ "failed to set bucket owner: " ++ e2 := by
  intro h
  have h2 := congrArg String.data h
  simp [String.data_append] at h2

theorem charsContains_append_left (p s sub : List Char) (h : charsContains s sub = true) :
    charsContains (p ++ s) sub = true := by
  induction p with
  | nil => exact h
  | cons a p ih =>
    show charsContains (a :: (p ++ s)) sub = true
    unfold charsContains
    rw [ih, Bool.or_true]

theorem contains_append_left (p s sub : String) (h : Contains s sub = true) :
    Contains (p ++ s) sub = true := by
  unfold Contains at *
  rw [String.data_append]
  exact charsContains_append_left _ _ _ h

theorem apiError_contains (status : Int) (body : String) :
    Contains ("API error (status " ++ formatInt status ++ "): " ++ body) (formatInt status) = true ∧
    ∀ sub, Contains body sub = true →
      Contains ("API error (status " ++ formatInt status ++ "): " ++ body) sub = true :=
  ⟨by
    have h := contains_mid "API error (status " (formatInt status) ("): " ++ body)
    rwa [← String.append_assoc] at h,
   fun sub h => contains_append_left _ _ _ h⟩

theorem valSat_pure {W α : Type} (P : α → Prop) (a : α) (h : P a) :
    ValSat P (pure a : Eff W α) := fun _ => h

theorem valSat_bind {W α β : Type} (P : β → Prop) (x : Eff W α) (f : α → Eff W β)
    (hf : ∀ a, ValSat P (f a)) : ValSat P (x >>= f) := fun _ => hf _ _

theorem valSat_ite {W α : Type} (P : α → Prop) (c : Prop) [Decidable c] (x y : Eff W α)
    (hx : c → ValSat P x) (hy : ¬ c → ValSat P y) : ValSat P (if c then x else y) := by
  by_cases h : c
  · rw [if_pos h]; exact hx h
  · rw [if_neg h]; exact hy h

theorem valSat_mono {W α : Type} {P Q : α → Prop} {x : Eff W α} (h : ValSat P x)
    (hPQ : ∀ a, P a → Q a) : ValSat Q x := fun w => hPQ _ (h w)

theorem focusFrom_length (fi : Int) (l : List TextInput) (i : Nat) :
    (focusFrom fi i l).length = l.length := by
  induction l generalizing i with
  | nil => rfl
  | cons t ts ih => simp [focusFrom, ih]

theorem focusNext_range (i : Int) (n : Nat) (h : 0 ≤ i) :
    0 ≤ focusNext i n ∧ focusNext i n ≤ (n : Int) + 1 := by
  unfold focusNext
  split <;> omega

theorem focusPrev_range (i : Int) (n : Nat) (h : i ≤ (n : Int) + 1) :
    0 ≤ focusPrev i n ∧ focusPrev i n ≤ (n : Int) + 1 := by
  unfold focusPrev
  split <;> omega

theorem WFc.ret {cv rv : View} {pa : String} {nu nb no np : Nat} {fi : Int}
    (h : WFc cv rv pa nu nb no np fi) (pa1 : String) (nu1 nb1 no1 np1 : Nat) (fi1 : Int) :
    WFc rv rv pa1 nu1 nb1 no1 np1 fi1 := by
  obtain ⟨hr, -⟩ := h
  refine ⟨hr, ?_, ?_, ?_, ?_, ?_, ?_, ?_, ?_, ?_⟩ <;>
    rcases hr with e | e | e | e <;> rw [e] <;> simp

theorem WFc.plain {cv rv : View} {pa : String} {nu nb no np : Nat} {fi : Int}
    (h : WFc cv rv pa nu nb no np fi) (cv1 : View)
    (hc : cv1 = .MainMenuView ∨ cv1 = .OperationsView ∨ cv1 = .UsersListView ∨
      cv1 = .BucketsListView ∨ cv1 = .UserDetailView ∨ cv1 = .BucketDetailView)
    (pa1 : String) (nu1 nb1 no1 np1 : Nat) (fi1 : Int) :
    WFc cv1 rv pa1 nu1 nb1 no1 np1 fi1 := by
  obtain ⟨hr, -⟩ := h
  refine ⟨hr, ?_, ?_, ?_, ?_, ?_, ?_, ?_, ?_, ?_⟩ <;>
    rcases hc with e | e | e | e | e | e <;> rw [e] <;> simp

theorem updateFocusedInput_length {W : Type} (env : Env W) (inputs inputs1 : List TextInput)
    (fi : Int) (key : String) (cmd : Cmd)
    (h : updateFocusedInput env inputs fi key = some (inputs1, cmd)) :
    inputs1.length = inputs.length := by
  unfold updateFocusedInput at h
  split at h
  · split at h
    · cases h
      simp
    · cases h
  · cases h
    rfl

theorem sat_showProvision {W : Type} (env : Env W) (Q : Model → Prop) (m : Model) (cmd : Cmd)
    (h : ∀ lines, Q (m.ensureProvisionVisible lines)) :
    Outcome.Sat Q (Model.showProvision env m cmd) := by
  unfold Model.showProvision
  split
  · exact h _
  · trivial

theorem sat_clampProvision {W : Type} (env : Env W) (Q : Model → Prop) (m : Model)
    (h : ∀ lines, Q (m.clampProvisionScroll lines)) :
    Outcome.Sat Q (Model.clampProvision env m) := by
  unfold Model.clampProvision
  split
  · exact h _
  · trivial

theorem wf_user {m : Model} (h : WF m)
    (hv : m.currentView = .CreateUserView ∨ m.currentView = .UpdateUserView)
    (inputs : List TextInput) (hl : inputs.length = m.userFormInputs.length) (fi1 : Int)
    (hfi : 0 ≤ m.focusIndex → m.focusIndex ≤ (m.userFormInputs.length : Int) + 1 →
      0 ≤ fi1 ∧ fi1 ≤ (m.userFormInputs.length : Int) + 1) :
    WF { m with userFormInputs := inputs, focusIndex := fi1 } := by
  obtain ⟨hr, hc, hu, hb, hp, ho, hpr, h8, h9, h10⟩ := h
  obtain ⟨hn, h0, h4⟩ := hu hv
  have hf := hfi h0 (by rw [hn]; exact h4)
  rw [hn] at hf
  refine ⟨hr, ?_, fun _ => ⟨hl.trans hn, hf.1, hf.2⟩, ?_, ?_, ?_, ?_, h8, h9, h10⟩ <;>
    (intro hcv; rcases hv with e | e <;> rw [e] at hcv <;> cases hcv)

theorem wf_bucket {m : Model} (h : WF m) (hv : m.currentView = .CreateBucketView)
    (inputs : List TextInput) (hl : inputs.length = m.bucketFormInputs.length) (fi1 : Int)
    (hfi : 0 ≤ m.focusIndex → m.focusIndex ≤ (m.bucketFormInputs.length : Int) + 1 →
      0 ≤ fi1 ∧ fi1 ≤ (m.bucketFormInputs.length : Int) + 1) :
    WF { m with bucketFormInputs := inputs, focusIndex := fi1 } := by
  obtain ⟨hr, hc, hu, hb, hp, ho, hpr, h8, h9, h10⟩ := h
  obtain ⟨hn, h0, h4⟩ := hb hv
  have hf := hfi h0 (by rw [hn]; exact h4)
  rw [hn] at hf
  refine ⟨hr, ?_, ?_, fun _ => ⟨hl.trans hn, hf.1, hf.2⟩, ?_, ?_, ?_, h8, h9, h10⟩
  · intro hcv; rw [hv] at hcv; cases hcv
  · intro hcv; rw [hv] at hcv; rcases hcv with e | e <;> cases e
  · intro hcv; rw [hv] at hcv; cases hcv
  · intro hcv; rw [hv] at hcv; cases hcv
  · intro hcv; rw [hv] at hcv; cases hcv

theorem wf_public {m : Model} (h : WF m) (hv : m.currentView = .MakeBucketPublicView)
    (inputs : List TextInput) (hl : inputs.length = m.bucketFormInputs.length) (fi1 : Int)
    (hfi : 0 ≤ m.focusIndex → m.focusIndex ≤ (m.bucketFormInputs.length : Int) + 1 →
      0 ≤ fi1 ∧ fi1 ≤ (m.bucketFormInputs.length : Int) + 1) :
    WF { m with bucketFormInputs := inputs, focusIndex := fi1 } := by
  obtain ⟨hr, hc, hu, hb, hp, ho, hpr, h8, h9, h10⟩ := h
  obtain ⟨hn, h0, h4⟩ := hp hv
  have hf := hfi h0 (by rw [hn]; exact h4)
  rw [hn] at hf
  refine ⟨hr, ?_, ?_, ?_, fun _ => ⟨hl.trans hn, hf.1, hf.2⟩, ?_, ?_, h8, h9, h10⟩
  · intro hcv; rw [hv] at hcv; cases hcv
  · intro hcv; rw [hv] at hcv; rcases hcv with e | e <;> cases e
  · intro hcv; rw [hv] at hcv; cases hcv
  · intro hcv; rw [hv] at hcv; cases hcv
  · intro hcv; rw [hv] at hcv; cases hcv

theorem wf_owner {m : Model} (h : WF m) (hv : m.currentView = .ChangeOwnerView)
    (inputs : List TextInput) (hl : inputs.length = m.changeOwnerFormInputs.length) (fi1 : Int)
    (hfi : 0 ≤ m.focusIndex → m.focusIndex ≤ (m.changeOwnerFormInputs.length : Int) + 1 →
      0 ≤ fi1 ∧ fi1 ≤ (m.changeOwnerFormInputs.length : Int) + 1) :
    WF { m with changeOwnerFormInputs := inputs, focusIndex := fi1 } := by
  obtain ⟨hr, hc, hu, hb, hp, ho, hpr, h8, h9, h10⟩ := h
  obtain ⟨hn, h0, h4⟩ := ho hv
  have hf := hfi h0 (by rw [hn]; exact h4)
  rw [hn] at hf
  refine ⟨hr, ?_, ?_, ?_, ?_, fun _ => ⟨hl.trans hn, hf.1, hf.2⟩, ?_, h8, h9, h10⟩
  · intro hcv; rw [hv] at hcv; cases hcv
  · intro hcv; rw [hv] at hcv; rcases hcv with e | e <;> cases e
  · intro hcv; rw [hv] at hcv; cases hcv
  · intro hcv; rw [hv] at hcv; cases hcv
  · intro hcv; rw [hv] at hcv; cases hcv

theorem wf_provision {m : Model} (h : WF m) (hv : m.currentView = .ProvisionView)
    (inputs : List TextInput) (hl : inputs.length = m.provisionFormInputs.length) (fi1 : Int)
    (hfi : 0 ≤ m.focusIndex → m.focusIndex ≤ (m.provisionFormInputs.length : Int) + 1 →
      0 ≤ fi1 ∧ fi1 ≤ (m.provisionFormInputs.length : Int) + 1) (scroll : Int) :
    WF { m with provisionFormInputs := inputs, focusIndex := fi1, provisionScroll := scroll } := by
  obtain ⟨hr, hc, hu, hb, hp, ho, hpr, h8, h9, h10⟩ := h
  obtain ⟨hn, h0, h4⟩ := hpr hv
  have hf := hfi h0 (by rw [hn]; exact h4)
  rw [hn] at hf
  refine ⟨hr, ?_, ?_, ?_, ?_, ?_, fun _ => ⟨hl.trans hn, hf.1, hf.2⟩, h8, h9, h10⟩
  · intro hcv; rw [hv] at hcv; cases hcv
  · intro hcv; rw [hv] at hcv; rcases hcv with e | e <;> cases e
  · intro hcv; rw [hv] at hcv; cases hcv
  · intro hcv; rw [hv] at hcv; cases hcv
  · intro hcv; rw [hv] at hcv; cases hcv

theorem handleCreateUser_wf {W : Type} (env : Env W) (m : Model) (hwf : WF m) :
    ValSat (Outcome.Sat WF) (m.handleCreateUser env) := by
  unfold Model.handleCreateUser
  repeat' first
    | exact valSat_pure _ _ trivial
    | exact valSat_pure _ _ hwf
    | exact valSat_pure _ _ (WFc.ret hwf _ _ _ _ _ _)
    | refine valSat_bind _ _ _ (fun _ => ?_)
    | refine valSat_ite _ _ _ _ (fun _ => ?_) (fun _ => ?_)
    | split

theorem handleCreateBucket_wf {W : Type} (env : Env W) (m : Model) (hwf : WF m) :
    ValSat (Outcome.Sat WF) (m.handleCreateBucket env) := by
  unfold Model.handleCreateBucket
  repeat' first
    | exact valSat_pure _ _ trivial
    | exact valSat_pure _ _ hwf
    | exact valSat_pure _ _ (WFc.ret hwf _ _ _ _ _ _)
    | refine valSat_bind _ _ _ (fun _ => ?_)
    | refine valSat_ite _ _ _ _ (fun _ => ?_) (fun _ => ?_)
    | split

theorem handleChangeOwner_wf {W : Type} (env : Env W) (m : Model) (hwf : WF m) :
    ValSat (Outcome.Sat WF) (m.handleChangeOwner env) := by
  unfold Model.handleChangeOwner
  repeat' first
    | exact valSat_pure _ _ trivial
    | exact valSat_pure _ _ hwf
    | exact valSat_pure _ _ (WFc.ret hwf _ _ _ _ _ _)
    | refine valSat_bind _ _ _ (fun _ => ?_)
    | refine valSat_ite _ _ _ _ (fun _ => ?_) (fun _ => ?_)
    | split

theorem handleProvision_wf {W : Type} (env : Env W) (m : Model) (hwf : WF m) :
    ValSat (Outcome.Sat WF) (m.handleProvision env) := by
  unfold Model.handleProvision
  repeat' first
    | exact valSat_pure _ _ trivial
    | exact valSat_pure _ _ hwf
    | exact valSat_pure _ _ (WFc.ret hwf _ _ _ _ _ _)
    | refine valSat_bind _ _ _ (fun _ => ?_)
    | refine valSat_ite _ _ _ _ (fun _ => ?_) (fun _ => ?_)
    | split

theorem handleMakePublic_wf {W : Type} (env : Env W) (m : Model) (hwf : WF m) :
    ValSat (Outcome.Sat WF) (m.handleMakePublic env) := by
  unfold Model.handleMakePublic
  repeat' first
    | exact valSat_pure _ _ trivial
    | exact valSat_pure _ _ hwf
    | exact valSat_pure _ _ (WFc.ret hwf _ _ _ _ _ _)
    | refine valSat_bind _ _ _ (fun _ => ?_)
    | refine valSat_ite _ _ _ _ (fun _ => ?_) (fun _ => ?_)
    | split

theorem updateUserForm_wf {W : Type} (env : Env W) (m : Model) (key : String) (hwf : WF m)
    (hv : m.currentView = .CreateUserView ∨ m.currentView = .UpdateUserView) :
    ValSat (Outcome.Sat WF) (m.updateUserForm env key) := by
  unfold Model.updateUserForm
  repeat' first
    | exact valSat_pure _ _ trivial
    | exact valSat_pure _ _ hwf
    | exact valSat_pure _ _ (WFc.ret hwf _ _ _ _ _ _)
    | exact valSat_pure _ _ (wf_user hwf hv _ (focusFrom_length _ _ _) _
        (fun h _ => focusNext_range _ _ h))
    | exact valSat_pure _ _ (wf_user hwf hv _ (focusFrom_length _ _ _) _
        (fun _ h => focusPrev_range _ _ h))
    | exact valSat_pure _ _ (wf_user hwf hv _
        (updateFocusedInput_length _ _ _ _ _ _ (by assumption)) _ (fun h1 h2 => ⟨h1, h2⟩))
    | exact handleCreateUser_wf _ _ hwf
    | refine valSat_ite _ _ _ _ (fun _ => ?_) (fun _ => ?_)
    | split

theorem updateBucketForm_wf {W : Type} (env : Env W) (m : Model) (key : String) (hwf : WF m)
    (hv : m.currentView = .CreateBucketView) :
    ValSat (Outcome.Sat WF) (m.updateBucketForm env key) := by
  unfold Model.updateBucketForm
  repeat' first
    | exact valSat_pure _ _ trivial
    | exact valSat_pure _ _ hwf
    | exact valSat_pure _ _ (WFc.ret hwf _ _ _ _ _ _)
    | exact valSat_pure _ _ (wf_bucket hwf hv _ (focusFrom_length _ _ _) _
        (fun h _ => focusNext_range _ _ h))
    | exact valSat_pure _ _ (wf_bucket hwf hv _ (focusFrom_length _ _ _) _
        (fun _ h => focusPrev_range _ _ h))
    | exact valSat_pure _ _ (wf_bucket hwf hv _
        (updateFocusedInput_length _ _ _ _ _ _ (by assumption)) _ (fun h1 h2 => ⟨h1, h2⟩))
    | exact handleCreateBucket_wf _ _ hwf
    | refine valSat_ite _ _ _ _ (fun _ => ?_) (fun _ => ?_)
    | split

theorem updateMakePublicForm_wf {W : Type} (env : Env W) (m : Model) (key : String)
    (hwf : WF m) (hv : m.currentView = .MakeBucketPublicView) :
    ValSat (Outcome.Sat WF) (m.updateMakePublicForm env key) := by
  unfold Model.updateMakePublicForm
  repeat' first
    | exact valSat_pure _ _ trivial
    | exact valSat_pure _ _ hwf
    | exact valSat_pure _ _ (WFc.ret hwf _ _ _ _ _ _)
    | exact valSat_pure _ _ (wf_public hwf hv _ (focusFrom_length _ _ _) _
        (fun h _ => focusNext_range _ _ h))
    | exact valSat_pure _ _ (wf_public hwf hv _ (focusFrom_length _ _ _) _
        (fun _ h => focusPrev_range _ _ h))
    | exact valSat_pure _ _ (wf_public hwf hv _
        (updateFocusedInput_length _ _ _ _ _ _ (by assumption)) _ (fun h1 h2 => ⟨h1, h2⟩))
    | exact handleMakePublic_wf _ _ hwf
    | refine valSat_ite _ _ _ _ (fun _ => ?_) (fun _ => ?_)
    | split

theorem updateChangeOwnerForm_wf {W : Type} (env : Env W) (m : Model) (key : String)
    (hwf : WF m) (hv : m.currentView = .ChangeOwnerView) :
    ValSat (Outcome.Sat WF) (m.updateChangeOwnerForm env key) := by
  unfold Model.updateChangeOwnerForm
  repeat' first
    | exact valSat_pure _ _ trivial
    | exact valSat_pure _ _ hwf
    | exact valSat_pure _ _ (WFc.ret hwf _ _ _ _ _ _)
    | exact valSat_pure _ _ (wf_owner hwf hv _ (focusFrom_length _ _ _) _
        (fun h _ => focusNext_range _ _ h))
    | exact valSat_pure _ _ (wf_owner hwf hv _ (focusFrom_length _ _ _) _
        (fun _ h => focusPrev_range _ _ h))
    | exact valSat_pure _ _ (wf_owner hwf hv _
        (updateFocusedInput_length _ _ _ _ _ _ (by assumption)) _ (fun h1 h2 => ⟨h1, h2⟩))
    | exact handleChangeOwner_wf _ _ hwf
    | refine valSat_ite _ _ _ _ (fun _ => ?_) (fun _ => ?_)
    | split

theorem updateProvisionForm_wf {W : Type} (env : Env W) (m : Model) (key : String)
    (hwf : WF m) (hv : m.currentView = .ProvisionView) :
    ValSat (Outcome.Sat WF) (m.updateProvisionForm env key) := by
  unfold Model.updateProvisionForm
  repeat' first
    | exact valSat_pure _ _ trivial
    | exact valSat_pure _ _ hwf
    | exact valSat_pure _ _ (WFc.ret hwf _ _ _ _ _ _)
    | exact valSat_pure _ _ (sat_showProvision _ _ _ _ fun _ =>
        wf_provision hwf hv _ (focusFrom_length _ _ _) _ (fun h _ => focusNext_range _ _ h) _)
    | exact valSat_pure _ _ (sat_showProvision _ _ _ _ fun _ =>
        wf_provision hwf hv _ (focusFrom_length _ _ _) _ (fun _ h => focusPrev_range _ _ h) _)
    | exact valSat_pure _ _ (sat_showProvision _ _ _ _ fun _ =>
        wf_provision hwf hv _ (updateFocusedInput_length _ _ _ _ _ _ (by assumption)) _
          (fun h1 h2 => ⟨h1, h2⟩) _)
    | exact valSat_pure _ _ (sat_clampProvision _ _ _ fun _ => hwf)
    | exact handleProvision_wf _ _ hwf
    | refine valSat_ite _ _ _ _ (fun _ => ?_) (fun _ => ?_)
    | split

theorem valSat_bind_post {W α β : Type} (R : α → Prop) (P : β → Prop) (x : Eff W α)
    (f : α → Eff W β) (hx : ValSat R x) (hf : ∀ a, R a → ValSat P (f a)) :
    ValSat P (x >>= f) := fun w => hf _ (hx w) _

/-- The shape of the state after `listBuckets`: the buckets list view, cursor and page 0, a
new bucket list and possibly an error message. -/
theorem listBuckets_shape {W : Type} (env : Env W) (m : Model) :
    ValSat
      (fun o => ∃ errorMessage buckets, o = .next { m with
        errorMessage := errorMessage, buckets := buckets, currentView := .BucketsListView,
        cursor := 0, page := 0 } .nil)
      (m.listBuckets env) := by
  unfold Model.listBuckets
  repeat' first
    | exact valSat_pure _ _ ⟨_, _, rfl⟩
    | refine valSat_bind _ _ _ (fun _ => ?_)
    | split

theorem initUserForm_shape {W : Type} (env : Env W) (m : Model) :
    ValSat (fun m1 => ∃ i0 i1 i2, m1 = { m with userFormInputs := [i0, i1, i2], focusIndex := 0 })
      (m.initUserForm env) := by
  unfold Model.initUserForm
  exact valSat_bind _ _ _ (fun _ => valSat_pure _ _ ⟨_, _, _, rfl⟩)

theorem initProvisionForm_shape {W : Type} (env : Env W) (m : Model) :
    ValSat
      (fun m1 => ∃ l : List TextInput,
        m1 = { m with provisionFormInputs := l, focusIndex := 0, provisionScroll := 0 } ∧
        l.length = 9)
      (m.initProvisionForm env) := by
  unfold Model.initProvisionForm
  exact valSat_bind _ _ _ (fun _ => valSat_pure _ _ ⟨_, rfl, rfl⟩)

theorem setReloadedUsers_eq (m : Model) (users : List User) :
    m.setReloadedUsers users =
      if users.length = 0 then some { m with users := users, page := 0, cursor := 0 }
      else if m.pageSize = 0 then none
      else
        let newMaxPage := Int.tdiv ((users.length : Int) - 1) m.pageSize
        let m1 := reloadPage { m with users := users } newMaxPage
        let itemsOnPage :=
          if m1.page = newMaxPage then (m1.users.length : Int) - m1.page * m1.pageSize
          else m1.pageSize
        let m2 := reloadCursor m1 itemsOnPage
        some (if m2.cursor < 0 then { m2 with cursor := 0 } else m2) := by
  unfold Model.setReloadedUsers reloadPage reloadCursor
  rfl

theorem shape_reloadPage (m x : Model) (n : Int)
    (hx : ∃ users page cursor, x = { m with users := users, page := page, cursor := cursor }) :
    ∃ users page cursor,
      reloadPage x n = { m with users := users, page := page, cursor := cursor } := by
  obtain ⟨u, p, c, rfl⟩ := hx
  unfold reloadPage
  split <;> exact ⟨_, _, _, rfl⟩

theorem shape_reloadCursor (m x : Model) (n : Int)
    (hx : ∃ users page cursor, x = { m with users := users, page := page, cursor := cursor }) :
    ∃ users page cursor,
      reloadCursor x n = { m with users := users, page := page, cursor := cursor } := by
  obtain ⟨u, p, c, rfl⟩ := hx
  unfold reloadCursor
  split
  · split <;> exact ⟨_, _, _, rfl⟩
  · split <;> exact ⟨_, _, _, rfl⟩

theorem shape_clampCursor (m x : Model)
    (hx : ∃ users page cursor, x = { m with users := users, page := page, cursor := cursor }) :
    ∃ users page cursor,
      (if x.cursor < 0 then { x with cursor := 0 } else x) =
        { m with users := users, page := page, cursor := cursor } := by
  obtain ⟨u, p, c, rfl⟩ := hx
  split <;> exact ⟨_, _, _, rfl⟩

theorem setReloadedUsers_shape (m m2 : Model) (users : List User)
    (h : m.setReloadedUsers users = some m2) :
    ∃ users page cursor, m2 = { m with users := users, page := page, cursor := cursor } := by
  rw [setReloadedUsers_eq] at h
  split at h
  · cases h; exact ⟨_, _, _, rfl⟩
  · split at h
    · cases h
    · have h1 := Option.some.inj h
      rw [← h1]
      exact shape_clampCursor m _
        (shape_reloadCursor m _ _ (shape_reloadPage m _ _ ⟨_, _, _, rfl⟩))

theorem listBuckets_wf {W : Type} (env : Env W) (m : Model) (hwf : WF m) :
    ValSat (Outcome.Sat WF) (m.listBuckets env) :=
  valSat_mono (listBuckets_shape env m) fun o h => by
    obtain ⟨e, b, rfl⟩ := h
    exact WFc.plain hwf _ (by dsimp only; decide) _ _ _ _ _ _

theorem handleEnter_wf {W : Type} (env : Env W) (m : Model) (hwf : WF m) :
    ValSat (Outcome.Sat WF) (m.handleEnter env) := by
  unfold Model.handleEnter
  split
  all_goals repeat' first
    | exact valSat_pure _ _ hwf
    | exact valSat_pure _ _ (WFc.plain hwf _ (by dsimp only; decide) _ _ _ _ _ _)
    | exact listBuckets_wf _ _ hwf
    | exact handleCreateUser_wf _ _ hwf
    | exact handleCreateBucket_wf _ _ hwf
    | exact handleMakePublic_wf _ _ hwf
    | (refine valSat_bind_post _ _ _ _ (initUserForm_shape env m) ?_
       rintro m1 ⟨i0, i1, i2, rfl⟩
       refine valSat_pure _ _ ?_
       simp [Outcome.Sat, WF, WFc, plainView])
    | (refine valSat_bind_post _ _ _ _ (initProvisionForm_shape env m) ?_
       rintro m1 ⟨l, rfl, hl⟩
       refine valSat_pure _ _ ?_
       simp [Outcome.Sat, WF, WFc, plainView, hl])
    | (refine valSat_pure _ _ ?_
       simp [Outcome.Sat, WF, WFc, plainView, Model.initBucketForm, Model.initChangeOwnerForm,
         Model.initMakePublicForm])
    | refine valSat_bind _ _ _ (fun _ => ?_)
    | refine valSat_ite _ _ _ _ (fun _ => ?_) (fun _ => ?_)
    | split

theorem handleEnter_main1 {W : Type} (env : Env W) (m : Model) (msg : String) :
    Model.handleEnter env { m with successMessage := msg, currentView := .MainMenuView,
                                   cursor := 1 } =
      Model.listBuckets env { m with successMessage := msg, currentView := .MainMenuView,
                                     cursor := 1 } := by
  simp [Model.handleEnter]

theorem executeConfirmedAction_wf {W : Type} (env : Env W) (m : Model) (hwf : WF m) :
    ValSat (Outcome.Sat WF) (m.executeConfirmedAction env) := by
  unfold Model.executeConfirmedAction
  repeat' first
    | exact valSat_pure _ _ trivial
    | exact valSat_pure _ _ (WFc.ret hwf _ _ _ _ _ _)
    | (refine valSat_pure _ _ ?_
       obtain ⟨u, p, c, e⟩ := setReloadedUsers_shape _ _ _ (by assumption)
       rw [e]
       exact WFc.ret hwf _ _ _ _ _ _)
    | (dsimp only
       rw [handleEnter_main1]
       refine valSat_bind_post _ _ _ _ (listBuckets_shape env _) ?_
       rintro out ⟨e, b, rfl⟩
       exact valSat_pure _ _ (WFc.plain hwf _ (by dsimp only; decide) _ _ _ _ _ _))
    | (refine valSat_pure _ _ ?_
       rename_i heq
       simp only [Model.initMakePublicForm, List.cons.injEq] at heq
       obtain ⟨-, -, rfl⟩ := heq
       simp [Outcome.Sat, WF, WFc, plainView, Model.initMakePublicForm])
    | refine valSat_bind _ _ _ (fun _ => ?_)
    | refine valSat_ite _ _ _ _ (fun _ => ?_) (fun _ => ?_)
    | split

theorem updateKey_wf {W : Type} (env : Env W) (m : Model) (key : String) (hwf : WF m) :
    ValSat (Outcome.Sat WF) (m.updateKey env key) := by
  unfold Model.updateKey
  dsimp only
  repeat' first
    | exact valSat_pure _ _ trivial
    | exact valSat_pure _ _ hwf
    | exact valSat_pure _ _ (WFc.plain hwf _ (by dsimp only; decide) _ _ _ _ _ _)
    | exact valSat_pure _ _ (WFc.ret hwf _ _ _ _ _ _)
    | exact handleEnter_wf _ _ hwf
    | exact executeConfirmedAction_wf _ _ hwf
    | (refine valSat_pure _ _ ?_
       simp [Outcome.Sat, WF, WFc, plainView, Model.askConfirm, Model.initUpdateUserForm])
    | refine valSat_bind _ _ _ (fun _ => ?_)
    | refine valSat_ite _ _ _ _ (fun _ => ?_) (fun _ => ?_)
    | split

/-- Handling a message keeps the session state well formed. -/
theorem update_wf {W : Type} (env : Env W) (m : Model) (msg : Msg) (hwf : WF m) :
    ValSat (Outcome.Sat WF) (m.Update env msg) := by
  cases msg with
  | WindowSizeMsg width height =>
    unfold Model.Update
    dsimp only
    split
    · exact valSat_pure _ _ (sat_showProvision _ _ _ _ fun _ => hwf)
    · exact valSat_pure _ _ hwf
  | other => exact valSat_pure _ _ hwf
  | KeyMsg key =>
    unfold Model.Update
    dsimp only
    refine valSat_ite _ _ _ _ (fun h => updateUserForm_wf env m key hwf (Or.inl h)) (fun _ => ?_)
    refine valSat_ite _ _ _ _ (fun h => updateBucketForm_wf env m key hwf h) (fun _ => ?_)
    refine valSat_ite _ _ _ _ (fun h => updateChangeOwnerForm_wf env m key hwf h) (fun _ => ?_)
    refine valSat_ite _ _ _ _ (fun h => updateProvisionForm_wf env m key hwf h) (fun _ => ?_)
    refine valSat_ite _ _ _ _ (fun h => updateUserForm_wf env m key hwf (Or.inr h)) (fun _ => ?_)
    refine valSat_ite _ _ _ _ (fun h => updateMakePublicForm_wf env m key hwf h) (fun _ => ?_)
    exact updateKey_wf env _ key hwf

theorem newModel_wf : WF NewModel := by
  simp [WF, WFc, plainView, NewModel]

/-- An invariant of the handling of messages holds before every handled message of a session
and in its last state. -/
theorem runSession_inv {W : Type} (env : Env W) (Q : Model → Prop)
    (hQ : ∀ m msg, Q m → ValSat (Outcome.Sat Q) (m.Update env msg)) (msgs : List Msg) :
    ∀ (m : Model) (w : W), Q m →
      Q (runSession env m w msgs).2.1 ∧ ∀ step ∈ (runSession env m w msgs).1, Q step.before := by
  induction msgs with
  | nil => intro m w h; exact ⟨h, by simp [runSession]⟩
  | cons msg rest ih =>
    intro m w h
    have hstep := hQ m msg h w
    simp only [runSession]
    split
    · rename_i m1 heq
      rw [heq] at hstep
      exact ⟨hstep, by simp [h]⟩
    · rename_i m1 c hc heq
      rw [heq] at hstep
      obtain ⟨h1, h2⟩ := ih m1 _ hstep
      refine ⟨h1, ?_⟩
      intro step hs
      simp only [List.mem_cons] at hs
      rcases hs with rfl | hs
      · exact h
      · exact h2 step hs
    · exact ⟨h, by simp [h]⟩

/-- Every state of a session that starts in the initial state is well formed. -/
theorem session_wf {W : Type} (env : Env W) (w : W) (msgs : List Msg) :
    WF (runSession env NewModel w msgs).2.1 ∧
      ∀ step ∈ (runSession env NewModel w msgs).1, WF step.before :=
  runSession_inv env WF (fun m msg h => update_wf env m msg h) msgs NewModel w newModel_wf

theorem handleCreateUser_pend {W : Type} (env : Env W) (m : Model) :
    ValSat (Outcome.Sat (PendOK m)) (m.handleCreateUser env) := by
  unfold Model.handleCreateUser
  repeat' first
    | exact valSat_pure _ _ trivial
    | exact valSat_pure _ _ (Or.inr (Or.inr ⟨rfl, rfl⟩))
    | refine valSat_bind _ _ _ (fun _ => ?_)
    | refine valSat_ite _ _ _ _ (fun _ => ?_) (fun _ => ?_)
    | split

theorem handleCreateBucket_pend {W : Type} (env : Env W) (m : Model) :
    ValSat (Outcome.Sat (PendOK m)) (m.handleCreateBucket env) := by
  unfold Model.handleCreateBucket
  repeat' first
    | exact valSat_pure _ _ trivial
    | exact valSat_pure _ _ (Or.inr (Or.inr ⟨rfl, rfl⟩))
    | refine valSat_bind _ _ _ (fun _ => ?_)
    | refine valSat_ite _ _ _ _ (fun _ => ?_) (fun _ => ?_)
    | split

theorem handleChangeOwner_pend {W : Type} (env : Env W) (m : Model) :
    ValSat (Outcome.Sat (PendOK m)) (m.handleChangeOwner env) := by
  unfold Model.handleChangeOwner
  repeat' first
    | exact valSat_pure _ _ trivial
    | exact valSat_pure _ _ (Or.inr (Or.inr ⟨rfl, rfl⟩))
    | refine valSat_bind _ _ _ (fun _ => ?_)
    | refine valSat_ite _ _ _ _ (fun _ => ?_) (fun _ => ?_)
    | split

theorem handleProvision_pend {W : Type} (env : Env W) (m : Model) :
    ValSat (Outcome.Sat (PendOK m)) (m.handleProvision env) := by
  unfold Model.handleProvision
  repeat' first
    | exact valSat_pure _ _ trivial
    | exact valSat_pure _ _ (Or.inr (Or.inr ⟨rfl, rfl⟩))
    | refine valSat_bind _ _ _ (fun _ => ?_)
    | refine valSat_ite _ _ _ _ (fun _ => ?_) (fun _ => ?_)
    | split

theorem handleMakePublic_pend {W : Type} (env : Env W) (m : Model) :
    ValSat (Outcome.Sat (PendOK m)) (m.handleMakePublic env) := by
  unfold Model.handleMakePublic
  repeat' first
    | exact valSat_pure _ _ trivial
    | exact valSat_pure _ _ (Or.inr (Or.inr ⟨rfl, rfl⟩))
    | refine valSat_bind _ _ _ (fun _ => ?_)
    | refine valSat_ite _ _ _ _ (fun _ => ?_) (fun _ => ?_)
    | split

theorem updateUserForm_pend {W : Type} (env : Env W) (m : Model) (key : String) :
    ValSat (Outcome.Sat (PendOK m)) (m.updateUserForm env key) := by
  unfold Model.updateUserForm
  repeat' first
    | exact valSat_pure _ _ trivial
    | exact valSat_pure _ _ (Or.inr (Or.inr ⟨rfl, rfl⟩))
    | exact handleCreateUser_pend _ _
    | refine valSat_ite _ _ _ _ (fun _ => ?_) (fun _ => ?_)
    | split

theorem updateBucketForm_pend {W : Type} (env : Env W) (m : Model) (key : String) :
    ValSat (Outcome.Sat (PendOK m)) (m.updateBucketForm env key) := by
  unfold Model.updateBucketForm
  repeat' first
    | exact valSat_pure _ _ trivial
    | exact valSat_pure _ _ (Or.inr (Or.inr ⟨rfl, rfl⟩))
    | exact handleCreateBucket_pend _ _
    | refine valSat_ite _ _ _ _ (fun _ => ?_) (fun _ => ?_)
    | split

theorem updateChangeOwnerForm_pend {W : Type} (env : Env W) (m : Model) (key : String) :
    ValSat (Outcome.Sat (PendOK m)) (m.updateChangeOwnerForm env key) := by
  unfold Model.updateChangeOwnerForm
  repeat' first
    | exact valSat_pure _ _ trivial
    | exact valSat_pure _ _ (Or.inr (Or.inr ⟨rfl, rfl⟩))
    | exact handleChangeOwner_pend _ _
    | refine valSat_ite _ _ _ _ (fun _ => ?_) (fun _ => ?_)
    | split

theorem updateMakePublicForm_pend {W : Type} (env : Env W) (m : Model) (key : String) :
    ValSat (Outcome.Sat (PendOK m)) (m.updateMakePublicForm env key) := by
  unfold Model.updateMakePublicForm
  repeat' first
    | exact valSat_pure _ _ trivial
    | exact valSat_pure _ _ (Or.inr (Or.inr ⟨rfl, rfl⟩))
    | exact handleMakePublic_pend _ _
    | refine valSat_ite _ _ _ _ (fun _ => ?_) (fun _ => ?_)
    | split

theorem updateProvisionForm_pend {W : Type} (env : Env W) (m : Model) (key : String) :
    ValSat (Outcome.Sat (PendOK m)) (m.updateProvisionForm env key) := by
  unfold Model.updateProvisionForm
  repeat' first
    | exact valSat_pure _ _ trivial
    | exact valSat_pure _ _ (Or.inr (Or.inr ⟨rfl, rfl⟩))
    | exact valSat_pure _ _ (sat_showProvision _ _ _ _ fun _ => Or.inr (Or.inr ⟨rfl, rfl⟩))
    | exact valSat_pure _ _ (sat_clampProvision _ _ _ fun _ => Or.inr (Or.inr ⟨rfl, rfl⟩))
    | exact handleProvision_pend _ _
    | refine valSat_ite _ _ _ _ (fun _ => ?_) (fun _ => ?_)
    | split

theorem listBuckets_pend {W : Type} (env : Env W) (m : Model) :
    ValSat (Outcome.Sat (PendOK m)) (m.listBuckets env) :=
  valSat_mono (listBuckets_shape env m) fun o h => by
    obtain ⟨e, b, rfl⟩ := h
    exact Or.inr (Or.inr ⟨rfl, rfl⟩)

theorem handleEnter_pend {W : Type} (env : Env W) (m : Model) :
    ValSat (Outcome.Sat (PendOK m)) (m.handleEnter env) := by
  unfold Model.handleEnter
  split
  all_goals repeat' first
    | exact valSat_pure _ _ (Or.inr (Or.inr ⟨rfl, rfl⟩))
    | exact listBuckets_pend _ _
    | exact handleCreateUser_pend _ _
    | exact handleCreateBucket_pend _ _
    | exact handleMakePublic_pend _ _
    | (refine valSat_bind_post _ _ _ _ (initUserForm_shape env m) ?_
       rintro m1 ⟨i0, i1, i2, rfl⟩
       exact valSat_pure _ _ (Or.inr (Or.inr ⟨rfl, rfl⟩)))
    | (refine valSat_bind_post _ _ _ _ (initProvisionForm_shape env m) ?_
       rintro m1 ⟨l, rfl, hl⟩
       exact valSat_pure _ _ (Or.inr (Or.inr ⟨rfl, rfl⟩)))
    | refine valSat_bind _ _ _ (fun _ => ?_)
    | refine valSat_ite _ _ _ _ (fun _ => ?_) (fun _ => ?_)
    | split

/-- Every way through `executeConfirmedAction` that does not panic ends with the pending
action and the pending target empty. -/
theorem executeConfirmedAction_clears {W : Type} (env : Env W) (m : Model) :
    ValSat (Outcome.Sat (fun m1 => m1.pendingAction = "" ∧ m1.pendingTarget = ""))
      (m.executeConfirmedAction env) := by
  unfold Model.executeConfirmedAction
  repeat' first
    | exact valSat_pure _ _ trivial
    | exact valSat_pure _ _ ⟨rfl, rfl⟩
    | refine valSat_bind _ _ _ (fun _ => ?_)
    | refine valSat_ite _ _ _ _ (fun _ => ?_) (fun _ => ?_)
    | split

theorem updateKey_pend {W : Type} (env : Env W) (m : Model) (key : String) :
    ValSat (Outcome.Sat (PendOK m)) (m.updateKey env key) := by
  unfold Model.updateKey
  dsimp only
  repeat' first
    | exact valSat_pure _ _ trivial
    | exact valSat_pure _ _ (Or.inr (Or.inr ⟨rfl, rfl⟩))
    | exact valSat_pure _ _ (Or.inl ⟨rfl, rfl⟩)
    | exact valSat_pure _ _ (Or.inr (Or.inl rfl))
    | exact handleEnter_pend _ _
    | exact valSat_mono (executeConfirmedAction_clears env m) (fun o h => by
        cases o with
        | next m1 c => exact Or.inl h
        | panic => trivial)
    | refine valSat_bind _ _ _ (fun _ => ?_)
    | refine valSat_ite _ _ _ _ (fun _ => ?_) (fun _ => ?_)
    | split

/-- Handling a message leaves the pending action and target as they are, or empties both, or
ends in the Confirm view. -/
theorem update_pend {W : Type} (env : Env W) (m : Model) (msg : Msg) :
    ValSat (Outcome.Sat (PendOK m)) (m.Update env msg) := by
  cases msg with
  | WindowSizeMsg width height =>
    unfold Model.Update
    dsimp only
    split
    · exact valSat_pure _ _ (sat_showProvision _ _ _ _ fun _ => Or.inr (Or.inr ⟨rfl, rfl⟩))
    · exact valSat_pure _ _ (Or.inr (Or.inr ⟨rfl, rfl⟩))
  | other => exact valSat_pure _ _ (Or.inr (Or.inr ⟨rfl, rfl⟩))
  | KeyMsg key =>
    unfold Model.Update
    dsimp only
    refine valSat_ite _ _ _ _ (fun _ => updateUserForm_pend env m key) (fun _ => ?_)
    refine valSat_ite _ _ _ _ (fun _ => updateBucketForm_pend env m key) (fun _ => ?_)
    refine valSat_ite _ _ _ _ (fun _ => updateChangeOwnerForm_pend env m key) (fun _ => ?_)
    refine valSat_ite _ _ _ _ (fun _ => updateProvisionForm_pend env m key) (fun _ => ?_)
    refine valSat_ite _ _ _ _ (fun _ => updateUserForm_pend env m key) (fun _ => ?_)
    refine valSat_ite _ _ _ _ (fun _ => updateMakePublicForm_pend env m key) (fun _ => ?_)
    exact updateKey_pend env { m with errorMessage := "", successMessage := "" } key

theorem valSat_ite_neg {W α : Type} (P : α → Prop) (c : Prop) [Decidable c] (x y : Eff W α)
    (hc : ¬ c) (hy : ValSat P y) : ValSat P (if c then x else y) := by
  rw [if_neg hc]; exact hy

theorem handleEnter_confirm {W : Type} (env : Env W) (m : Model)
    (hcv : m.currentView = .ConfirmView) : m.handleEnter env = pure (.next m .nil) := by
  unfold Model.handleEnter
  split <;> first | rfl | (rename_i h; rw [hcv] at h; cases h)

/-- In the Confirm view a key either answers the confirmation and empties the pending action
and target, or keeps the view, or is esc, q or ctrl+c and keeps the pending action and
target. -/
theorem updateKey_confirm {W : Type} (env : Env W) (m : Model) (key : String)
    (hcv : m.currentView = .ConfirmView) :
    ValSat
      (Outcome.Sat fun m1 =>
        (m1.pendingAction = "" ∧ m1.pendingTarget = "") ∨ m1.currentView = .ConfirmView ∨
          (m1.pendingAction = m.pendingAction ∧ m1.pendingTarget = m.pendingTarget ∧
            leavesConfirm (.KeyMsg key)))
      (m.updateKey env key) := by
  unfold Model.updateKey
  dsimp only
  rw [handleEnter_confirm env m hcv]
  repeat' first
    | exact valSat_pure _ _ trivial
    | exact valSat_pure _ _ (Or.inl ⟨rfl, rfl⟩)
    | exact valSat_pure _ _ (Or.inr (Or.inl hcv))
    | (refine valSat_pure _ _ (Or.inr (Or.inr ⟨rfl, rfl, ?_⟩))
       rename_i h
       rcases h with h | h
       · exact Or.inr (Or.inr (by rw [h]))
       · exact Or.inr (Or.inl (by rw [h])))
    | (refine valSat_pure _ _ (Or.inr (Or.inr ⟨rfl, rfl, ?_⟩))
       rename_i h _
       exact Or.inl (by rw [h]))
    | exact valSat_mono (executeConfirmedAction_clears env m) (fun o h => by
        cases o with
        | next m1 c => exact Or.inl h
        | panic => trivial)
    | refine valSat_ite_neg _ _ _ _ (fun h => by rw [hcv] at h; exact absurd h (by decide)) ?_
    | refine valSat_ite_neg _ _ _ _ (fun h => by rw [hcv] at h; exact absurd h.1 (by decide)) ?_
    | refine valSat_bind _ _ _ (fun _ => ?_)
    | refine valSat_ite _ _ _ _ (fun _ => ?_) (fun _ => ?_)

/-- One handled message and the pending action and target: afterwards both are empty, or the
view is the Confirm view, or both are as before and the message did not leave the Confirm view
other than by esc, q or ctrl+c. -/
theorem update_pending_step {W : Type} (env : Env W) (m : Model) (msg : Msg) :
    ValSat
      (Outcome.Sat fun m1 =>
        (m1.pendingAction = "" ∧ m1.pendingTarget = "") ∨ m1.currentView = .ConfirmView ∨
          (m1.pendingAction = m.pendingAction ∧ m1.pendingTarget = m.pendingTarget ∧
            (m.currentView = .ConfirmView → leavesConfirm msg)))
      (m.Update env msg) := by
  by_cases hcv : m.currentView = .ConfirmView
  · cases msg with
    | WindowSizeMsg width height =>
      unfold Model.Update
      dsimp only
      rw [if_neg (by rw [hcv]; decide)]
      exact valSat_pure _ _ (Or.inr (Or.inl hcv))
    | other => exact valSat_pure _ _ (Or.inr (Or.inl hcv))
    | KeyMsg key =>
      unfold Model.Update
      dsimp only
      rw [if_neg (by rw [hcv]; decide), if_neg (by rw [hcv]; decide),
        if_neg (by rw [hcv]; decide), if_neg (by rw [hcv]; decide),
        if_neg (by rw [hcv]; decide), if_neg (by rw [hcv]; decide)]
      refine valSat_mono (updateKey_confirm env
        { m with errorMessage := "", successMessage := "" } key hcv) (fun o h => ?_)
      cases o with
      | panic => trivial
      | next m1 c =>
        rcases h with h | h | ⟨h1, h2, h3⟩
        · exact Or.inl h
        · exact Or.inr (Or.inl h)
        · exact Or.inr (Or.inr ⟨h1, h2, fun _ => h3⟩)
  · refine valSat_mono (update_pend env m msg) (fun o h => ?_)
    cases o with
    | panic => trivial
    | next m1 c =>
      rcases h with h | h | ⟨h1, h2⟩
      · exact Or.inl h
      · exact Or.inr (Or.inl h)
      · exact Or.inr (Or.inr ⟨h1, h2, fun h => absurd h hcv⟩)

/-- The pending action and target at the end of a session that started in state `m`: both are
empty, or the session is in the Confirm view, or a message esc, q or ctrl+c was handled in the
Confirm view, or both are as in `m` and `m` is not in the Confirm view. -/
theorem session_pending {W : Type} (env : Env W) (msgs : List Msg) :
    ∀ (m : Model) (w : W),
      ((runSession env m w msgs).2.1.pendingAction = "" ∧
        (runSession env m w msgs).2.1.pendingTarget = "") ∨
      (runSession env m w msgs).2.1.currentView = .ConfirmView ∨
      (∃ step ∈ (runSession env m w msgs).1,
        step.before.currentView = .ConfirmView ∧ leavesConfirm step.msg) ∨
      ((runSession env m w msgs).2.1.pendingAction = m.pendingAction ∧
        (runSession env m w msgs).2.1.pendingTarget = m.pendingTarget ∧
        m.currentView ≠ .ConfirmView) := by
  induction msgs with
  | nil =>
    intro m w
    by_cases hcv : m.currentView = .ConfirmView
    · exact Or.inr (Or.inl hcv)
    · exact Or.inr (Or.inr (Or.inr ⟨rfl, rfl, hcv⟩))
  | cons msg rest ih =>
    intro m w
    have hstep := update_pending_step env m msg w
    simp only [runSession]
    have key : ∀ m1 : Model,
        ((m1.pendingAction = "" ∧ m1.pendingTarget = "") ∨ m1.currentView = .ConfirmView ∨
          (m1.pendingAction = m.pendingAction ∧ m1.pendingTarget = m.pendingTarget ∧
            (m.currentView = .ConfirmView → leavesConfirm msg))) →
        (m1.pendingAction = "" ∧ m1.pendingTarget = "") ∨ m1.currentView = .ConfirmView ∨
          (m.currentView = .ConfirmView ∧ leavesConfirm msg) ∨
          (m1.pendingAction = m.pendingAction ∧ m1.pendingTarget = m.pendingTarget ∧
            m.currentView ≠ .ConfirmView) := by
      intro m1 h
      rcases h with h | h | ⟨h1, h2, h3⟩
      · exact Or.inl h
      · exact Or.inr (Or.inl h)
      · by_cases hcv : m.currentView = .ConfirmView
        · exact Or.inr (Or.inr (Or.inl ⟨hcv, h3 hcv⟩))
        · exact Or.inr (Or.inr (Or.inr ⟨h1, h2, hcv⟩))
    split
    · rename_i m1 heq
      rw [heq] at hstep
      rcases key m1 hstep with h | h | h | h
      · exact Or.inl h
      · exact Or.inr (Or.inl h)
      · exact Or.inr (Or.inr (Or.inl ⟨_, List.mem_singleton.mpr rfl, h⟩))
      · exact Or.inr (Or.inr (Or.inr h))
    · rename_i m1 c hc heq
      rw [heq] at hstep
      rcases ih m1 (m.Update env msg w).world with h | h | ⟨step, hs, h⟩ | ⟨h1, h2, h3⟩
      · exact Or.inl h
      · exact Or.inr (Or.inl h)
      · exact Or.inr (Or.inr (Or.inl ⟨step, List.mem_cons_of_mem _ hs, h⟩))
      · rcases key m1 hstep with k | k | k | ⟨k1, k2, k3⟩
        · exact Or.inl ⟨h1.trans k.1, h2.trans k.2⟩
        · exact absurd k h3
        · exact Or.inr (Or.inr (Or.inl ⟨_, List.mem_cons_self _ _, k⟩))
        · exact Or.inr (Or.inr (Or.inr ⟨h1.trans k1, h2.trans k2, k3⟩))
    · by_cases hcv : m.currentView = .ConfirmView
      · exact Or.inr (Or.inl hcv)
      · exact Or.inr (Or.inr (Or.inr ⟨rfl, rfl, hcv⟩))

theorem setReloadedUsers_ne_none (m : Model) (users : List User) (hp : m.pageSize ≠ 0) :
    m.setReloadedUsers users ≠ none := by
  rw [setReloadedUsers_eq]
  by_cases hu : users.length = 0
  · rw [if_pos hu]
    exact Option.some_ne_none _
  · rw [if_neg hu, if_neg hp]
    exact Option.some_ne_none _

/-- With a page size other than 0, `executeConfirmedAction` does not panic. -/
theorem executeConfirmedAction_total {W : Type} (env : Env W) (m : Model)
    (hp : m.pageSize ≠ 0) :
    ValSat (fun o => o ≠ .panic) (m.executeConfirmedAction env) := by
  unfold Model.executeConfirmedAction
  repeat' first
    | exact valSat_pure _ _ (fun h => Outcome.noConfusion h)
    | (exfalso
       rename_i heq
       exact setReloadedUsers_ne_none _ _ (by exact hp) heq)
    | (dsimp only
       rw [handleEnter_main1]
       refine valSat_bind_post _ _ _ _ (listBuckets_shape env _) ?_
       rintro out ⟨e, b, rfl⟩
       exact valSat_pure _ _ (fun h => Outcome.noConfusion h))
    | refine valSat_bind _ _ _ (fun _ => ?_)
    | refine valSat_ite _ _ _ _ (fun _ => ?_) (fun _ => ?_)
    | split

theorem update_notForm {W : Type} (env : Env W) (m : Model) (key : String)
    (hv : m.currentView.isForm = false) :
    m.Update env (.KeyMsg key) = m.clearMessages.updateKey env key := by
  unfold Model.Update
  dsimp only
  rw [if_neg (fun h => by rw [h] at hv; cases hv), if_neg (fun h => by rw [h] at hv; cases hv),
    if_neg (fun h => by rw [h] at hv; cases hv), if_neg (fun h => by rw [h] at hv; cases hv),
    if_neg (fun h => by rw [h] at hv; cases hv), if_neg (fun h => by rw [h] at hv; cases hv)]
  rfl

theorem updateKey_yes {W : Type} (env : Env W) (m : Model) (key : String)
    (hk : key = "y" ∨ key = "Y") (hcv : m.currentView = .ConfirmView) :
    m.updateKey env key = m.executeConfirmedAction env := by
  unfold Model.updateKey
  dsimp only
  rcases hk with rfl | rfl <;>
    rw [if_neg (by decide), if_neg (by decide), if_neg (by decide), if_neg (by decide),
      if_neg (by decide), if_neg (by decide), if_neg (by decide), if_neg (by decide),
      if_neg (by decide), if_neg (by decide), if_neg (by decide), if_neg (by decide),
      if_pos (by decide), if_pos hcv]

theorem updateKey_no {W : Type} (env : Env W) (m : Model) (key : String)
    (hk : key = "n" ∨ key = "N") (hcv : m.currentView = .ConfirmView) :
    m.updateKey env key =
      pure (.next { m with
        pendingAction := "", pendingTarget := "", currentView := m.returnView,
        successMessage := "Operation cancelled." } .nil) := by
  unfold Model.updateKey
  dsimp only
  rcases hk with rfl | rfl <;>
    rw [if_neg (by decide), if_neg (by decide), if_neg (by decide), if_neg (by decide),
      if_neg (by decide), if_neg (by decide), if_neg (by decide), if_neg (by decide),
      if_neg (by decide), if_neg (by decide), if_neg (by decide), if_neg (by decide),
      if_neg (by decide), if_pos (by decide), if_pos hcv]

theorem updateKey_quit {W : Type} (env : Env W) (m : Model) (key : String)
    (hk : key = "q" ∨ key = "ctrl+c") :
    m.updateKey env key =
      if m.currentView = .MainMenuView then pure (.next m .Quit)
      else pure (.next { m with currentView := .MainMenuView, cursor := 0 } .nil) := by
  unfold Model.updateKey
  dsimp only
  rcases hk with rfl | rfl <;> rw [if_pos (by decide)]

theorem updateKey_esc {W : Type} (env : Env W) (m : Model) :
    m.updateKey env "esc" =
      if m.currentView = .UserDetailView then
        pure (.next { m with currentView := .UsersListView } .nil)
      else if m.currentView = .BucketDetailView then
        pure (.next { m with currentView := .BucketsListView } .nil)
      else if m.currentView = .ProvisionView then
        pure (.next { m with currentView := .OperationsView, cursor := 0 } .nil)
      else if m.currentView ≠ .MainMenuView then
        pure (.next { m with currentView := .MainMenuView, cursor := 0 } .nil)
      else pure (.next m .nil) := by
  unfold Model.updateKey
  dsimp only
  rw [if_neg (by decide), if_pos rfl]

/-- On a list view the keys `d`, `p` and `P` either change nothing or ask for a confirmation
and store the list view as the return view. -/
theorem updateKey_ask {W : Type} (env : Env W) (m : Model) (key : String)
    (hk : key = "d" ∨ key = "p" ∨ key = "P")
    (hv : m.currentView = .UsersListView ∨ m.currentView = .BucketsListView) :
    ValSat
      (Outcome.Sat fun m1 =>
        m1 = m ∨ ∃ action target, m1 = m.askConfirm action target m.currentView)
      (m.updateKey env key) := by
  unfold Model.updateKey
  dsimp only
  rcases hk with rfl | rfl | rfl <;> rcases hv with hv | hv
  all_goals repeat' first
    | refine valSat_ite_neg _ _ _ _ (by decide) ?_
    | refine valSat_ite_neg _ _ _ _ (fun h => by rw [hv] at h; exact absurd h.1 (by decide)) ?_
    | exact valSat_pure _ _ trivial
    | exact valSat_pure _ _ (Or.inl rfl)
    | exact valSat_pure _ _ (Or.inr ⟨_, _, by rw [hv]⟩)
    | refine valSat_ite _ _ _ _ (fun _ => ?_) (fun _ => ?_)
    | split

theorem updateUserForm_esc {W : Type} (env : Env W) (m : Model) :
    m.updateUserForm env "esc" =
      pure (.next { m with currentView := m.returnView, cursor := 0 } .nil) := by
  unfold Model.updateUserForm
  rw [if_neg (by decide), if_pos (Or.inl rfl)]

theorem updateBucketForm_esc {W : Type} (env : Env W) (m : Model) :
    m.updateBucketForm env "esc" =
      pure (.next { m with currentView := m.returnView, cursor := 0 } .nil) := by
  unfold Model.updateBucketForm
  rw [if_neg (by decide), if_pos (Or.inl rfl)]

theorem updateChangeOwnerForm_esc {W : Type} (env : Env W) (m : Model) :
    m.updateChangeOwnerForm env "esc" =
      pure (.next { m with currentView := m.returnView, cursor := 0 } .nil) := by
  unfold Model.updateChangeOwnerForm
  rw [if_neg (by decide), if_pos (Or.inl rfl)]

theorem updateProvisionForm_esc {W : Type} (env : Env W) (m : Model) :
    m.updateProvisionForm env "esc" =
      pure (.next { m with currentView := m.returnView, cursor := 0 } .nil) := by
  unfold Model.updateProvisionForm
  rw [if_neg (by decide), if_pos (Or.inl rfl)]

theorem updateMakePublicForm_esc {W : Type} (env : Env W) (m : Model) :
    m.updateMakePublicForm env "esc" =
      pure (.next { m with currentView := m.returnView, cursor := 0 } .nil) := by
  unfold Model.updateMakePublicForm
  rw [if_neg (by decide), if_pos (Or.inl rfl)]

/-- The handler that `Update` gives a key to in a form view. -/
theorem update_form {W : Type} (env : Env W) (m : Model) (key : String) :
    (m.currentView = .CreateUserView ∨ m.currentView = .UpdateUserView →
      m.Update env (.KeyMsg key) = m.updateUserForm env key) ∧
    (m.currentView = .CreateBucketView → m.Update env (.KeyMsg key) = m.updateBucketForm env key) ∧
    (m.currentView = .ChangeOwnerView →
      m.Update env (.KeyMsg key) = m.updateChangeOwnerForm env key) ∧
    (m.currentView = .ProvisionView →
      m.Update env (.KeyMsg key) = m.updateProvisionForm env key) ∧
    (m.currentView = .MakeBucketPublicView →
      m.Update env (.KeyMsg key) = m.updateMakePublicForm env key) := by
  unfold Model.Update
  dsimp only
  refine ⟨fun h => ?_, fun h => ?_, fun h => ?_, fun h => ?_, fun h => ?_⟩
  · rcases h with h | h
    · rw [if_pos h]
    · rw [if_neg (by rw [h]; decide), if_neg (by rw [h]; decide), if_neg (by rw [h]; decide),
        if_neg (by rw [h]; decide), if_pos h]
  · rw [if_neg (by rw [h]; decide), if_pos h]
  · rw [if_neg (by rw [h]; decide), if_neg (by rw [h]; decide), if_pos h]
  · rw [if_neg (by rw [h]; decide), if_neg (by rw [h]; decide), if_neg (by rw [h]; decide),
      if_pos h]
  · rw [if_neg (by rw [h]; decide), if_neg (by rw [h]; decide), if_neg (by rw [h]; decide),
      if_neg (by rw [h]; decide), if_neg (by rw [h]; decide), if_pos h]

theorem update_esc_form {W : Type} (env : Env W) (m : Model)
    (hv : m.currentView.isForm = true) :
    m.Update env (.KeyMsg "esc") =
      pure (.next { m with currentView := m.returnView, cursor := 0 } .nil) := by
  obtain ⟨h1, h2, h3, h4, h5⟩ := update_form env m "esc"
  cases hcv : m.currentView <;> rw [hcv] at hv <;> first
    | exact absurd hv (by decide)
    | rw [h1 (Or.inl hcv), updateUserForm_esc]
    | rw [h1 (Or.inr hcv), updateUserForm_esc]
    | rw [h2 hcv, updateBucketForm_esc]
    | rw [h3 hcv, updateChangeOwnerForm_esc]
    | rw [h4 hcv, updateProvisionForm_esc]
    | rw [h5 hcv, updateMakePublicForm_esc]

theorem focusNext_mod (i : Int) (n : Nat) (h0 : 0 ≤ i) (h1 : i ≤ (n : Int) + 1) :
    focusNext i n = (i + 1) % ((n : Int) + 2) := by
  unfold focusNext
  split
  · have e : i + 1 = (n : Int) + 2 := by omega
    rw [e, Int.emod_self]
  · rw [Int.emod_eq_of_lt (by omega) (by omega)]

theorem focusPrev_mod (i : Int) (n : Nat) (h0 : 0 ≤ i) (h1 : i ≤ (n : Int) + 1) :
    focusPrev i n = (i - 1) % ((n : Int) + 2) := by
  unfold focusPrev
  split
  · have e : i - 1 = ((n : Int) + 1) + -1 * ((n : Int) + 2) := by omega
    rw [e, Int.add_mul_emod_self, Int.emod_eq_of_lt (by omega) (by omega)]
  · rw [Int.emod_eq_of_lt (by omega) (by omega)]

theorem focusPrev_focusNext (i : Int) (n : Nat) (h0 : 0 ≤ i) (h1 : i ≤ (n : Int) + 1) :
    focusPrev (focusNext i n) n = i := by
  unfold focusPrev focusNext
  split <;> split <;> omega

theorem focusNext_focusPrev (i : Int) (n : Nat) (h0 : 0 ≤ i) (h1 : i ≤ (n : Int) + 1) :
    focusNext (focusPrev i n) n = i := by
  unfold focusPrev focusNext
  split <;> split <;> omega

theorem focusNext_iterate (n : Nat) (k : Nat) (i : Int) (h0 : 0 ≤ i) (h1 : i ≤ (n : Int) + 1) :
    (fun j => focusNext j n)^[k] i = (i + k) % ((n : Int) + 2) := by
  induction k with
  | zero => simp [Int.emod_eq_of_lt h0 (show i < (n : Int) + 2 by omega)]
  | succ k ih =>
    rw [Function.iterate_succ_apply', ih]
    have hpos : (0 : Int) < (n : Int) + 2 := by omega
    have a := Int.emod_nonneg (i + k) (show ((n : Int) + 2) ≠ 0 by omega)
    have b := Int.emod_lt_of_pos (i + k) hpos
    rw [focusNext_mod _ _ a (by omega), Int.emod_add_emod]
    congr 1
    push_cast
    omega

theorem focusNext_cycle (n : Nat) (i : Int) (h0 : 0 ≤ i) (h1 : i ≤ (n : Int) + 1) :
    (fun j => focusNext j n)^[n + 2] i = i := by
  rw [focusNext_iterate n (n + 2) i h0 h1]
  have e : i + ((n + 2 : Nat) : Int) = i + 1 * ((n : Int) + 2) := by push_cast; omega
  rw [e, Int.add_mul_emod_self, Int.emod_eq_of_lt h0 (by omega)]

/-- The inputs after the focus loop: the input at position `j` is the old one, focused when
`start + j` is the focus index and blurred otherwise. -/
theorem focusFrom_get (fi : Int) (l : List TextInput) (start j : Nat) :
    (focusFrom fi start l)[j]? =
      (l[j]?).map fun t => if ((start + j : Nat) : Int) = fi then t.Focus else t.Blur := by
  induction l generalizing start j with
  | nil => simp [focusFrom]
  | cons t ts ih =>
    cases j with
    | zero => simp [focusFrom]
    | succ j =>
      simp only [focusFrom, List.getElem?_cons_succ]
      rw [ih (start + 1) j]
      have e : start + 1 + j = start + (j + 1) := by omega
      rw [e]

theorem updateUserForm_focusNext {W : Type} (env : Env W) (m : Model) (key : String)
    (hk : key = "tab" ∨ key = "down") :
    m.updateUserForm env key =
      pure (.next
        { m with
          focusIndex :=
            focusNext m.focusIndex m.userFormInputs.length }.updateUserFormFocus .nil) := by
  unfold Model.updateUserForm
  rcases hk with rfl | rfl
  · rw [if_neg (by decide), if_neg (by decide), if_pos rfl]
  · rw [if_neg (by decide), if_neg (by decide), if_neg (by decide), if_neg (by decide),
      if_pos rfl]

theorem updateUserForm_focusPrev {W : Type} (env : Env W) (m : Model) (key : String)
    (hk : key = "shift+tab" ∨ key = "up") :
    m.updateUserForm env key =
      pure (.next
        { m with
          focusIndex :=
            focusPrev m.focusIndex m.userFormInputs.length }.updateUserFormFocus .nil) := by
  unfold Model.updateUserForm
  rcases hk with rfl | rfl
  · rw [if_neg (by decide), if_neg (by decide), if_neg (by decide), if_pos (Or.inl rfl)]
  · rw [if_neg (by decide), if_neg (by decide), if_neg (by decide), if_pos (Or.inr rfl)]

theorem updateBucketForm_focusNext {W : Type} (env : Env W) (m : Model) (key : String)
    (hk : key = "tab" ∨ key = "down") :
    m.updateBucketForm env key =
      pure (.next
        { m with
          focusIndex :=
            focusNext m.focusIndex m.bucketFormInputs.length }.updateBucketFormFocus .nil) := by
  unfold Model.updateBucketForm
  rcases hk with rfl | rfl
  · rw [if_neg (by decide), if_neg (by decide), if_pos rfl]
  · rw [if_neg (by decide), if_neg (by decide), if_neg (by decide), if_neg (by decide),
      if_pos rfl]

theorem updateBucketForm_focusPrev {W : Type} (env : Env W) (m : Model) (key : String)
    (hk : key = "shift+tab" ∨ key = "up") :
    m.updateBucketForm env key =
      pure (.next
        { m with
          focusIndex :=
            focusPrev m.focusIndex m.bucketFormInputs.length }.updateBucketFormFocus .nil) := by
  unfold Model.updateBucketForm
  rcases hk with rfl | rfl
  · rw [if_neg (by decide), if_neg (by decide), if_neg (by decide), if_pos (Or.inl rfl)]
  · rw [if_neg (by decide), if_neg (by decide), if_neg (by decide), if_pos (Or.inr rfl)]

theorem updateChangeOwnerForm_focusNext {W : Type} (env : Env W) (m : Model) (key : String)
    (hk : key = "tab" ∨ key = "down") :
    m.updateChangeOwnerForm env key =
      pure (.next
        { m with
          focusIndex :=
            focusNext m.focusIndex m.changeOwnerFormInputs.length }.updateChangeOwnerFormFocus .nil) := by
  unfold Model.updateChangeOwnerForm
  rcases hk with rfl | rfl
  · rw [if_neg (by decide), if_neg (by decide), if_pos rfl]
  · rw [if_neg (by decide), if_neg (by decide), if_neg (by decide), if_neg (by decide),
      if_pos rfl]

theorem updateChangeOwnerForm_focusPrev {W : Type} (env : Env W) (m : Model) (key : String)
    (hk : key = "shift+tab" ∨ key = "up") :
    m.updateChangeOwnerForm env key =
      pure (.next
        { m with
          focusIndex :=
            focusPrev m.focusIndex m.changeOwnerFormInputs.length }.updateChangeOwnerFormFocus .nil) := by
  unfold Model.updateChangeOwnerForm
  rcases hk with rfl | rfl
  · rw [if_neg (by decide), if_neg (by decide), if_neg (by decide), if_pos (Or.inl rfl)]
  · rw [if_neg (by decide), if_neg (by decide), if_neg (by decide), if_pos (Or.inr rfl)]

theorem updateProvisionForm_focusNext {W : Type} (env : Env W) (m : Model) (key : String)
    (hk : key = "tab" ∨ key = "down") :
    m.updateProvisionForm env key =
      pure (Model.showProvision env
        { m with
          focusIndex :=
            focusNext m.focusIndex m.provisionFormInputs.length }.updateProvisionFormFocus .nil) := by
  unfold Model.updateProvisionForm
  rcases hk with rfl | rfl
  · rw [if_neg (by decide), if_neg (by decide), if_pos rfl]
  · rw [if_neg (by decide), if_neg (by decide), if_neg (by decide), if_neg (by decide),
      if_pos rfl]

theorem updateProvisionForm_focusPrev {W : Type} (env : Env W) (m : Model) (key : String)
    (hk : key = "shift+tab" ∨ key = "up") :
    m.updateProvisionForm env key =
      pure (Model.showProvision env
        { m with
          focusIndex :=
            focusPrev m.focusIndex m.provisionFormInputs.length }.updateProvisionFormFocus .nil) := by
  unfold Model.updateProvisionForm
  rcases hk with rfl | rfl
  · rw [if_neg (by decide), if_neg (by decide), if_neg (by decide), if_pos (Or.inl rfl)]
  · rw [if_neg (by decide), if_neg (by decide), if_neg (by decide), if_pos (Or.inr rfl)]

theorem updateMakePublicForm_focusNext {W : Type} (env : Env W) (m : Model) (key : String)
    (hk : key = "tab" ∨ key = "down") :
    m.updateMakePublicForm env key =
      pure (.next
        { m with
          focusIndex :=
            focusNext m.focusIndex m.bucketFormInputs.length }.updateBucketFormFocus .nil) := by
  unfold Model.updateMakePublicForm
  rcases hk with rfl | rfl
  · rw [if_neg (by decide), if_neg (by decide), if_pos (Or.inl rfl)]
  · rw [if_neg (by decide), if_neg (by decide), if_pos (Or.inr rfl)]

theorem updateMakePublicForm_focusPrev {W : Type} (env : Env W) (m : Model) (key : String)
    (hk : key = "shift+tab" ∨ key = "up") :
    m.updateMakePublicForm env key =
      pure (.next
        { m with
          focusIndex :=
            focusPrev m.focusIndex m.bucketFormInputs.length }.updateBucketFormFocus .nil) := by
  unfold Model.updateMakePublicForm
  rcases hk with rfl | rfl
  · rw [if_neg (by decide), if_neg (by decide), if_neg (by decide), if_pos (Or.inl rfl)]
  · rw [if_neg (by decide), if_neg (by decide), if_neg (by decide), if_pos (Or.inr rfl)]

theorem showProvision_next {W : Type} (env : Env W) (m : Model) (cmd : Cmd)
    (h : m.provisionFormInputs.length ≤ 9) :
    ∃ lines, Model.showProvision env m cmd = .next (m.ensureProvisionVisible lines) cmd := by
  unfold Model.showProvision Model.provisionLines
  rw [if_pos h]
  exact ⟨_, rfl⟩

theorem update_focusNext {W : Type} (env : Env W) (m : Model) (w : W) (key : String)
    (hk : key = "tab" ∨ key = "down") (hf : m.currentView.isForm = true)
    (hp : m.currentView = .ProvisionView → m.provisionFormInputs.length ≤ 9) :
    ∃ m1, m.Update env (.KeyMsg key) w = ⟨.next m1 .nil, w, []⟩ ∧
      m1.currentView = m.currentView ∧
      m1.focusIndex = focusNext m.focusIndex m.formInputs.length ∧
      m1.formInputs = focusFrom m1.focusIndex 0 m.formInputs := by
  obtain ⟨h1, h2, h3, h4, h5⟩ := update_form env m key
  cases hcv : m.currentView <;> rw [hcv] at hf
  case CreateUserView =>
    rw [h1 (Or.inl hcv), updateUserForm_focusNext env m key hk]
    exact ⟨_, rfl, hcv, by simp [Model.formInputs, hcv, Model.updateUserFormFocus],
      by simp [Model.formInputs, hcv, Model.updateUserFormFocus]⟩
  case UpdateUserView =>
    rw [h1 (Or.inr hcv), updateUserForm_focusNext env m key hk]
    exact ⟨_, rfl, hcv, by simp [Model.formInputs, hcv, Model.updateUserFormFocus],
      by simp [Model.formInputs, hcv, Model.updateUserFormFocus]⟩
  case CreateBucketView =>
    rw [h2 hcv, updateBucketForm_focusNext env m key hk]
    exact ⟨_, rfl, hcv, by simp [Model.formInputs, hcv, Model.updateBucketFormFocus],
      by simp [Model.formInputs, hcv, Model.updateBucketFormFocus]⟩
  case MakeBucketPublicView =>
    rw [h5 hcv, updateMakePublicForm_focusNext env m key hk]
    exact ⟨_, rfl, hcv, by simp [Model.formInputs, hcv, Model.updateBucketFormFocus],
      by simp [Model.formInputs, hcv, Model.updateBucketFormFocus]⟩
  case ChangeOwnerView =>
    rw [h3 hcv, updateChangeOwnerForm_focusNext env m key hk]
    exact ⟨_, rfl, hcv, by simp [Model.formInputs, hcv, Model.updateChangeOwnerFormFocus],
      by simp [Model.formInputs, hcv, Model.updateChangeOwnerFormFocus]⟩
  case ProvisionView =>
    rw [h4 hcv, updateProvisionForm_focusNext env m key hk]
    obtain ⟨lines, e⟩ := showProvision_next env
      { m with
        focusIndex :=
          focusNext m.focusIndex m.provisionFormInputs.length }.updateProvisionFormFocus .nil
      (by
        show (focusFrom _ 0 m.provisionFormInputs).length ≤ 9
        rw [focusFrom_length]
        exact hp hcv)
    rw [e]
    exact ⟨_, rfl, hcv,
      by simp [Model.formInputs, hcv, Model.updateProvisionFormFocus,
        Model.ensureProvisionVisible],
      by simp [Model.formInputs, hcv, Model.updateProvisionFormFocus,
        Model.ensureProvisionVisible]⟩
  all_goals exact absurd hf (by decide)

theorem update_focusPrev {W : Type} (env : Env W) (m : Model) (w : W) (key : String)
    (hk : key = "shift+tab" ∨ key = "up") (hf : m.currentView.isForm = true)
    (hp : m.currentView = .ProvisionView → m.provisionFormInputs.length ≤ 9) :
    ∃ m1, m.Update env (.KeyMsg key) w = ⟨.next m1 .nil, w, []⟩ ∧
      m1.currentView = m.currentView ∧
      m1.focusIndex = focusPrev m.focusIndex m.formInputs.length ∧
      m1.formInputs = focusFrom m1.focusIndex 0 m.formInputs := by
  obtain ⟨h1, h2, h3, h4, h5⟩ := update_form env m key
  cases hcv : m.currentView <;> rw [hcv] at hf
  case CreateUserView =>
    rw [h1 (Or.inl hcv), updateUserForm_focusPrev env m key hk]
    exact ⟨_, rfl, hcv, by simp [Model.formInputs, hcv, Model.updateUserFormFocus],
      by simp [Model.formInputs, hcv, Model.updateUserFormFocus]⟩
  case UpdateUserView =>
    rw [h1 (Or.inr hcv), updateUserForm_focusPrev env m key hk]
    exact ⟨_, rfl, hcv, by simp [Model.formInputs, hcv, Model.updateUserFormFocus],
      by simp [Model.formInputs, hcv, Model.updateUserFormFocus]⟩
  case CreateBucketView =>
    rw [h2 hcv, updateBucketForm_focusPrev env m key hk]
    exact ⟨_, rfl, hcv, by simp [Model.formInputs, hcv, Model.updateBucketFormFocus],
      by simp [Model.formInputs, hcv, Model.updateBucketFormFocus]⟩
  case MakeBucketPublicView =>
    rw [h5 hcv, updateMakePublicForm_focusPrev env m key hk]
    exact ⟨_, rfl, hcv, by simp [Model.formInputs, hcv, Model.updateBucketFormFocus],
      by simp [Model.formInputs, hcv, Model.updateBucketFormFocus]⟩
  case ChangeOwnerView =>
    rw [h3 hcv, updateChangeOwnerForm_focusPrev env m key hk]
    exact ⟨_, rfl, hcv, by simp [Model.formInputs, hcv, Model.updateChangeOwnerFormFocus],
      by simp [Model.formInputs, hcv, Model.updateChangeOwnerFormFocus]⟩
  case ProvisionView =>
    rw [h4 hcv, updateProvisionForm_focusPrev env m key hk]
    obtain ⟨lines, e⟩ := showProvision_next env
      { m with
        focusIndex :=
          focusPrev m.focusIndex m.provisionFormInputs.length }.updateProvisionFormFocus .nil
      (by
        show (focusFrom _ 0 m.provisionFormInputs).length ≤ 9
        rw [focusFrom_length]
        exact hp hcv)
    rw [e]
    exact ⟨_, rfl, hcv,
      by simp [Model.formInputs, hcv, Model.updateProvisionFormFocus,
        Model.ensureProvisionVisible],
      by simp [Model.formInputs, hcv, Model.updateProvisionFormFocus,
        Model.ensureProvisionVisible]⟩
  all_goals exact absurd hf (by decide)

theorem session_focus {W : Type} (env : Env W) (w : W) (msgs : List Msg) :
    ((runSession env NewModel w msgs).2.1.currentView = .CreateUserView ∨
        (runSession env NewModel w msgs).2.1.currentView = .UpdateUserView ∨
        (runSession env NewModel w msgs).2.1.currentView = .CreateBucketView →
      (runSession env NewModel w msgs).2.1.formInputs.length = 3) ∧
    ((runSession env NewModel w msgs).2.1.currentView = .ChangeOwnerView ∨
        (runSession env NewModel w msgs).2.1.currentView = .MakeBucketPublicView →
      (runSession env NewModel w msgs).2.1.formInputs.length = 2) ∧
    ((runSession env NewModel w msgs).2.1.currentView = .ProvisionView →
      (runSession env NewModel w msgs).2.1.formInputs.length = 9) ∧
    ((runSession env NewModel w msgs).2.1.currentView.isForm = true →
      0 ≤ (runSession env NewModel w msgs).2.1.focusIndex ∧
      (runSession env NewModel w msgs).2.1.focusIndex ≤
        ((runSession env NewModel w msgs).2.1.formInputs.length : Int) + 1) := by
  obtain ⟨-, -, hu, hb, hp, ho, hpr, -⟩ := (session_wf env w msgs).1
  generalize (runSession env NewModel w msgs).2.1 = f at *
  refine ⟨fun h => ?_, fun h => ?_, fun h => ?_, fun h => ?_⟩
  · rcases h with h | h | h
    · simp only [Model.formInputs, h]; exact (hu (Or.inl h)).1
    · simp only [Model.formInputs, h]; exact (hu (Or.inr h)).1
    · simp only [Model.formInputs, h]; exact (hb h).1
  · rcases h with h | h
    · simp only [Model.formInputs, h]; exact (ho h).1
    · simp only [Model.formInputs, h]; exact (hp h).1
  · simp only [Model.formInputs, h]; exact (hpr h).1
  · cases hcv : f.currentView <;> rw [hcv] at h
    case CreateUserView =>
      obtain ⟨a, b, c⟩ := hu (Or.inl hcv)
      simp only [Model.formInputs, hcv, a]; exact ⟨b, c⟩
    case UpdateUserView =>
      obtain ⟨a, b, c⟩ := hu (Or.inr hcv)
      simp only [Model.formInputs, hcv, a]; exact ⟨b, c⟩
    case CreateBucketView =>
      obtain ⟨a, b, c⟩ := hb hcv
      simp only [Model.formInputs, hcv, a]; exact ⟨b, c⟩
    case MakeBucketPublicView =>
      obtain ⟨a, b, c⟩ := hp hcv
      simp only [Model.formInputs, hcv, a]; exact ⟨b, c⟩
    case ChangeOwnerView =>
      obtain ⟨a, b, c⟩ := ho hcv
      simp only [Model.formInputs, hcv, a]; exact ⟨b, c⟩
    case ProvisionView =>
      obtain ⟨a, b, c⟩ := hpr hcv
      simp only [Model.formInputs, hcv, a]; exact ⟨b, c⟩
    all_goals exact absurd h (by decide)

theorem updateUserForm_messages {W : Type} (env : Env W) (m : Model) (key : String)
    (hk : key ≠ "enter") :
    ValSat (Outcome.Sat (sameMessages m)) (m.updateUserForm env key) := by
  unfold Model.updateUserForm
  repeat' first
    | exact valSat_pure _ _ trivial
    | exact valSat_pure _ _ ⟨rfl, rfl⟩
    | refine valSat_ite_neg _ _ _ _ (fun h => hk h.1) ?_
    | refine valSat_ite _ _ _ _ (fun _ => ?_) (fun _ => ?_)
    | split

theorem updateBucketForm_messages {W : Type} (env : Env W) (m : Model) (key : String)
    (hk : key ≠ "enter") :
    ValSat (Outcome.Sat (sameMessages m)) (m.updateBucketForm env key) := by
  unfold Model.updateBucketForm
  repeat' first
    | exact valSat_pure _ _ trivial
    | exact valSat_pure _ _ ⟨rfl, rfl⟩
    | refine valSat_ite_neg _ _ _ _ (fun h => hk h.1) ?_
    | refine valSat_ite _ _ _ _ (fun _ => ?_) (fun _ => ?_)
    | split

theorem updateChangeOwnerForm_messages {W : Type} (env : Env W) (m : Model) (key : String)
    (hk : key ≠ "enter") :
    ValSat (Outcome.Sat (sameMessages m)) (m.updateChangeOwnerForm env key) := by
  unfold Model.updateChangeOwnerForm
  repeat' first
    | exact valSat_pure _ _ trivial
    | exact valSat_pure _ _ ⟨rfl, rfl⟩
    | refine valSat_ite_neg _ _ _ _ (fun h => hk h.1) ?_
    | refine valSat_ite _ _ _ _ (fun _ => ?_) (fun _ => ?_)
    | split

theorem updateMakePublicForm_messages {W : Type} (env : Env W) (m : Model) (key : String)
    (hk : key ≠ "enter") :
    ValSat (Outcome.Sat (sameMessages m)) (m.updateMakePublicForm env key) := by
  unfold Model.updateMakePublicForm
  repeat' first
    | exact valSat_pure _ _ trivial
    | exact valSat_pure _ _ ⟨rfl, rfl⟩
    | refine valSat_ite_neg _ _ _ _ (fun h => hk h.1) ?_
    | refine valSat_ite _ _ _ _ (fun _ => ?_) (fun _ => ?_)
    | split

theorem updateProvisionForm_messages {W : Type} (env : Env W) (m : Model) (key : String)
    (hk : key ≠ "enter") :
    ValSat (Outcome.Sat (sameMessages m)) (m.updateProvisionForm env key) := by
  unfold Model.updateProvisionForm
  repeat' first
    | exact valSat_pure _ _ trivial
    | exact valSat_pure _ _ ⟨rfl, rfl⟩
    | exact valSat_pure _ _ (sat_showProvision _ _ _ _ fun _ => ⟨rfl, rfl⟩)
    | exact valSat_pure _ _ (sat_clampProvision _ _ _ fun _ => ⟨rfl, rfl⟩)
    | refine valSat_ite_neg _ _ _ _ (fun h => hk h.1) ?_
    | refine valSat_ite _ _ _ _ (fun _ => ?_) (fun _ => ?_)
    | split

/-- In a form view a key other than `enter` leaves both messages as they are. -/
theorem update_form_messages {W : Type} (env : Env W) (m : Model) (key : String)
    (hf : m.currentView.isForm = true) (hk : key ≠ "enter") :
    ValSat (Outcome.Sat (sameMessages m)) (m.Update env (.KeyMsg key)) := by
  obtain ⟨h1, h2, h3, h4, h5⟩ := update_form env m key
  cases hcv : m.currentView <;> rw [hcv] at hf
  case CreateUserView => rw [h1 (Or.inl hcv)]; exact updateUserForm_messages env m key hk
  case UpdateUserView => rw [h1 (Or.inr hcv)]; exact updateUserForm_messages env m key hk
  case CreateBucketView => rw [h2 hcv]; exact updateBucketForm_messages env m key hk
  case ChangeOwnerView => rw [h3 hcv]; exact updateChangeOwnerForm_messages env m key hk
  case ProvisionView => rw [h4 hcv]; exact updateProvisionForm_messages env m key hk
  case MakeBucketPublicView => rw [h5 hcv]; exact updateMakePublicForm_messages env m key hk
  all_goals exact absurd hf (by decide)

/-- Outside the forms only the keys enter, c, y, Y, n and N set a message. -/
theorem updateKey_messages {W : Type} (env : Env W) (m : Model) (key : String)
    (hk : key ≠ "enter" ∧ key ≠ "c" ∧ key ≠ "y" ∧ key ≠ "Y" ∧ key ≠ "n" ∧ key ≠ "N") :
    ValSat (Outcome.Sat (sameMessages m)) (m.updateKey env key) := by
  unfold Model.updateKey
  dsimp only
  repeat' first
    | exact valSat_pure _ _ trivial
    | exact valSat_pure _ _ ⟨rfl, rfl⟩
    | refine valSat_ite_neg _ _ _ _ (fun h => hk.1 h) ?_
    | refine valSat_ite_neg _ _ _ _ (fun h => hk.2.1 h) ?_
    | refine valSat_ite_neg _ _ _ _ (fun h => h.elim hk.2.2.1 hk.2.2.2.1) ?_
    | refine valSat_ite_neg _ _ _ _ (fun h => h.elim hk.2.2.2.2.1 hk.2.2.2.2.2) ?_
    | refine valSat_ite _ _ _ _ (fun _ => ?_) (fun _ => ?_)
    | split

theorem utf8Go_append (a b : List Char) :
    String.utf8ByteSize.go (a ++ b) = String.utf8ByteSize.go a + String.utf8ByteSize.go b := by
  induction a with
  | nil => simp [String.utf8ByteSize.go]
  | cons c cs ih =>
    show String.utf8ByteSize.go (cs ++ b) + c.utf8Size =
      String.utf8ByteSize.go cs + c.utf8Size + String.utf8ByteSize.go b
    rw [ih]
    omega

theorem utf8Go_bytePrefix (l : List Char) (n : Nat) :
    String.utf8ByteSize.go (bytePrefix l n) ≤ n := by
  induction l generalizing n with
  | nil => simp [bytePrefix, String.utf8ByteSize.go]
  | cons c cs ih =>
    unfold bytePrefix
    split
    · have := ih (n - c.utf8Size)
      simp only [String.utf8ByteSize.go]
      omega
    · simp [String.utf8ByteSize.go]

theorem length_le_utf8Go (l : List Char) : l.length ≤ String.utf8ByteSize.go l := by
  induction l with
  | nil => simp [String.utf8ByteSize.go]
  | cons c cs ih =>
    have := Char.utf8Size_pos c
    simp only [List.length_cons, String.utf8ByteSize.go]
    omega

theorem utf8ByteSize_eq_go (s : String) : s.utf8ByteSize = String.utf8ByteSize.go s.data := rfl

theorem length_le_utf8ByteSize (s : String) : s.length ≤ s.utf8ByteSize :=
  length_le_utf8Go s.data

/-- The shortened error has at most 50 bytes. -/
theorem shortError_size (e : String) : (shortError e).utf8ByteSize ≤ 50 := by
  unfold shortError
  split
  · rw [utf8ByteSize_eq_go, String.data_append, utf8Go_append]
    have := utf8Go_bytePrefix e.data 47
    have h3 : String.utf8ByteSize.go "...".data = 3 := by decide
    simp only [h3]
    omega
  · omega

/-- What `SetValue` stores when the sanitizer leaves the text as it is and the text fits the
limit of the input. -/
theorem setValue_fits {W : Type} (env : Env W) (t : TextInput) (s : String)
    (hs : env.inputSanitize s = s) (hl : s.length ≤ t.CharLimit) :
    (t.SetValue env s).value = s := by
  unfold TextInput.SetValue
  rw [hs]
  have : ¬ (0 < t.CharLimit ∧ t.CharLimit < s.data.length) := fun h => by
    have : s.data.length = s.length := rfl
    omega
  simp only [if_neg this]

/-- The confirmed make-public action for a bucket of the list, step by step. -/
theorem executeConfirmedAction_makePublic {W : Type} (env : Env W) (m : Model) (w : W)
    (bucket : Bucket) (hpa : m.pendingAction = "make_public")
    (hb : m.buckets.find? (fun b => b.Name = m.pendingTarget) = some bucket) :
    (∀ p, env.GetBucketPolicy w bucket.Name = .ok p →
      m.executeConfirmedAction env w =
        ⟨{ m with
            errorMessage :=
              "Bucket '" ++ bucket.Name ++
                "' is already PUBLIC (or has policy). Use 'P' to make private." }.endConfirm,
          w, [Call.GetBucketPolicy bucket.Name]⟩) ∧
    (∀ e, env.GetBucketPolicy w bucket.Name = .error e →
      (Contains e "404" = false ∧ Contains e "NoSuchBucketPolicy" = false →
        m.executeConfirmedAction env w =
          ⟨{ m with errorMessage := "Failed to check policy status: " ++ e }.endConfirm,
            w, [Call.GetBucketPolicy bucket.Name]⟩) ∧
      (Contains e "404" = true ∨ Contains e "NoSuchBucketPolicy" = true →
        (∀ e2,
          (env.SetBucketPolicy w bucket.Name
            (GeneratePublicPolicy bucket.Name (resolvedOwner bucket))).1 = some e2 →
          m.executeConfirmedAction env w =
            ⟨.next (m.makePublicRetry env bucket e2) .nil,
              (env.SetBucketPolicy w bucket.Name
                (GeneratePublicPolicy bucket.Name (resolvedOwner bucket))).2,
              [Call.GetBucketPolicy bucket.Name,
                Call.SetBucketPolicy bucket.Name
                  (GeneratePublicPolicy bucket.Name (resolvedOwner bucket))]⟩) ∧
        ((env.SetBucketPolicy w bucket.Name
            (GeneratePublicPolicy bucket.Name (resolvedOwner bucket))).1 = none →
          m.executeConfirmedAction env w =
            ⟨{ m with
                successMessage := "Bucket '" ++ bucket.Name ++ "' is now PUBLIC!" }.endConfirm,
              (env.SetBucketPolicy w bucket.Name
                (GeneratePublicPolicy bucket.Name (resolvedOwner bucket))).2,
              [Call.GetBucketPolicy bucket.Name,
                Call.SetBucketPolicy bucket.Name
                  (GeneratePublicPolicy bucket.Name (resolvedOwner bucket))]⟩))) := by
  have hne1 : ¬ m.pendingAction = "delete_user" := by rw [hpa]; decide
  have hne2 : ¬ m.pendingAction = "delete_bucket" := by rw [hpa]; decide
  unfold Model.executeConfirmedAction
  rw [if_neg hne1, if_neg hne2, if_pos hpa]
  simp only [hb]
  refine ⟨fun p hp => ?_, fun e he => ⟨fun hc => ?_, fun hc => ⟨fun e2 h2 => ?_, fun h2 => ?_⟩⟩⟩
  · simp only [run_bind, VersityGWService.GetBucketPolicy, run_read, hp, run_pure,
      List.append_nil]
  · simp only [run_bind, VersityGWService.GetBucketPolicy, run_read, he, hc.1, hc.2, run_pure,
      List.append_nil]
    simp
  · have hc' : ¬ ((!Contains e "404") = true ∧ (!Contains e "NoSuchBucketPolicy") = true) := by
      rcases hc with h | h <;> simp [h]
    simp only [run_bind, VersityGWService.GetBucketPolicy, run_read, he, if_neg hc',
      VersityGWService.SetBucketPolicy, run_act]
    have h2' : (env.SetBucketPolicy w bucket.Name
        (GeneratePublicPolicy bucket.Name (if bucket.Owner = "" ∨ bucket.Owner = "unknown" ∨
          bucket.Owner = "root" then bucket.Name else bucket.Owner))).1 = some e2 := h2
    simp only [h2', Model.initMakePublicForm, run_pure, List.append_nil, List.singleton_append]
    rfl
  · have hc' : ¬ ((!Contains e "404") = true ∧ (!Contains e "NoSuchBucketPolicy") = true) := by
      rcases hc with h | h <;> simp [h]
    simp only [run_bind, VersityGWService.GetBucketPolicy, run_read, he, if_neg hc',
      VersityGWService.SetBucketPolicy, run_act]
    have h2' : (env.SetBucketPolicy w bucket.Name
        (GeneratePublicPolicy bucket.Name (if bucket.Owner = "" ∨ bucket.Owner = "unknown" ∨
          bucket.Owner = "root" then bucket.Name else bucket.Owner))).1 = none := h2
    simp only [h2', run_pure, List.append_nil, List.singleton_append]
    rfl

theorem charsHasPrefix_self_snoc (s : List Char) (c : Char) :
    charsHasPrefix s (s ++ [c]) = false := by
  induction s with
  | nil => rfl
  | cons a as ih => simp [charsHasPrefix, ih]

theorem charsHasPrefix_drop (s p : List Char) (h : charsHasPrefix s p = true) :
    p ++ s.drop p.length = s := by
  induction p generalizing s with
  | nil => rfl
  | cons b bs ih =>
    cases s with
    | nil => simp [charsHasPrefix] at h
    | cons a as =>
      simp only [charsHasPrefix, Bool.and_eq_true, beq_iff_eq] at h
      obtain ⟨rfl, h2⟩ := h
      simp [ih as h2]

theorem fields_empty : Fields "" = [] := rfl

/-- The loop body of `BucketService.ListBuckets` gives, for every line, the record of the
specification. -/
theorem parseLine_eq_datasetRecord (base line : String) :
    BucketService.parseLine base line = datasetRecord base line := by
  unfold BucketService.parseLine datasetRecord
  by_cases hl : line = ""
  · subst hl
    simp [fields_empty]
  · rw [if_neg hl]
    dsimp only
    rcases hf : Fields line with _ | ⟨f0, _ | ⟨f1, _ | ⟨f2, _ | ⟨f3, _ | ⟨f4, rest⟩⟩⟩⟩⟩
    · simp
    · simp
    · simp
    · simp
    · simp
    · by_cases h0 : f0 = base
      · subst h0
        have : HasPrefix f0 (f0 ++ "/") = false := charsHasPrefix_self_snoc f0.data '/'
        simp [this]
      · by_cases hp : HasPrefix f0 (base ++ "/") = true
        · simp [h0, hp, TrimPrefix]
        · simp [h0, hp]

set_option maxRecDepth 1000000 in
/-- The SHA-256 hash of zero bytes, in hexadecimal. -/
theorem sha256_empty :
    hexEncodeToString (sha256Sum256 []) =
      "e3b0c44298fc1c149afbf4c8996fb92427ae41e4649b934ca495991b7852b855" := by
  decide

set_option maxRecDepth 1000000 in
/-- The SHA-256 hash of the three bytes of "abc" (the test vector of FIPS 180). -/
theorem sha256_abc :
    hexEncodeToString (sha256Sum256 (bytesOf "abc")) =
      "ba7816bf8f01cfea414140de5dae2223b00361a396177a9cb410ff61f20015ad" := by
  decide

theorem base64Char_mem : ∀ n < 64, base64Char n ∈ base64Alphabet := by decide

theorem base64Value_char : ∀ n < 64, base64Value (base64Char n) = some n := by decide

theorem padding_not_mem : '=' ∉ base64Alphabet := by decide

theorem fillBuffer_eq (n : Nat) (bytes : List Nat) (hlen : bytes.length = n)
    (hb : ∀ x ∈ bytes, x < 256) : fillBuffer n bytes = bytes := by
  apply List.ext_getElem
  · simp [fillBuffer, hlen]
  · intro i h1 h2
    have hx := hb _ (List.getElem_mem h2)
    simp only [fillBuffer, List.getElem_map, List.getElem_range]
    rw [List.getD_eq_getElem _ _ h2]
    exact Nat.mod_eq_of_lt hx

/-- The encoding of `3 * k` bytes: `4 * k` characters of the alphabet, which decode to the
bytes. -/
theorem base64Encode_spec (k : Nat) : ∀ l : List Nat, l.length = 3 * k → (∀ x ∈ l, x < 256) →
    (base64Encode l).length = 4 * k ∧ (∀ c ∈ base64Encode l, c ∈ base64Alphabet) ∧
    base64Decode (base64Encode l) = some l := by
  induction k with
  | zero =>
    intro l hl _
    have : l = [] := List.length_eq_zero.mp (by omega)
    subst this
    exact ⟨rfl, by simp [base64Encode], rfl⟩
  | succ k ih =>
    intro l hl hb
    match l, hl, hb with
    | a :: b :: c :: rest, hl, hb =>
      have ha : a < 256 := hb a (by simp)
      have hb2 : b < 256 := hb b (by simp)
      have hc : c < 256 := hb c (by simp)
      have hrest : rest.length = 3 * k := by simp only [List.length_cons] at hl; omega
      obtain ⟨h1, h2, h3⟩ := ih rest hrest (fun x hx => hb x (by simp [hx]))
      have i0 : a / 4 < 64 := by omega
      have i1 : a % 4 * 16 + b / 16 < 64 := by omega
      have i2 : b % 16 * 4 + c / 64 < 64 := by omega
      have i3 : c % 64 < 64 := by omega
      refine ⟨?_, ?_, ?_⟩
      · simp only [base64Encode, List.length_cons, h1]
        omega
      · intro ch hch
        simp only [base64Encode, List.mem_cons] at hch
        rcases hch with rfl | rfl | rfl | rfl | hch
        · exact base64Char_mem _ i0
        · exact base64Char_mem _ i1
        · exact base64Char_mem _ i2
        · exact base64Char_mem _ i3
        · exact h2 ch hch
      · simp only [base64Encode, base64Decode, base64Value_char _ i0, base64Value_char _ i1,
          base64Value_char _ i2, base64Value_char _ i3, h3]
        have e0 : a / 4 * 4 + (a % 4 * 16 + b / 16) / 16 = a := by omega
        have e1 : (a % 4 * 16 + b / 16) % 16 * 16 + (b % 16 * 4 + c / 64) / 4 = b := by omega
        have e2 : (b % 16 * 4 + c / 64) % 4 * 64 + c % 64 = c := by omega
        rw [e0, e1, e2]

theorem ne_formKey {key : String} (hk : key ∉ formKeys) (s : String) (hs : s ∈ formKeys) :
    key ≠ s := fun h => hk (h ▸ hs)

/-- A single character other than `q` is none of the keys that the forms handle. -/
theorem single_not_formKey {key : String} (hk : key.length = 1) (hq : key ≠ "q") :
    key ∉ formKeys := by
  intro h
  simp only [formKeys, List.mem_cons, List.mem_singleton, List.not_mem_nil, or_false] at h
  rcases h with rfl | rfl | rfl | rfl | rfl | rfl | rfl | rfl | rfl | rfl | rfl | rfl <;>
    first
    | exact hq rfl
    | exact absurd hk (by decide)

/-- What the end of a form handler does to the inputs when the focus is on an input. -/
theorem updateFocusedInput_typed {W : Type} (env : Env W) (inputs : List TextInput) (fi : Int)
    (key : String) (h0 : 0 ≤ fi) (h1 : fi < inputs.length) :
    ∃ t, inputs[fi.toNat]? = some t ∧
      updateFocusedInput env inputs fi key =
        some (inputs.set fi.toNat (t.Update env key), .input) := by
  have hlt : fi.toNat < inputs.length := by omega
  refine ⟨inputs[fi.toNat], List.getElem?_eq_getElem hlt, ?_⟩
  unfold updateFocusedInput index?
  rw [if_pos h1, if_pos h0, List.getElem?_eq_getElem hlt]

theorem updateUserForm_typed {W : Type} (env : Env W) (m : Model) (key : String)
    (hk : key ∉ formKeys) :
    m.updateUserForm env key =
      match updateFocusedInput env m.userFormInputs m.focusIndex key with
      | some (inputs, cmd) => pure (.next { m with userFormInputs := inputs } cmd)
      | none => pure .panic := by
  have n := fun s hs => ne_formKey hk s hs
  unfold Model.updateUserForm
  rw [if_neg (n _ (by decide)), if_neg (fun h => h.elim (n _ (by decide)) (n _ (by decide))),
    if_neg (n _ (by decide)),
    if_neg (fun h => h.elim (n _ (by decide)) (n _ (by decide))), if_neg (n _ (by decide)),
    if_neg (fun h => n _ (by decide) h.1), if_neg (fun h => n _ (by decide) h.1)]
  all_goals rfl

theorem updateBucketForm_typed {W : Type} (env : Env W) (m : Model) (key : String)
    (hk : key ∉ formKeys) :
    m.updateBucketForm env key =
      match updateFocusedInput env m.bucketFormInputs m.focusIndex key with
      | some (inputs, cmd) => pure (.next { m with bucketFormInputs := inputs } cmd)
      | none => pure .panic := by
  have n := fun s hs => ne_formKey hk s hs
  unfold Model.updateBucketForm
  rw [if_neg (n _ (by decide)), if_neg (fun h => h.elim (n _ (by decide)) (n _ (by decide))),
    if_neg (n _ (by decide)),
    if_neg (fun h => h.elim (n _ (by decide)) (n _ (by decide))), if_neg (n _ (by decide)),
    if_neg (fun h => n _ (by decide) h.1), if_neg (fun h => n _ (by decide) h.1)]
  all_goals rfl

theorem updateChangeOwnerForm_typed {W : Type} (env : Env W) (m : Model) (key : String)
    (hk : key ∉ formKeys) :
    m.updateChangeOwnerForm env key =
      match updateFocusedInput env m.changeOwnerFormInputs m.focusIndex key with
      | some (inputs, cmd) => pure (.next { m with changeOwnerFormInputs := inputs } cmd)
      | none => pure .panic := by
  have n := fun s hs => ne_formKey hk s hs
  unfold Model.updateChangeOwnerForm
  rw [if_neg (n _ (by decide)), if_neg (fun h => h.elim (n _ (by decide)) (n _ (by decide))),
    if_neg (n _ (by decide)),
    if_neg (fun h => h.elim (n _ (by decide)) (n _ (by decide))), if_neg (n _ (by decide)),
    if_neg (fun h => n _ (by decide) h.1), if_neg (fun h => n _ (by decide) h.1)]
  all_goals rfl

theorem updateMakePublicForm_typed {W : Type} (env : Env W) (m : Model) (key : String)
    (hk : key ∉ formKeys) :
    m.updateMakePublicForm env key =
      match updateFocusedInput env m.bucketFormInputs m.focusIndex key with
      | some (inputs, cmd) => pure (.next { m with bucketFormInputs := inputs } cmd)
      | none => pure .panic := by
  have n := fun s hs => ne_formKey hk s hs
  unfold Model.updateMakePublicForm
  rw [if_neg (n _ (by decide)), if_neg (fun h => h.elim (n _ (by decide)) (n _ (by decide))),
    if_neg (fun h => h.elim (n _ (by decide)) (n _ (by decide))),
    if_neg (fun h => h.elim (n _ (by decide)) (n _ (by decide))),
    if_neg (fun h => n _ (by decide) h.1), if_neg (fun h => n _ (by decide) h.1)]
  all_goals rfl

theorem updateProvisionForm_typed {W : Type} (env : Env W) (m : Model) (key : String)
    (hk : key ∉ formKeys) :
    m.updateProvisionForm env key =
      match updateFocusedInput env m.provisionFormInputs m.focusIndex key with
      | some (inputs, cmd) =>
        pure (Model.showProvision env { m with provisionFormInputs := inputs } cmd)
      | none => pure .panic := by
  have n := fun s hs => ne_formKey hk s hs
  unfold Model.updateProvisionForm
  rw [if_neg (n _ (by decide)), if_neg (fun h => h.elim (n _ (by decide)) (n _ (by decide))),
    if_neg (n _ (by decide)),
    if_neg (fun h => h.elim (n _ (by decide)) (n _ (by decide))), if_neg (n _ (by decide)),
    if_neg (n _ (by decide)), if_neg (n _ (by decide)), if_neg (n _ (by decide)),
    if_neg (n _ (by decide)),
    if_neg (fun h => n _ (by decide) h.1), if_neg (fun h => n _ (by decide) h.1)]
  all_goals rfl

/-- The scroll keys of the provision form change the scroll position and nothing else. -/
theorem updateProvisionForm_scroll {W : Type} (env : Env W) (m : Model) (w : W) (key : String)
    (hp : m.provisionFormInputs.length ≤ 9)
    (hk : key ∈ ["pgup", "pgdown", "home", "end"]) :
    ∃ scroll, m.updateProvisionForm env key w =
      ⟨.next { m with provisionScroll := scroll } .nil, w, []⟩ := by
  simp only [List.mem_cons, List.mem_singleton, List.not_mem_nil, or_false] at hk
  have hclamp : ∀ s : Int, Model.clampProvision env { m with provisionScroll := s } =
      .next (Model.clampProvisionScroll { m with provisionScroll := s }
        (env.provisionLineCount { m with provisionScroll := s })) .nil := fun s => by
    unfold Model.clampProvision Model.provisionLines
    rw [if_pos hp]
  unfold Model.updateProvisionForm
  rcases hk with rfl | rfl | rfl | rfl
  · rw [if_neg (by decide), if_neg (by decide), if_neg (by decide), if_neg (by decide),
      if_neg (by decide), if_pos rfl, hclamp]
    exact ⟨_, rfl⟩
  · rw [if_neg (by decide), if_neg (by decide), if_neg (by decide), if_neg (by decide),
      if_neg (by decide), if_neg (by decide), if_pos rfl, hclamp]
    exact ⟨_, rfl⟩
  · rw [if_neg (by decide), if_neg (by decide), if_neg (by decide), if_neg (by decide),
      if_neg (by decide), if_neg (by decide), if_neg (by decide), if_pos rfl]
    exact ⟨_, rfl⟩
  · rw [if_neg (by decide), if_neg (by decide), if_neg (by decide), if_neg (by decide),
      if_neg (by decide), if_neg (by decide), if_neg (by decide), if_neg (by decide),
      if_pos rfl]
    have hl : m.provisionLines env = some (env.provisionLineCount m) := by
      unfold Model.provisionLines
      rw [if_pos hp]
    simp only [hl, hclamp]
    exact ⟨_, rfl⟩

/-- A key that the forms do not handle, typed in a form view while the focus is on an input:
the key goes to the input at the focus index. -/
theorem update_typed {W : Type} (env : Env W) (m : Model) (w : W) (key : String)
    (hv : m.currentView.isForm = true) (h0 : 0 ≤ m.focusIndex)
    (h1 : m.focusIndex < m.formInputs.length) (hk : key ∉ formKeys) :
    ∃ t, m.formInputs[m.focusIndex.toNat]? = some t ∧
      (m.currentView ≠ .ProvisionView →
        m.Update env (.KeyMsg key) w =
          ⟨.next (m.setFormInputs (m.formInputs.set m.focusIndex.toNat (t.Update env key)))
            .input, w, []⟩) ∧
      (m.currentView = .ProvisionView →
        m.Update env (.KeyMsg key) w =
          ⟨Model.showProvision env
            (m.setFormInputs (m.formInputs.set m.focusIndex.toNat (t.Update env key)))
            .input, w, []⟩) := by
  obtain ⟨t, ht, hu⟩ := updateFocusedInput_typed env m.formInputs m.focusIndex key h0 h1
  refine ⟨t, ht, ?_⟩
  obtain ⟨f1, f2, f3, f4, f5⟩ := update_form env m key
  cases hcv : m.currentView <;> rw [hcv] at hv <;> simp only [Model.formInputs, hcv] at hu
  case CreateUserView =>
    refine ⟨fun _ => ?_, fun h => by cases h⟩
    rw [f1 (Or.inl hcv), updateUserForm_typed env m key hk, hu]
    simp only [Model.formInputs, Model.setFormInputs, hcv]
    rfl
  case UpdateUserView =>
    refine ⟨fun _ => ?_, fun h => by cases h⟩
    rw [f1 (Or.inr hcv), updateUserForm_typed env m key hk, hu]
    simp only [Model.formInputs, Model.setFormInputs, hcv]
    rfl
  case CreateBucketView =>
    refine ⟨fun _ => ?_, fun h => by cases h⟩
    rw [f2 hcv, updateBucketForm_typed env m key hk, hu]
    simp only [Model.formInputs, Model.setFormInputs, hcv]
    rfl
  case ChangeOwnerView =>
    refine ⟨fun _ => ?_, fun h => by cases h⟩
    rw [f3 hcv, updateChangeOwnerForm_typed env m key hk, hu]
    simp only [Model.formInputs, Model.setFormInputs, hcv]
    rfl
  case ProvisionView =>
    refine ⟨fun h => absurd rfl h, fun _ => ?_⟩
    rw [f4 hcv, updateProvisionForm_typed env m key hk, hu]
    simp only [Model.formInputs, Model.setFormInputs, hcv]
    rfl
  case MakeBucketPublicView =>
    refine ⟨fun _ => ?_, fun h => by cases h⟩
    rw [f5 hcv, updateMakePublicForm_typed env m key hk, hu]
    simp only [Model.formInputs, Model.setFormInputs, hcv]
    rfl
  all_goals exact absurd hv (by decide)

theorem setFormInputs_frame (m : Model) (l : List TextInput)
    (hv : m.currentView.isForm = true) :
    (m.setFormInputs l).currentView = m.currentView ∧
    (m.setFormInputs l).focusIndex = m.focusIndex ∧
    (m.setFormInputs l).provisionScroll = m.provisionScroll ∧
    (m.setFormInputs l).formInputs = l ∧
    (m.currentView = .ProvisionView → (m.setFormInputs l).provisionFormInputs = l) := by
  cases hcv : m.currentView <;> rw [hcv] at hv <;>
    first
    | exact absurd hv (by decide)
    | (simp only [Model.setFormInputs, Model.formInputs, hcv]
       exact ⟨trivial, trivial, trivial, trivial, fun _ => by trivial⟩)

/-- The merged list, as names: a rearrangement of the dataset names followed by the API names
that are not dataset names. -/
theorem merged_names_perm {W : Type} (env : Env W) (w : W) (buckets : List Bucket)
    (apiBuckets : List BucketInfo) :
    ((sortBuckets (mergeApi env buckets apiBuckets w).val).map Bucket.Name).Perm
      (buckets.map Bucket.Name ++
        (apiBuckets.filter fun a => decide (a.Name ∉ buckets.map Bucket.Name)).map
          BucketInfo.Name) := by
  have hf : (apiBuckets.filter fun a => !(goMap Bucket.Name buckets a.Name).isSome) =
      apiBuckets.filter fun a => decide (a.Name ∉ buckets.map Bucket.Name) := by
    refine List.filter_congr fun a _ => ?_
    by_cases h : a.Name ∈ buckets.map Bucket.Name
    · have := (goMap_isSome Bucket.Name buckets a.Name).mpr h
      simp [this, h]
    · have : ¬ (goMap Bucket.Name buckets a.Name).isSome = true :=
        fun hs => h ((goMap_isSome Bucket.Name buckets a.Name).mp hs)
      simp [this, h]
  rw [← hf, ← mergeApi_names]
  exact (sortBuckets_perm _).map Bucket.Name

theorem mergeApi_name_set {W : Type} (env : Env W) (w : W) (buckets : List Bucket)
    (apiBuckets : List BucketInfo) (hb : (buckets.map Bucket.Name).Nodup)
    (ha : (apiBuckets.map BucketInfo.Name).Nodup) :
    ((sortBuckets (mergeApi env buckets apiBuckets w).val).map Bucket.Name).Nodup ∧
    (∀ n, n ∈ (sortBuckets (mergeApi env buckets apiBuckets w).val).map Bucket.Name ↔
      n ∈ buckets.map Bucket.Name ∨ n ∈ apiBuckets.map BucketInfo.Name) ∧
    (sortBuckets (mergeApi env buckets apiBuckets w).val).length =
      buckets.length +
        (apiBuckets.filter fun a => decide (a.Name ∉ buckets.map Bucket.Name)).length := by
  have hp := merged_names_perm env w buckets apiBuckets
  refine ⟨mergeApi_nodup env w buckets apiBuckets hb ha, fun n => ?_, ?_⟩
  · rw [hp.mem_iff, List.mem_append]
    constructor
    · rintro (h | h)
      · exact Or.inl h
      · obtain ⟨a, ha2, rfl⟩ := List.mem_map.mp h
        exact Or.inr (List.mem_map_of_mem _ (List.mem_filter.mp ha2).1)
    · rintro (h | h)
      · exact Or.inl h
      · by_cases hn : n ∈ buckets.map Bucket.Name
        · exact Or.inl hn
        · obtain ⟨a, ha2, rfl⟩ := List.mem_map.mp h
          exact Or.inr (List.mem_map_of_mem _ (List.mem_filter.mpr ⟨ha2, by simpa using hn⟩))
  · have := hp.length_eq
    simpa using this

/-! ## The claims -/

/-- C1. Bucket merge, owner precedence.  When the API bucket list is fetched (`apiBuckets`), the
one-shot command and the session's List Buckets handler produce the same merged list, and
for every record `b` of the dataset list it holds a record `r` with the name, mountpoint,
quota, used and available of `b` whose owner is: the result of the ACL-owner lookup for the
bucket when that lookup succeeds with a non-empty value; otherwise the owner of the entry the
API index holds for the name (`apiMap[b.Name]`) when there is one and its owner is not empty;
otherwise "-", the owner of every dataset record.  The API index holds for a name an entry of
the API list with that name; when the names of the API list are distinct it is the only one. -/
theorem merge_owner_precedence {W : Type} (env : Env W) (w : W) (m : Model) (apiBuckets : List BucketInfo)
    (hapi : env.ListBuckets w = .ok apiBuckets) :
    ∃ merged : List Bucket,
      (listBucketsMain env w).val.buckets = some merged ∧
      (∃ m1, (m.listBuckets env w).val = .next m1 .nil ∧ m1.buckets = merged) ∧
      ∀ buckets, (BucketService.ListBuckets env w).val = .ok buckets → ∀ b ∈ buckets,
        b.Owner = "-" ∧
        (∀ info, goMap BucketInfo.Name apiBuckets b.Name = some info →
          info ∈ apiBuckets ∧ info.Name = b.Name) ∧
        (∀ info ∈ apiBuckets, info.Name = b.Name → (apiBuckets.map BucketInfo.Name).Nodup →
          goMap BucketInfo.Name apiBuckets b.Name = some info) ∧
        ∃ r ∈ merged,
          r.Name = b.Name ∧ r.Mountpoint = b.Mountpoint ∧ r.Quota = b.Quota ∧
          r.Used = b.Used ∧ r.Available = b.Available ∧
          (∀ t, env.GetBucketOwner w b.Name = .ok t → t ≠ "" → r.Owner = t) ∧
          ((∀ t, env.GetBucketOwner w b.Name = .ok t → t = "") →
            (∀ info, goMap BucketInfo.Name apiBuckets b.Name = some info → info.Owner ≠ "" →
              r.Owner = info.Owner) ∧
            ((∀ info, goMap BucketInfo.Name apiBuckets b.Name = some info → info.Owner = "") →
              r.Owner = "-")) := by
  have hmain := listBucketsMain_run env w
  have hsess := listBuckets_run env m w
  rw [hapi] at hmain hsess
  cases hds : (BucketService.ListBuckets env w).val with
  | error err =>
    rw [hds] at hmain hsess
    refine ⟨sortBuckets (mergeApi env [] apiBuckets w).val, by rw [hmain], ⟨_, by rw [hsess], rfl⟩, ?_⟩
    intro buckets hb
    cases hb
  | ok ds =>
    rw [hds] at hmain hsess
    refine ⟨sortBuckets (mergeApi env ds apiBuckets w).val, by rw [hmain], ⟨_, by rw [hsess], rfl⟩, ?_⟩
    intro buckets hbuckets b hb
    cases hbuckets
    have hown : b.Owner = "-" := listResult_owner _ _ _ hds b hb
    refine ⟨hown, fun info h => goMap_some _ _ _ _ h, ?_, ?_⟩
    · intro info hinfo hname hnd
      rw [← hname]
      exact goMap_of_nodup _ _ _ hinfo hnd
    · refine ⟨_, mem_mergeApi_of_mem env w ds apiBuckets b hb, ?_⟩
      obtain ⟨h1, h2, h3, h4, h5⟩ := adoptTrueOwner_frame (env.GetBucketOwner w b.Name)
        (adoptApiOwner (goMap BucketInfo.Name apiBuckets) b)
      obtain ⟨g1, g2, g3, g4, g5⟩ := adoptApiOwner_frame (goMap BucketInfo.Name apiBuckets) b
      obtain ⟨t1, t2⟩ := adoptTrueOwner_owner (env.GetBucketOwner w b.Name)
        (adoptApiOwner (goMap BucketInfo.Name apiBuckets) b)
      obtain ⟨a1, a2⟩ := adoptApiOwner_owner (goMap BucketInfo.Name apiBuckets) b
      refine ⟨h1.trans g1, h2.trans g2, h3.trans g3, h4.trans g4, h5.trans g5, t1, ?_⟩
      intro hacl
      refine ⟨fun info hi hne => (t2 hacl).trans (a1 info hi hne), fun hnone => ?_⟩
      rw [t2 hacl, a2 hnone, hown]

/-- C1, witness: in the scenario of the specification (dataset `alpha` with quota `1T`, API list
`beta` of `carol` and `alpha` of `bob`, no ACL answer) the merged list holds `alpha` with quota
`1T` and owner `bob`. -/
theorem merge_owner_precedence_witness :
    scen.env.ListBuckets () = .ok [⟨"beta", "", "carol"⟩, ⟨"alpha", "", "bob"⟩] ∧
      ∃ merged, (listBucketsMain scen.env ()).val.buckets = some merged ∧
        ∃ r ∈ merged, r.Name = "alpha" ∧ r.Quota = "1T" ∧ r.Owner = "bob" := by
  refine ⟨rfl, ?_⟩
  obtain ⟨merged, h1, _, h3⟩ := merge_owner_precedence scen.env () NewModel _ rfl
  refine ⟨merged, h1, ?_⟩
  obtain ⟨_, _, _, r, hr, hn, _, hq, _, _, _, hacl⟩ :=
    h3 [⟨"alpha", "/tank/s3/buckets/alpha", "1T", "10G", "90G", "-"⟩] rfl _
      (List.mem_singleton.mpr rfl)
  refine ⟨r, hr, hn, hq, ?_⟩
  exact (hacl (fun t ht => by cases ht)).1 ⟨"alpha", "", "bob"⟩ rfl (by decide)

/-- C2. Bucket merge, placeholders.  When the API bucket list is fetched, the merged list of
both paths holds, for every entry of the API list whose name is not a name of the dataset list
(every entry, when the dataset listing failed), a record with that name whose mountpoint,
quota, used and available are "-" and whose owner is the result of the ACL-owner lookup when
that lookup succeeds with a non-empty value, and the owner of the API entry otherwise. -/
theorem merge_placeholders {W : Type} (env : Env W) (w : W) (m : Model) (apiBuckets : List BucketInfo)
    (hapi : env.ListBuckets w = .ok apiBuckets) :
    ∃ merged : List Bucket,
      (listBucketsMain env w).val.buckets = some merged ∧
      (∃ m1, (m.listBuckets env w).val = .next m1 .nil ∧ m1.buckets = merged) ∧
      ∀ info ∈ apiBuckets,
        (∀ buckets, (BucketService.ListBuckets env w).val = .ok buckets →
          info.Name ∉ buckets.map Bucket.Name) →
        ∃ r ∈ merged,
          r.Name = info.Name ∧ r.Mountpoint = "-" ∧ r.Quota = "-" ∧ r.Used = "-" ∧
          r.Available = "-" ∧
          (∀ t, env.GetBucketOwner w info.Name = .ok t → t ≠ "" → r.Owner = t) ∧
          ((∀ t, env.GetBucketOwner w info.Name = .ok t → t = "") → r.Owner = info.Owner) := by
  have hmain := listBucketsMain_run env w
  have hsess := listBuckets_run env m w
  rw [hapi] at hmain hsess
  have key : ∀ ds : List Bucket, ∀ info ∈ apiBuckets, info.Name ∉ ds.map Bucket.Name →
      ∃ r ∈ sortBuckets (mergeApi env ds apiBuckets w).val,
        r.Name = info.Name ∧ r.Mountpoint = "-" ∧ r.Quota = "-" ∧ r.Used = "-" ∧
        r.Available = "-" ∧
        (∀ t, env.GetBucketOwner w info.Name = .ok t → t ≠ "" → r.Owner = t) ∧
        ((∀ t, env.GetBucketOwner w info.Name = .ok t → t = "") → r.Owner = info.Owner) := by
    intro ds info hi hnot
    refine ⟨_, mem_mergeApi_of_api env w ds apiBuckets info hi hnot, ?_⟩
    obtain ⟨h1, h2, h3, h4, h5⟩ :=
      adoptTrueOwner_frame (env.GetBucketOwner w info.Name) (placeholder info)
    obtain ⟨t1, t2⟩ := adoptTrueOwner_owner (env.GetBucketOwner w info.Name) (placeholder info)
    exact ⟨h1, h2, h3, h4, h5, t1, t2⟩
  cases hds : (BucketService.ListBuckets env w).val with
  | error err =>
    rw [hds] at hmain hsess
    refine ⟨sortBuckets (mergeApi env [] apiBuckets w).val, by rw [hmain],
      ⟨_, by rw [hsess], rfl⟩, ?_⟩
    intro info hi _
    exact key [] info hi (by simp)
  | ok ds =>
    rw [hds] at hmain hsess
    refine ⟨sortBuckets (mergeApi env ds apiBuckets w).val, by rw [hmain],
      ⟨_, by rw [hsess], rfl⟩, ?_⟩
    intro info hi hnot
    exact key ds info hi (hnot ds rfl)

/-- C2, witness: in the scenario of the specification the merged list holds the placeholder
`beta` with quota "-" and owner `carol`. -/
theorem merge_placeholders_witness :
    scen.env.ListBuckets () = .ok [⟨"beta", "", "carol"⟩, ⟨"alpha", "", "bob"⟩] ∧
      ∃ merged, (listBucketsMain scen.env ()).val.buckets = some merged ∧
        ∃ r ∈ merged, r.Name = "beta" ∧ r.Quota = "-" ∧ r.Owner = "carol" := by
  refine ⟨rfl, ?_⟩
  obtain ⟨merged, h1, _, h3⟩ := merge_placeholders scen.env () NewModel _ rfl
  refine ⟨merged, h1, ?_⟩
  obtain ⟨r, hr, hn, _, hq, _, _, _, hacl⟩ :=
    h3 ⟨"beta", "", "carol"⟩ (by decide) (fun buckets hb => by cases hb; decide)
  exact ⟨r, hr, hn, hq, hacl (fun t ht => by cases ht)⟩

/-- C3, as stated, fails: the dataset bucket `alpha` is not in the (fetched, empty) API list,
yet the owner of its merged record is not "-" but `bob`, which the ACL lookup returned. -/
theorem dataset_only_owner_counterexample :
    (BucketService.ListBuckets aclOnly.env ()).val =
        .ok [⟨"alpha", "/tank/s3/buckets/alpha", "1T", "10G", "90G", "-"⟩] ∧
      aclOnly.env.ListBuckets () = .ok [] ∧
      ∃ merged : List Bucket,
        (listBucketsMain aclOnly.env ()).val.buckets = some merged ∧
        (∃ m1, (NewModel.listBuckets aclOnly.env ()).val = .next m1 .nil ∧ m1.buckets = merged) ∧
        merged ≠ [] ∧ ∀ r ∈ merged, r.Name = "alpha" ∧ r.Owner = "bob" ∧ r.Owner ≠ "-" :=
  ⟨rfl, rfl, [⟨"alpha", "/tank/s3/buckets/alpha", "1T", "10G", "90G", "bob"⟩], by decide,
    ⟨_, rfl, by decide⟩, by decide, by decide⟩

/-- C3, amended.  For every record `b` of the dataset list whose name is not in the API list
(or when the API listing fails), the merged list of both paths holds a record with the name
of `b` whose owner is the result of the ACL-owner lookup when the API list was fetched and the
lookup succeeds with a non-empty value, and "-" otherwise. -/
theorem dataset_only_owner {W : Type} (env : Env W) (w : W) (m : Model) (buckets : List Bucket)
    (hds : (BucketService.ListBuckets env w).val = .ok buckets) :
    ∃ merged : List Bucket,
      (listBucketsMain env w).val.buckets = some merged ∧
      (∃ m1, (m.listBuckets env w).val = .next m1 .nil ∧ m1.buckets = merged) ∧
      ∀ b ∈ buckets,
        (∀ apiBuckets, env.ListBuckets w = .ok apiBuckets →
          b.Name ∉ apiBuckets.map BucketInfo.Name) →
        ∃ r ∈ merged, r.Name = b.Name ∧
          (∀ apiBuckets t, env.ListBuckets w = .ok apiBuckets →
            env.GetBucketOwner w b.Name = .ok t → t ≠ "" → r.Owner = t) ∧
          (((∃ e, env.ListBuckets w = .error e) ∨
              ∀ t, env.GetBucketOwner w b.Name = .ok t → t = "") → r.Owner = "-") := by
  have hmain := listBucketsMain_run env w
  have hsess := listBuckets_run env m w
  rw [hds] at hmain hsess
  cases hapi : env.ListBuckets w with
  | error e =>
    rw [hapi] at hmain hsess
    refine ⟨sortBuckets buckets, by rw [hmain], ⟨_, by rw [hsess], rfl⟩, ?_⟩
    intro b hb _
    refine ⟨b, mem_sortBuckets.mpr hb, rfl, ?_, fun _ => listResult_owner _ _ _ hds b hb⟩
    intro apiBuckets t h
    cases h
  | ok apiBuckets =>
    rw [hapi] at hmain hsess
    refine ⟨sortBuckets (mergeApi env buckets apiBuckets w).val, by rw [hmain],
      ⟨_, by rw [hsess], rfl⟩, ?_⟩
    intro b hb hnot
    have hnone : goMap BucketInfo.Name apiBuckets b.Name = none := by
      cases h : goMap BucketInfo.Name apiBuckets b.Name with
      | none => rfl
      | some info =>
        exact absurd ((goMap_isSome BucketInfo.Name apiBuckets b.Name).mp (by simp [h]))
          (hnot apiBuckets rfl)
    refine ⟨_, mem_mergeApi_of_mem env w buckets apiBuckets b hb, ?_⟩
    obtain ⟨h1, -⟩ := adoptTrueOwner_frame (env.GetBucketOwner w b.Name)
      (adoptApiOwner (goMap BucketInfo.Name apiBuckets) b)
    obtain ⟨g1, -⟩ := adoptApiOwner_frame (goMap BucketInfo.Name apiBuckets) b
    obtain ⟨t1, t2⟩ := adoptTrueOwner_owner (env.GetBucketOwner w b.Name)
      (adoptApiOwner (goMap BucketInfo.Name apiBuckets) b)
    obtain ⟨-, a2⟩ := adoptApiOwner_owner (goMap BucketInfo.Name apiBuckets) b
    refine ⟨h1.trans g1, fun _ t _ ht hne => t1 t ht hne, ?_⟩
    intro h
    rcases h with ⟨e, he⟩ | h
    · cases he
    · rw [t2 h, a2 (fun info hi => by rw [hnone] at hi; cases hi)]
      exact listResult_owner _ _ _ hds b hb

/-- C3, witness: the dataset bucket `alpha`, absent from the fetched API list, gets the owner
`bob` that the ACL lookup returns. -/
theorem dataset_only_owner_witness :
    (BucketService.ListBuckets aclOnly.env ()).val =
        .ok [⟨"alpha", "/tank/s3/buckets/alpha", "1T", "10G", "90G", "-"⟩] ∧
      ∃ merged, (listBucketsMain aclOnly.env ()).val.buckets = some merged ∧
        ∃ r ∈ merged, r.Name = "alpha" ∧ r.Owner = "bob" := by
  refine ⟨rfl, ?_⟩
  obtain ⟨merged, h1, _, h3⟩ := dataset_only_owner aclOnly.env () NewModel _ rfl
  refine ⟨merged, h1, ?_⟩
  obtain ⟨r, hr, hn, hown, _⟩ :=
    h3 ⟨"alpha", "/tank/s3/buckets/alpha", "1T", "10G", "90G", "-"⟩
      (List.mem_singleton.mpr rfl) (fun apiBuckets h => by cases h; simp)
  exact ⟨r, hr, hn, hown [] "bob" rfl rfl (by decide)⟩

/-- C4. Bucket merge, order.  The bucket list that the session's List Buckets handler stores
and the list that the one-shot command prints (it prints one unless both listings fail) are
in ascending order of name: every record's name is less than or equal to the name of every
later record.  So is the sorted merge of any dataset list with any API list, in any order. -/
theorem merged_sorted {W : Type} (env : Env W) (w : W) (m : Model) :
    (∃ m1, (m.listBuckets env w).val = .next m1 .nil ∧
      m1.buckets.Pairwise fun a b => a.Name ≤ b.Name) ∧
    (∀ merged, (listBucketsMain env w).val.buckets = some merged →
      merged.Pairwise fun a b => a.Name ≤ b.Name) ∧
    ((listBucketsMain env w).val.buckets = none →
      (∃ e, (BucketService.ListBuckets env w).val = .error e) ∧
        ∃ e, env.ListBuckets w = .error e) ∧
    ∀ (buckets : List Bucket) (apiBuckets : List BucketInfo),
      (sortBuckets (mergeApi env buckets apiBuckets w).val).Pairwise
        fun a b => a.Name ≤ b.Name := by
  have hmain := listBucketsMain_run env w
  have hsess := listBuckets_run env m w
  have hs : ∀ l : List Bucket, (sortBuckets l).Pairwise fun a b => a.Name ≤ b.Name :=
    fun l => sorted_names_of_sorted (sortBuckets_sorted l)
  refine ⟨?_, ?_, ?_, fun buckets apiBuckets => hs _⟩
  · cases hds : (BucketService.ListBuckets env w).val <;> cases hapi : env.ListBuckets w <;>
      rw [hds, hapi] at hsess <;> rw [hsess] <;> refine ⟨_, rfl, ?_⟩
    · exact List.Pairwise.nil
    · exact hs _
    · exact hs _
    · exact hs _
  · intro merged hm
    cases hds : (BucketService.ListBuckets env w).val <;> cases hapi : env.ListBuckets w <;>
      rw [hds, hapi] at hmain <;> rw [hmain] at hm <;> simp at hm <;> subst hm <;> exact hs _
  · intro hnone
    cases hds : (BucketService.ListBuckets env w).val <;> cases hapi : env.ListBuckets w <;>
      rw [hds, hapi] at hmain <;> rw [hmain] at hnone <;> simp at hnone
    exact ⟨⟨_, rfl⟩, ⟨_, rfl⟩⟩

/-- C5, as stated, fails: the API list names the bucket `a` twice (and no dataset has that
name), and the merged list of both paths holds two records named `a`. -/
theorem merged_names_counterexample :
    twice.env.ListBuckets () = .ok [⟨"a", "", "x"⟩, ⟨"a", "", "y"⟩] ∧
      ∃ merged : List Bucket,
        (listBucketsMain twice.env ()).val.buckets = some merged ∧
        (∃ m1, (NewModel.listBuckets twice.env ()).val = .next m1 .nil ∧ m1.buckets = merged) ∧
        merged.map Bucket.Name = ["a", "a"] ∧ ¬ (merged.map Bucket.Name).Nodup :=
  ⟨rfl, [⟨"a", "-", "-", "-", "-", "x"⟩, ⟨"a", "-", "-", "-", "-", "y"⟩], by decide,
    ⟨_, rfl, by decide⟩, by decide, by decide⟩

/-- C5, amended.  When the names of the dataset list are pairwise distinct and the names of
the API list are pairwise distinct, no two records of the merged list have the same name: in
the list the session stores, in the list the one-shot command prints, and in the sorted merge
of any such dataset list and API list. -/
theorem merged_names_nodup {W : Type} (env : Env W) (w : W) (m : Model)
    (hds : ∀ buckets, (BucketService.ListBuckets env w).val = .ok buckets →
      (buckets.map Bucket.Name).Nodup)
    (hapi : ∀ apiBuckets, env.ListBuckets w = .ok apiBuckets →
      (apiBuckets.map BucketInfo.Name).Nodup) :
    (∃ m1, (m.listBuckets env w).val = .next m1 .nil ∧ (m1.buckets.map Bucket.Name).Nodup) ∧
    (∀ merged, (listBucketsMain env w).val.buckets = some merged →
      (merged.map Bucket.Name).Nodup) ∧
    ∀ (buckets : List Bucket) (apiBuckets : List BucketInfo),
      (buckets.map Bucket.Name).Nodup → (apiBuckets.map BucketInfo.Name).Nodup →
      ((sortBuckets (mergeApi env buckets apiBuckets w).val).map Bucket.Name).Nodup := by
  have hmain := listBucketsMain_run env w
  have hsess := listBuckets_run env m w
  refine ⟨?_, ?_, fun buckets apiBuckets hb ha => mergeApi_nodup env w buckets apiBuckets hb ha⟩
  · cases hd : (BucketService.ListBuckets env w).val <;> cases ha : env.ListBuckets w <;>
      rw [hd, ha] at hsess <;> rw [hsess] <;> refine ⟨_, rfl, ?_⟩
    · exact List.nodup_nil
    · exact mergeApi_nodup env w [] _ List.nodup_nil (hapi _ ha)
    · exact sortBuckets_nodup _ (hds _ hd)
    · exact mergeApi_nodup env w _ _ (hds _ hd) (hapi _ ha)
  · intro merged hm
    cases hd : (BucketService.ListBuckets env w).val <;> cases ha : env.ListBuckets w <;>
      rw [hd, ha] at hmain <;> rw [hmain] at hm <;> simp at hm <;> subst hm
    · exact mergeApi_nodup env w [] _ List.nodup_nil (hapi _ ha)
    · exact sortBuckets_nodup _ (hds _ hd)
    · exact mergeApi_nodup env w _ _ (hds _ hd) (hapi _ ha)

/-- C5, witness: in the scenario of the specification both lists have distinct names, and so
has the merged list of the session. -/
theorem merged_names_nodup_witness :
    (∀ buckets, (BucketService.ListBuckets scen.env ()).val = .ok buckets →
        (buckets.map Bucket.Name).Nodup) ∧
      (∀ apiBuckets, scen.env.ListBuckets () = .ok apiBuckets →
        (apiBuckets.map BucketInfo.Name).Nodup) ∧
      ∃ m1, (NewModel.listBuckets scen.env ()).val = .next m1 .nil ∧
        (m1.buckets.map Bucket.Name).Nodup :=
  have h1 : ∀ buckets, (BucketService.ListBuckets scen.env ()).val = .ok buckets →
      (buckets.map Bucket.Name).Nodup := fun buckets h => by cases h; decide
  have h2 : ∀ apiBuckets, scen.env.ListBuckets () = .ok apiBuckets →
      (apiBuckets.map BucketInfo.Name).Nodup := fun apiBuckets h => by cases h; decide
  ⟨h1, h2, (merged_names_nodup scen.env () NewModel h1 h2).1⟩

/-- C6, as stated, fails for the session: with both listings failing, handling `enter` on
"List Buckets" gives the session the empty bucket list in place of the list it held, and the
session shows the buckets list view. -/
theorem both_fail_counterexample :
    (∃ e, (BucketService.ListBuckets bothFail.env ()).val = .error e) ∧
      (∃ e, bothFail.env.ListBuckets () = .error e) ∧
      menuOnBuckets.currentView = .MainMenuView ∧ menuOnBuckets.buckets ≠ [] ∧
      ∃ m1, (menuOnBuckets.Update bothFail.env (.KeyMsg "enter") ()).val = .next m1 .nil ∧
        m1.currentView = .BucketsListView ∧ m1.buckets = [] :=
  ⟨⟨_, rfl⟩, ⟨_, rfl⟩, rfl, by decide, _, rfl, rfl, rfl⟩

/-- C6, amended.  When the dataset listing fails with `e1` and the API listing fails with `e2`:
the one-shot command prints no list (the process exits with status 1) after writing to standard
error a text that contains `e1` and `e2`; the session's List Buckets handler sets an error
message that contains `e1` and `e2`, stores the empty bucket list and shows the buckets list
view; neither makes an ACL-owner lookup. -/
theorem both_fail {W : Type} (env : Env W) (w : W) (m : Model) (e1 e2 : String)
    (hds : (BucketService.ListBuckets env w).val = .error e1)
    (hapi : env.ListBuckets w = .error e2) :
    (listBucketsMain env w).val.buckets = none ∧
    (listBucketsMain env w).val.stderr =
      "Warning: Error listing ZFS buckets: " ++ e1 ++ "\n" ++
        "Error listing buckets: ZFS(" ++ e1 ++ ") API(" ++ e2 ++ ")\n" ∧
    Contains (listBucketsMain env w).val.stderr e1 = true ∧
    Contains (listBucketsMain env w).val.stderr e2 = true ∧
    (listBucketsMain env w).calls = [Call.BucketListBuckets, Call.ListBuckets] ∧
    ∃ m1, (m.listBuckets env w).val = .next m1 .nil ∧
      m1 = { m with
        errorMessage := "Error loading buckets: ZFS(" ++ e1 ++ ") API(" ++ e2 ++ ")",
        buckets := [], currentView := .BucketsListView, cursor := 0, page := 0 } ∧
      Contains m1.errorMessage e1 = true ∧ Contains m1.errorMessage e2 = true ∧
      (m.listBuckets env w).calls = [Call.BucketListBuckets, Call.ListBuckets] := by
  have hmain := listBucketsMain_run env w
  have hsess := listBuckets_run env m w
  rw [hds, hapi] at hmain hsess
  simp only at hmain hsess
  rw [hmain, hsess]
  refine ⟨rfl, rfl, ?_, ?_, rfl, _, rfl, rfl, ?_, ?_⟩
  · have := contains_mid ("Warning: Error listing ZFS buckets: " ++ e1 ++ "\n" ++
        "Error listing buckets: ZFS(") e1 (") API(" ++ e2 ++ ")\n")
    simpa [String.append_assoc] using this
  · have := contains_mid ("Warning: Error listing ZFS buckets: " ++ e1 ++ "\n" ++
        "Error listing buckets: ZFS(" ++ e1 ++ ") API(") e2 ")\n"
    simpa [String.append_assoc] using this
  · have := contains_mid "Error loading buckets: ZFS(" e1 (") API(" ++ e2 ++ ")")
    simpa [String.append_assoc] using this
  · have := contains_mid ("Error loading buckets: ZFS(" ++ e1 ++ ") API(") e2 ")"
    simpa [String.append_assoc] using this

/-- C6, witness: with both listings failing the one-shot command prints no list and the
session's error message holds both error texts. -/
theorem both_fail_witness :
    (BucketService.ListBuckets bothFail.env ()).val =
        .error "failed to list ZFS filesystems: exit status 1 (output: cannot open pool)" ∧
      bothFail.env.ListBuckets () = .error "failed to send request: connection refused" ∧
      (listBucketsMain bothFail.env ()).val.buckets = none ∧
      ∃ m1, (NewModel.listBuckets bothFail.env ()).val = .next m1 .nil ∧
        m1.errorMessage =
          "Error loading buckets: ZFS(failed to list ZFS filesystems: exit status 1 " ++
            "(output: cannot open pool)) API(failed to send request: connection refused)" := by
  obtain ⟨h1, _, _, _, _, m1, h2, h3, _⟩ := both_fail bothFail.env () NewModel _ _ rfl rfl
  refine ⟨rfl, rfl, h1, m1, h2, ?_⟩
  rw [h3]
  decide

/-- C7. Bucket merge, API failing alone.  When the dataset listing succeeds with `buckets` and
the API listing fails, neither path fails (the one-shot command writes nothing to standard
error, the session sets no error message), neither makes an ACL-owner lookup (the only calls
are the two listings), and the merged list is the dataset list sorted by name, which is the
dataset list itself, record for record, and every owner in it is "-". -/
theorem api_fail_alone {W : Type} (env : Env W) (w : W) (m : Model) (buckets : List Bucket) (e : String)
    (hds : (BucketService.ListBuckets env w).val = .ok buckets)
    (hapi : env.ListBuckets w = .error e) :
    (listBucketsMain env w).val = { stderr := "", buckets := some (sortBuckets buckets) } ∧
    (listBucketsMain env w).calls = [Call.BucketListBuckets, Call.ListBuckets] ∧
    (m.listBuckets env w).val =
      .next { m with
        buckets := sortBuckets buckets, currentView := .BucketsListView, cursor := 0,
        page := 0 } .nil ∧
    (m.listBuckets env w).calls = [Call.BucketListBuckets, Call.ListBuckets] ∧
    (∀ name, Call.GetBucketOwner name ∉ (listBucketsMain env w).calls ∧
      Call.GetBucketOwner name ∉ (m.listBuckets env w).calls) ∧
    sortBuckets buckets = buckets ∧
    (sortBuckets buckets).Pairwise (fun a b => a.Name ≤ b.Name) ∧
    ∀ r ∈ sortBuckets buckets, r.Owner = "-" := by
  have hmain := listBucketsMain_run env w
  have hsess := listBuckets_run env m w
  rw [hds, hapi] at hmain hsess
  simp only at hmain hsess
  rw [hmain, hsess]
  refine ⟨rfl, rfl, rfl, rfl, fun name => by simp, ?_, ?_, ?_⟩
  · exact List.Sorted.insertionSort_eq (listResult_sorted _ _ _ hds)
  · exact sorted_names_of_sorted (sortBuckets_sorted _)
  · intro r hr
    exact listResult_owner _ _ _ hds r (mem_sortBuckets.mp hr)

/-- C7, witness: with the API down, the one-shot command prints the dataset list as it is,
owner "-", and writes nothing to standard error. -/
theorem api_fail_alone_witness :
    (BucketService.ListBuckets apiDown.env ()).val =
        .ok [⟨"alpha", "/tank/s3/buckets/alpha", "1T", "10G", "90G", "-"⟩] ∧
      apiDown.env.ListBuckets () = .error "connection refused" ∧
      (listBucketsMain apiDown.env ()).val =
        { stderr := "",
          buckets := some [⟨"alpha", "/tank/s3/buckets/alpha", "1T", "10G", "90G", "-"⟩] } := by
  obtain ⟨h1, _, _, _, _, h2, _⟩ :=
    api_fail_alone apiDown.env () NewModel
      [⟨"alpha", "/tank/s3/buckets/alpha", "1T", "10G", "90G", "-"⟩] _ rfl rfl
  exact ⟨rfl, rfl, by rw [h1, h2]⟩

set_option maxRecDepth 100000 in
/-- C8, as stated, fails: from the initial state, the keys of `makePublicKeys` never enter the
Confirm view, and the last of them, `enter` on the submit button of the Make Bucket Public form,
calls SetBucketPolicy. -/
theorem destructive_calls_counterexample :
    (∀ step ∈ (runSession quiet.env NewModel () makePublicKeys).1,
      step.before.currentView ≠ .ConfirmView) ∧
    ∃ step ∈ (runSession quiet.env NewModel () makePublicKeys).1,
      step.before.currentView = .MakeBucketPublicView ∧ step.msg = .KeyMsg "enter" ∧
      step.calls = [Call.SetBucketPolicy "b" (GeneratePublicPolicy "b" "o")] ∧
      (Call.SetBucketPolicy "b" (GeneratePublicPolicy "b" "o")).destructive = true := by
  decide

/-- C8, amended.  In every session, from any state: a call of a destructive remote operation
(DeleteUser, the dataset DeleteBucket, SetBucketPolicy, DeleteBucketPolicy) is made either
while handling the key `y` or `Y` in the Confirm view, or it is a SetBucketPolicy made while
handling `enter` in the Make Bucket Public form with the focus on its submit button. -/
theorem destructive_calls {W : Type} (env : Env W) (m : Model) (w : W) (msgs : List Msg) :
    ∀ step ∈ (runSession env m w msgs).1, ∀ c ∈ step.calls, c.destructive = true →
      (step.before.currentView = .ConfirmView ∧
        (step.msg = .KeyMsg "y" ∨ step.msg = .KeyMsg "Y")) ∨
      ((∃ b p, c = Call.SetBucketPolicy b p) ∧
        step.before.currentView = .MakeBucketPublicView ∧ step.msg = .KeyMsg "enter" ∧
        step.before.focusIndex = step.before.bucketFormInputs.length) := by
  induction msgs generalizing m w with
  | nil => intro step hs; simp [runSession] at hs
  | cons msg rest ih =>
    intro step hs c hc hd
    have hstep := update_calls env m msg w
    simp only [runSession] at hs
    split at hs
    · simp only [List.mem_singleton] at hs
      subst hs
      exact hstep c hc hd
    · simp only [List.mem_cons] at hs
      rcases hs with hs | hs
      · subst hs
        exact hstep c hc hd
      · exact ih _ _ step hs c hc hd
    · simp only [List.mem_singleton] at hs
      subst hs
      exact hstep c hc hd

/-- C8, witness: in the scenario of the specification, deleting the bucket `alpha` from the
buckets list calls the dataset DeleteBucket, and does so while handling `y` in the Confirm
view. -/
theorem destructive_calls_witness :
    ∃ step ∈ (runSession scen.env NewModel () deleteKeys).1,
      Call.BucketDeleteBucket "alpha" ∈ step.calls ∧
      step.before.currentView = .ConfirmView ∧
      (step.msg = .KeyMsg "y" ∨ step.msg = .KeyMsg "Y") := by
  have h : ∃ step ∈ (runSession scen.env NewModel () deleteKeys).1,
      Call.BucketDeleteBucket "alpha" ∈ step.calls := by decide
  obtain ⟨step, hs, hc⟩ := h
  refine ⟨step, hs, hc, ?_⟩
  rcases destructive_calls scen.env NewModel () deleteKeys step hs _ hc rfl with h1 | h2
  · exact h1
  · obtain ⟨⟨b, p, hbp⟩, _⟩ := h2
    cases hbp

set_option maxRecDepth 100000 in
/-- C9, as stated, fails for the session: the keys of `provisionKeys` fill the provision form
with the access key `u`, the role `user`, the bucket `b` and the quota `1T`, so the four
conditions hold, and the user ID `0x`; on `enter` on the submit button the validation fails
with "User ID must be a number" and nothing is called. -/
theorem provision_validation_counterexample :
    ∃ step ∈ (runSession quiet.env NewModel () provisionKeys).1,
      step.before.currentView = .ProvisionView ∧ step.msg = .KeyMsg "enter" ∧
      step.before.focusIndex = 9 ∧
      step.before.provisionFormInputs.map (fun t => TrimSpace t.value) =
        ["u", "AAAAAAAAAAAAAAAAAAAAAAAAAAAAAAAAAAAAAAAAAAAAAAAAAAAAAAAAAAAAAAAA", "user", "0x",
          "0", "0", "b", "1T", ""] ∧
      step.calls = [] ∧
      (step.before.Update quiet.env step.msg ()).val =
        .next { step.before with errorMessage := "User ID must be a number" } .nil := by
  decide

/-- C9, amended.  Provisioning validation.  In `runProvision`: if the access key is empty, or
the role is not one of admin, user, userplus, or the bucket name is empty, or the quota is
empty, an error is returned, no call is made and the world is unchanged; when all four
conditions hold, CreateUser is called.  In the session's `handleProvision` the same holds of
the trimmed field values, with one more validation: when the four conditions hold, CreateUser
is called if the user ID, group ID and project ID fields each are empty or a decimal integer,
and otherwise an error message is set and none of CreateUser, CreateBucket and
ChangeBucketOwner is called. -/
theorem provision_validation {W : Type} (env : Env W) (w : W) :
    (∀ cfg : provisionConfig,
      (cfg.Access = "" ∨ ¬ (cfg.Role = "admin" ∨ cfg.Role = "user" ∨ cfg.Role = "userplus") ∨
        cfg.Bucket = "" ∨ cfg.Quota = "") →
      (∃ e, (runProvision env cfg w).val = .error e) ∧ (runProvision env cfg w).calls = [] ∧
        (runProvision env cfg w).world = w) ∧
    (∀ cfg : provisionConfig,
      cfg.Access ≠ "" → (cfg.Role = "admin" ∨ cfg.Role = "user" ∨ cfg.Role = "userplus") →
      cfg.Bucket ≠ "" → cfg.Quota ≠ "" →
      ∃ secret, Call.CreateUser
        { Access := cfg.Access, Secret := secret, Role := cfg.Role, UserID := cfg.UserID,
          GroupID := cfg.GroupID, ProjectID := cfg.ProjectID } ∈ (runProvision env cfg w).calls) ∧
    (∀ (m : Model) (i0 i1 i2 i3 i4 i5 i6 i7 i8 : TextInput) (rest : List TextInput),
      m.provisionFormInputs = i0 :: i1 :: i2 :: i3 :: i4 :: i5 :: i6 :: i7 :: i8 :: rest →
      ((TrimSpace i0.value = "" ∨
          ¬ (TrimSpace i2.value = "admin" ∨ TrimSpace i2.value = "user" ∨
            TrimSpace i2.value = "userplus") ∨
          TrimSpace i6.value = "" ∨ TrimSpace i7.value = "") →
        (∃ msg, (m.handleProvision env w).val = .next { m with errorMessage := msg } .nil) ∧
          (m.handleProvision env w).calls = [] ∧ (m.handleProvision env w).world = w) ∧
      (TrimSpace i0.value ≠ "" →
        (TrimSpace i2.value = "admin" ∨ TrimSpace i2.value = "user" ∨
          TrimSpace i2.value = "userplus") →
        TrimSpace i6.value ≠ "" → TrimSpace i7.value ≠ "" →
        (∀ uid gid pid, parseInt (TrimSpace i3.value) = some uid →
          parseInt (TrimSpace i4.value) = some gid → parseInt (TrimSpace i5.value) = some pid →
          ∃ secret, Call.CreateUser
            { Access := TrimSpace i0.value, Secret := secret, Role := TrimSpace i2.value,
              UserID := uid, GroupID := gid, ProjectID := pid } ∈
              (m.handleProvision env w).calls) ∧
        ((parseInt (TrimSpace i3.value) = none ∨ parseInt (TrimSpace i4.value) = none ∨
            parseInt (TrimSpace i5.value) = none) →
          (∃ msg, (m.handleProvision env w).val = .next { m with errorMessage := msg } .nil) ∧
            ∀ c ∈ (m.handleProvision env w).calls, c = Call.RandRead 48))) := by
  refine ⟨?_, ?_, ?_⟩
  · intro cfg h
    unfold runProvision
    by_cases hA : cfg.Access = ""
    · rw [if_pos hA]; exact ⟨⟨_, rfl⟩, rfl, rfl⟩
    rw [if_neg hA]
    by_cases hR : cfg.Role = "admin" ∨ cfg.Role = "user" ∨ cfg.Role = "userplus"
    swap
    · rw [if_pos (role_invalid hR)]; exact ⟨⟨_, rfl⟩, rfl, rfl⟩
    rw [if_neg (role_valid hR)]
    by_cases hB : cfg.Bucket = ""
    · rw [if_pos hB]; exact ⟨⟨_, rfl⟩, rfl, rfl⟩
    rw [if_neg hB]
    by_cases hQ : cfg.Quota = ""
    · rw [if_pos hQ]; exact ⟨⟨_, rfl⟩, rfl, rfl⟩
    rcases h with h | h | h | h
    · exact absurd h hA
    · exact absurd hR h
    · exact absurd h hB
    · exact absurd h hQ
  · intro cfg hA hR hB hQ
    have hrun := runProvision_valid env w cfg hA hR hB hQ
    dsimp only at hrun
    rw [hrun]
    refine ⟨if cfg.Secret = "" then (generateSecretKey env w).val else cfg.Secret, ?_⟩
    simp only [threeSteps, VersityGWService.CreateUser, run_bind, run_act]
    exact List.mem_append_right _ (List.mem_cons_self _ _)
  · intro m i0 i1 i2 i3 i4 i5 i6 i7 i8 rest hm
    refine ⟨?_, ?_⟩
    · intro h
      cases m
      simp only at hm
      subst hm
      unfold Model.handleProvision
      simp only [TextInput.Value]
      by_cases hA : TrimSpace i0.value = ""
      · rw [if_pos hA]; exact ⟨⟨_, rfl⟩, rfl, rfl⟩
      rw [if_neg hA]
      by_cases hR : TrimSpace i2.value = "admin" ∨ TrimSpace i2.value = "user" ∨
          TrimSpace i2.value = "userplus"
      swap
      · rw [if_pos (role_invalid hR)]; exact ⟨⟨_, rfl⟩, rfl, rfl⟩
      rw [if_neg (role_valid hR)]
      by_cases hB : TrimSpace i6.value = ""
      · rw [if_pos hB]; exact ⟨⟨_, rfl⟩, rfl, rfl⟩
      rw [if_neg hB]
      by_cases hQ : TrimSpace i7.value = ""
      · rw [if_pos hQ]; exact ⟨⟨_, rfl⟩, rfl, rfl⟩
      rcases h with h | h | h | h
      · exact absurd h hA
      · exact absurd hR h
      · exact absurd h hB
      · exact absurd h hQ
    · intro hA hR hB hQ
      refine ⟨?_, ?_⟩
      · intro uid gid pid hu hg hp
        have hrun := handleProvision_valid env w m i0 i1 i2 i3 i4 i5 i6 i7 i8 rest uid gid pid
          hm hA hR hB hQ hu hg hp
        dsimp only at hrun
        rw [hrun]
        refine ⟨if TrimSpace i1.value = "" then (generateSecretKey env w).val
          else TrimSpace i1.value, ?_⟩
        simp only [threeSteps, VersityGWService.CreateUser, run_bind, run_act]
        exact List.mem_append_right _ (List.mem_cons_self _ _)
      · intro hbad
        cases m
        simp only at hm
        subst hm
        unfold Model.handleProvision
        simp only [TextInput.Value]
        rw [if_neg hA, if_neg (role_valid hR), if_neg hB, if_neg hQ]
        have hcalls : ∀ c ∈ ((if TrimSpace i1.value = "" then generateSecretKey env
            else pure (TrimSpace i1.value)) w).calls, c = Call.RandRead 48 := by
          intro c hc
          by_cases hS : TrimSpace i1.value = ""
          · rw [if_pos hS] at hc
            simpa [generateSecretKey] using hc
          · rw [if_neg hS] at hc
            simp at hc
        cases hu : parseInt (TrimSpace i3.value) with
        | none =>
          simp only [run_bind, run_pure, List.append_nil]
          exact ⟨⟨_, rfl⟩, hcalls⟩
        | some uid =>
          cases hg : parseInt (TrimSpace i4.value) with
          | none =>
            simp only [run_bind, run_pure, List.append_nil]
            exact ⟨⟨_, rfl⟩, hcalls⟩
          | some gid =>
            cases hp : parseInt (TrimSpace i5.value) with
            | none =>
              simp only [run_bind, run_pure, List.append_nil]
              exact ⟨⟨_, rfl⟩, hcalls⟩
            | some pid =>
              rw [hu, hg, hp] at hbad
              simp at hbad

/-- C9, witness: with an empty access key `runProvision` makes no call; with the scenario's
input it calls CreateUser. -/
theorem provision_validation_witness :
    (runProvision quiet.env { provisionDemo with Access := "" } ()).calls = [] ∧
      ∃ secret, Call.CreateUser
        { Access := "u1", Secret := secret, Role := "user", UserID := 0, GroupID := 0,
          ProjectID := 0 } ∈ (runProvision quiet.env provisionDemo ()).calls :=
  ⟨((provision_validation quiet.env ()).1 { provisionDemo with Access := "" }
      (Or.inl rfl)).2.1,
    (provision_validation quiet.env ()).2.1 provisionDemo (by decide) (by decide) (by decide)
      (by decide)⟩

/-- C10. Provisioning order and abort, for the one-shot `runProvision` and for the session's
`handleProvision`.  For a valid input the calls are, after the `rand.Read` of a generated
secret, CreateUser, then CreateBucket, then ChangeBucketOwner, in this order; when a step
fails the later steps are not called, no other call is made (no DeleteUser, no DeleteBucket),
the world is left as the steps so far made it (a created user stays created), and the error
names the failed step: `runProvision` returns "failed to create user: ...", "failed to create
bucket: ..." or "failed to set bucket owner: ...", the session shows "Failed to create user:
...", "Failed to create bucket: ..." or "Bucket created but failed to set owner: ...". -/
theorem provision_order {W : Type} (env : Env W) (w : W) :
    (∀ cfg : provisionConfig,
      cfg.Access ≠ "" → (cfg.Role = "admin" ∨ cfg.Role = "user" ∨ cfg.Role = "userplus") →
      cfg.Bucket ≠ "" → cfg.Quota ≠ "" →
      let owner := if cfg.Owner = "" then cfg.Access else cfg.Owner
      let secret := if cfg.Secret = "" then (generateSecretKey env w).val else cfg.Secret
      let w1 := if cfg.Secret = "" then (generateSecretKey env w).world else w
      let pre := if cfg.Secret = "" then [Call.RandRead 48] else []
      let req : UserCreateRequest :=
        { Access := cfg.Access, Secret := secret, Role := cfg.Role, UserID := cfg.UserID,
          GroupID := cfg.GroupID, ProjectID := cfg.ProjectID }
      let breq : BucketCreateRequest :=
        { Name := cfg.Bucket, Quota := cfg.Quota, Owner := owner, Mountpoint := "" }
      let w2 := (env.CreateUser w1 req).2
      let w3 := (BucketService.CreateBucket env breq w2).world
      let w4 := (env.ChangeBucketOwner w3 cfg.Bucket owner).2
      let r := runProvision env cfg w
      (∀ e, (env.CreateUser w1 req).1 = some e →
        r.val = .error ("failed to create user: " ++ e) ∧
        r.calls = pre ++ [Call.CreateUser req] ∧ r.world = w2) ∧
      ((env.CreateUser w1 req).1 = none →
        (∀ e, (BucketService.CreateBucket env breq w2).val = some e →
          r.val = .error ("failed to create bucket: " ++ e) ∧
          r.calls = pre ++ [Call.CreateUser req, Call.BucketCreateBucket breq] ∧
          r.world = w3) ∧
        ((BucketService.CreateBucket env breq w2).val = none →
          (∀ e, (env.ChangeBucketOwner w3 cfg.Bucket owner).1 = some e →
            r.val = .error ("failed to set bucket owner: " ++ e) ∧
            r.calls = pre ++ [Call.CreateUser req, Call.BucketCreateBucket breq,
              Call.ChangeBucketOwner cfg.Bucket owner] ∧ r.world = w4) ∧
          ((env.ChangeBucketOwner w3 cfg.Bucket owner).1 = none →
            (∃ summary, r.val = .ok summary) ∧
            r.calls = pre ++ [Call.CreateUser req, Call.BucketCreateBucket breq,
              Call.ChangeBucketOwner cfg.Bucket owner] ∧ r.world = w4)))) ∧
    (∀ (m : Model) (i0 i1 i2 i3 i4 i5 i6 i7 i8 : TextInput) (rest : List TextInput)
      (uid gid pid : Int),
      m.provisionFormInputs = i0 :: i1 :: i2 :: i3 :: i4 :: i5 :: i6 :: i7 :: i8 :: rest →
      TrimSpace i0.value ≠ "" →
      (TrimSpace i2.value = "admin" ∨ TrimSpace i2.value = "user" ∨
        TrimSpace i2.value = "userplus") →
      TrimSpace i6.value ≠ "" → TrimSpace i7.value ≠ "" →
      parseInt (TrimSpace i3.value) = some uid → parseInt (TrimSpace i4.value) = some gid →
      parseInt (TrimSpace i5.value) = some pid →
      let access := TrimSpace i0.value
      let bucket := TrimSpace i6.value
      let owner := if TrimSpace i8.value = "" then access else TrimSpace i8.value
      let secret :=
        if TrimSpace i1.value = "" then (generateSecretKey env w).val else TrimSpace i1.value
      let w1 := if TrimSpace i1.value = "" then (generateSecretKey env w).world else w
      let pre := if TrimSpace i1.value = "" then [Call.RandRead 48] else []
      let req : UserCreateRequest :=
        { Access := access, Secret := secret, Role := TrimSpace i2.value, UserID := uid,
          GroupID := gid, ProjectID := pid }
      let breq : BucketCreateRequest :=
        { Name := bucket, Quota := TrimSpace i7.value, Owner := owner, Mountpoint := "" }
      let w2 := (env.CreateUser w1 req).2
      let w3 := (BucketService.CreateBucket env breq w2).world
      let w4 := (env.ChangeBucketOwner w3 bucket owner).2
      let r := m.handleProvision env w
      (∀ e, (env.CreateUser w1 req).1 = some e →
        r.val = .next { m with errorMessage := "Failed to create user: " ++ e } .nil ∧
        r.calls = pre ++ [Call.CreateUser req] ∧ r.world = w2) ∧
      ((env.CreateUser w1 req).1 = none →
        (∀ e, (BucketService.CreateBucket env breq w2).val = some e →
          r.val = .next { m with errorMessage := "Failed to create bucket: " ++ e } .nil ∧
          r.calls = pre ++ [Call.CreateUser req, Call.BucketCreateBucket breq] ∧
          r.world = w3) ∧
        ((BucketService.CreateBucket env breq w2).val = none →
          (∀ e, (env.ChangeBucketOwner w3 bucket owner).1 = some e →
            r.val = .next { m with
              errorMessage := "Bucket created but failed to set owner: " ++ e } .nil ∧
            r.calls = pre ++ [Call.CreateUser req, Call.BucketCreateBucket breq,
              Call.ChangeBucketOwner bucket owner] ∧ r.world = w4) ∧
          ((env.ChangeBucketOwner w3 bucket owner).1 = none →
            (∃ m1, r.val = .next m1 .nil ∧ m1.currentView = m.returnView ∧
              m1.errorMessage = m.errorMessage) ∧
            r.calls = pre ++ [Call.CreateUser req, Call.BucketCreateBucket breq,
              Call.ChangeBucketOwner bucket owner] ∧ r.world = w4)))) := by
  constructor
  · intro cfg hA hR hB hQ owner secret w1 pre req breq w2 w3 w4 r
    have hrun := runProvision_valid env w cfg hA hR hB hQ
    obtain ⟨s1, s2⟩ := threeSteps_run env w1 req breq cfg.Bucket owner
      (fun e => (Except.error ("failed to create user: " ++ e) : Except String provisionSummary))
      (fun e => .error ("failed to create bucket: " ++ e))
      (fun e => .error ("failed to set bucket owner: " ++ e))
      (.ok { Access := cfg.Access, Secret := secret, Role := cfg.Role, UserID := cfg.UserID,
             GroupID := cfg.GroupID, ProjectID := cfg.ProjectID, Bucket := cfg.Bucket,
             Quota := cfg.Quota, Owner := owner, SecretGenerated := decide (cfg.Secret = "") })
    dsimp only at hrun s1 s2
    refine ⟨fun e h1 => ?_, fun h1 => ⟨fun e h2 => ?_, fun h2 => ⟨fun e h3 => ?_, fun h3 => ?_⟩⟩⟩
    · simp only [r]
      rw [hrun, s1 e h1]
      exact ⟨rfl, rfl, rfl⟩
    · simp only [r]
      rw [hrun, (s2 h1).1 e h2]
      exact ⟨rfl, rfl, rfl⟩
    · simp only [r]
      rw [hrun, ((s2 h1).2 h2).1 e h3]
      exact ⟨rfl, rfl, rfl⟩
    · simp only [r]
      rw [hrun, ((s2 h1).2 h2).2 h3]
      exact ⟨⟨_, rfl⟩, rfl, rfl⟩
  · intro m i0 i1 i2 i3 i4 i5 i6 i7 i8 rest uid gid pid hm hA hR hB hQ hu hg hp access bucket
      owner secret w1 pre req breq w2 w3 w4 r
    have hrun := handleProvision_valid env w m i0 i1 i2 i3 i4 i5 i6 i7 i8 rest uid gid pid hm hA
      hR hB hQ hu hg hp
    obtain ⟨s1, s2⟩ := threeSteps_run env w1 req breq bucket owner
      (fun e => Outcome.next { m with errorMessage := "Failed to create user: " ++ e } .nil)
      (fun e => .next { m with errorMessage := "Failed to create bucket: " ++ e } .nil)
      (fun e => .next { m with
        errorMessage := "Bucket created but failed to set owner: " ++ e } .nil)
      (.next { m with
        successMessage :=
          "Provisioned user '" ++ access ++ "' and bucket '" ++ bucket ++
            "' (owner '" ++ owner ++ "')",
        currentView := m.returnView, cursor := 0 } .nil)
    dsimp only at hrun s1 s2
    refine ⟨fun e h1 => ?_, fun h1 => ⟨fun e h2 => ?_, fun h2 => ⟨fun e h3 => ?_, fun h3 => ?_⟩⟩⟩
    · simp only [r]
      rw [hrun, s1 e h1]
      exact ⟨rfl, rfl, rfl⟩
    · simp only [r]
      rw [hrun, (s2 h1).1 e h2]
      exact ⟨rfl, rfl, rfl⟩
    · simp only [r]
      rw [hrun, ((s2 h1).2 h2).1 e h3]
      exact ⟨rfl, rfl, rfl⟩
    · simp only [r]
      rw [hrun, ((s2 h1).2 h2).2 h3]
      exact ⟨⟨_, rfl, rfl, rfl⟩, rfl, rfl⟩

/-- C10, witness: with CreateUser succeeding and CreateBucket failing, `runProvision` returns
an error that names the bucket creation, after calling CreateUser and CreateBucket only. -/
theorem provision_order_witness :
    (runProvision bucketFails.env provisionDemo ()).val =
        .error ("failed to create bucket: failed to create ZFS bucket: exit status 1 " ++
          "(output: cannot create dataset: dataset already exists)") ∧
      (runProvision bucketFails.env provisionDemo ()).calls =
        [Call.RandRead 48,
          Call.CreateUser
            { Access := "u1",
              Secret := "AAAAAAAAAAAAAAAAAAAAAAAAAAAAAAAAAAAAAAAAAAAAAAAAAAAAAAAAAAAAAAAA",
              Role := "user", UserID := 0, GroupID := 0, ProjectID := 0 },
          Call.BucketCreateBucket
            { Name := "b1", Quota := "2T", Owner := "u1", Mountpoint := "" }] := by
  have h := ((provision_order bucketFails.env ()).1 provisionDemo (by decide) (by decide)
    (by decide) (by decide)).2 rfl
  have h2 := h.1 _ rfl
  exact ⟨h2.1.trans rfl, h2.2.1.trans rfl⟩

/-- C11. Provisioning defaults (`runProvision`).  For every valid input (access key, bucket and
quota not empty, role one of admin, user, userplus): when CreateUser, CreateBucket and
ChangeBucketOwner all succeed, the result is the summary whose owner is the given owner if it
is not empty and the access key otherwise, whose secret is the given secret if it is not empty
and the secret generated from the random source otherwise, whose `SecretGenerated` is true
exactly when the given secret was empty, and whose access, role, user ID, group ID, project ID,
bucket and quota are the inputs; the calls are CreateUser with that secret, CreateBucket with
that owner and ChangeBucketOwner with that owner (after the `rand.Read` of a generated secret).
Conversely every summary that `runProvision` returns without an error is this one. -/
theorem provision_defaults {W : Type} (env : Env W) (w : W) (cfg : provisionConfig)
    (hA : cfg.Access ≠ "")
    (hR : cfg.Role = "admin" ∨ cfg.Role = "user" ∨ cfg.Role = "userplus")
    (hB : cfg.Bucket ≠ "") (hQ : cfg.Quota ≠ "") :
    let owner := if cfg.Owner = "" then cfg.Access else cfg.Owner
    let secret := if cfg.Secret = "" then (generateSecretKey env w).val else cfg.Secret
    let w1 := if cfg.Secret = "" then (generateSecretKey env w).world else w
    let pre := if cfg.Secret = "" then [Call.RandRead 48] else []
    let req : UserCreateRequest :=
      { Access := cfg.Access, Secret := secret, Role := cfg.Role, UserID := cfg.UserID,
        GroupID := cfg.GroupID, ProjectID := cfg.ProjectID }
    let breq : BucketCreateRequest :=
      { Name := cfg.Bucket, Quota := cfg.Quota, Owner := owner, Mountpoint := "" }
    let w2 := (env.CreateUser w1 req).2
    let w3 := (BucketService.CreateBucket env breq w2).world
    let summary : provisionSummary :=
      { Access := cfg.Access, Secret := secret, Role := cfg.Role, UserID := cfg.UserID,
        GroupID := cfg.GroupID, ProjectID := cfg.ProjectID, Bucket := cfg.Bucket,
        Quota := cfg.Quota, Owner := owner, SecretGenerated := decide (cfg.Secret = "") }
    let r := runProvision env cfg w
    ((env.CreateUser w1 req).1 = none → (BucketService.CreateBucket env breq w2).val = none →
      (env.ChangeBucketOwner w3 cfg.Bucket owner).1 = none →
      r.val = .ok summary ∧
      r.calls = pre ++ [Call.CreateUser req, Call.BucketCreateBucket breq,
        Call.ChangeBucketOwner cfg.Bucket owner]) ∧
    (∀ s, r.val = .ok s → s = summary) ∧
    (summary.SecretGenerated = true ↔ cfg.Secret = "") ∧
    (cfg.Owner ≠ "" → summary.Owner = cfg.Owner) ∧ (cfg.Owner = "" → summary.Owner = cfg.Access) ∧
    (cfg.Secret ≠ "" → summary.Secret = cfg.Secret) ∧
    (cfg.Secret = "" →
      summary.Secret = String.mk (base64Encode (fillBuffer 48 (env.randRead w 48).1))) := by
  intro owner secret w1 pre req breq w2 w3 summary r
  have hrun := runProvision_valid env w cfg hA hR hB hQ
  obtain ⟨s1, s2⟩ := threeSteps_run env w1 req breq cfg.Bucket owner
    (fun e => (Except.error ("failed to create user: " ++ e) : Except String provisionSummary))
    (fun e => .error ("failed to create bucket: " ++ e))
    (fun e => .error ("failed to set bucket owner: " ++ e))
    (.ok summary)
  dsimp only at hrun s1 s2
  refine ⟨fun h1 h2 h3 => ?_, fun s hs => ?_, by simp [summary], ?_, ?_, ?_, ?_⟩
  · simp only [r]
    rw [hrun, ((s2 h1).2 h2).2 h3]
    exact ⟨rfl, rfl⟩
  · simp only [r] at hs
    rw [hrun] at hs
    cases h1 : (env.CreateUser w1 req).1 with
    | some e => rw [s1 e h1] at hs; cases hs
    | none =>
      cases h2 : (BucketService.CreateBucket env breq w2).val with
      | some e => rw [(s2 h1).1 e h2] at hs; cases hs
      | none =>
        cases h3 : (env.ChangeBucketOwner w3 cfg.Bucket owner).1 with
        | some e => rw [((s2 h1).2 h2).1 e h3] at hs; cases hs
        | none =>
          rw [((s2 h1).2 h2).2 h3] at hs
          cases hs
          rfl
  · intro h; simp [summary, owner, h]
  · intro h; simp [summary, owner, h]
  · intro h; simp [summary, secret, h]
  · intro h; simp [summary, secret, h, generateSecretKey]

/-- C11, witness: the scenario of the specification.  With access `u1`, role `user`, bucket
`b1`, quota `2T` and neither owner nor secret, in a world where the three steps succeed, the
summary has owner `u1`, the generated secret, and `SecretGenerated = true`. -/
theorem provision_defaults_witness :
    (runProvision quiet.env provisionDemo ()).val =
      .ok { Access := "u1",
            Secret := "AAAAAAAAAAAAAAAAAAAAAAAAAAAAAAAAAAAAAAAAAAAAAAAAAAAAAAAAAAAAAAAA",
            Role := "user", UserID := 0, GroupID := 0, ProjectID := 0, Bucket := "b1",
            Quota := "2T", Owner := "u1", SecretGenerated := true } :=
  ((provision_defaults quiet.env () provisionDemo (by decide) (by decide) (by decide)
    (by decide)).1 rfl rfl rfl).1.trans rfl

set_option maxRecDepth 100000 in
/-- C12, as stated, fails.  In a world where CreateUser succeeds and the dataset creation
fails, `runProvision` on the scenario input calls CreateUser (the user `u1` is created) and
CreateBucket, and its whole result is the error "failed to create bucket: ..." of the failed
step: the text holds neither the word "user" nor the access key `u1`, and no summary is
returned.  The session's provision form, submitted in the same world, calls CreateUser and
CreateBucket and shows "Failed to create bucket: ..." and no success message: nothing tells
that the user was created. -/
theorem partial_success_counterexample :
    (runProvision bucketFails.env provisionDemo ()).calls =
      [Call.RandRead 48,
        Call.CreateUser
          { Access := "u1",
            Secret := "AAAAAAAAAAAAAAAAAAAAAAAAAAAAAAAAAAAAAAAAAAAAAAAAAAAAAAAAAAAAAAAA",
            Role := "user", UserID := 0, GroupID := 0, ProjectID := 0 },
        Call.BucketCreateBucket { Name := "b1", Quota := "2T", Owner := "u1", Mountpoint := "" }] ∧
    bucketFails.createUser = none ∧
    (∃ text, (runProvision bucketFails.env provisionDemo ()).val = .error text ∧
      text = "failed to create bucket: failed to create ZFS bucket: exit status 1 " ++
        "(output: cannot create dataset: dataset already exists)" ∧
      Contains text "user" = false ∧ Contains text "u1" = false) ∧
    (∃ step ∈ (runSession bucketFails.env NewModel () provisionSubmitKeys).1,
      step.calls =
        [Call.CreateUser
          { Access := "u",
            Secret := "AAAAAAAAAAAAAAAAAAAAAAAAAAAAAAAAAAAAAAAAAAAAAAAAAAAAAAAAAAAAAAAA",
            Role := "user", UserID := 0, GroupID := 0, ProjectID := 0 },
          Call.BucketCreateBucket { Name := "b", Quota := "1T", Owner := "u", Mountpoint := "" }]) ∧
    (runSession bucketFails.env NewModel () provisionSubmitKeys).2.1.errorMessage =
      "Failed to create bucket: failed to create ZFS bucket: exit status 1 " ++
        "(output: cannot create dataset: dataset already exists)" ∧
    (runSession bucketFails.env NewModel () provisionSubmitKeys).2.1.successMessage = "" ∧
    Contains (runSession bucketFails.env NewModel () provisionSubmitKeys).2.1.errorMessage
      "user" = false :=
  ⟨by decide, by decide, ⟨_, rfl, by decide, by decide, by decide⟩, by decide, by decide,
    by decide, by decide⟩

/-- C12, amended.  Provisioning partial outcome.  When a provisioning step fails, the reported
result names the step that failed and carries that step's error, and states nothing else:
`runProvision` returns no summary and the error "failed to create user: E", "failed to create
bucket: E" or "failed to set bucket owner: E"; the session shows "Failed to create user: E",
"Failed to create bucket: E" or "Bucket created but failed to set owner: E" (only this last
text mentions an earlier success, the bucket).  The three labels of `runProvision` differ
whatever the errors are, so the result tells which step failed; the steps that succeeded are
the ones before it in the fixed order CreateUser, CreateBucket, ChangeBucketOwner, as the
calls show, and no call undoes them. -/
theorem partial_success {W : Type} (env : Env W) (w : W) :
    (∀ cfg : provisionConfig,
      cfg.Access ≠ "" → (cfg.Role = "admin" ∨ cfg.Role = "user" ∨ cfg.Role = "userplus") →
      cfg.Bucket ≠ "" → cfg.Quota ≠ "" →
      let owner := if cfg.Owner = "" then cfg.Access else cfg.Owner
      let secret := if cfg.Secret = "" then (generateSecretKey env w).val else cfg.Secret
      let w1 := if cfg.Secret = "" then (generateSecretKey env w).world else w
      let pre := if cfg.Secret = "" then [Call.RandRead 48] else []
      let req : UserCreateRequest :=
        { Access := cfg.Access, Secret := secret, Role := cfg.Role, UserID := cfg.UserID,
          GroupID := cfg.GroupID, ProjectID := cfg.ProjectID }
      let breq : BucketCreateRequest :=
        { Name := cfg.Bucket, Quota := cfg.Quota, Owner := owner, Mountpoint := "" }
      let w2 := (env.CreateUser w1 req).2
      let w3 := (BucketService.CreateBucket env breq w2).world
      let r := runProvision env cfg w
      (∀ e, (env.CreateUser w1 req).1 = some e →
        r.val = .error ("failed to create user: " ++ e) ∧
        r.calls = pre ++ [Call.CreateUser req]) ∧
      ((env.CreateUser w1 req).1 = none →
        (∀ e, (BucketService.CreateBucket env breq w2).val = some e →
          r.val = .error ("failed to create bucket: " ++ e) ∧
          r.calls = pre ++ [Call.CreateUser req, Call.BucketCreateBucket breq]) ∧
        ((BucketService.CreateBucket env breq w2).val = none →
          ∀ e, (env.ChangeBucketOwner w3 cfg.Bucket owner).1 = some e →
            r.val = .error ("failed to set bucket owner: " ++ e) ∧
            r.calls = pre ++ [Call.CreateUser req, Call.BucketCreateBucket breq,
              Call.ChangeBucketOwner cfg.Bucket owner]))) ∧
    (∀ (m : Model) (i0 i1 i2 i3 i4 i5 i6 i7 i8 : TextInput) (rest : List TextInput)
      (uid gid pid : Int),
      m.provisionFormInputs = i0 :: i1 :: i2 :: i3 :: i4 :: i5 :: i6 :: i7 :: i8 :: rest →
      TrimSpace i0.value ≠ "" →
      (TrimSpace i2.value = "admin" ∨ TrimSpace i2.value = "user" ∨
        TrimSpace i2.value = "userplus") →
      TrimSpace i6.value ≠ "" → TrimSpace i7.value ≠ "" →
      parseInt (TrimSpace i3.value) = some uid → parseInt (TrimSpace i4.value) = some gid →
      parseInt (TrimSpace i5.value) = some pid →
      let access := TrimSpace i0.value
      let bucket := TrimSpace i6.value
      let owner := if TrimSpace i8.value = "" then access else TrimSpace i8.value
      let secret :=
        if TrimSpace i1.value = "" then (generateSecretKey env w).val else TrimSpace i1.value
      let w1 := if TrimSpace i1.value = "" then (generateSecretKey env w).world else w
      let pre := if TrimSpace i1.value = "" then [Call.RandRead 48] else []
      let req : UserCreateRequest :=
        { Access := access, Secret := secret, Role := TrimSpace i2.value, UserID := uid,
          GroupID := gid, ProjectID := pid }
      let breq : BucketCreateRequest :=
        { Name := bucket, Quota := TrimSpace i7.value, Owner := owner, Mountpoint := "" }
      let w2 := (env.CreateUser w1 req).2
      let w3 := (BucketService.CreateBucket env breq w2).world
      let r := m.handleProvision env w
      (∀ e, (env.CreateUser w1 req).1 = some e →
        r.val = .next { m with errorMessage := "Failed to create user: " ++ e } .nil ∧
        r.calls = pre ++ [Call.CreateUser req]) ∧
      ((env.CreateUser w1 req).1 = none →
        (∀ e, (BucketService.CreateBucket env breq w2).val = some e →
          r.val = .next { m with errorMessage := "Failed to create bucket: " ++ e } .nil ∧
          r.calls = pre ++ [Call.CreateUser req, Call.BucketCreateBucket breq]) ∧
        ((BucketService.CreateBucket env breq w2).val = none →
          ∀ e, (env.ChangeBucketOwner w3 bucket owner).1 = some e →
            r.val = .next { m with
              errorMessage := "Bucket created but failed to set owner: " ++ e } .nil ∧
            r.calls = pre ++ [Call.CreateUser req, Call.BucketCreateBucket breq,
              Call.ChangeBucketOwner bucket owner]))) ∧
    (∀ e1 e2 : String,
      "failed to create user: " ++ e1 ≠ "failed to create bucket: " ++ e2 ∧
      "failed to create user: " ++ e1 ≠ "failed to set bucket owner: " ++ e2 ∧
      "failed to create bucket: " ++ e1 ≠ "failed to set bucket owner: " ++ e2) := by
  refine ⟨?_, ?_, fun e1 e2 =>
    ⟨label_ne_user_bucket e1 e2, label_ne_user_owner e1 e2, label_ne_bucket_owner e1 e2⟩⟩
  · intro cfg hA hR hB hQ owner secret w1 pre req breq w2 w3 r
    have hrun := runProvision_valid env w cfg hA hR hB hQ
    obtain ⟨s1, s2⟩ := threeSteps_run env w1 req breq cfg.Bucket owner
      (fun e => (Except.error ("failed to create user: " ++ e) : Except String provisionSummary))
      (fun e => .error ("failed to create bucket: " ++ e))
      (fun e => .error ("failed to set bucket owner: " ++ e))
      (.ok { Access := cfg.Access, Secret := secret, Role := cfg.Role, UserID := cfg.UserID,
             GroupID := cfg.GroupID, ProjectID := cfg.ProjectID, Bucket := cfg.Bucket,
             Quota := cfg.Quota, Owner := owner, SecretGenerated := decide (cfg.Secret = "") })
    dsimp only at hrun s1 s2
    refine ⟨fun e h1 => ?_, fun h1 => ⟨fun e h2 => ?_, fun h2 e h3 => ?_⟩⟩
    · simp only [r]
      rw [hrun, s1 e h1]
      exact ⟨rfl, rfl⟩
    · simp only [r]
      rw [hrun, (s2 h1).1 e h2]
      exact ⟨rfl, rfl⟩
    · simp only [r]
      rw [hrun, ((s2 h1).2 h2).1 e h3]
      exact ⟨rfl, rfl⟩
  · intro m i0 i1 i2 i3 i4 i5 i6 i7 i8 rest uid gid pid hm hA hR hB hQ hu hg hp access bucket
      owner secret w1 pre req breq w2 w3 r
    have hrun := handleProvision_valid env w m i0 i1 i2 i3 i4 i5 i6 i7 i8 rest uid gid pid hm hA
      hR hB hQ hu hg hp
    obtain ⟨s1, s2⟩ := threeSteps_run env w1 req breq bucket owner
      (fun e => Outcome.next { m with errorMessage := "Failed to create user: " ++ e } .nil)
      (fun e => .next { m with errorMessage := "Failed to create bucket: " ++ e } .nil)
      (fun e => .next { m with
        errorMessage := "Bucket created but failed to set owner: " ++ e } .nil)
      (.next { m with
        successMessage :=
          "Provisioned user '" ++ access ++ "' and bucket '" ++ bucket ++
            "' (owner '" ++ owner ++ "')",
        currentView := m.returnView, cursor := 0 } .nil)
    dsimp only at hrun s1 s2
    refine ⟨fun e h1 => ?_, fun h1 => ⟨fun e h2 => ?_, fun h2 e h3 => ?_⟩⟩
    · simp only [r]
      rw [hrun, s1 e h1]
      exact ⟨rfl, rfl⟩
    · simp only [r]
      rw [hrun, (s2 h1).1 e h2]
      exact ⟨rfl, rfl⟩
    · simp only [r]
      rw [hrun, ((s2 h1).2 h2).1 e h3]
      exact ⟨rfl, rfl⟩

/-- C12, witness: with CreateUser succeeding and the dataset creation failing, the result of
`runProvision` on the scenario input is the error that names the bucket creation. -/
theorem partial_success_witness :
    (runProvision bucketFails.env provisionDemo ()).val =
      .error ("failed to create bucket: failed to create ZFS bucket: exit status 1 " ++
        "(output: cannot create dataset: dataset already exists)") :=
  ((((partial_success bucketFails.env ()).1 provisionDemo (by decide) (by decide)
    (by decide) (by decide)).2 rfl).1 _ rfl).1.trans rfl

/-- C13. Admin API errors.  For every response with status `s` and body `b` received in
full: `signAndSend` and the copy of it in `ChangeBucketOwner` return an error exactly when
`s >= 400`, and then the error text is "API error (status s): b", with `s` in decimal and `b`
verbatim; CreateUser, UpdateUser, DeleteUser and GetBucketPolicy pass this text on unchanged,
and so do ListBuckets and GetBucketOwner (which, for `s < 400`, fail only when the body does
not parse); SetBucketPolicy, DeleteBucketPolicy and DeleteBucket put "failed to set bucket
policy: ", "failed to delete bucket policy: " and "failed to delete bucket: " before it.  So
each of these error texts contains the decimal status and every text the body contains; for
status 404 it contains "404". -/
theorem api_errors (s : Int) (b : String) :
    (let x := Exchange.response s b
    let apiError := "API error (status " ++ formatInt s ++ "): " ++ b
    (((VersityGWService.signAndSend x).2 ≠ none ↔ s ≥ 400) ∧
      (VersityGWService.changeBucketOwnerError none x ≠ none ↔ s ≥ 400) ∧
      (VersityGWService.createUserError none none x ≠ none ↔ s ≥ 400) ∧
      (VersityGWService.updateUserError none none x ≠ none ↔ s ≥ 400) ∧
      (VersityGWService.deleteUserError none x ≠ none ↔ s ≥ 400) ∧
      (VersityGWService.setBucketPolicyError none x ≠ none ↔ s ≥ 400) ∧
      (VersityGWService.deleteBucketPolicyError none x ≠ none ↔ s ≥ 400) ∧
      (VersityGWService.deleteBucketError none x ≠ none ↔ s ≥ 400) ∧
      ((∃ e, VersityGWService.getBucketPolicyResult none x = .error e) ↔ s ≥ 400)) ∧
    (s ≥ 400 →
      VersityGWService.signAndSend x = (b, some apiError) ∧
      VersityGWService.changeBucketOwnerError none x = some apiError ∧
      VersityGWService.createUserError none none x = some apiError ∧
      VersityGWService.updateUserError none none x = some apiError ∧
      VersityGWService.deleteUserError none x = some apiError ∧
      VersityGWService.getBucketPolicyResult none x = .error apiError ∧
      (∀ unmarshal, VersityGWService.listBucketsResult unmarshal none x = .error apiError) ∧
      (∀ unmarshal, VersityGWService.getBucketOwnerResult unmarshal none x = .error apiError) ∧
      VersityGWService.setBucketPolicyError none x =
        some ("failed to set bucket policy: " ++ apiError) ∧
      VersityGWService.deleteBucketPolicyError none x =
        some ("failed to delete bucket policy: " ++ apiError) ∧
      VersityGWService.deleteBucketError none x = some ("failed to delete bucket: " ++ apiError)) ∧
    (s < 400 →
      VersityGWService.signAndSend x = (b, none) ∧
      VersityGWService.getBucketPolicyResult none x = .ok b) ∧
    (∀ wrap : String,
      Contains (wrap ++ apiError) (formatInt s) = true ∧
      (∀ sub, Contains b sub = true → Contains (wrap ++ apiError) sub = true) ∧
      (s = 404 → Contains (wrap ++ apiError) "404" = true)) ∧
    Contains apiError (formatInt s) = true ∧
    (∀ sub, Contains b sub = true → Contains apiError sub = true) ∧
    (s = 404 → Contains apiError "404" = true)) := by
  intro x apiError
  have hc := apiError_contains s b
  refine ⟨?_, fun h => ?_, fun h => ?_, fun wrap => ⟨?_, fun sub hs => ?_, fun h4 => ?_⟩, hc.1,
    hc.2, fun h4 => ?_⟩
  · by_cases h : s ≥ 400
    · simp [x, VersityGWService.signAndSend, VersityGWService.changeBucketOwnerError,
        VersityGWService.createUserError, VersityGWService.updateUserError,
        VersityGWService.deleteUserError, VersityGWService.setBucketPolicyError,
        VersityGWService.deleteBucketPolicyError, VersityGWService.deleteBucketError,
        VersityGWService.getBucketPolicyResult, h]
    · simp [x, VersityGWService.signAndSend, VersityGWService.changeBucketOwnerError,
        VersityGWService.createUserError, VersityGWService.updateUserError,
        VersityGWService.deleteUserError, VersityGWService.setBucketPolicyError,
        VersityGWService.deleteBucketPolicyError, VersityGWService.deleteBucketError,
        VersityGWService.getBucketPolicyResult, h]
  · simp [x, apiError, VersityGWService.signAndSend, VersityGWService.changeBucketOwnerError,
      VersityGWService.createUserError, VersityGWService.updateUserError,
      VersityGWService.deleteUserError, VersityGWService.setBucketPolicyError,
      VersityGWService.deleteBucketPolicyError, VersityGWService.deleteBucketError,
      VersityGWService.getBucketPolicyResult, VersityGWService.listBucketsResult,
      VersityGWService.getBucketOwnerResult, h]
  · have h' : ¬ s ≥ 400 := by omega
    simp [x, VersityGWService.signAndSend, VersityGWService.getBucketPolicyResult, h']
  · exact contains_append_left _ _ _ hc.1
  · exact contains_append_left _ _ _ (hc.2 sub hs)
  · have e : formatInt s = "404" := by rw [h4]; decide
    have h : Contains (wrap ++ apiError) (formatInt s) = true :=
      contains_append_left _ _ _ hc.1
    rw [e] at h
    exact h
  · have e : formatInt s = "404" := by rw [h4]; decide
    have h : Contains apiError (formatInt s) = true := hc.1
    rw [e] at h
    exact h

/-- C13, witness: the response 404 with the body of a missing bucket policy makes
GetBucketPolicy and SetBucketPolicy fail with texts that hold "404" and
"NoSuchBucketPolicy". -/
theorem api_errors_witness :
    VersityGWService.getBucketPolicyResult none
        (.response 404 "<Error><Code>NoSuchBucketPolicy</Code></Error>") =
      .error "API error (status 404): <Error><Code>NoSuchBucketPolicy</Code></Error>" ∧
    VersityGWService.setBucketPolicyError none
        (.response 404 "<Error><Code>NoSuchBucketPolicy</Code></Error>") =
      some ("failed to set bucket policy: API error (status 404): " ++
        "<Error><Code>NoSuchBucketPolicy</Code></Error>") ∧
    Contains ("failed to set bucket policy: " ++ ("API error (status " ++ formatInt 404 ++ "): " ++
        "<Error><Code>NoSuchBucketPolicy</Code></Error>")) "NoSuchBucketPolicy" = true :=
  ⟨((api_errors 404 "<Error><Code>NoSuchBucketPolicy</Code></Error>").2.1
      (by decide)).2.2.2.2.2.1.trans rfl,
    ((api_errors 404 "<Error><Code>NoSuchBucketPolicy</Code></Error>").2.1
      (by decide)).2.2.2.2.2.2.2.2.1.trans rfl,
    ((api_errors 404 "<Error><Code>NoSuchBucketPolicy</Code></Error>").2.2.2.1
      "failed to set bucket policy: ").2.1 "NoSuchBucketPolicy" (by decide)⟩

set_option maxRecDepth 100000 in
/-- C14, as stated, fails: in the scenario of the specification, after the keys `down`,
`enter` (the buckets list), `d` (delete the bucket `alpha`) and `esc`, the session is on the
main menu, not in the Confirm view, and the pending action is still "delete_bucket" and the
pending target still "alpha". -/
theorem pending_fields_counterexample :
    (runSession scen.env NewModel () escapeKeys).2.1.currentView = .MainMenuView ∧
    (runSession scen.env NewModel () escapeKeys).2.1.pendingAction = "delete_bucket" ∧
    (runSession scen.env NewModel () escapeKeys).2.1.pendingTarget = "alpha" := by
  decide

/-- C14, amended.  In every state reached from the initial state, the pending action or the
pending target is non-empty only if the current view is the Confirm view or a key `esc`, `q`
or `ctrl+c` was handled in the Confirm view before.  In the Confirm view, from any state, the
keys `y`, `Y`, `n` and `N` leave both empty (and do not panic when the page size is not 0),
and the keys `esc`, `q` and `ctrl+c` lead to the main menu and keep both. -/
theorem pending_fields {W : Type} (env : Env W) :
    (∀ (w : W) (msgs : List Msg),
      ((runSession env NewModel w msgs).2.1.pendingAction ≠ "" ∨
        (runSession env NewModel w msgs).2.1.pendingTarget ≠ "") →
      (runSession env NewModel w msgs).2.1.currentView = .ConfirmView ∨
      ∃ step ∈ (runSession env NewModel w msgs).1,
        step.before.currentView = .ConfirmView ∧
        (step.msg = .KeyMsg "esc" ∨ step.msg = .KeyMsg "q" ∨ step.msg = .KeyMsg "ctrl+c")) ∧
    (∀ (m : Model) (w : W) (key : String), m.currentView = .ConfirmView →
      key = "y" ∨ key = "Y" ∨ key = "n" ∨ key = "N" →
      (∀ m1 cmd, (m.Update env (.KeyMsg key) w).val = .next m1 cmd →
        m1.pendingAction = "" ∧ m1.pendingTarget = "") ∧
      (m.pageSize ≠ 0 → (m.Update env (.KeyMsg key) w).val ≠ .panic)) ∧
    (∀ (m : Model) (w : W) (key : String), m.currentView = .ConfirmView →
      key = "esc" ∨ key = "q" ∨ key = "ctrl+c" →
      m.Update env (.KeyMsg key) w =
        ⟨.next { m with
            currentView := .MainMenuView, cursor := 0, errorMessage := "",
            successMessage := "" } .nil, w, []⟩) := by
  refine ⟨fun w msgs hne => ?_, fun m w key hcv hk => ?_, fun m w key hcv hk => ?_⟩
  · rcases session_pending env msgs NewModel w with h | h | h | ⟨h1, h2, -⟩
    · rcases hne with hne | hne
      · exact absurd h.1 hne
      · exact absurd h.2 hne
    · exact Or.inl h
    · exact Or.inr h
    · rcases hne with hne | hne
      · exact absurd h1 hne
      · exact absurd h2 hne
  · have hv : m.currentView.isForm = false := by rw [hcv]; rfl
    have hcv' : m.clearMessages.currentView = .ConfirmView := hcv
    rw [update_notForm env m key hv]
    rcases hk with hk | hk | hk | hk
    · rw [updateKey_yes env m.clearMessages key (Or.inl hk) hcv']
      refine ⟨fun m1 cmd h => ?_, fun hp => executeConfirmedAction_total env m.clearMessages hp w⟩
      have hc := executeConfirmedAction_clears env m.clearMessages w
      rw [h] at hc
      exact hc
    · rw [updateKey_yes env m.clearMessages key (Or.inr hk) hcv']
      refine ⟨fun m1 cmd h => ?_, fun hp => executeConfirmedAction_total env m.clearMessages hp w⟩
      have hc := executeConfirmedAction_clears env m.clearMessages w
      rw [h] at hc
      exact hc
    · rw [updateKey_no env m.clearMessages key (Or.inl hk) hcv']
      exact ⟨fun m1 cmd h => by cases h; exact ⟨rfl, rfl⟩, fun _ h => Outcome.noConfusion h⟩
    · rw [updateKey_no env m.clearMessages key (Or.inr hk) hcv']
      exact ⟨fun m1 cmd h => by cases h; exact ⟨rfl, rfl⟩, fun _ h => Outcome.noConfusion h⟩
  · have hv : m.currentView.isForm = false := by rw [hcv]; rfl
    have hcv' : m.clearMessages.currentView = .ConfirmView := hcv
    rw [update_notForm env m key hv]
    rcases hk with hk | hk | hk
    · rw [hk, updateKey_esc, if_neg (by rw [hcv']; decide), if_neg (by rw [hcv']; decide),
        if_neg (by rw [hcv']; decide), if_pos (by rw [hcv']; decide)]
      rfl
    · rw [updateKey_quit env _ key (Or.inl hk), if_neg (by rw [hcv']; decide)]
      rfl
    · rw [updateKey_quit env _ key (Or.inr hk), if_neg (by rw [hcv']; decide)]
      rfl

set_option maxRecDepth 100000 in
/-- C14, witness: after the keys of `escapeKeys` in the scenario of the specification the
pending action is not empty, and indeed the key `esc` was handled in the Confirm view. -/
theorem pending_fields_witness :
    (runSession scen.env NewModel () escapeKeys).2.1.pendingAction ≠ "" ∧
    ((runSession scen.env NewModel () escapeKeys).2.1.currentView = .ConfirmView ∨
      ∃ step ∈ (runSession scen.env NewModel () escapeKeys).1,
        step.before.currentView = .ConfirmView ∧
        (step.msg = .KeyMsg "esc" ∨ step.msg = .KeyMsg "q" ∨ step.msg = .KeyMsg "ctrl+c")) :=
  ⟨by decide, (pending_fields scen.env).1 () escapeKeys (Or.inl (by decide))⟩

/-- C15. Negative confirmation.  In the Confirm view, from any state and in any world, the key
`n` or `N` calls nothing and leaves the world as it is; the pending action and the pending
target become empty, the current view becomes the return view, the success message becomes
"Operation cancelled.", and the users list, the buckets list and every other field stay as
they are.  The return view is the list the action was requested from: on a list view the keys
`d`, `p` and `P`, when they open the Confirm view, store the current list view as the return
view and keep the two lists; and in every state of the Confirm view that a session reaches
from the initial state the return view is the users list for "delete_user" and the buckets
list for "delete_bucket", "make_public" and "make_private". -/
theorem negative_confirmation {W : Type} (env : Env W) :
    (∀ (m : Model) (w : W) (key : String), m.currentView = .ConfirmView →
      key = "n" ∨ key = "N" →
      m.Update env (.KeyMsg key) w =
        ⟨.next { m with
            pendingAction := "", pendingTarget := "", currentView := m.returnView,
            errorMessage := "", successMessage := "Operation cancelled." } .nil, w, []⟩) ∧
    (∀ (m : Model) (w : W) (key : String),
      m.currentView = .UsersListView ∨ m.currentView = .BucketsListView →
      key = "d" ∨ key = "p" ∨ key = "P" →
      ∀ m1 cmd, (m.Update env (.KeyMsg key) w).val = .next m1 cmd →
        m1.currentView = .ConfirmView →
        m1.returnView = m.currentView ∧ m1.users = m.users ∧ m1.buckets = m.buckets) ∧
    (∀ (w : W) (msgs : List Msg), ∀ step ∈ (runSession env NewModel w msgs).1,
      step.before.currentView = .ConfirmView →
      (step.before.pendingAction = "delete_user" ∧
        step.before.returnView = .UsersListView) ∨
      ((step.before.pendingAction = "delete_bucket" ∨
          step.before.pendingAction = "make_public" ∨
          step.before.pendingAction = "make_private") ∧
        step.before.returnView = .BucketsListView)) := by
  refine ⟨fun m w key hcv hk => ?_, fun m w key hv hk m1 cmd h hc => ?_,
    fun w msgs step hs hcv => ?_⟩
  · have hv : m.currentView.isForm = false := by rw [hcv]; rfl
    have hcv' : m.clearMessages.currentView = .ConfirmView := hcv
    rw [update_notForm env m key hv, updateKey_no env m.clearMessages key hk hcv']
    rfl
  · have hf : m.currentView.isForm = false := by rcases hv with e | e <;> rw [e] <;> rfl
    rw [update_notForm env m key hf] at h
    have hs := updateKey_ask env m.clearMessages key hk hv w
    rw [h] at hs
    rcases hs with hs | ⟨action, target, hs⟩
    · rw [hs] at hc
      have hc' : m.currentView = .ConfirmView := hc
      rcases hv with e | e <;> rw [e] at hc' <;> cases hc'
    · rw [hs]
      exact ⟨rfl, rfl, rfl⟩
  · exact ((session_wf env w msgs).2 step hs).2.1 hcv

set_option maxRecDepth 100000 in
/-- C15, witness: in the scenario of the specification, after the buckets are listed and the
deletion of `alpha` is asked for, the key `n` calls nothing and leads back to the buckets
list with the list unchanged. -/
theorem negative_confirmation_witness :
    (runSession scen.env NewModel () askKeys).2.1.currentView = .ConfirmView ∧
    (Model.Update scen.env (runSession scen.env NewModel () askKeys).2.1 (.KeyMsg "n") ()).calls
      = [] ∧
    ∃ m1, (Model.Update scen.env (runSession scen.env NewModel () askKeys).2.1 (.KeyMsg "n")
        ()).val = .next m1 .nil ∧
      m1.currentView = .BucketsListView ∧ m1.pendingAction = "" ∧ m1.pendingTarget = "" ∧
      m1.buckets = (runSession scen.env NewModel () askKeys).2.1.buckets := by
  have h := (negative_confirmation scen.env).1 (runSession scen.env NewModel () askKeys).2.1 ()
    "n" (by decide) (Or.inl rfl)
  exact ⟨by decide, congrArg Res.calls h, _, congrArg Res.val h, by decide, rfl, rfl, rfl⟩

set_option maxRecDepth 100000 in
/-- C16, as stated, fails in two places.  In the scenario of the specification the keys `down`,
`enter`, `d` open the Confirm view from the buckets list (the return view is the buckets
list), and `esc` then leads to the main menu, not to the buckets list.  And `esc` on the main
menu of the initial state returns the state unchanged with no command: the session does not
quit and handles the next key. -/
theorem escape_key_counterexample :
    (runSession scen.env NewModel () askKeys).2.1.currentView = .ConfirmView ∧
    (runSession scen.env NewModel () askKeys).2.1.returnView = .BucketsListView ∧
    (runSession scen.env NewModel () escapeKeys).2.1.currentView = .MainMenuView ∧
    (NewModel.Update quiet.env (.KeyMsg "esc") ()).val = .next NewModel .nil ∧
    ((runSession quiet.env NewModel () [.KeyMsg "esc", .KeyMsg "down"]).1.map Step.msg) =
      [.KeyMsg "esc", .KeyMsg "down"] ∧
    (runSession quiet.env NewModel () [.KeyMsg "esc", .KeyMsg "down"]).2.1.cursor = 1 := by
  decide

/-- C16, amended.  The key `esc`, from any state and in any world, calls nothing and: in a
detail view leads to its list; in a form view leads to the return view, with the cursor at 0
(and keeps the messages); in the Confirm view, a list view or the Operations menu leads to the
main menu with the cursor at 0; on the main menu changes nothing but the messages, which are
emptied, and returns no command (the session goes on; `q` and `ctrl+c` quit there).  In every
state that a session reaches from the initial state the return view of a form is the view it
is opened from: the Operations menu for the create-user, create-bucket, change-owner and
provision forms, the users list for the update-user form, and the Operations menu or (after a
failed confirmed make-public) the buckets list for the make-public form. -/
theorem escape_key {W : Type} (env : Env W) :
    (∀ (m : Model) (w : W),
      (m.currentView = .UserDetailView →
        m.Update env (.KeyMsg "esc") w =
          ⟨.next { m with
            currentView := .UsersListView, errorMessage := "", successMessage := "" } .nil,
            w, []⟩) ∧
      (m.currentView = .BucketDetailView →
        m.Update env (.KeyMsg "esc") w =
          ⟨.next { m with
            currentView := .BucketsListView, errorMessage := "", successMessage := "" } .nil,
            w, []⟩) ∧
      (m.currentView.isForm = true →
        m.Update env (.KeyMsg "esc") w =
          ⟨.next { m with currentView := m.returnView, cursor := 0 } .nil, w, []⟩) ∧
      (m.currentView = .ConfirmView ∨ m.currentView = .UsersListView ∨
          m.currentView = .BucketsListView ∨ m.currentView = .OperationsView →
        m.Update env (.KeyMsg "esc") w =
          ⟨.next { m with
            currentView := .MainMenuView, cursor := 0, errorMessage := "",
            successMessage := "" } .nil, w, []⟩) ∧
      (m.currentView = .MainMenuView →
        m.Update env (.KeyMsg "esc") w =
          ⟨.next { m with errorMessage := "", successMessage := "" } .nil, w, []⟩)) ∧
    (∀ (w : W) (msgs : List Msg),
      ((runSession env NewModel w msgs).2.1.currentView = .CreateUserView ∨
        (runSession env NewModel w msgs).2.1.currentView = .CreateBucketView ∨
        (runSession env NewModel w msgs).2.1.currentView = .ChangeOwnerView ∨
        (runSession env NewModel w msgs).2.1.currentView = .ProvisionView →
        (runSession env NewModel w msgs).2.1.returnView = .OperationsView) ∧
      ((runSession env NewModel w msgs).2.1.currentView = .UpdateUserView →
        (runSession env NewModel w msgs).2.1.returnView = .UsersListView) ∧
      ((runSession env NewModel w msgs).2.1.currentView = .MakeBucketPublicView →
        (runSession env NewModel w msgs).2.1.returnView = .OperationsView ∨
        (runSession env NewModel w msgs).2.1.returnView = .BucketsListView)) := by
  refine ⟨fun m w => ⟨fun h => ?_, fun h => ?_, fun h => ?_, fun h => ?_, fun h => ?_⟩,
    fun w msgs => ?_⟩
  · have hv : m.currentView.isForm = false := by rw [h]; rfl
    have h' : m.clearMessages.currentView = .UserDetailView := h
    rw [update_notForm env m "esc" hv, updateKey_esc, if_pos h']
    rfl
  · have hv : m.currentView.isForm = false := by rw [h]; rfl
    have h' : m.clearMessages.currentView = .BucketDetailView := h
    rw [update_notForm env m "esc" hv, updateKey_esc, if_neg (by rw [h']; decide), if_pos h']
    rfl
  · rw [update_esc_form env m h]
    rfl
  · have hv : m.currentView.isForm = false := by
      rcases h with e | e | e | e <;> rw [e] <;> rfl
    have h' : m.clearMessages.currentView = .ConfirmView ∨
        m.clearMessages.currentView = .UsersListView ∨
        m.clearMessages.currentView = .BucketsListView ∨
        m.clearMessages.currentView = .OperationsView := h
    rw [update_notForm env m "esc" hv, updateKey_esc]
    rcases h' with e | e | e | e <;>
      rw [if_neg (by rw [e]; decide), if_neg (by rw [e]; decide), if_neg (by rw [e]; decide),
        if_pos (by rw [e]; decide)] <;> rfl
  · have hv : m.currentView.isForm = false := by rw [h]; rfl
    have h' : m.clearMessages.currentView = .MainMenuView := h
    rw [update_notForm env m "esc" hv, updateKey_esc, if_neg (by rw [h']; decide),
      if_neg (by rw [h']; decide), if_neg (by rw [h']; decide),
      if_neg (fun hn => hn h')]
    rfl
  · obtain ⟨-, -, -, -, -, -, -, h8, h9, h10⟩ := (session_wf env w msgs).1
    exact ⟨h8, h9, h10⟩

/-- C16, witness: on the users list of a session that shows an error message, the key `esc`
calls nothing and leads to the main menu with the cursor at 0 and the messages emptied. -/
theorem escape_key_witness :
    Model.Update quiet.env
        { NewModel with currentView := .UsersListView, cursor := 2, errorMessage := "x" }
        (.KeyMsg "esc") () =
      ⟨.next { NewModel with currentView := .MainMenuView, cursor := 0 } .nil, (), []⟩ :=
  ((escape_key quiet.env).1
    { NewModel with currentView := .UsersListView, cursor := 2, errorMessage := "x" }
    ()).2.2.2.1 (Or.inr (Or.inl rfl))

set_option maxRecDepth 100000 in
/-- C17, the failing run.  The users list holds 21 users; the session lists them, goes to page
1, opens the update form for the user under the cursor and submits it; the update succeeds and
`handleCreateUser` reloads the list, which now holds one user.  The session is then on the
users list with a non-empty list, page 1 and cursor 0, so `page * pageSize + cursor` is 20 and
not below the number of items, 1: the pagination invariant is broken.  On the sibling path,
the same reload after a confirmed deletion, `executeConfirmedAction` repairs the page: the
session ends on page 0 with cursor 0. -/
theorem pagination_reload :
    (runSession registryShrinks NewModel false updateOnPageTwoKeys).2.1.currentView =
      .UsersListView ∧
    (runSession registryShrinks NewModel false updateOnPageTwoKeys).2.1.users = [demoUser] ∧
    (runSession registryShrinks NewModel false updateOnPageTwoKeys).2.1.page = 1 ∧
    (runSession registryShrinks NewModel false updateOnPageTwoKeys).2.1.cursor = 0 ∧
    (runSession registryShrinks NewModel false updateOnPageTwoKeys).2.1.pageSize = 20 ∧
    ¬ ((runSession registryShrinks NewModel false updateOnPageTwoKeys).2.1.page *
          (runSession registryShrinks NewModel false updateOnPageTwoKeys).2.1.pageSize +
        (runSession registryShrinks NewModel false updateOnPageTwoKeys).2.1.cursor <
      ((runSession registryShrinks NewModel false updateOnPageTwoKeys).2.1.users.length : Int)) ∧
    (runSession registryShrinks NewModel false deleteOnPageTwoKeys).2.1.currentView =
      .UsersListView ∧
    (runSession registryShrinks NewModel false deleteOnPageTwoKeys).2.1.users = [demoUser] ∧
    (runSession registryShrinks NewModel false deleteOnPageTwoKeys).2.1.page = 0 ∧
    (runSession registryShrinks NewModel false deleteOnPageTwoKeys).2.1.cursor = 0 := by
  decide

/-- C18. Form focus cycle.  With `n` inputs and a focus index `i` in `0..n+1`: the step of tab
and down gives `(i+1) mod (n+2)`, the step of shift-tab and up gives `(i-1) mod (n+2)`, both
stay in `0..n+1`, each undoes the other, and `n+2` steps of tab return to `i`.  In each of the
six form views (with at most nine inputs in the provision form, whose labels are nine) the keys
tab and down, and shift-tab and up, call nothing, keep the view, apply that step to the focus
index with `n` the number of inputs of the form, and run the focus loop over the inputs; after
the loop the input at the focus index is focused and every other input is blurred, and nothing
else of an input changes.  In every form state that a session reaches from the initial state
the form has its `n` inputs (3, 3, 3, 2, 2, 9) and the focus index is in `0..n+1`. -/
theorem focus_cycle {W : Type} (env : Env W) :
    (∀ (n : Nat) (i : Int), 0 ≤ i → i ≤ (n : Int) + 1 →
      focusNext i n = (i + 1) % ((n : Int) + 2) ∧
      focusPrev i n = (i - 1) % ((n : Int) + 2) ∧
      (0 ≤ focusNext i n ∧ focusNext i n ≤ (n : Int) + 1) ∧
      (0 ≤ focusPrev i n ∧ focusPrev i n ≤ (n : Int) + 1) ∧
      focusPrev (focusNext i n) n = i ∧ focusNext (focusPrev i n) n = i ∧
      (fun j => focusNext j n)^[n + 2] i = i) ∧
    (∀ (m : Model) (w : W) (key : String), m.currentView.isForm = true →
      (m.currentView = .ProvisionView → m.provisionFormInputs.length ≤ 9) →
      (key = "tab" ∨ key = "down" →
        ∃ m1, m.Update env (.KeyMsg key) w = ⟨.next m1 .nil, w, []⟩ ∧
          m1.currentView = m.currentView ∧
          m1.focusIndex = focusNext m.focusIndex m.formInputs.length ∧
          m1.formInputs = focusFrom m1.focusIndex 0 m.formInputs) ∧
      (key = "shift+tab" ∨ key = "up" →
        ∃ m1, m.Update env (.KeyMsg key) w = ⟨.next m1 .nil, w, []⟩ ∧
          m1.currentView = m.currentView ∧
          m1.focusIndex = focusPrev m.focusIndex m.formInputs.length ∧
          m1.formInputs = focusFrom m1.focusIndex 0 m.formInputs)) ∧
    (∀ (focusIndex : Int) (inputs : List TextInput),
      (focusFrom focusIndex 0 inputs).length = inputs.length ∧
      ∀ (j : Nat) (t : TextInput), inputs[j]? = some t →
        (focusFrom focusIndex 0 inputs)[j]? =
          some (if (j : Int) = focusIndex then t.Focus else t.Blur)) ∧
    (∀ (w : W) (msgs : List Msg),
      ((runSession env NewModel w msgs).2.1.currentView = .CreateUserView ∨
          (runSession env NewModel w msgs).2.1.currentView = .UpdateUserView ∨
          (runSession env NewModel w msgs).2.1.currentView = .CreateBucketView →
        (runSession env NewModel w msgs).2.1.formInputs.length = 3) ∧
      ((runSession env NewModel w msgs).2.1.currentView = .ChangeOwnerView ∨
          (runSession env NewModel w msgs).2.1.currentView = .MakeBucketPublicView →
        (runSession env NewModel w msgs).2.1.formInputs.length = 2) ∧
      ((runSession env NewModel w msgs).2.1.currentView = .ProvisionView →
        (runSession env NewModel w msgs).2.1.formInputs.length = 9) ∧
      ((runSession env NewModel w msgs).2.1.currentView.isForm = true →
        0 ≤ (runSession env NewModel w msgs).2.1.focusIndex ∧
        (runSession env NewModel w msgs).2.1.focusIndex ≤
          ((runSession env NewModel w msgs).2.1.formInputs.length : Int) + 1)) := by
  refine ⟨fun n i h0 h1 => ?_, fun m w key hf hp => ?_, fun fi l => ?_,
    fun w msgs => session_focus env w msgs⟩
  · exact ⟨focusNext_mod i n h0 h1, focusPrev_mod i n h0 h1, focusNext_range i n h0,
      focusPrev_range i n h1, focusPrev_focusNext i n h0 h1, focusNext_focusPrev i n h0 h1,
      focusNext_cycle n i h0 h1⟩
  · exact ⟨fun hk => update_focusNext env m w key hk hf hp,
      fun hk => update_focusPrev env m w key hk hf hp⟩
  · refine ⟨focusFrom_length _ _ _, fun j t ht => ?_⟩
    rw [focusFrom_get, ht]
    simp

set_option maxRecDepth 100000 in
/-- C18, witness: in the create-bucket form, opened from the Operations menu of the initial
session (3 inputs, focus 0), five presses of tab return the focus to 0, and one press of tab
moves it to 1 and focuses the second input only. -/
theorem focus_cycle_witness :
    (fun j => focusNext j 3)^[5] 0 = 0 ∧
    (runSession quiet.env NewModel ()
      (["down", "down", "enter", "down", "enter", "tab"].map Msg.KeyMsg)).2.1.focusIndex = 1 ∧
    (runSession quiet.env NewModel ()
      (["down", "down", "enter", "down", "enter", "tab"].map Msg.KeyMsg)).2.1.bucketFormInputs.map
        TextInput.focus = [false, true, false] :=
  ⟨((focus_cycle quiet.env).1 3 0 (by decide) (by decide)).2.2.2.2.2.2, by decide, by decide⟩

/-- Messages by view.  In a view that is not a form (main menu, lists,
Operations menu, detail views, Confirm view) a key event is handled as if both messages had
been empty before it, so a message that is there afterwards was produced by handling that
event; for every key other than enter, c, y, Y, n and N both messages are empty afterwards.
In the six form views a key event does not clear the messages: after every key other than
enter both messages are what they were before. -/
theorem messages_by_view {W : Type} (env : Env W) :
    (∀ (m : Model) (key : String), m.currentView.isForm = false →
      m.Update env (.KeyMsg key) =
        Model.Update env { m with errorMessage := "", successMessage := "" } (.KeyMsg key)) ∧
    (∀ (m : Model) (w : W) (key : String), m.currentView.isForm = false →
      key ≠ "enter" ∧ key ≠ "c" ∧ key ≠ "y" ∧ key ≠ "Y" ∧ key ≠ "n" ∧ key ≠ "N" →
      ∀ m1 cmd, (m.Update env (.KeyMsg key) w).val = .next m1 cmd →
        m1.errorMessage = "" ∧ m1.successMessage = "") ∧
    (∀ (m : Model) (w : W) (key : String), m.currentView.isForm = true → key ≠ "enter" →
      ∀ m1 cmd, (m.Update env (.KeyMsg key) w).val = .next m1 cmd →
        m1.errorMessage = m.errorMessage ∧ m1.successMessage = m.successMessage) := by
  refine ⟨fun m key hf => ?_, fun m w key hf hk m1 cmd h => ?_,
    fun m w key hf hk m1 cmd h => ?_⟩
  · rw [update_notForm env m key hf,
      update_notForm env { m with errorMessage := "", successMessage := "" } key hf]
    rfl
  · rw [update_notForm env m key hf] at h
    have hs := updateKey_messages env m.clearMessages key hk w
    rw [h] at hs
    exact hs
  · have hs := update_form_messages env m key hf hk w
    rw [h] at hs
    exact hs

/-- An example of `messages_by_view`: on the main menu of a session that shows an error
message, the key `down` moves the cursor and leaves both messages empty. -/
theorem messages_by_view_example :
    (Model.Update quiet.env { NewModel with errorMessage := "Error loading users: x" }
      (.KeyMsg "down") ()).val = .next { NewModel with cursor := 1 } .nil ∧
    ({ NewModel with cursor := 1 } : Model).errorMessage = "" ∧
    ({ NewModel with cursor := 1 } : Model).successMessage = "" :=
  ⟨rfl,
    (messages_by_view quiet.env).2.1 { NewModel with errorMessage := "Error loading users: x" }
      () "down" rfl (by decide) { NewModel with cursor := 1 } .nil rfl⟩

set_option maxRecDepth 100000 in
/-- C20, as stated, fails: in a world whose only bucket has a name of 65 characters and no
policy and in which SetBucketPolicy fails, after the keys `down`, `enter` (the buckets
list), `p` (make the bucket public) and `y`, the session is in the make-public form, the
last key called GetBucketPolicy and then SetBucketPolicy, and input 0 of the form holds the
first 64 characters of the bucket name, not the bucket name. -/
theorem make_public_flow_counterexample :
    (runSession longName.env NewModel () confirmPublicKeys).2.1.currentView =
      .MakeBucketPublicView ∧
    (runSession longName.env NewModel () confirmPublicKeys).2.1.buckets.map (fun b => b.Name) =
      ["a123456789b123456789c123456789d123456789e123456789f123456789g1234"] ∧
    (runSession longName.env NewModel () confirmPublicKeys).2.1.bucketFormInputs.map
        TextInput.Value =
      ["a123456789b123456789c123456789d123456789e123456789f123456789g123", "-"] ∧
    ((runSession longName.env NewModel () confirmPublicKeys).1.map Step.calls).getLast? =
      some [Call.GetBucketPolicy "a123456789b123456789c123456789d123456789e123456789f123456789g1234",
        Call.SetBucketPolicy "a123456789b123456789c123456789d123456789e123456789f123456789g1234"
          (GeneratePublicPolicy "a123456789b123456789c123456789d123456789e123456789f123456789g1234" "-")] := by
  decide

/-- C20, as the code has it: in the Confirm view with a pending "make_public" for a bucket of
the list, the key y or Y first calls GetBucketPolicy for the bucket. When that call succeeds
nothing else is called and the session returns with the "already PUBLIC" error; when it
fails with a text containing neither "404" nor "NoSuchBucketPolicy" nothing else is called
and the session returns with "Failed to check policy status"; otherwise SetBucketPolicy is
called once, after GetBucketPolicy, with the public policy for the resolved owner. When that
call fails the session is in the make-public form, whose two inputs hold what SetValue
stores for the bucket name and for the resolved owner under the limit of 64 characters (the
bucket name and the owner themselves when the sanitizer leaves them unchanged and they have
at most 64 characters), the focus index is 1 and input 1 has the focus, the return view is
the bucket list, both pending fields are empty, and the error message is
"Auto-public failed: " followed by a text of at most 50 bytes, hence at most 50
characters. -/
theorem make_public_flow {W : Type} (env : Env W) (m : Model) (w : W) (key : String)
    (bucket : Bucket) (hk : key = "y" ∨ key = "Y") (hcv : m.currentView = .ConfirmView)
    (hpa : m.pendingAction = "make_public")
    (hb : m.buckets.find? (fun b => b.Name = m.pendingTarget) = some bucket) :
    (∀ p, env.GetBucketPolicy w bucket.Name = .ok p →
      m.Update env (.KeyMsg key) w =
        ⟨{ m.clearMessages with
            errorMessage :=
              "Bucket '" ++ bucket.Name ++
                "' is already PUBLIC (or has policy). Use 'P' to make private." }.endConfirm,
          w, [Call.GetBucketPolicy bucket.Name]⟩) ∧
    (∀ e, env.GetBucketPolicy w bucket.Name = .error e →
      (Contains e "404" = false ∧ Contains e "NoSuchBucketPolicy" = false →
        m.Update env (.KeyMsg key) w =
          ⟨{ m.clearMessages with
              errorMessage := "Failed to check policy status: " ++ e }.endConfirm,
            w, [Call.GetBucketPolicy bucket.Name]⟩) ∧
      (Contains e "404" = true ∨ Contains e "NoSuchBucketPolicy" = true →
        (m.Update env (.KeyMsg key) w).calls =
          [Call.GetBucketPolicy bucket.Name,
            Call.SetBucketPolicy bucket.Name
              (GeneratePublicPolicy bucket.Name (resolvedOwner bucket))] ∧
        ((env.SetBucketPolicy w bucket.Name
            (GeneratePublicPolicy bucket.Name (resolvedOwner bucket))).1 = none →
          (m.Update env (.KeyMsg key) w).val =
            { m.clearMessages with
              successMessage := "Bucket '" ++ bucket.Name ++ "' is now PUBLIC!" }.endConfirm) ∧
        (∀ e2,
          (env.SetBucketPolicy w bucket.Name
            (GeneratePublicPolicy bucket.Name (resolvedOwner bucket))).1 = some e2 →
          ∃ m1 i0 i1,
            (m.Update env (.KeyMsg key) w).val = .next m1 .nil ∧
            m1.currentView = .MakeBucketPublicView ∧
            m1.bucketFormInputs = [i0, i1] ∧
            i0 = TextInput.SetValue env
              { TextInput.New with CharLimit := 64, Placeholder := "Bucket Name" }.Focus
              bucket.Name ∧
            i1 = (TextInput.SetValue env
              { TextInput.New with CharLimit := 64, Placeholder := "Owner Access Key" }
              (resolvedOwner bucket)).Focus ∧
            (env.inputSanitize bucket.Name = bucket.Name → bucket.Name.length ≤ 64 →
              i0.Value = bucket.Name) ∧
            (env.inputSanitize (resolvedOwner bucket) = resolvedOwner bucket →
              (resolvedOwner bucket).length ≤ 64 → i1.Value = resolvedOwner bucket) ∧
            m1.focusIndex = 1 ∧ i1.focus = true ∧
            m1.returnView = .BucketsListView ∧
            m1.pendingAction = "" ∧ m1.pendingTarget = "" ∧
            m1.errorMessage = "Auto-public failed: " ++ shortError e2 ∧
            (shortError e2).utf8ByteSize ≤ 50 ∧ (shortError e2).length ≤ 50 ∧
            (e2.utf8ByteSize ≤ 50 → shortError e2 = e2)))) := by
  have hrun : m.Update env (.KeyMsg key) = m.clearMessages.executeConfirmedAction env := by
    rw [update_notForm env m key (by rw [hcv]; rfl)]
    exact updateKey_yes env m.clearMessages key hk hcv
  rw [hrun]
  have hmain := executeConfirmedAction_makePublic env m.clearMessages w bucket hpa hb
  refine ⟨hmain.1, fun e he => ⟨(hmain.2 e he).1, fun hc => ?_⟩⟩
  have hset := (hmain.2 e he).2 hc
  refine ⟨?_, fun h2 => ?_, fun e2 h2 => ?_⟩
  · cases h : (env.SetBucketPolicy w bucket.Name
        (GeneratePublicPolicy bucket.Name (resolvedOwner bucket))).1 with
    | none => rw [hset.2 h]
    | some e2 => rw [hset.1 e2 h]
  · rw [hset.2 h2]
  · rw [hset.1 e2 h2]
    refine ⟨_, _, _, rfl, rfl, rfl, rfl, rfl, fun hs hl => ?_, fun hs hl => ?_, rfl, rfl, rfl,
      rfl, rfl, rfl, shortError_size e2,
      Nat.le_trans (length_le_utf8ByteSize _) (shortError_size e2), fun h => ?_⟩
    · exact setValue_fits env _ _ hs hl
    · exact setValue_fits env _ _ hs hl
    · unfold shortError
      rw [if_neg (by omega)]

set_option maxRecDepth 100000 in
/-- The amended C20 at the state that the keys `down`, `enter`, `p` reach in the world with
the long bucket name: the key `y` leads to the make-public form with focus index 1, empty
pending fields and the shortened error message. -/
theorem make_public_flow_witness :
    (runSession longName.env NewModel () askPublicKeys).2.1.currentView = .ConfirmView ∧
    (runSession longName.env NewModel () askPublicKeys).2.1.pendingAction = "make_public" ∧
    ∃ m1,
      ((runSession longName.env NewModel () askPublicKeys).2.1.Update longName.env
        (.KeyMsg "y") ()).val = .next m1 .nil ∧
      m1.currentView = .MakeBucketPublicView ∧ m1.focusIndex = 1 ∧
      m1.pendingAction = "" ∧ m1.pendingTarget = "" ∧
      m1.errorMessage =
        "Auto-public failed: failed to set bucket policy: API error (status ..." := by
  refine ⟨by decide, by decide, ?_⟩
  obtain ⟨m1, i0, i1, h1, h2, -, -, -, -, -, h3, -, -, h4, h5, h6, -⟩ :=
    (((make_public_flow longName.env (runSession longName.env NewModel () askPublicKeys).2.1 ()
      "y"
      ⟨"a123456789b123456789c123456789d123456789e123456789f123456789g1234",
        "/tank/s3/buckets/a123456789b123456789c123456789d123456789e123456789f123456789g1234",
        "1T", "10G", "90G", "-"⟩
      (Or.inl rfl) (by decide) (by decide) (by decide)).2 "404" rfl).2
        (Or.inl (by decide))).2.2 _ rfl
  refine ⟨m1, h1, h2, h3, h4, h5, ?_⟩
  rw [h6]
  decide

/-- C21. Dataset listing.  For every pool base and every output of a run of the tool that
succeeded, `ListBuckets` returns a list that holds exactly one record for each line of the
output that has at least five whitespace-separated fields and whose first field starts with
the pool base followed by "/" (the record `datasetRecord` of that line: the name is the
first field without that start, so the pool base, "/" and the name make up the first field;
mountpoint, quota, used and available are the fields 2 to 5; the owner is "-"), in ascending
order of name.  A line whose first field is the pool base itself gives no record.  The method
reads the output of the tool for the configured pool base and calls nothing else. -/
theorem dataset_listing {W : Type} (env : Env W) (poolBase output : String) :
    (∃ buckets, BucketService.listResult poolBase (output, none) = .ok buckets ∧
      buckets.Perm ((SplitLines (TrimSpace output)).filterMap (datasetRecord poolBase)) ∧
      buckets.Pairwise (fun a b => a.Name ≤ b.Name) ∧
      ∀ b ∈ buckets, b.Owner = "-") ∧
    (∀ line b, datasetRecord poolBase line = some b →
      5 ≤ (Fields line).length ∧
      HasPrefix ((Fields line).getD 0 "") (poolBase ++ "/") = true ∧
      poolBase ++ "/" ++ b.Name = (Fields line).getD 0 "" ∧
      b.Mountpoint = (Fields line).getD 1 "" ∧ b.Quota = (Fields line).getD 2 "" ∧
      b.Used = (Fields line).getD 3 "" ∧ b.Available = (Fields line).getD 4 "" ∧
      b.Owner = "-") ∧
    (∀ line, (Fields line).getD 0 "" = poolBase → datasetRecord poolBase line = none) ∧
    (∀ w, BucketService.ListBuckets env w =
      ⟨BucketService.listResult env.ZFSPoolBase
        (env.zfs w
          ["list", "-H", "-o", "name,mountpoint,quota,used,avail", "-t", "filesystem", "-r",
            env.ZFSPoolBase]),
        w, [Call.BucketListBuckets]⟩) := by
  refine ⟨⟨_, rfl, ?_, ?_, ?_⟩, fun line b h => ?_, fun line h => ?_, fun w => rfl⟩
  · have : BucketService.parseLine poolBase = datasetRecord poolBase :=
      funext (parseLine_eq_datasetRecord poolBase)
    rw [this]
    exact sortBuckets_perm _
  · exact sorted_names_of_sorted (sortBuckets_sorted _)
  · exact listResult_owner poolBase (output, none) _ rfl
  · unfold datasetRecord at h
    dsimp only at h
    split at h
    · rename_i hc
      simp only [Option.some.injEq] at h
      subst h
      refine ⟨hc.1, hc.2, ?_, rfl, rfl, rfl, rfl, rfl⟩
      apply String.ext
      simp only [String.data_append]
      exact charsHasPrefix_drop _ _ hc.2
    · cases h
  · unfold datasetRecord
    dsimp only
    rw [h]
    have : HasPrefix poolBase (poolBase ++ "/") = false :=
      charsHasPrefix_self_snoc poolBase.data '/'
    simp [this]

set_option maxRecDepth 100000 in
/-- C21, witness: of the five lines of `datasetOutput` the base entry, the dataset outside
the base and the line with three fields give no record, and the records of `beta` and
`alpha` are returned in ascending order of name; the pool base, "/" and the name `alpha`
make up the first field of its line. -/
theorem dataset_listing_witness :
    BucketService.listResult "tank/s3/buckets" (datasetOutput, none) =
      .ok [⟨"alpha", "/tank/s3/buckets/alpha", "1T", "10G", "90G", "-"⟩,
        ⟨"beta", "/tank/s3/buckets/beta", "2T", "20G", "80G", "-"⟩] ∧
    "tank/s3/buckets" ++ "/" ++ "alpha" =
      (Fields "tank/s3/buckets/alpha\t/tank/s3/buckets/alpha\t1T\t10G\t90G").getD 0 "" :=
  ⟨congrArg Except.ok (by decide),
    ((dataset_listing quiet.env "tank/s3/buckets" "").2.1
      "tank/s3/buckets/alpha\t/tank/s3/buckets/alpha\t1T\t10G\t90G"
      ⟨"alpha", "/tank/s3/buckets/alpha", "1T", "10G", "90G", "-"⟩ (by decide)).2.2.1⟩

/-- C22. Admin API request table.  For every configuration with endpoint URL `E` and all
arguments, each operation builds exactly this request: CreateUser PATCH `E/create-user`
with the marshalled account record of the request as body; UpdateUser PATCH
`E/update-user?access=<access>` with the marshalled account record as body; DeleteUser PATCH
`E/delete-user?access=<access>`; ChangeBucketOwner PATCH
`E/change-bucket-owner/?bucket=<b>&owner=<o>`; SetBucketPolicy PUT `E/<bucket>?policy` with
the policy document as body; DeleteBucketPolicy DELETE `E/<bucket>?policy`; GetBucketPolicy
GET `E/<bucket>?policy`; DeleteBucket DELETE `E/<bucket>`; ListBuckets GET `E/`;
GetBucketOwner GET `E/<bucket>?acl`; and the seven operations without a listed body are
built with the nil body. -/
theorem request_table (cfg : Config) (xmlMarshal : Account → String)
    (create : UserCreateRequest) (update : UserUpdateRequest)
    (access bucket owner policy : String) :
    (VersityGWService.createUserRequest cfg xmlMarshal create).request =
      { Method := "PATCH", URL := cfg.EndpointURL ++ "/create-user",
        Body := some (xmlMarshal ⟨create.Access, create.Secret, create.Role, create.UserID,
          create.GroupID, create.ProjectID⟩) } ∧
    (VersityGWService.updateUserRequest cfg xmlMarshal update).request =
      { Method := "PATCH", URL := cfg.EndpointURL ++ "/update-user?access=" ++ update.Access,
        Body := some (xmlMarshal ⟨update.Access, update.Secret, update.Role, update.UserID,
          update.GroupID, update.ProjectID⟩) } ∧
    (VersityGWService.deleteUserRequest cfg access).request =
      { Method := "PATCH", URL := cfg.EndpointURL ++ "/delete-user?access=" ++ access,
        Body := none } ∧
    (VersityGWService.changeBucketOwnerRequest cfg bucket owner).request =
      { Method := "PATCH",
        URL := cfg.EndpointURL ++ "/change-bucket-owner/?bucket=" ++ bucket ++ "&owner=" ++ owner,
        Body := none } ∧
    (VersityGWService.setBucketPolicyRequest cfg bucket policy).request =
      { Method := "PUT", URL := cfg.EndpointURL ++ "/" ++ bucket ++ "?policy",
        Body := some policy } ∧
    (VersityGWService.deleteBucketPolicyRequest cfg bucket).request =
      { Method := "DELETE", URL := cfg.EndpointURL ++ "/" ++ bucket ++ "?policy",
        Body := none } ∧
    (VersityGWService.getBucketPolicyRequest cfg bucket).request =
      { Method := "GET", URL := cfg.EndpointURL ++ "/" ++ bucket ++ "?policy", Body := none } ∧
    (VersityGWService.deleteBucketRequest cfg bucket).request =
      { Method := "DELETE", URL := cfg.EndpointURL ++ "/" ++ bucket, Body := none } ∧
    (VersityGWService.listBucketsRequest cfg).request =
      { Method := "GET", URL := cfg.EndpointURL ++ "/", Body := none } ∧
    (VersityGWService.getBucketOwnerRequest cfg bucket).request =
      { Method := "GET", URL := cfg.EndpointURL ++ "/" ++ bucket ++ "?acl", Body := none } ∧
    (adminRequests cfg xmlMarshal create update access bucket owner policy).map
        (fun r => (r.request.Method, r.request.Body.isSome)) =
      [("PATCH", true), ("PATCH", true), ("PATCH", false), ("PATCH", false), ("PUT", true),
        ("DELETE", false), ("DELETE", false), ("GET", false), ("GET", false),
        ("GET", false)] :=
  ⟨rfl, rfl, rfl, rfl, rfl, rfl, rfl, rfl, rfl, rfl, rfl⟩

/-- C22, witness: with the default configuration, the requests that change the owner
of the bucket `alpha` to `bob` and that read the ACL of `alpha`. -/
theorem request_table_witness :
    (VersityGWService.changeBucketOwnerRequest defaultConfig "alpha" "bob").request =
      { Method := "PATCH",
        URL := "http://localhost:7070/change-bucket-owner/?bucket=alpha&owner=bob",
        Body := none } ∧
    (VersityGWService.getBucketOwnerRequest defaultConfig "alpha").request =
      { Method := "GET", URL := "http://localhost:7070/alpha?acl", Body := none } := by
  have h := request_table defaultConfig (fun _ => "") ⟨"", "", "", 0, 0, 0⟩
    ⟨"", "", "", 0, 0, 0⟩ "" "alpha" "bob" ""
  exact ⟨h.2.2.2.1.trans (by decide), h.2.2.2.2.2.2.2.2.2.1.trans (by decide)⟩

/-- C23. Content hash.  For every operation of the admin API and all arguments, the value of
the header `X-Amz-Content-Sha256` and the payload hash given to the signer are the same
text, the lowercase hexadecimal SHA-256 of exactly the bytes that the request sends as its
body; for a request without a body this is the SHA-256 of zero bytes,
e3b0c44298fc1c149afbf4c8996fb92427ae41e4649b934ca495991b7852b855; and the request is signed
with the configured administrator credentials, the service name "s3" and the configured
region. -/
theorem content_hash (cfg : Config) (xmlMarshal : Account → String)
    (create : UserCreateRequest) (update : UserUpdateRequest)
    (access bucket owner policy : String) :
    (∀ r ∈ adminRequests cfg xmlMarshal create update access bucket owner policy,
      r.XAmzContentSha256 = hexEncodeToString (sha256Sum256 r.request.bodyBytes) ∧
      r.payloadHash = hexEncodeToString (sha256Sum256 r.request.bodyBytes) ∧
      (r.request.Body = none →
        r.XAmzContentSha256 =
          "e3b0c44298fc1c149afbf4c8996fb92427ae41e4649b934ca495991b7852b855" ∧
        r.payloadHash = "e3b0c44298fc1c149afbf4c8996fb92427ae41e4649b934ca495991b7852b855") ∧
      r.service = "s3" ∧ r.region = cfg.Region ∧
      r.AccessKeyID = cfg.AdminAccess ∧ r.SecretAccessKey = cfg.AdminSecret) ∧
    hexEncodeToString (sha256Sum256 []) =
      "e3b0c44298fc1c149afbf4c8996fb92427ae41e4649b934ca495991b7852b855" := by
  refine ⟨fun r hr => ?_, sha256_empty⟩
  have hnone : ∀ r : SignedRequest, r.request.Body = none → r.request.bodyBytes = [] :=
    fun r h => by unfold Request.bodyBytes; rw [h]
  have hbody : ∀ r : SignedRequest,
      r.XAmzContentSha256 = hexEncodeToString (sha256Sum256 r.request.bodyBytes) →
      r.payloadHash = hexEncodeToString (sha256Sum256 r.request.bodyBytes) →
      r.request.Body = none →
      r.XAmzContentSha256 =
          "e3b0c44298fc1c149afbf4c8996fb92427ae41e4649b934ca495991b7852b855" ∧
        r.payloadHash = "e3b0c44298fc1c149afbf4c8996fb92427ae41e4649b934ca495991b7852b855" :=
    fun r h1 h2 h => by
      rw [h1, h2, hnone r h]
      exact ⟨sha256_empty, sha256_empty⟩
  simp only [adminRequests, List.mem_cons, List.mem_singleton, List.not_mem_nil, or_false] at hr
  rcases hr with rfl | rfl | rfl | rfl | rfl | rfl | rfl | rfl | rfl | rfl <;>
    exact ⟨rfl, rfl, hbody _ rfl rfl, rfl, rfl, rfl, rfl⟩

set_option maxRecDepth 1000000 in
/-- C23, witness: with the default configuration, the request that sets the policy `abc` on
the bucket `alpha` carries the SHA-256 of the three bytes of `abc`, and the request that
deletes the policy carries the SHA-256 of zero bytes. -/
theorem content_hash_witness :
    (VersityGWService.setBucketPolicyRequest defaultConfig "alpha" "abc").XAmzContentSha256 =
      "ba7816bf8f01cfea414140de5dae2223b00361a396177a9cb410ff61f20015ad" ∧
    (VersityGWService.deleteBucketPolicyRequest defaultConfig "alpha").payloadHash =
      "e3b0c44298fc1c149afbf4c8996fb92427ae41e4649b934ca495991b7852b855" ∧
    (VersityGWService.deleteBucketPolicyRequest defaultConfig "alpha").region = "local" := by
  have h := (content_hash defaultConfig (fun _ => "") ⟨"", "", "", 0, 0, 0⟩
    ⟨"", "", "", 0, 0, 0⟩ "" "alpha" "" "abc").1
  have h1 := h (VersityGWService.setBucketPolicyRequest defaultConfig "alpha" "abc")
    (by simp [adminRequests])
  have h2 := h (VersityGWService.deleteBucketPolicyRequest defaultConfig "alpha")
    (by simp [adminRequests])
  exact ⟨h1.1.trans sha256_abc, (h2.2.2.1 rfl).2, h2.2.2.2.2.1⟩

/-- C24. Secret generation.  When the random source delivers the 48 bytes `bytes`,
`generateSecretKey` (the function of the one-shot command and of the session forms) reads
the random source once and returns the standard base64 encoding of `bytes`: a string of
exactly 64 characters, each one of A-Z, a-z, 0-9, '+', '/' and none of them '=', whose
base64 decoding gives back `bytes`; and for any other 48 bytes the secret is another one. -/
theorem secret_generation {W : Type} (env : Env W) (w : W) (bytes : List Nat)
    (hr : (env.randRead w 48).1 = bytes) (hlen : bytes.length = 48)
    (hb : ∀ x ∈ bytes, x < 256) :
    (generateSecretKey env w).val = String.mk (base64Encode bytes) ∧
    (generateSecretKey env w).calls = [Call.RandRead 48] ∧
    (generateSecretKey env w).val.length = 64 ∧
    (∀ c ∈ (generateSecretKey env w).val.data, c ∈ base64Alphabet ∧ c ≠ '=') ∧
    base64Decode (generateSecretKey env w).val.data = some bytes ∧
    (∀ {W2 : Type} (env2 : Env W2) (w2 : W2) (bytes2 : List Nat),
      (env2.randRead w2 48).1 = bytes2 → bytes2.length = 48 → (∀ x ∈ bytes2, x < 256) →
      bytes2 ≠ bytes → (generateSecretKey env2 w2).val ≠ (generateSecretKey env w).val) := by
  have key : ∀ {W2 : Type} (env2 : Env W2) (w2 : W2) (bytes2 : List Nat),
      (env2.randRead w2 48).1 = bytes2 → bytes2.length = 48 → (∀ x ∈ bytes2, x < 256) →
      (generateSecretKey env2 w2).val = String.mk (base64Encode bytes2) := by
    intro W2 env2 w2 bytes2 h1 h2 h3
    show String.mk (base64Encode (fillBuffer 48 (env2.randRead w2 48).1)) = _
    rw [h1, fillBuffer_eq 48 bytes2 h2 h3]
  obtain ⟨h1, h2, h3⟩ := base64Encode_spec 16 bytes hlen hb
  rw [key env w bytes hr hlen hb]
  refine ⟨rfl, rfl, h1, fun c hc => ⟨h2 c hc, fun h => ?_⟩, h3, ?_⟩
  · subst h
    exact padding_not_mem (h2 _ hc)
  · intro W2 env2 w2 bytes2 e1 e2 e3 hne heq
    rw [key env2 w2 bytes2 e1 e2 e3] at heq
    have hd := (base64Encode_spec 16 bytes2 e2 e3).2.2
    have heq2 : base64Encode bytes2 = base64Encode bytes := congrArg String.data heq
    rw [heq2, h3] at hd
    exact hne (Option.some.inj hd).symm

set_option maxRecDepth 100000 in
/-- C24, witness: for the 48 bytes 0, 5, ..., 235 the secret is the 64 characters below, and
it decodes to these bytes. -/
theorem secret_generation_witness :
    (generateSecretKey dice.env ()).val =
      "AAUKDxQZHiMoLTI3PEFGS1BVWl9kaW5zeH2Ch4yRlpugpaqvtLm+w8jN0tfc4ebr" ∧
    base64Decode (generateSecretKey dice.env ()).val.data =
      some ((List.range 48).map fun i => i * 5) :=
  have h := secret_generation dice.env () ((List.range 48).map fun i => i * 5) rfl (by decide)
    (by decide)
  ⟨h.1.trans (by decide), h.2.2.2.2.1⟩

/-- C25. Merge idempotence.  In every world (every dataset list, API list and outcome of the
ACL lookups) the merge only reads: it leaves the world as it is.  Its result is a function of
the world alone: the list that the session stores does not depend on the state of the session
before (so not on the list an earlier merge stored), and running the merge again in the world
that the first run left gives the same list, record for record and in the same order, in the
session and in the one-shot command; the two paths give the same list as each other. -/
theorem merge_idempotent {W : Type} (env : Env W) (w : W) (m : Model) :
    (m.listBuckets env w).world = w ∧ (listBucketsMain env w).world = w ∧
    (∀ m2 : Model, (m2.listBuckets env w).val.buckets = (m.listBuckets env w).val.buckets) ∧
    (∃ m1, (m.listBuckets env w).val = .next m1 .nil ∧
      ∃ m2, (m1.listBuckets env (m.listBuckets env w).world).val = .next m2 .nil ∧
        m2.buckets = m1.buckets) ∧
    listBucketsMain env (listBucketsMain env w).world = listBucketsMain env w ∧
    (∀ merged, (listBucketsMain env w).val.buckets = some merged →
      (m.listBuckets env w).val.buckets = some merged) := by
  have hrun : ∀ m0 : Model, ∃ l, (m0.listBuckets env w) =
      ⟨.next { m0 with
          errorMessage := (match (m0.listBuckets env w).val with
            | .next m1 _ => m1.errorMessage
            | .panic => ""),
          buckets := l, currentView := .BucketsListView, cursor := 0, page := 0 } .nil, w,
        (m0.listBuckets env w).calls⟩ ∧
      (m.listBuckets env w).val.buckets = some l ∧
      ∀ merged, (listBucketsMain env w).val.buckets = some merged → merged = l := by
    intro m0
    have h0 := listBuckets_run env m0 w
    have hm := listBuckets_run env m w
    have hmain := listBucketsMain_run env w
    cases hd : (BucketService.ListBuckets env w).val <;> cases ha : env.ListBuckets w <;>
      rw [hd, ha] at h0 hm hmain <;> rw [h0, hm, hmain] <;>
      exact ⟨_, rfl, rfl, fun merged h => by simp at h; try exact h.symm⟩
  have hw : ∀ m0 : Model, (m0.listBuckets env w).world = w := fun m0 => by
    obtain ⟨l, h, -⟩ := hrun m0
    rw [h]
  have hwm : (listBucketsMain env w).world = w := by
    have hmain := listBucketsMain_run env w
    cases hd : (BucketService.ListBuckets env w).val <;> cases ha : env.ListBuckets w <;>
      rw [hd, ha] at hmain <;> rw [hmain]
  refine ⟨hw m, hwm, fun m2 => ?_, ?_, by rw [hwm], fun merged h => ?_⟩
  · obtain ⟨l, h, h2, -⟩ := hrun m2
    obtain ⟨l1, h1, h3, -⟩ := hrun m
    rw [h3] at h2
    rw [h, h3, h2]
    rfl
  · obtain ⟨l, h, h2, -⟩ := hrun m
    refine ⟨_, congrArg Res.val h, ?_⟩
    rw [hw m]
    obtain ⟨l1, h1, h3, -⟩ := hrun
      { m with
        errorMessage := (match (m.listBuckets env w).val with
          | .next m1 _ => m1.errorMessage
          | .panic => ""),
        buckets := l, currentView := .BucketsListView, cursor := 0, page := 0 }
    refine ⟨_, congrArg Res.val h1, ?_⟩
    rw [h2] at h3
    exact (Option.some.inj h3).symm
  · obtain ⟨l, -, h2, h3⟩ := hrun m
    rw [h2, h3 merged h]

set_option maxRecDepth 100000 in
/-- C26, the failing run.  The session lists the users and opens the update form for the user
`u`: the access-key field holds `u` and is blurred, the focus index is 1.  The key
`shift+tab` moves the focus index to 0 and gives the access-key field the focus; the key
`x` is then typed into it, so it holds `ux`; and the submit button sends UpdateUser with
the access value `ux`, not the access key `u` of the user that was selected. -/
theorem access_key_editable :
    ((runSession crowd.env NewModel () editKeys).2.1.currentView = .UpdateUserView ∧
      (runSession crowd.env NewModel () editKeys).2.1.focusIndex = 1 ∧
      (runSession crowd.env NewModel () editKeys).2.1.userFormInputs.map
        (fun t => (t.Value, t.focus)) = [("u", false), ("s", true), ("user", false)]) ∧
    ((runSession crowd.env NewModel () (editAccessKeys.take 3)).2.1.currentView =
        .UpdateUserView ∧
      (runSession crowd.env NewModel () (editAccessKeys.take 3)).2.1.focusIndex = 0 ∧
      (runSession crowd.env NewModel () (editAccessKeys.take 3)).2.1.userFormInputs.map
        (fun t => (t.Value, t.focus)) = [("u", true), ("s", false), ("user", false)]) ∧
    ((runSession crowd.env NewModel () (editAccessKeys.take 4)).2.1.currentView =
        .UpdateUserView ∧
      (runSession crowd.env NewModel () (editAccessKeys.take 4)).2.1.userFormInputs.map
        (fun t => (t.Value, t.focus)) = [("ux", true), ("s", false), ("user", false)]) ∧
    ((runSession crowd.env NewModel () editAccessKeys).1.map Step.calls).getLast? =
      some [Call.UpdateUser
          { Access := "ux", Secret := "s", Role := "user", UserID := 0, GroupID := 0,
            ProjectID := 0 },
        Call.UserListUsers] := by
  decide

set_option maxRecDepth 100000 in
/-- C27, the failing run.  The users list holds 21 users; the session lists them and goes to
page 1, where the cursor is 0 and the selected user is the one at the absolute index 20,
`zoe`: the key `d` asks to delete `zoe`, the key `enter` opens the user at index 20 and the
key `e` opens the update form with `zoe`.  The key `c` copies the credentials of the user at
index 0, `u`, and reports success. -/
theorem copy_credentials :
    ((runSession crowd.env NewModel () (copyOnPageTwoKeys.take 2)).2.1.currentView =
        .UsersListView ∧
      (runSession crowd.env NewModel () (copyOnPageTwoKeys.take 2)).2.1.page = 1 ∧
      (runSession crowd.env NewModel () (copyOnPageTwoKeys.take 2)).2.1.cursor = 0 ∧
      (runSession crowd.env NewModel () (copyOnPageTwoKeys.take 2)).2.1.pageSize = 20 ∧
      (runSession crowd.env NewModel () (copyOnPageTwoKeys.take 2)).2.1.users[20]? =
        some lastUser ∧
      (runSession crowd.env NewModel () (copyOnPageTwoKeys.take 2)).2.1.users[0]? =
        some demoUser) ∧
    (runSession crowd.env NewModel () askDeleteOnPageTwoKeys).2.1.pendingTarget = "zoe" ∧
    (runSession crowd.env NewModel () openOnPageTwoKeys).2.1.selectedUserIndex = 20 ∧
    ((runSession crowd.env NewModel () editOnPageTwoKeys).2.1.userFormInputs.map
      TextInput.Value).head? = some "zoe" ∧
    ((runSession crowd.env NewModel () copyOnPageTwoKeys).1.map Step.calls).getLast? =
      some [Call.ClipboardWriteAll "Access Key: u\nSecret Key: s"] ∧
    (runSession crowd.env NewModel () copyOnPageTwoKeys).2.1.successMessage =
      "✓ Credentials copied to clipboard!" ∧
    credentialsText lastUser = "Access Key: zoe\nSecret Key: zs" := by
  decide

set_option maxRecDepth 100000 in
/-- C29, the failing run.  The users list holds 21 users; the session lists them, goes to page
1 and returns to the main menu with `esc`: the cursor is 0 and the page is still 1.  The key
`down` then leaves the cursor at 0, although it is below 3.  Without the visit of page 1
the same key moves the cursor to 1. -/
theorem menu_navigation :
    ((runSession crowd.env NewModel () (menuAfterPageTwoKeys.take 3)).2.1.currentView =
        .MainMenuView ∧
      (runSession crowd.env NewModel () (menuAfterPageTwoKeys.take 3)).2.1.cursor = 0 ∧
      (runSession crowd.env NewModel () (menuAfterPageTwoKeys.take 3)).2.1.page = 1) ∧
    ((runSession crowd.env NewModel () menuAfterPageTwoKeys).2.1.currentView = .MainMenuView ∧
      (runSession crowd.env NewModel () menuAfterPageTwoKeys).2.1.cursor = 0) ∧
    ((runSession crowd.env NewModel () menuAfterPageOneKeys).2.1.currentView = .MainMenuView ∧
      (runSession crowd.env NewModel () menuAfterPageOneKeys).2.1.cursor = 1) := by
  decide

set_option maxRecDepth 100000 in
/-- C28, as stated, fails.  In the provision form, opened with `openProvisionFormKeys`, the
key `pgdown` is handled by the form itself: it moves the scroll position from 0 to 12 and
leaves the inputs as they are.  And the letter `q` is not delivered to the focused input:
the keys of `openBucketFormKeys` open the create-bucket form with the focus on its first
input, the bucket name, and the key `q` makes the session leave the form for the Operations
menu, while the key `x` is typed into the bucket name. -/
theorem typing_into_form_counterexample :
    ((runSession quiet.env NewModel () openProvisionFormKeys).2.1.currentView =
        .ProvisionView ∧
      (runSession quiet.env NewModel () openProvisionFormKeys).2.1.provisionScroll = 0 ∧
      (runSession quiet.env NewModel ()
        (openProvisionFormKeys ++ [.KeyMsg "pgdown"])).2.1.provisionScroll = 12 ∧
      (runSession quiet.env NewModel ()
        (openProvisionFormKeys ++ [.KeyMsg "pgdown"])).2.1.provisionFormInputs =
        (runSession quiet.env NewModel () openProvisionFormKeys).2.1.provisionFormInputs) ∧
    ((runSession quiet.env NewModel () openBucketFormKeys).2.1.currentView =
        .CreateBucketView ∧
      (runSession quiet.env NewModel () openBucketFormKeys).2.1.focusIndex = 0 ∧
      (runSession quiet.env NewModel () openBucketFormKeys).2.1.bucketFormInputs.map
        (fun t => (t.Value, t.focus)) = [("", true), ("1T", false), ("", false)]) ∧
    (runSession quiet.env NewModel () (openBucketFormKeys ++ [.KeyMsg "q"])).2.1.currentView =
      .OperationsView ∧
    ((runSession quiet.env NewModel () (openBucketFormKeys ++ [.KeyMsg "x"])).2.1.currentView =
        .CreateBucketView ∧
      (runSession quiet.env NewModel () (openBucketFormKeys ++ [.KeyMsg "x"])).2.1.bucketFormInputs.map
        TextInput.Value = ["x", "1T", ""]) := by
  decide

/-- C28, amended to what the forms do by design.  In every form view, while the focus index
is that of an input (and, in the provision form, the form has at most the nine inputs it has
labels for), a key that is a single character other than `q`, and more generally every key
that is not one of `formKeys`, calls nothing and is handed to the input at the focus index,
which is replaced by what its `Update` returns: the current view, the focus index and every
other input stay as they are, and so does every other part of the state apart from the
scroll position of the provision form.  In the provision form the keys `pgup`, `pgdown`,
`home` and `end` are handled by the form itself: they call nothing and change the scroll
position only.  Nothing is stated for the letter `q`, which the handlers take for `esc`
although the help line of every form names `esc` alone as the cancel key. -/
theorem typing_into_form {W : Type} (env : Env W) (m : Model) (w : W)
    (hv : m.currentView.isForm = true) (h0 : 0 ≤ m.focusIndex)
    (h1 : m.focusIndex < m.formInputs.length)
    (hp : m.currentView = .ProvisionView → m.provisionFormInputs.length ≤ 9) :
    (∀ key : String, (key.length = 1 ∧ key ≠ "q") ∨ key ∉ formKeys →
      ∃ t m1, m.formInputs[m.focusIndex.toNat]? = some t ∧
        m.Update env (.KeyMsg key) w = ⟨.next m1 .input, w, []⟩ ∧
        { m1 with provisionScroll := m.provisionScroll } =
          m.setFormInputs (m.formInputs.set m.focusIndex.toNat (t.Update env key)) ∧
        (m.currentView ≠ .ProvisionView → m1.provisionScroll = m.provisionScroll) ∧
        m1.currentView = m.currentView ∧ m1.focusIndex = m.focusIndex ∧
        m1.formInputs = m.formInputs.set m.focusIndex.toNat (t.Update env key) ∧
        ∀ j, j ≠ m.focusIndex.toNat → m1.formInputs[j]? = m.formInputs[j]?) ∧
    (m.currentView = .ProvisionView → ∀ key ∈ ["pgup", "pgdown", "home", "end"],
      ∃ scroll, m.Update env (.KeyMsg key) w =
        ⟨.next { m with provisionScroll := scroll } .nil, w, []⟩) := by
  refine ⟨fun key hkey => ?_, fun hc key hkey => ?_⟩
  · have hk : key ∉ formKeys := hkey.elim (fun h => single_not_formKey h.1 h.2) id
    obtain ⟨t, ht, hn, hpv⟩ := update_typed env m w key hv h0 h1 hk
    obtain ⟨s1, s2, s3, s4, s5⟩ :=
      setFormInputs_frame m (m.formInputs.set m.focusIndex.toNat (t.Update env key)) hv
    by_cases hc : m.currentView = .ProvisionView
    · have hlen : (m.setFormInputs
          (m.formInputs.set m.focusIndex.toNat (t.Update env key))).provisionFormInputs.length
          ≤ 9 := by
        rw [s5 hc, List.length_set]
        have := hp hc
        simpa [Model.formInputs, hc] using this
      have hshow : Model.showProvision env
          (m.setFormInputs (m.formInputs.set m.focusIndex.toNat (t.Update env key))) .input =
          .next ((m.setFormInputs
            (m.formInputs.set m.focusIndex.toNat (t.Update env key))).ensureProvisionVisible
              (env.provisionLineCount (m.setFormInputs
                (m.formInputs.set m.focusIndex.toNat (t.Update env key))))) .input := by
        unfold Model.showProvision Model.provisionLines
        rw [if_pos hlen]
      refine ⟨t, _, ht, (hpv hc).trans (by rw [hshow]), ?_, fun h => absurd hc h, ?_, ?_, ?_, ?_⟩
      · rw [← s3]
        rfl
      · exact s1
      · exact s2
      · have : ∀ (x : Model) (lines : Int),
            (x.ensureProvisionVisible lines).formInputs = x.formInputs := fun x lines => rfl
        rw [this, s4]
      · intro j hj
        have : ∀ (x : Model) (lines : Int),
            (x.ensureProvisionVisible lines).formInputs = x.formInputs := fun x lines => rfl
        rw [this, s4, List.getElem?_set_ne (Ne.symm hj)]
    · refine ⟨t, _, ht, hn hc, ?_, fun _ => s3, s1, s2, s4, ?_⟩
      · rw [← s3]
      · intro j hj
        rw [s4, List.getElem?_set_ne (Ne.symm hj)]
  · rw [(update_form env m key).2.2.2.1 hc]
    exact updateProvisionForm_scroll env m w key (hp hc) hkey

set_option maxRecDepth 100000 in
/-- C28, witness: in the create-bucket form that `openBucketFormKeys` opens, the key `x`
calls nothing, keeps the view and the focus index, and changes only the bucket name. -/
theorem typing_into_form_witness :
    ∃ m1,
      Model.Update quiet.env (runSession quiet.env NewModel () openBucketFormKeys).2.1
        (.KeyMsg "x") () = ⟨.next m1 .input, (), []⟩ ∧
      m1.currentView = .CreateBucketView ∧ m1.focusIndex = 0 ∧
      m1.bucketFormInputs.map TextInput.Value = ["x", "1T", ""] := by
  obtain ⟨t, m1, -, h2, -, -, h5, h6, h7, -⟩ :=
    (typing_into_form quiet.env (runSession quiet.env NewModel () openBucketFormKeys).2.1 ()
      (by decide) (by decide) (by decide) (by decide)).1 "x" (Or.inl (by decide))
  refine ⟨m1, h2, h5.trans (by decide), h6.trans (by decide), ?_⟩
  have h8 : m1 = (match Model.Update quiet.env
      (runSession quiet.env NewModel () openBucketFormKeys).2.1 (.KeyMsg "x") () with
    | ⟨.next x _, _, _⟩ => x
    | _ => NewModel) := by rw [h2]
  rw [h8]
  decide

/-- C30. Bucket merge, name set.  When the dataset listing gives `buckets` and the API
listing succeeds with `apiBuckets`, the names of `buckets` are pairwise distinct and the
names of `apiBuckets` are pairwise distinct, then the merged list, both the one the session
stores and the one the one-shot command prints, has pairwise distinct names, its names are
exactly the dataset names and the API names, and its length is the number of dataset buckets
plus the number of API buckets whose name is not a dataset name. -/
theorem merged_name_set {W : Type} (env : Env W) (w : W) (m : Model) (buckets : List Bucket)
    (apiBuckets : List BucketInfo)
    (hd : (BucketService.ListBuckets env w).val = .ok buckets)
    (hapi : env.ListBuckets w = .ok apiBuckets)
    (hb : (buckets.map Bucket.Name).Nodup) (ha : (apiBuckets.map BucketInfo.Name).Nodup) :
    ∃ merged : List Bucket,
      (∃ m1, (m.listBuckets env w).val = .next m1 .nil ∧ m1.buckets = merged) ∧
      (listBucketsMain env w).val.buckets = some merged ∧
      (merged.map Bucket.Name).Nodup ∧
      (∀ n, n ∈ merged.map Bucket.Name ↔
        n ∈ buckets.map Bucket.Name ∨ n ∈ apiBuckets.map BucketInfo.Name) ∧
      merged.length =
        buckets.length +
          (apiBuckets.filter fun a => decide (a.Name ∉ buckets.map Bucket.Name)).length := by
  have hmain := listBucketsMain_run env w
  have hsess := listBuckets_run env m w
  rw [hd, hapi] at hmain hsess
  obtain ⟨h1, h2, h3⟩ := mergeApi_name_set env w buckets apiBuckets hb ha
  exact ⟨_, ⟨_, by rw [hsess], rfl⟩, by rw [hmain], h1, h2, h3⟩

set_option maxRecDepth 100000 in
/-- C30, witness: in the scenario of the specification the dataset list holds `alpha`, the
API list holds `beta` and `alpha`, and the merged list of the session and of the one-shot
command has distinct names and 1 + 1 records. -/
theorem merged_name_set_witness :
    ∃ merged : List Bucket,
      (∃ m1, (NewModel.listBuckets scen.env ()).val = .next m1 .nil ∧ m1.buckets = merged) ∧
      (listBucketsMain scen.env ()).val.buckets = some merged ∧
      (merged.map Bucket.Name).Nodup ∧ merged.length = 1 + 1 := by
  obtain ⟨merged, h1, h2, h3, -, h5⟩ := merged_name_set scen.env () NewModel
    [⟨"alpha", "/tank/s3/buckets/alpha", "1T", "10G", "90G", "-"⟩]
    [⟨"beta", "", "carol"⟩, ⟨"alpha", "", "bob"⟩] (congrArg Except.ok (by decide)) rfl
    (by decide) (by decide)
  exact ⟨merged, h1, h2, h3, h5.trans (by decide)⟩

set_option maxRecDepth 100000 in
/-- C19, the failing run.  The keys of `emptySubmitKeys` open the create-bucket form and press
its submit button with the bucket name empty, which sets the error message "Bucket name is
required".  The next key, `tab`, calls nothing and produces no message, and the error message
is still there after it; so it is after typing `x`.  With `retryBucketKeys` the name `b` is
then typed and the form submitted again: the bucket is created and the session shows the
Operations menu with the success message and, beside it, the error message of the first
attempt.  Outside the forms the messages are cleared: the key `down` in the Operations menu
then leaves both messages empty. -/
theorem transient_messages :
    ((runSession quiet.env NewModel () emptySubmitKeys).2.1.currentView = .CreateBucketView ∧
      (runSession quiet.env NewModel () emptySubmitKeys).2.1.errorMessage =
        "Bucket name is required") ∧
    ((Model.Update quiet.env (runSession quiet.env NewModel () emptySubmitKeys).2.1
        (.KeyMsg "tab") ()).calls = [] ∧
      (runSession quiet.env NewModel () (emptySubmitKeys ++ [.KeyMsg "tab"])).2.1.currentView =
        .CreateBucketView ∧
      (runSession quiet.env NewModel () (emptySubmitKeys ++ [.KeyMsg "tab"])).2.1.errorMessage =
        "Bucket name is required") ∧
    (runSession quiet.env NewModel () (emptySubmitKeys ++ [.KeyMsg "x"])).2.1.errorMessage =
      "Bucket name is required" ∧
    ((runSession quiet.env NewModel () retryBucketKeys).2.1.currentView = .OperationsView ∧
      (runSession quiet.env NewModel () retryBucketKeys).2.1.successMessage =
        "Bucket 'b' created successfully!" ∧
      (runSession quiet.env NewModel () retryBucketKeys).2.1.errorMessage =
        "Bucket name is required") ∧
    ((runSession quiet.env NewModel () (retryBucketKeys ++ [.KeyMsg "down"])).2.1.errorMessage =
        "" ∧
      (runSession quiet.env NewModel ()
        (retryBucketKeys ++ [.KeyMsg "down"])).2.1.successMessage = "") := by
  decide

end VgwManager
